import Mathlib

/-!
# NEP on the CPU: a shallow embedding of `tools/nep_related/nep_cpu/nep.cpp`

Conventions of the embedding.

* A C++ `double` is an element of a linearly ordered field `α` (exact
  arithmetic, no rounding).  Identities of exact arithmetic are proved for
  every `α`; theorems about `tanh`, `cos`, `sin`, `sqrt` or derivatives take
  `α = ℝ`.  The functions of `<cmath>` that the source calls (`tanh`, `cos`,
  `sin`, `sqrt`, `exp`, `pow`) are passed as arguments (one by one, or as a
  record `Libm`), so every definition is computable and can be run over `ℚ`;
  the theorems pass `Real.tanh`, `Real.cos`, ...  The two forms of
  `find_fn_and_fnp` are given a second time over any type with the operations
  `+`, `-`, `*`, and `Binary64` is a model of the rounded arithmetic of
  `double`, to compare the two forms bit for bit.
* A `double*` / `int*` is a function `Nat → α` / `Nat → Nat` (the memory the
  pointer gives access to, indexed from the pointer); pointer arithmetic
  `p + k` is the shifted function `fun i => p (k + i)` for a read-only view and
  an explicit offset for a written one.  A store `p[i] = v` is
  `Function.update p i v`.
* An `int` that is a size, a count or an index is a `Nat`.
* A `for` loop is `forLoop lo hi body s`: the body is run for
  `i = lo, lo+1, ..., hi-1` on the state `s` of the variables it assigns.
* An out-parameter (`double& fc`) is a component of the returned value.
* `a[i] += v` is `addAt a i v`, `a[i] -= v` is `subAt a i v`, and a local
  array with an initialiser list is `arrayOf [..]` (missing entries are `0`,
  as in C++ aggregate initialisation).  A local array without initialiser
  starts as `fun _ => 0`; the source assigns every entry before reading it.
-/

namespace NEP

/-- Runs `body 0`, `body 1`, ..., `body (k-1)` in this order on the state. -/
def iterate {σ : Type} (body : Nat → σ → σ) : Nat → σ → σ
  | 0, s => s
  | k + 1, s => body k (iterate body k s)

/-- The loop `for (int i = lo; i < hi; ++i) body`. -/
def forLoop {σ : Type} (lo hi : Nat) (body : Nat → σ → σ) (s : σ) : σ :=
  iterate (fun k => body (lo + k)) (hi - lo) s

/-- The statement `a[i] += v`. -/
def addAt {α : Type} [Add α] (a : Nat → α) (i : Nat) (v : α) : Nat → α :=
  Function.update a i (a i + v)

/-- The statement `a[i] -= v`. -/
def subAt {α : Type} [Sub α] (a : Nat → α) (i : Nat) (v : α) : Nat → α :=
  Function.update a i (a i - v)

/-- A local array given by an initialiser list. -/
def arrayOf {α : Type} [Zero α] (l : List α) : Nat → α :=
  fun i => l.getD i 0

/-- The functions of `<cmath>` that the source calls. -/
structure Libm (α : Type) where
  tanh : α → α
  cos : α → α
  sin : α → α
  sqrt : α → α
  exp : α → α
  pow : α → α → α

/-! ## The records of the engine

`nep.h` declares `NEP3::ParaMB`, `NEP3::ANN` and `NEP3::ZBL`; the records below
list the members that `nep.cpp` reads and writes, under their names there. -/

/-- Record `NEP3::ParaMB`: the descriptor parameters. -/
structure ParaMB (α : Type) where
  version : Nat
  rc_radial : α
  rc_angular : α
  rcinv_radial : α
  rcinv_angular : α
  n_max_radial : Nat
  n_max_angular : Nat
  L_max : Nat
  dim_angular : Nat
  num_L : Nat
  basis_size_radial : Nat
  basis_size_angular : Nat
  num_types_sq : Nat
  num_c_radial : Nat
  num_types : Nat
  q_scaler : Nat → α

/-- Record `NEP3::ANN`: the network sizes and the views into the parameter buffer. -/
structure ANN (α : Type) where
  dim : Nat
  num_neurons1 : Nat
  num_para : Nat
  w0 : Nat → α
  b0 : Nat → α
  w1 : Nat → α
  b1 : Nat → α
  c : Nat → α

/-- Record `NEP3::ZBL`: the configuration of the repulsive correction. -/
structure ZBL (α : Type) where
  enabled : Bool
  rc_inner : α
  rc_outer : α
  atomic_numbers : Nat → α

/-- The memory `NEP3::compute` writes: the three output vectors of the caller
and the two scratch vectors `Fp` and `sum_fxyz` of the engine. -/
structure Memory (α : Type) where
  potential_per_atom : Nat → α
  force_per_atom : Nat → α
  virial_per_atom : Nat → α
  Fp : Nat → α
  sum_fxyz : Nat → α

/-- The read-only view `p + k` of an array. -/
def shift {β : Type} (p : Nat → β) (k : Nat) : Nat → β :=
  fun i => p (k + i)

/-- Writes back the contents `v` of the view `p + k` into the array `p`. -/
def unshift {β : Type} (p : Nat → β) (k : Nat) (v : Nat → β) : Nat → β :=
  fun j => if k ≤ j then v (j - k) else p j

section Source

variable {α : Type} [LinearOrderedField α]

/-! ## Constants (source lines 30-44) -/

/-- Source constant `NUM_OF_ABC`: 3 + 5 + 7 + 9 for `L_max = 4`. -/
def NUM_OF_ABC : Nat := 24

/-- Source constant `C3B`: the 24 contraction weights of the 3-body invariants. -/
def C3B : Nat → α :=
  arrayOf [
    0.238732414637843, 0.119366207318922, 0.119366207318922, 0.099471839432435,
    0.596831036594608, 0.596831036594608, 0.149207759148652, 0.149207759148652,
    0.139260575205408, 0.104445431404056, 0.104445431404056, 1.044454314040563,
    1.044454314040563, 0.174075719006761, 0.174075719006761, 0.011190581936149,
    0.223811638722978, 0.223811638722978, 0.111905819361489, 0.111905819361489,
    1.566681471060845, 1.566681471060845, 0.195835183882606, 0.195835183882606]

/-- Source constant `C4B`: the 5 contraction weights of the 4-body invariant. -/
def C4B : Nat → α :=
  arrayOf [
    -0.007499480826664, -0.134990654879954, 0.067495327439977, 0.404971964639861,
    -0.809943929279723]

/-- Source constant `C5B`: the 3 contraction weights of the 5-body invariant. -/
def C5B : Nat → α :=
  arrayOf [0.026596810706114, 0.053193621412227, 0.026596810706114]

/-- Source constant `K_C_SP`: `1/(4*PI*epsilon_0)`. -/
def K_C_SP : α := 14.399645

/-- Source constant `MAX_NUM_N`: `n_max + 1 = 19 + 1`. -/
def MAX_NUM_N : Nat := 20

/-- Source constant `MAX_DIM`. -/
def MAX_DIM : Nat := MAX_NUM_N * 7

/-- Source constant `MAX_DIM_ANGULAR`. -/
def MAX_DIM_ANGULAR : Nat := MAX_NUM_N * 6

/-! ## Neural network (source lines 200-224) -/

/-- Source function `apply_ann_one_layer`: returns the final values of `energy` and of
`energy_derivative`. -/
def apply_ann_one_layer (tanh : α → α) (dim num_neurons1 : Nat)
    (w0 b0 w1 b1 q : Nat → α) (energy : α) (energy_derivative : Nat → α) :
    α × (Nat → α) :=
  let st := forLoop 0 num_neurons1
    (fun n (st : α × (Nat → α)) =>
      let w0_times_q := forLoop 0 dim (fun d acc => acc + w0 (n * dim + d) * q d) (0.0 : α)
      let x1 := tanh (w0_times_q - b0 n)
      let energy := st.1 + w1 n * x1
      let energy_derivative := forLoop 0 dim
        (fun d (ed : Nat → α) =>
          let y1 := (1.0 - x1 * x1) * w0 (n * dim + d)
          Function.update ed d (ed d + w1 n * y1)) st.2
      (energy, energy_derivative))
    (energy, energy_derivative)
  (st.1 - b1 0, st.2)

/-! ## Cutoff envelope (source lines 226-247) -/

/-- Source function `find_fc`: the value stored in `fc`. -/
def find_fc (cos : α → α) (rc rcinv d12 : α) : α :=
  if d12 < rc then
    let x := d12 * rcinv
    0.5 * cos (3.1415927 * x) + 0.5
  else
    0.0

/-- Source function `find_fc_and_fcp`: the values stored in `(fc, fcp)`. -/
def find_fc_and_fcp (cos sin : α → α) (rc rcinv d12 : α) : α × α :=
  if d12 < rc then
    let x := d12 * rcinv
    let fc := 0.5 * cos (3.1415927 * x) + 0.5
    let fcp := -1.5707963 * sin (3.1415927 * x)
    let fcp := fcp * rcinv
    (fc, fcp)
  else
    (0.0, 0.0)

/-! ## ZBL (source lines 249-296) -/

/-- Source function `find_fc_and_fcp_zbl`: the values stored in `(fc, fcp)`. -/
def find_fc_and_fcp_zbl (cos sin : α → α) (r1 r2 d12 : α) : α × α :=
  if d12 < r1 then
    (1.0, 0.0)
  else if d12 < r2 then
    let pi_factor := 3.1415927 / (r2 - r1)
    let fc := cos (pi_factor * (d12 - r1)) * 0.5 + 0.5
    let fcp := -sin (pi_factor * (d12 - r1)) * pi_factor * 0.5
    (fc, fcp)
  else
    (0.0, 0.0)

/-- Source function `find_phi_and_phip_zbl`: the new values of `(phi, phip)`. -/
def find_phi_and_phip_zbl (exp : α → α) (a b x : α) (phi phip : α) : α × α :=
  let tmp := a * exp (-b * x)
  let phi := phi + tmp
  let phip := phip - b * tmp
  (phi, phip)

/-- Source function `find_f_and_fp_zbl`: the values stored in `(f, fp)`. -/
def find_f_and_fp_zbl (m : Libm α) (zizj a_inv rc_inner rc_outer d12 d12inv : α) : α × α :=
  let x := d12 * a_inv
  let f : α := 0.0
  let fp : α := 0.0
  let Zbl_para : Nat → α :=
    arrayOf [0.18175, 3.1998, 0.50986, 0.94229, 0.28022, 0.4029, 0.02817, 0.20162]
  let r := find_phi_and_phip_zbl m.exp (Zbl_para 0) (Zbl_para 1) x f fp
  let r := find_phi_and_phip_zbl m.exp (Zbl_para 2) (Zbl_para 3) x r.1 r.2
  let r := find_phi_and_phip_zbl m.exp (Zbl_para 4) (Zbl_para 5) x r.1 r.2
  let r := find_phi_and_phip_zbl m.exp (Zbl_para 6) (Zbl_para 7) x r.1 r.2
  let f := r.1
  let fp := r.2
  let f := f * zizj
  let fp := fp * (zizj * a_inv)
  let fp := fp * d12inv - f * d12inv * d12inv
  let f := f * d12inv
  let c := find_fc_and_fcp_zbl m.cos m.sin rc_inner rc_outer d12
  let fc := c.1
  let fcp := c.2
  let fp := fp * fc + f * fcp
  let f := f * fc
  (f, fp)

/-! ## Radial basis (source lines 298-404) -/

/-- Single-order `find_fn` (the overload with `double& fn`): the value stored
in `fn`.  The local `t2` has no initial value in the source; the loop assigns
it before it is read whenever `n ≥ 2`, and the placeholder `0` stands for the
unassigned value. -/
def find_fn (n : Nat) (rcinv d12 fc12 : α) : α :=
  if n = 0 then
    fc12
  else if n = 1 then
    let x := 2.0 * (d12 * rcinv - 1.0) * (d12 * rcinv - 1.0) - 1.0
    (x + 1.0) * 0.5 * fc12
  else
    let x := 2.0 * (d12 * rcinv - 1.0) * (d12 * rcinv - 1.0) - 1.0
    let st := forLoop 2 (n + 1)
      (fun _ (st : α × α × α) =>
        let t2 := 2.0 * x * st.2.1 - st.1
        (st.2.1, t2, t2))
      ((1.0 : α), x, (0 : α))
    (st.2.2 + 1.0) * 0.5 * fc12

/-- Single-order `find_fn_and_fnp` (the overload with `double& fn, double& fnp`):
the values stored in `(fn, fnp)`.  Loop state: `(t0, t1, t2, u0, u1, u2)`. -/
def find_fn_and_fnp (n : Nat) (rcinv d12 fc12 fcp12 : α) : α × α :=
  if n = 0 then
    (fc12, fcp12)
  else if n = 1 then
    let x := 2.0 * (d12 * rcinv - 1.0) * (d12 * rcinv - 1.0) - 1.0
    let fn := (x + 1.0) * 0.5
    let fnp := 2.0 * (d12 * rcinv - 1.0) * rcinv * fc12 + fn * fcp12
    let fn := fn * fc12
    (fn, fnp)
  else
    let x := 2.0 * (d12 * rcinv - 1.0) * (d12 * rcinv - 1.0) - 1.0
    let st := forLoop 2 (n + 1)
      (fun _ (st : α × α × α × α × α × α) =>
        let t1 := st.2.1
        let u1 := st.2.2.2.2.1
        let t2 := 2.0 * x * t1 - st.1
        let u2 := 2.0 * x * u1 - st.2.2.2.1
        (t1, t2, t2, u1, u2, u2))
      ((1.0 : α), x, (0 : α), (1.0 : α), 2.0 * x, (0 : α))
    let t2 := st.2.2.1
    let u0 := st.2.2.2.1
    let fn := (t2 + 1.0) * 0.5
    let fnp := (n : α) * u0 * 2.0 * (d12 * rcinv - 1.0) * rcinv
    let fnp := fnp * fc12 + fn * fcp12
    let fn := fn * fc12
    (fn, fnp)

/-- All-orders `find_fn` (the overload with `double* fn`): the final contents
of the array `fn`. -/
def find_fn_all (n_max : Nat) (rcinv d12 fc12 : α) (fn : Nat → α) : Nat → α :=
  let x := 2.0 * (d12 * rcinv - 1.0) * (d12 * rcinv - 1.0) - 1.0
  let fn := Function.update fn 0 1.0
  let fn := Function.update fn 1 x
  let fn := forLoop 2 (n_max + 1)
    (fun m (fn : Nat → α) => Function.update fn m (2.0 * x * fn (m - 1) - fn (m - 2))) fn
  forLoop 0 (n_max + 1)
    (fun m (fn : Nat → α) => Function.update fn m ((fn m + 1.0) * 0.5 * fc12)) fn

/-- All-orders `find_fn_and_fnp` (the overload with `double* fn, double* fnp`):
the final contents of the arrays `(fn, fnp)`.  First loop state:
`(fn, fnp, u0, u1)`. -/
def find_fn_and_fnp_all (n_max : Nat) (rcinv d12 fc12 fcp12 : α) (fn fnp : Nat → α) :
    (Nat → α) × (Nat → α) :=
  let x := 2.0 * (d12 * rcinv - 1.0) * (d12 * rcinv - 1.0) - 1.0
  let fn := Function.update fn 0 1.0
  let fnp := Function.update fnp 0 0.0
  let fn := Function.update fn 1 x
  let fnp := Function.update fnp 1 1.0
  let st := forLoop 2 (n_max + 1)
    (fun m (st : (Nat → α) × (Nat → α) × α × α) =>
      let fn := Function.update st.1 m (2.0 * x * st.1 (m - 1) - st.1 (m - 2))
      let u1 := st.2.2.2
      let fnp := Function.update st.2.1 m ((m : α) * u1)
      let u2 := 2.0 * x * u1 - st.2.2.1
      (fn, fnp, u1, u2))
    (fn, fnp, (1.0 : α), 2.0 * x)
  forLoop 0 (n_max + 1)
    (fun m (st : (Nat → α) × (Nat → α)) =>
      let fn := Function.update st.1 m ((st.1 m + 1.0) * 0.5)
      let fnp := Function.update st.2 m (st.2 m * (2.0 * (d12 * rcinv - 1.0) * rcinv))
      let fnp := Function.update fnp m (fnp m * fc12 + fn m * fcp12)
      let fn := Function.update fn m (fn m * fc12)
      (fn, fnp))
    (st.1, st.2.1)

/-! ## Pair-force kernels (source lines 406-682) -/

/-- Source function `get_f12_1`: the new contents of `f12`. -/
def get_f12_1 (d12inv fn fnp Fp : α) (s r12 f12 : Nat → α) : Nat → α :=
  let tmp := s 1 * r12 0
  let tmp := tmp + s 2 * r12 1
  let tmp := tmp * 2.0
  let tmp := tmp + s 0 * r12 2
  let tmp := tmp * (Fp * fnp * d12inv * 2.0)
  let f12 := forLoop 0 3 (fun d (f12 : Nat → α) => addAt f12 d (tmp * r12 d)) f12
  let tmp := Fp * fn * 2.0
  let f12 := addAt f12 0 (tmp * 2.0 * s 1)
  let f12 := addAt f12 1 (tmp * 2.0 * s 2)
  let f12 := addAt f12 2 (tmp * s 0)
  f12

/-- Source function `get_f12_2`: the new contents of `f12`. -/
def get_f12_2 (d12 d12inv fn fnp Fp : α) (s r12 f12 : Nat → α) : Nat → α :=
  let tmp := s 1 * r12 0 * r12 2
  let tmp := tmp + s 2 * r12 1 * r12 2
  let tmp := tmp + s 3 * (r12 0 * r12 0 - r12 1 * r12 1)
  let tmp := tmp + s 4 * 2.0 * r12 0 * r12 1
  let tmp := tmp * 2.0
  let tmp := tmp + s 0 * (3.0 * r12 2 * r12 2 - d12 * d12)
  let tmp := tmp * (Fp * fnp * d12inv * 2.0)
  let f12 := forLoop 0 3 (fun d (f12 : Nat → α) => addAt f12 d (tmp * r12 d)) f12
  let tmp := Fp * fn * 4.0
  let f12 := addAt f12 0
    (tmp * (-s 0 * r12 0 + s 1 * r12 2 + 2.0 * s 3 * r12 0 + 2.0 * s 4 * r12 1))
  let f12 := addAt f12 1
    (tmp * (-s 0 * r12 1 + s 2 * r12 2 - 2.0 * s 3 * r12 1 + 2.0 * s 4 * r12 0))
  let f12 := addAt f12 2 (tmp * (2.0 * s 0 * r12 2 + s 1 * r12 0 + s 2 * r12 1))
  f12

/-- Source function `get_f12_4body`: the new contents of `f12`. -/
def get_f12_4body (d12 d12inv fn fnp Fp : α) (s r12 f12 : Nat → α) : Nat → α :=
  let fn_factor := Fp * fn
  let fnp_factor := Fp * fnp * d12inv
  let y20 := 3.0 * r12 2 * r12 2 - d12 * d12
  -- derivative wrt s[0]
  let tmp0 := C4B 0 * 3.0 * s 0 * s 0 + C4B 1 * (s 1 * s 1 + s 2 * s 2) +
    C4B 2 * (s 3 * s 3 + s 4 * s 4)
  let tmp1 := tmp0 * y20 * fnp_factor
  let tmp2 := tmp0 * fn_factor
  let f12 := addAt f12 0 (tmp1 * r12 0 - tmp2 * 2.0 * r12 0)
  let f12 := addAt f12 1 (tmp1 * r12 1 - tmp2 * 2.0 * r12 1)
  let f12 := addAt f12 2 (tmp1 * r12 2 + tmp2 * 4.0 * r12 2)
  -- derivative wrt s[1]
  let tmp0 := C4B 1 * s 0 * s 1 * 2.0 - C4B 3 * s 3 * s 1 * 2.0 + C4B 4 * s 2 * s 4
  let tmp1 := tmp0 * r12 0 * r12 2 * fnp_factor
  let tmp2 := tmp0 * fn_factor
  let f12 := addAt f12 0 (tmp1 * r12 0 + tmp2 * r12 2)
  let f12 := addAt f12 1 (tmp1 * r12 1)
  let f12 := addAt f12 2 (tmp1 * r12 2 + tmp2 * r12 0)
  -- derivative wrt s[2]
  let tmp0 := C4B 1 * s 0 * s 2 * 2.0 + C4B 3 * s 3 * s 2 * 2.0 + C4B 4 * s 1 * s 4
  let tmp1 := tmp0 * r12 1 * r12 2 * fnp_factor
  let tmp2 := tmp0 * fn_factor
  let f12 := addAt f12 0 (tmp1 * r12 0)
  let f12 := addAt f12 1 (tmp1 * r12 1 + tmp2 * r12 2)
  let f12 := addAt f12 2 (tmp1 * r12 2 + tmp2 * r12 1)
  -- derivative wrt s[3]
  let tmp0 := C4B 2 * s 0 * s 3 * 2.0 + C4B 3 * (s 2 * s 2 - s 1 * s 1)
  let tmp1 := tmp0 * (r12 0 * r12 0 - r12 1 * r12 1) * fnp_factor
  let tmp2 := tmp0 * fn_factor
  let f12 := addAt f12 0 (tmp1 * r12 0 + tmp2 * 2.0 * r12 0)
  let f12 := addAt f12 1 (tmp1 * r12 1 - tmp2 * 2.0 * r12 1)
  let f12 := addAt f12 2 (tmp1 * r12 2)
  -- derivative wrt s[4]
  let tmp0 := C4B 2 * s 0 * s 4 * 2.0 + C4B 4 * s 1 * s 2
  let tmp1 := tmp0 * (2.0 * r12 0 * r12 1) * fnp_factor
  let tmp2 := tmp0 * fn_factor
  let f12 := addAt f12 0 (tmp1 * r12 0 + tmp2 * 2.0 * r12 1)
  let f12 := addAt f12 1 (tmp1 * r12 1 + tmp2 * 2.0 * r12 0)
  let f12 := addAt f12 2 (tmp1 * r12 2)
  f12

/-- Source function `get_f12_5body`: the new contents of `f12`.  The parameter `d12` is unused
in the source as well. -/
def get_f12_5body (_d12 d12inv fn fnp Fp : α) (s r12 f12 : Nat → α) : Nat → α :=
  let fn_factor := Fp * fn
  let fnp_factor := Fp * fnp * d12inv
  let s1_sq_plus_s2_sq := s 1 * s 1 + s 2 * s 2
  -- derivative wrt s[0]
  let tmp0 := C5B 0 * 4.0 * s 0 * s 0 * s 0 + C5B 1 * s1_sq_plus_s2_sq * 2.0 * s 0
  let tmp1 := tmp0 * r12 2 * fnp_factor
  let tmp2 := tmp0 * fn_factor
  let f12 := addAt f12 0 (tmp1 * r12 0)
  let f12 := addAt f12 1 (tmp1 * r12 1)
  let f12 := addAt f12 2 (tmp1 * r12 2 + tmp2)
  -- derivative wrt s[1]
  let tmp0 := C5B 1 * s 0 * s 0 * s 1 * 2.0 + C5B 2 * s1_sq_plus_s2_sq * s 1 * 4.0
  let tmp1 := tmp0 * r12 0 * fnp_factor
  let tmp2 := tmp0 * fn_factor
  let f12 := addAt f12 0 (tmp1 * r12 0 + tmp2)
  let f12 := addAt f12 1 (tmp1 * r12 1)
  let f12 := addAt f12 2 (tmp1 * r12 2)
  -- derivative wrt s[2]
  let tmp0 := C5B 1 * s 0 * s 0 * s 2 * 2.0 + C5B 2 * s1_sq_plus_s2_sq * s 2 * 4.0
  let tmp1 := tmp0 * r12 1 * fnp_factor
  let tmp2 := tmp0 * fn_factor
  let f12 := addAt f12 0 (tmp1 * r12 0)
  let f12 := addAt f12 1 (tmp1 * r12 1 + tmp2)
  let f12 := addAt f12 2 (tmp1 * r12 2)
  f12

/-- Source function `get_f12_3`: the new contents of `f12`. -/
def get_f12_3 (d12 d12inv fn fnp Fp : α) (s r12 f12 : Nat → α) : Nat → α :=
  let d12sq := d12 * d12
  let x2 := r12 0 * r12 0
  let y2 := r12 1 * r12 1
  let z2 := r12 2 * r12 2
  let xy := r12 0 * r12 1
  let xz := r12 0 * r12 2
  let yz := r12 1 * r12 2
  let tmp := s 1 * (5.0 * z2 - d12sq) * r12 0
  let tmp := tmp + s 2 * (5.0 * z2 - d12sq) * r12 1
  let tmp := tmp + s 3 * (x2 - y2) * r12 2
  let tmp := tmp + s 4 * 2.0 * xy * r12 2
  let tmp := tmp + s 5 * r12 0 * (x2 - 3.0 * y2)
  let tmp := tmp + s 6 * r12 1 * (3.0 * x2 - y2)
  let tmp := tmp * 2.0
  let tmp := tmp + s 0 * (5.0 * z2 - 3.0 * d12sq) * r12 2
  let tmp := tmp * (Fp * fnp * d12inv * 2.0)
  let f12 := forLoop 0 3 (fun d (f12 : Nat → α) => addAt f12 d (tmp * r12 d)) f12
  -- x
  let tmp := s 1 * (4.0 * z2 - 3.0 * x2 - y2)
  let tmp := tmp + s 2 * (-2.0 * xy)
  let tmp := tmp + s 3 * 2.0 * xz
  let tmp := tmp + s 4 * (2.0 * yz)
  let tmp := tmp + s 5 * (3.0 * (x2 - y2))
  let tmp := tmp + s 6 * (6.0 * xy)
  let tmp := tmp * 2.0
  let tmp := tmp + s 0 * (-6.0 * xz)
  let f12 := addAt f12 0 (tmp * Fp * fn * 2.0)
  -- y
  let tmp := s 1 * (-2.0 * xy)
  let tmp := tmp + s 2 * (4.0 * z2 - 3.0 * y2 - x2)
  let tmp := tmp + s 3 * (-2.0 * yz)
  let tmp := tmp + s 4 * (2.0 * xz)
  let tmp := tmp + s 5 * (-6.0 * xy)
  let tmp := tmp + s 6 * (3.0 * (x2 - y2))
  let tmp := tmp * 2.0
  let tmp := tmp + s 0 * (-6.0 * yz)
  let f12 := addAt f12 1 (tmp * Fp * fn * 2.0)
  -- z
  let tmp := s 1 * (8.0 * xz)
  let tmp := tmp + s 2 * (8.0 * yz)
  let tmp := tmp + s 3 * (x2 - y2)
  let tmp := tmp + s 4 * (2.0 * xy)
  let tmp := tmp * 2.0
  let tmp := tmp + s 0 * (9.0 * z2 - 3.0 * d12sq)
  let f12 := addAt f12 2 (tmp * Fp * fn * 2.0)
  f12

/-- Source function `get_f12_4`: the new contents of `f12`. -/
def get_f12_4 (x y z r rinv fn fnp Fp : α) (s f12 : Nat → α) : Nat → α :=
  let r2 := r * r
  let x2 := x * x
  let y2 := y * y
  let z2 := z * z
  let xy := x * y
  let xz := x * z
  let yz := y * z
  let xyz := x * yz
  let x2my2 := x2 - y2
  let tmp := s 1 * (7.0 * z2 - 3.0 * r2) * xz
  let tmp := tmp + s 2 * (7.0 * z2 - 3.0 * r2) * yz
  let tmp := tmp + s 3 * (7.0 * z2 - r2) * x2my2
  let tmp := tmp + s 4 * (7.0 * z2 - r2) * 2.0 * xy
  let tmp := tmp + s 5 * (x2 - 3.0 * y2) * xz
  let tmp := tmp + s 6 * (3.0 * x2 - y2) * yz
  let tmp := tmp + s 7 * (x2my2 * x2my2 - 4.0 * x2 * y2)
  let tmp := tmp + s 8 * (4.0 * xy * x2my2)
  let tmp := tmp * 2.0
  let tmp := tmp + s 0 * ((35.0 * z2 - 30.0 * r2) * z2 + 3.0 * r2 * r2)
  let tmp := tmp * (Fp * fnp * rinv * 2.0)
  let f12 := addAt f12 0 (tmp * x)
  let f12 := addAt f12 1 (tmp * y)
  let f12 := addAt f12 2 (tmp * z)
  -- x
  let tmp := s 1 * z * (7.0 * z2 - 3.0 * r2 - 6.0 * x2)
  let tmp := tmp + s 2 * (-6.0 * xyz)
  let tmp := tmp + s 3 * 4.0 * x * (3.0 * z2 - x2)
  let tmp := tmp + s 4 * 2.0 * y * (7.0 * z2 - r2 - 2.0 * x2)
  let tmp := tmp + s 5 * 3.0 * z * x2my2
  let tmp := tmp + s 6 * 6.0 * xyz
  let tmp := tmp + s 7 * 4.0 * x * (x2 - 3.0 * y2)
  let tmp := tmp + s 8 * 4.0 * y * (3.0 * x2 - y2)
  let tmp := tmp * 2.0
  let tmp := tmp + s 0 * 12.0 * x * (r2 - 5.0 * z2)
  let f12 := addAt f12 0 (tmp * Fp * fn * 2.0)
  -- y
  let tmp := s 1 * (-6.0 * xyz)
  let tmp := tmp + s 2 * z * (7.0 * z2 - 3.0 * r2 - 6.0 * y2)
  let tmp := tmp + s 3 * 4.0 * y * (y2 - 3.0 * z2)
  let tmp := tmp + s 4 * 2.0 * x * (7.0 * z2 - r2 - 2.0 * y2)
  let tmp := tmp + s 5 * (-6.0 * xyz)
  let tmp := tmp + s 6 * 3.0 * z * x2my2
  let tmp := tmp + s 7 * 4.0 * y * (y2 - 3.0 * x2)
  let tmp := tmp + s 8 * 4.0 * x * (x2 - 3.0 * y2)
  let tmp := tmp * 2.0
  let tmp := tmp + s 0 * 12.0 * y * (r2 - 5.0 * z2)
  let f12 := addAt f12 1 (tmp * Fp * fn * 2.0)
  -- z
  let tmp := s 1 * 3.0 * x * (5.0 * z2 - r2)
  let tmp := tmp + s 2 * 3.0 * y * (5.0 * z2 - r2)
  let tmp := tmp + s 3 * 12.0 * z * x2my2
  let tmp := tmp + s 4 * 24.0 * xyz
  let tmp := tmp + s 5 * x * (x2 - 3.0 * y2)
  let tmp := tmp + s 6 * y * (3.0 * x2 - y2)
  let tmp := tmp * 2.0
  let tmp := tmp + s 0 * 16.0 * z * (5.0 * z2 - 3.0 * r2)
  let f12 := addAt f12 2 (tmp * Fp * fn * 2.0)
  f12

/-! ## Accumulation of the angular pair force (source lines 684-836) -/

/-- Source function `accumulate_f12`: the new contents of `f12`. -/
def accumulate_f12 (n n_max_angular_plus_1 : Nat) (d12 : α) (r12 : Nat → α) (fn fnp : α)
    (Fp sum_fxyz f12 : Nat → α) : Nat → α :=
  let d12inv := 1.0 / d12
  -- l = 1
  let fnp := fnp * d12inv - fn * d12inv * d12inv
  let fn := fn * d12inv
  let s1 : Nat → α := arrayOf [
    sum_fxyz (n * NUM_OF_ABC + 0) * C3B 0, sum_fxyz (n * NUM_OF_ABC + 1) * C3B 1,
    sum_fxyz (n * NUM_OF_ABC + 2) * C3B 2]
  let f12 := get_f12_1 d12inv fn fnp (Fp n) s1 r12 f12
  -- l = 2
  let fnp := fnp * d12inv - fn * d12inv * d12inv
  let fn := fn * d12inv
  let s2 : Nat → α := arrayOf [
    sum_fxyz (n * NUM_OF_ABC + 3) * C3B 3, sum_fxyz (n * NUM_OF_ABC + 4) * C3B 4,
    sum_fxyz (n * NUM_OF_ABC + 5) * C3B 5, sum_fxyz (n * NUM_OF_ABC + 6) * C3B 6,
    sum_fxyz (n * NUM_OF_ABC + 7) * C3B 7]
  let f12 := get_f12_2 d12 d12inv fn fnp (Fp (n_max_angular_plus_1 + n)) s2 r12 f12
  -- l = 3
  let fnp := fnp * d12inv - fn * d12inv * d12inv
  let fn := fn * d12inv
  let s3 : Nat → α := arrayOf [
    sum_fxyz (n * NUM_OF_ABC + 8) * C3B 8, sum_fxyz (n * NUM_OF_ABC + 9) * C3B 9,
    sum_fxyz (n * NUM_OF_ABC + 10) * C3B 10, sum_fxyz (n * NUM_OF_ABC + 11) * C3B 11,
    sum_fxyz (n * NUM_OF_ABC + 12) * C3B 12, sum_fxyz (n * NUM_OF_ABC + 13) * C3B 13,
    sum_fxyz (n * NUM_OF_ABC + 14) * C3B 14]
  let f12 := get_f12_3 d12 d12inv fn fnp (Fp (2 * n_max_angular_plus_1 + n)) s3 r12 f12
  -- l = 4
  let fnp := fnp * d12inv - fn * d12inv * d12inv
  let fn := fn * d12inv
  let s4 : Nat → α := arrayOf [
    sum_fxyz (n * NUM_OF_ABC + 15) * C3B 15, sum_fxyz (n * NUM_OF_ABC + 16) * C3B 16,
    sum_fxyz (n * NUM_OF_ABC + 17) * C3B 17, sum_fxyz (n * NUM_OF_ABC + 18) * C3B 18,
    sum_fxyz (n * NUM_OF_ABC + 19) * C3B 19, sum_fxyz (n * NUM_OF_ABC + 20) * C3B 20,
    sum_fxyz (n * NUM_OF_ABC + 21) * C3B 21, sum_fxyz (n * NUM_OF_ABC + 22) * C3B 22,
    sum_fxyz (n * NUM_OF_ABC + 23) * C3B 23]
  get_f12_4 (r12 0) (r12 1) (r12 2) d12 d12inv fn fnp (Fp (3 * n_max_angular_plus_1 + n)) s4 f12

/-- Source function `accumulate_f12_with_4body`: the new contents of `f12`. -/
def accumulate_f12_with_4body (n n_max_angular_plus_1 : Nat) (d12 : α) (r12 : Nat → α)
    (fn fnp : α) (Fp sum_fxyz f12 : Nat → α) : Nat → α :=
  let d12inv := 1.0 / d12
  -- l = 1
  let fnp := fnp * d12inv - fn * d12inv * d12inv
  let fn := fn * d12inv
  let s1 : Nat → α := arrayOf [
    sum_fxyz (n * NUM_OF_ABC + 0) * C3B 0, sum_fxyz (n * NUM_OF_ABC + 1) * C3B 1,
    sum_fxyz (n * NUM_OF_ABC + 2) * C3B 2]
  let f12 := get_f12_1 d12inv fn fnp (Fp n) s1 r12 f12
  -- l = 2
  let fnp := fnp * d12inv - fn * d12inv * d12inv
  let fn := fn * d12inv
  let s2 : Nat → α := arrayOf [
    sum_fxyz (n * NUM_OF_ABC + 3), sum_fxyz (n * NUM_OF_ABC + 4), sum_fxyz (n * NUM_OF_ABC + 5),
    sum_fxyz (n * NUM_OF_ABC + 6), sum_fxyz (n * NUM_OF_ABC + 7)]
  let f12 := get_f12_4body d12 d12inv fn fnp (Fp (4 * n_max_angular_plus_1 + n)) s2 r12 f12
  let s2 := Function.update s2 0 (s2 0 * C3B 3)
  let s2 := Function.update s2 1 (s2 1 * C3B 4)
  let s2 := Function.update s2 2 (s2 2 * C3B 5)
  let s2 := Function.update s2 3 (s2 3 * C3B 6)
  let s2 := Function.update s2 4 (s2 4 * C3B 7)
  let f12 := get_f12_2 d12 d12inv fn fnp (Fp (n_max_angular_plus_1 + n)) s2 r12 f12
  -- l = 3
  let fnp := fnp * d12inv - fn * d12inv * d12inv
  let fn := fn * d12inv
  let s3 : Nat → α := arrayOf [
    sum_fxyz (n * NUM_OF_ABC + 8) * C3B 8, sum_fxyz (n * NUM_OF_ABC + 9) * C3B 9,
    sum_fxyz (n * NUM_OF_ABC + 10) * C3B 10, sum_fxyz (n * NUM_OF_ABC + 11) * C3B 11,
    sum_fxyz (n * NUM_OF_ABC + 12) * C3B 12, sum_fxyz (n * NUM_OF_ABC + 13) * C3B 13,
    sum_fxyz (n * NUM_OF_ABC + 14) * C3B 14]
  let f12 := get_f12_3 d12 d12inv fn fnp (Fp (2 * n_max_angular_plus_1 + n)) s3 r12 f12
  -- l = 4
  let fnp := fnp * d12inv - fn * d12inv * d12inv
  let fn := fn * d12inv
  let s4 : Nat → α := arrayOf [
    sum_fxyz (n * NUM_OF_ABC + 15) * C3B 15, sum_fxyz (n * NUM_OF_ABC + 16) * C3B 16,
    sum_fxyz (n * NUM_OF_ABC + 17) * C3B 17, sum_fxyz (n * NUM_OF_ABC + 18) * C3B 18,
    sum_fxyz (n * NUM_OF_ABC + 19) * C3B 19, sum_fxyz (n * NUM_OF_ABC + 20) * C3B 20,
    sum_fxyz (n * NUM_OF_ABC + 21) * C3B 21, sum_fxyz (n * NUM_OF_ABC + 22) * C3B 22,
    sum_fxyz (n * NUM_OF_ABC + 23) * C3B 23]
  get_f12_4 (r12 0) (r12 1) (r12 2) d12 d12inv fn fnp (Fp (3 * n_max_angular_plus_1 + n)) s4 f12

/-- Source function `accumulate_f12_with_5body`: the new contents of `f12`. -/
def accumulate_f12_with_5body (n n_max_angular_plus_1 : Nat) (d12 : α) (r12 : Nat → α)
    (fn fnp : α) (Fp sum_fxyz f12 : Nat → α) : Nat → α :=
  let d12inv := 1.0 / d12
  -- l = 1
  let fnp := fnp * d12inv - fn * d12inv * d12inv
  let fn := fn * d12inv
  let s1 : Nat → α := arrayOf [
    sum_fxyz (n * NUM_OF_ABC + 0), sum_fxyz (n * NUM_OF_ABC + 1), sum_fxyz (n * NUM_OF_ABC + 2)]
  let f12 := get_f12_5body d12 d12inv fn fnp (Fp (5 * n_max_angular_plus_1 + n)) s1 r12 f12
  let s1 := Function.update s1 0 (s1 0 * C3B 0)
  let s1 := Function.update s1 1 (s1 1 * C3B 1)
  let s1 := Function.update s1 2 (s1 2 * C3B 2)
  let f12 := get_f12_1 d12inv fn fnp (Fp n) s1 r12 f12
  -- l = 2
  let fnp := fnp * d12inv - fn * d12inv * d12inv
  let fn := fn * d12inv
  let s2 : Nat → α := arrayOf [
    sum_fxyz (n * NUM_OF_ABC + 3), sum_fxyz (n * NUM_OF_ABC + 4), sum_fxyz (n * NUM_OF_ABC + 5),
    sum_fxyz (n * NUM_OF_ABC + 6), sum_fxyz (n * NUM_OF_ABC + 7)]
  let f12 := get_f12_4body d12 d12inv fn fnp (Fp (4 * n_max_angular_plus_1 + n)) s2 r12 f12
  let s2 := Function.update s2 0 (s2 0 * C3B 3)
  let s2 := Function.update s2 1 (s2 1 * C3B 4)
  let s2 := Function.update s2 2 (s2 2 * C3B 5)
  let s2 := Function.update s2 3 (s2 3 * C3B 6)
  let s2 := Function.update s2 4 (s2 4 * C3B 7)
  let f12 := get_f12_2 d12 d12inv fn fnp (Fp (n_max_angular_plus_1 + n)) s2 r12 f12
  -- l = 3
  let fnp := fnp * d12inv - fn * d12inv * d12inv
  let fn := fn * d12inv
  let s3 : Nat → α := arrayOf [
    sum_fxyz (n * NUM_OF_ABC + 8) * C3B 8, sum_fxyz (n * NUM_OF_ABC + 9) * C3B 9,
    sum_fxyz (n * NUM_OF_ABC + 10) * C3B 10, sum_fxyz (n * NUM_OF_ABC + 11) * C3B 11,
    sum_fxyz (n * NUM_OF_ABC + 12) * C3B 12, sum_fxyz (n * NUM_OF_ABC + 13) * C3B 13,
    sum_fxyz (n * NUM_OF_ABC + 14) * C3B 14]
  let f12 := get_f12_3 d12 d12inv fn fnp (Fp (2 * n_max_angular_plus_1 + n)) s3 r12 f12
  -- l = 4
  let fnp := fnp * d12inv - fn * d12inv * d12inv
  let fn := fn * d12inv
  let s4 : Nat → α := arrayOf [
    sum_fxyz (n * NUM_OF_ABC + 15) * C3B 15, sum_fxyz (n * NUM_OF_ABC + 16) * C3B 16,
    sum_fxyz (n * NUM_OF_ABC + 17) * C3B 17, sum_fxyz (n * NUM_OF_ABC + 18) * C3B 18,
    sum_fxyz (n * NUM_OF_ABC + 19) * C3B 19, sum_fxyz (n * NUM_OF_ABC + 20) * C3B 20,
    sum_fxyz (n * NUM_OF_ABC + 21) * C3B 21, sum_fxyz (n * NUM_OF_ABC + 22) * C3B 22,
    sum_fxyz (n * NUM_OF_ABC + 23) * C3B 23]
  get_f12_4 (r12 0) (r12 1) (r12 2) d12 d12inv fn fnp (Fp (3 * n_max_angular_plus_1 + n)) s4 f12

/-! ## Angular moments and invariants (source lines 838-910) -/

/-- Source function `accumulate_s`: the new contents of the 24 moments `s`. -/
def accumulate_s (d12 x12 y12 z12 fn : α) (s : Nat → α) : Nat → α :=
  let d12inv := 1.0 / d12
  let x12 := x12 * d12inv
  let y12 := y12 * d12inv
  let z12 := z12 * d12inv
  let x12sq := x12 * x12
  let y12sq := y12 * y12
  let z12sq := z12 * z12
  let x12sq_minus_y12sq := x12sq - y12sq
  let s := addAt s 0 (z12 * fn)
  let s := addAt s 1 (x12 * fn)
  let s := addAt s 2 (y12 * fn)
  let s := addAt s 3 ((3.0 * z12sq - 1.0) * fn)
  let s := addAt s 4 (x12 * z12 * fn)
  let s := addAt s 5 (y12 * z12 * fn)
  let s := addAt s 6 (x12sq_minus_y12sq * fn)
  let s := addAt s 7 (2.0 * x12 * y12 * fn)
  let s := addAt s 8 ((5.0 * z12sq - 3.0) * z12 * fn)
  let s := addAt s 9 ((5.0 * z12sq - 1.0) * x12 * fn)
  let s := addAt s 10 ((5.0 * z12sq - 1.0) * y12 * fn)
  let s := addAt s 11 (x12sq_minus_y12sq * z12 * fn)
  let s := addAt s 12 (2.0 * x12 * y12 * z12 * fn)
  let s := addAt s 13 ((x12 * x12 - 3.0 * y12 * y12) * x12 * fn)
  let s := addAt s 14 ((3.0 * x12 * x12 - y12 * y12) * y12 * fn)
  let s := addAt s 15 (((35.0 * z12sq - 30.0) * z12sq + 3.0) * fn)
  let s := addAt s 16 ((7.0 * z12sq - 3.0) * x12 * z12 * fn)
  let s := addAt s 17 ((7.0 * z12sq - 3.0) * y12 * z12 * fn)
  let s := addAt s 18 ((7.0 * z12sq - 1.0) * x12sq_minus_y12sq * fn)
  let s := addAt s 19 ((7.0 * z12sq - 1.0) * x12 * y12 * 2.0 * fn)
  let s := addAt s 20 ((x12sq - 3.0 * y12sq) * x12 * z12 * fn)
  let s := addAt s 21 ((3.0 * x12sq - y12sq) * y12 * z12 * fn)
  let s := addAt s 22 ((x12sq_minus_y12sq * x12sq_minus_y12sq - 4.0 * x12sq * y12sq) * fn)
  let s := addAt s 23 ((4.0 * x12 * y12 * x12sq_minus_y12sq) * fn)
  s

/-- Source function `find_q`: the new contents of the array `q` points to. -/
def find_q (n_max_angular_plus_1 n : Nat) (s q : Nat → α) : Nat → α :=
  let q := Function.update q n
    (C3B 0 * s 0 * s 0 + 2.0 * (C3B 1 * s 1 * s 1 + C3B 2 * s 2 * s 2))
  let q := Function.update q (n_max_angular_plus_1 + n)
    (C3B 3 * s 3 * s 3 + 2.0 * (C3B 4 * s 4 * s 4 + C3B 5 * s 5 * s 5 +
                                  C3B 6 * s 6 * s 6 + C3B 7 * s 7 * s 7))
  let q := Function.update q (2 * n_max_angular_plus_1 + n)
    (C3B 8 * s 8 * s 8 +
      2.0 * (C3B 9 * s 9 * s 9 + C3B 10 * s 10 * s 10 + C3B 11 * s 11 * s 11 +
             C3B 12 * s 12 * s 12 + C3B 13 * s 13 * s 13 + C3B 14 * s 14 * s 14))
  let q := Function.update q (3 * n_max_angular_plus_1 + n)
    (C3B 15 * s 15 * s 15 +
      2.0 * (C3B 16 * s 16 * s 16 + C3B 17 * s 17 * s 17 + C3B 18 * s 18 * s 18 +
             C3B 19 * s 19 * s 19 + C3B 20 * s 20 * s 20 + C3B 21 * s 21 * s 21 +
             C3B 22 * s 22 * s 22 + C3B 23 * s 23 * s 23))
  q

/-- Source function `find_q_with_4body`: the new contents of the array `q` points to. -/
def find_q_with_4body (n_max_angular_plus_1 n : Nat) (s q : Nat → α) : Nat → α :=
  let q := find_q n_max_angular_plus_1 n s q
  Function.update q (4 * n_max_angular_plus_1 + n)
    (C4B 0 * s 3 * s 3 * s 3 + C4B 1 * s 3 * (s 4 * s 4 + s 5 * s 5) +
      C4B 2 * s 3 * (s 6 * s 6 + s 7 * s 7) + C4B 3 * s 6 * (s 5 * s 5 - s 4 * s 4) +
      C4B 4 * s 4 * s 5 * s 7)

/-- Source function `find_q_with_5body`: the new contents of the array `q` points to. -/
def find_q_with_5body (n_max_angular_plus_1 n : Nat) (s q : Nat → α) : Nat → α :=
  let q := find_q_with_4body n_max_angular_plus_1 n s q
  let s0_sq := s 0 * s 0
  let s1_sq_plus_s2_sq := s 1 * s 1 + s 2 * s 2
  Function.update q (5 * n_max_angular_plus_1 + n)
    (C5B 0 * s0_sq * s0_sq + C5B 1 * s0_sq * s1_sq_plus_s2_sq +
      C5B 2 * s1_sq_plus_s2_sq * s1_sq_plus_s2_sq)

/-! ## The stages of `compute` (source lines 912-1298) -/

/-- Source function `find_descriptor_small_box`: the new contents of `(g_pe, g_Fp, g_sum_fxyz)`. -/
def find_descriptor_small_box (m : Libm α) (paramb : ParaMB α) (annmb : ANN α) (N : Nat)
    (g_NN_radial g_NL_radial g_NN_angular g_NL_angular g_type : Nat → Nat)
    (g_x12_radial g_y12_radial g_z12_radial g_x12_angular g_y12_angular g_z12_angular : Nat → α)
    (g_pe g_Fp g_sum_fxyz : Nat → α) : (Nat → α) × (Nat → α) × (Nat → α) :=
  forLoop 0 N
    (fun n1 (st : (Nat → α) × (Nat → α) × (Nat → α)) =>
      let g_pe := st.1
      let g_Fp := st.2.1
      let g_sum_fxyz := st.2.2
      let t1 := g_type n1
      let q : Nat → α := fun _ => 0.0
      let q := forLoop 0 (g_NN_radial n1)
        (fun i1 (q : Nat → α) =>
          let index := i1 * N + n1
          let n2 := g_NL_radial index
          let r12 : Nat → α := arrayOf [g_x12_radial index, g_y12_radial index, g_z12_radial index]
          let d12 := m.sqrt (r12 0 * r12 0 + r12 1 * r12 1 + r12 2 * r12 2)
          let fc12 := find_fc m.cos paramb.rc_radial paramb.rcinv_radial d12
          let t2 := g_type n2
          let fn12 : Nat → α := fun _ => 0
          if paramb.version = 2 then
            let fn12 := find_fn_all paramb.n_max_radial paramb.rcinv_radial d12 fc12 fn12
            forLoop 0 (paramb.n_max_radial + 1)
              (fun n (q : Nat → α) =>
                let c := if paramb.num_types = 1 then 1.0
                  else annmb.c ((n * paramb.num_types + t1) * paramb.num_types + t2)
                addAt q n (fn12 n * c)) q
          else
            let fn12 := find_fn_all paramb.basis_size_radial paramb.rcinv_radial d12 fc12 fn12
            forLoop 0 (paramb.n_max_radial + 1)
              (fun n (q : Nat → α) =>
                let gn12 := forLoop 0 (paramb.basis_size_radial + 1)
                  (fun k (gn12 : α) =>
                    let c_index := (n * (paramb.basis_size_radial + 1) + k) * paramb.num_types_sq
                    let c_index := c_index + (t1 * paramb.num_types + t2)
                    gn12 + fn12 k * annmb.c c_index) (0.0 : α)
                addAt q n gn12) q) q
      let st2 := forLoop 0 (paramb.n_max_angular + 1)
        (fun n (st2 : (Nat → α) × (Nat → α)) =>
          let q := st2.1
          let g_sum_fxyz := st2.2
          let s : Nat → α := fun _ => 0.0
          let s := forLoop 0 (g_NN_angular n1)
            (fun i1 (s : Nat → α) =>
              let index := i1 * N + n1
              let n2 := g_NL_angular index
              let r12 : Nat → α :=
                arrayOf [g_x12_angular index, g_y12_angular index, g_z12_angular index]
              let d12 := m.sqrt (r12 0 * r12 0 + r12 1 * r12 1 + r12 2 * r12 2)
              let fc12 := find_fc m.cos paramb.rc_angular paramb.rcinv_angular d12
              let t2 := g_type n2
              if paramb.version = 2 then
                let fn := find_fn n paramb.rcinv_angular d12 fc12
                let fn := fn *
                  (if paramb.num_types = 1 then 1.0
                   else annmb.c
                    (((paramb.n_max_radial + 1 + n) * paramb.num_types + t1) * paramb.num_types +
                      t2))
                accumulate_s d12 (r12 0) (r12 1) (r12 2) fn s
              else
                let fn12 : Nat → α := fun _ => 0
                let fn12 :=
                  find_fn_all paramb.basis_size_angular paramb.rcinv_angular d12 fc12 fn12
                let gn12 := forLoop 0 (paramb.basis_size_angular + 1)
                  (fun k (gn12 : α) =>
                    let c_index := (n * (paramb.basis_size_angular + 1) + k) * paramb.num_types_sq
                    let c_index := c_index + (t1 * paramb.num_types + t2 + paramb.num_c_radial)
                    gn12 + fn12 k * annmb.c c_index) (0.0 : α)
                accumulate_s d12 (r12 0) (r12 1) (r12 2) gn12 s) s
          let q :=
            if paramb.num_L = paramb.L_max then
              unshift q (paramb.n_max_radial + 1)
                (find_q (paramb.n_max_angular + 1) n s (shift q (paramb.n_max_radial + 1)))
            else if paramb.num_L = paramb.L_max + 1 then
              unshift q (paramb.n_max_radial + 1)
                (find_q_with_4body (paramb.n_max_angular + 1) n s
                  (shift q (paramb.n_max_radial + 1)))
            else
              unshift q (paramb.n_max_radial + 1)
                (find_q_with_5body (paramb.n_max_angular + 1) n s
                  (shift q (paramb.n_max_radial + 1)))
          let g_sum_fxyz := forLoop 0 NUM_OF_ABC
            (fun abc (g : Nat → α) => Function.update g ((n * NUM_OF_ABC + abc) * N + n1) (s abc))
            g_sum_fxyz
          (q, g_sum_fxyz))
        (q, g_sum_fxyz)
      let q := st2.1
      let g_sum_fxyz := st2.2
      let q := forLoop 0 annmb.dim
        (fun d (q : Nat → α) => Function.update q d (q d * paramb.q_scaler d)) q
      let F : α := 0.0
      let Fp : Nat → α := fun _ => 0.0
      let r := apply_ann_one_layer m.tanh annmb.dim annmb.num_neurons1 annmb.w0 annmb.b0
        annmb.w1 annmb.b1 q F Fp
      let F := r.1
      let Fp := r.2
      let g_pe := addAt g_pe n1 F
      let g_Fp := forLoop 0 annmb.dim
        (fun d (g_Fp : Nat → α) => Function.update g_Fp (d * N + n1) (Fp d * paramb.q_scaler d))
        g_Fp
      (g_pe, g_Fp, g_sum_fxyz))
    (g_pe, g_Fp, g_sum_fxyz)

/-- The fifteen statements that end the body of every force pass (source lines
1083-1097, 1181-1195 and 1231-1245): `g_fx[n1] += f12[0]`, ...,
`g_fz[n2] -= f12[2]`, `g_virial[n1 + 0 * N] -= r12[0] * f12[0]`, ...  The
pointers `g_fx`, `g_fy`, `g_fz` point into the one array `g_f` at the offsets
`fx`, `fy`, `fz`.  Returns the new `(g_f, g_virial)`. -/
def accumulate_pair (N n1 n2 fx fy fz : Nat) (r12 f12 : Nat → α)
    (g_f g_virial : Nat → α) : (Nat → α) × (Nat → α) :=
  let g_f := addAt g_f (fx + n1) (f12 0)
  let g_f := addAt g_f (fy + n1) (f12 1)
  let g_f := addAt g_f (fz + n1) (f12 2)
  let g_f := subAt g_f (fx + n2) (f12 0)
  let g_f := subAt g_f (fy + n2) (f12 1)
  let g_f := subAt g_f (fz + n2) (f12 2)
  let g_virial := subAt g_virial (n1 + 0 * N) (r12 0 * f12 0)
  let g_virial := subAt g_virial (n1 + 1 * N) (r12 0 * f12 1)
  let g_virial := subAt g_virial (n1 + 2 * N) (r12 0 * f12 2)
  let g_virial := subAt g_virial (n1 + 3 * N) (r12 1 * f12 0)
  let g_virial := subAt g_virial (n1 + 4 * N) (r12 1 * f12 1)
  let g_virial := subAt g_virial (n1 + 5 * N) (r12 1 * f12 2)
  let g_virial := subAt g_virial (n1 + 6 * N) (r12 2 * f12 0)
  let g_virial := subAt g_virial (n1 + 7 * N) (r12 2 * f12 1)
  let g_virial := subAt g_virial (n1 + 8 * N) (r12 2 * f12 2)
  (g_f, g_virial)

/-- The pair force `f12` that `find_force_radial_small_box` computes for slot
`i1` of atom `n1` (source lines 1043-1081). -/
def radial_pair_force (m : Libm α) (paramb : ParaMB α) (annmb : ANN α) (N : Nat)
    (g_NL g_type : Nat → Nat) (g_x12 g_y12 g_z12 g_Fp : Nat → α) (n1 i1 : Nat) : Nat → α :=
  let t1 := g_type n1
  let index := i1 * N + n1
  let n2 := g_NL index
  let t2 := g_type n2
  let r12 : Nat → α := arrayOf [g_x12 index, g_y12 index, g_z12 index]
  let d12 := m.sqrt (r12 0 * r12 0 + r12 1 * r12 1 + r12 2 * r12 2)
  let d12inv := 1.0 / d12
  let c := find_fc_and_fcp m.cos m.sin paramb.rc_radial paramb.rcinv_radial d12
  let fc12 := c.1
  let fcp12 := c.2
  let fn12 : Nat → α := fun _ => 0
  let fnp12 : Nat → α := fun _ => 0
  let f12 : Nat → α := fun _ => 0.0
  if paramb.version = 2 then
    let r := find_fn_and_fnp_all paramb.n_max_radial paramb.rcinv_radial d12 fc12 fcp12 fn12 fnp12
    let fnp12 := r.2
    forLoop 0 (paramb.n_max_radial + 1)
      (fun n (f12 : Nat → α) =>
        let tmp12 := g_Fp (n1 + n * N) * fnp12 n * d12inv
        let tmp12 := tmp12 *
          (if paramb.num_types = 1 then 1.0
           else annmb.c ((n * paramb.num_types + t1) * paramb.num_types + t2))
        forLoop 0 3 (fun d (f12 : Nat → α) => addAt f12 d (tmp12 * r12 d)) f12) f12
  else
    let r :=
      find_fn_and_fnp_all paramb.basis_size_radial paramb.rcinv_radial d12 fc12 fcp12 fn12 fnp12
    let fnp12 := r.2
    forLoop 0 (paramb.n_max_radial + 1)
      (fun n (f12 : Nat → α) =>
        let gnp12 := forLoop 0 (paramb.basis_size_radial + 1)
          (fun k (gnp12 : α) =>
            let c_index := (n * (paramb.basis_size_radial + 1) + k) * paramb.num_types_sq
            let c_index := c_index + (t1 * paramb.num_types + t2)
            gnp12 + fnp12 k * annmb.c c_index) (0.0 : α)
        let tmp12 := g_Fp (n1 + n * N) * gnp12 * d12inv
        forLoop 0 3 (fun d (f12 : Nat → α) => addAt f12 d (tmp12 * r12 d)) f12) f12

/-- Source function `find_force_radial_small_box`: the new contents of `(g_f, g_virial)`, where
`g_fx`, `g_fy`, `g_fz` point into `g_f` at the offsets `fx`, `fy`, `fz`. -/
def find_force_radial_small_box (m : Libm α) (paramb : ParaMB α) (annmb : ANN α) (N : Nat)
    (g_NN g_NL g_type : Nat → Nat) (g_x12 g_y12 g_z12 g_Fp : Nat → α)
    (fx fy fz : Nat) (g_f g_virial : Nat → α) : (Nat → α) × (Nat → α) :=
  forLoop 0 N
    (fun n1 (st : (Nat → α) × (Nat → α)) =>
      forLoop 0 (g_NN n1)
        (fun i1 (st : (Nat → α) × (Nat → α)) =>
          let index := i1 * N + n1
          let n2 := g_NL index
          let r12 : Nat → α := arrayOf [g_x12 index, g_y12 index, g_z12 index]
          let f12 := radial_pair_force m paramb annmb N g_NL g_type g_x12 g_y12 g_z12 g_Fp n1 i1
          accumulate_pair N n1 n2 fx fy fz r12 f12 st.1 st.2) st)
    (g_f, g_virial)

/-- The pair force `f12` that `find_force_angular_small_box` computes for slot
`i1` of atom `n1` from the local copies `Fp` and `sum_fxyz` (source lines
1133-1180). -/
def angular_pair_force (m : Libm α) (paramb : ParaMB α) (annmb : ANN α) (N : Nat)
    (g_NL_angular g_type : Nat → Nat) (g_x12 g_y12 g_z12 Fp sum_fxyz : Nat → α)
    (n1 i1 : Nat) : Nat → α :=
  let t1 := g_type n1
  let index := i1 * N + n1
  let n2 := g_NL_angular (n1 + N * i1)
  let r12 : Nat → α := arrayOf [g_x12 index, g_y12 index, g_z12 index]
  let d12 := m.sqrt (r12 0 * r12 0 + r12 1 * r12 1 + r12 2 * r12 2)
  let c := find_fc_and_fcp m.cos m.sin paramb.rc_angular paramb.rcinv_angular d12
  let fc12 := c.1
  let fcp12 := c.2
  let t2 := g_type n2
  let f12 : Nat → α := fun _ => 0.0
  if paramb.version = 2 then
    forLoop 0 (paramb.n_max_angular + 1)
      (fun n (f12 : Nat → α) =>
        let r := find_fn_and_fnp n paramb.rcinv_angular d12 fc12 fcp12
        let fn := r.1
        let fnp := r.2
        let c : α :=
          if paramb.num_types = 1 then 1.0
          else annmb.c
            (((paramb.n_max_radial + 1 + n) * paramb.num_types + t1) * paramb.num_types + t2)
        let fn := fn * c
        let fnp := fnp * c
        accumulate_f12 n (paramb.n_max_angular + 1) d12 r12 fn fnp Fp sum_fxyz f12) f12
  else
    let fn12 : Nat → α := fun _ => 0
    let fnp12 : Nat → α := fun _ => 0
    let r :=
      find_fn_and_fnp_all paramb.basis_size_angular paramb.rcinv_angular d12 fc12 fcp12 fn12 fnp12
    let fn12 := r.1
    let fnp12 := r.2
    forLoop 0 (paramb.n_max_angular + 1)
      (fun n (f12 : Nat → α) =>
        let g := forLoop 0 (paramb.basis_size_angular + 1)
          (fun k (g : α × α) =>
            let c_index := (n * (paramb.basis_size_angular + 1) + k) * paramb.num_types_sq
            let c_index := c_index + (t1 * paramb.num_types + t2 + paramb.num_c_radial)
            (g.1 + fn12 k * annmb.c c_index, g.2 + fnp12 k * annmb.c c_index))
          ((0.0 : α), (0.0 : α))
        let gn12 := g.1
        let gnp12 := g.2
        if paramb.num_L = paramb.L_max then
          accumulate_f12 n (paramb.n_max_angular + 1) d12 r12 gn12 gnp12 Fp sum_fxyz f12
        else if paramb.num_L = paramb.L_max + 1 then
          accumulate_f12_with_4body n (paramb.n_max_angular + 1) d12 r12 gn12 gnp12 Fp sum_fxyz
            f12
        else
          accumulate_f12_with_5body n (paramb.n_max_angular + 1) d12 r12 gn12 gnp12 Fp sum_fxyz
            f12) f12

/-- Source function `find_force_angular_small_box`: the new contents of `(g_f, g_virial)`, where
`g_fx`, `g_fy`, `g_fz` point into `g_f` at the offsets `fx`, `fy`, `fz`. -/
def find_force_angular_small_box (m : Libm α) (paramb : ParaMB α) (annmb : ANN α) (N : Nat)
    (g_NN_angular g_NL_angular g_type : Nat → Nat) (g_x12 g_y12 g_z12 g_Fp g_sum_fxyz : Nat → α)
    (fx fy fz : Nat) (g_f g_virial : Nat → α) : (Nat → α) × (Nat → α) :=
  forLoop 0 N
    (fun n1 (st : (Nat → α) × (Nat → α)) =>
      let Fp : Nat → α := fun _ => 0.0
      let sum_fxyz : Nat → α := fun _ => 0
      let Fp := forLoop 0 paramb.dim_angular
        (fun d (Fp : Nat → α) =>
          Function.update Fp d (g_Fp ((paramb.n_max_radial + 1 + d) * N + n1))) Fp
      let sum_fxyz := forLoop 0 ((paramb.n_max_angular + 1) * NUM_OF_ABC)
        (fun d (sum_fxyz : Nat → α) => Function.update sum_fxyz d (g_sum_fxyz (d * N + n1)))
        sum_fxyz
      forLoop 0 (g_NN_angular n1)
        (fun i1 (st : (Nat → α) × (Nat → α)) =>
          let index := i1 * N + n1
          let n2 := g_NL_angular (n1 + N * i1)
          let r12 : Nat → α := arrayOf [g_x12 index, g_y12 index, g_z12 index]
          let f12 := angular_pair_force m paramb annmb N g_NL_angular g_type g_x12 g_y12 g_z12
            Fp sum_fxyz n1 i1
          accumulate_pair N n1 n2 fx fy fz r12 f12 st.1 st.2) st)
    (g_f, g_virial)

/-- Source function `find_force_ZBL_small_box`: the new contents of `(g_f, g_virial, g_pe)`,
where `g_fx`, `g_fy`, `g_fz` point into `g_f` at the offsets `fx`, `fy`, `fz`. -/
def find_force_ZBL_small_box (m : Libm α) (N : Nat) (zbl : ZBL α)
    (g_NN g_NL g_type : Nat → Nat) (g_x12 g_y12 g_z12 : Nat → α)
    (fx fy fz : Nat) (g_f g_virial g_pe : Nat → α) : (Nat → α) × (Nat → α) × (Nat → α) :=
  forLoop 0 N
    (fun n1 (st : (Nat → α) × (Nat → α) × (Nat → α)) =>
      let zi := zbl.atomic_numbers (g_type n1)
      let pow_zi := m.pow zi 0.23
      forLoop 0 (g_NN n1)
        (fun i1 (st : (Nat → α) × (Nat → α) × (Nat → α)) =>
          let index := i1 * N + n1
          let n2 := g_NL index
          let r12 : Nat → α := arrayOf [g_x12 index, g_y12 index, g_z12 index]
          let d12 := m.sqrt (r12 0 * r12 0 + r12 1 * r12 1 + r12 2 * r12 2)
          let d12inv := 1.0 / d12
          let zj := zbl.atomic_numbers (g_type n2)
          let a_inv := (pow_zi + m.pow zj 0.23) * 2.134563
          let zizj := K_C_SP * zi * zj
          let r := find_f_and_fp_zbl m zizj a_inv zbl.rc_inner zbl.rc_outer d12 d12inv
          let f := r.1
          let fp := r.2
          let f2 := fp * d12inv * 0.5
          let f12 : Nat → α := arrayOf [r12 0 * f2, r12 1 * f2, r12 2 * f2]
          let p := accumulate_pair N n1 n2 fx fy fz r12 f12 st.1 st.2.1
          let g_pe := addAt st.2.2 n1 (f * 0.5)
          (p.1, p.2, g_pe)) st)
    (g_f, g_virial, g_pe)

/-- Source function `NEP3::compute`: the memory after the call.  The vectors are given by
their sizes and their contents: `N = NN_radial.size()`,
`size_x12 = NL_radial.size()`, and `pe_size`, `force_size`, `virial_size` are
the sizes of the three output vectors. -/
def compute (m : Libm α) (paramb : ParaMB α) (annmb : ANN α) (zbl : ZBL α)
    (N size_x12 : Nat) (NN_radial NL_radial NN_angular NL_angular type : Nat → Nat)
    (r12 : Nat → α) (pe_size force_size virial_size : Nat) (mem : Memory α) : Memory α :=
  let potential_per_atom := forLoop 0 pe_size
    (fun n (p : Nat → α) => Function.update p n 0.0) mem.potential_per_atom
  let force_per_atom := forLoop 0 force_size
    (fun n (p : Nat → α) => Function.update p n 0.0) mem.force_per_atom
  let virial_per_atom := forLoop 0 virial_size
    (fun n (p : Nat → α) => Function.update p n 0.0) mem.virial_per_atom
  let d := find_descriptor_small_box m paramb annmb N NN_radial NL_radial NN_angular NL_angular
    type (shift r12 0) (shift r12 size_x12) (shift r12 (size_x12 * 2))
    (shift r12 (size_x12 * 3)) (shift r12 (size_x12 * 4)) (shift r12 (size_x12 * 5))
    potential_per_atom mem.Fp mem.sum_fxyz
  let potential_per_atom := d.1
  let Fp := d.2.1
  let sum_fxyz := d.2.2
  let fr := find_force_radial_small_box m paramb annmb N NN_radial NL_radial type
    (shift r12 0) (shift r12 size_x12) (shift r12 (size_x12 * 2)) Fp
    0 N (N * 2) force_per_atom virial_per_atom
  let fa := find_force_angular_small_box m paramb annmb N NN_angular NL_angular type
    (shift r12 (size_x12 * 3)) (shift r12 (size_x12 * 4)) (shift r12 (size_x12 * 5)) Fp sum_fxyz
    0 N (N * 2) fr.1 fr.2
  if zbl.enabled then
    let z := find_force_ZBL_small_box m N zbl NN_angular NL_angular type
      (shift r12 0) (shift r12 size_x12) (shift r12 (size_x12 * 2))
      0 N (N * 2) fa.1 fa.2 potential_per_atom
    Memory.mk z.2.2 z.1 z.2.1 Fp sum_fxyz
  else
    Memory.mk potential_per_atom fa.1 fa.2 Fp sum_fxyz

end Source

/-! ## Specification-side functions used to state the theorems -/

/-- The argument of the activation of hidden neuron `n`. -/
def annPreActivation (dim : Nat) (w0 b0 q : Nat → ℝ) (n : Nat) : ℝ :=
  (∑ d in Finset.range dim, w0 (n * dim + d) * q d) - b0 n

/-- The sum of the `N` entries of the array `f` that start at offset `off`. -/
def blockSum {α : Type} [AddCommMonoid α] (f : Nat → α) (off N : Nat) : α :=
  ∑ i in Finset.range N, f (off + i)

/-- Chebyshev polynomials of the first kind, by their three-term recursion. -/
def chebT {α : Type} [LinearOrderedField α] (x : α) : Nat → α
  | 0 => 1
  | 1 => x
  | n + 2 => 2 * x * chebT x (n + 1) - chebT x n

/-- Chebyshev polynomials of the second kind, by their three-term recursion. -/
def chebU {α : Type} [LinearOrderedField α] (x : α) : Nat → α
  | 0 => 1
  | 1 => 2 * x
  | n + 2 => 2 * x * chebU x (n + 1) - chebU x n

/-- The memory after `compute` on a two-atom system: model tag `nep` (version 2,
no ZBL), one atom type, `rc_radial = 2`, `rc_angular = 0.5`, `n_max_radial = 0`,
`n_max_angular = 0`, `L_max = 4` (so `dim = 5`), one hidden neuron, all weights
`1`, all biases `0`, all scalers `1`; atom 0 at `(x, 0, 0)` and atom 1 at
`(1, 0, 0)`.  Each atom is the single radial neighbour of the other, with
displacement `position(neighbour) - position(atom)`, and there are no angular
neighbours: for `|x| < 1/2` these are exactly the atoms within the cutoffs. -/
def twoAtomCompute {α : Type} [LinearOrderedField α] (m : Libm α) (x : α) : Memory α :=
  compute m
    (ParaMB.mk 2 2 0.5 0.5 2 0 0 4 4 4 0 0 1 1 1 (fun _ => 1))
    (ANN.mk 5 1 8 (fun _ => 1) (fun _ => 0) (fun _ => 1) (fun _ => 0) (fun _ => 0))
    (ZBL.mk false 1 2 (fun _ => 0))
    2 2 (arrayOf [1, 1]) (arrayOf [1, 0]) (fun _ => 0) (fun _ => 0) (fun _ => 0)
    (arrayOf [1 - x, x - 1]) 2 6 18
    (Memory.mk (fun _ => 0) (fun _ => 0) (fun _ => 0) (fun _ => 0) (fun _ => 0))

/-- The total energy `compute` returns for the two-atom system. -/
def twoAtomEnergy {α : Type} [LinearOrderedField α] (m : Libm α) (x : α) : α :=
  (twoAtomCompute m x).potential_per_atom 0 + (twoAtomCompute m x).potential_per_atom 1

/-- The x component of the force `compute` returns for atom 0 of the two-atom system. -/
def twoAtomForceX {α : Type} [LinearOrderedField α] (m : Libm α) (x : α) : α :=
  (twoAtomCompute m x).force_per_atom 0

/-! ## The constructor (source lines 46-198) -/

/-- Source constant `NUM_ELEMENTS`. -/
def NUM_ELEMENTS : Nat := 103

/-- Source constant `ELEMENTS`: the element symbols, by atomic number minus one. -/
def ELEMENTS : List String := [
  "H",  "He", "Li", "Be", "B",  "C",  "N",  "O",  "F",  "Ne", "Na", "Mg", "Al", "Si", "P",
  "S",  "Cl", "Ar", "K",  "Ca", "Sc", "Ti", "V",  "Cr", "Mn", "Fe", "Co", "Ni", "Cu", "Zn",
  "Ga", "Ge", "As", "Se", "Br", "Kr", "Rb", "Sr", "Y",  "Zr", "Nb", "Mo", "Tc", "Ru", "Rh",
  "Pd", "Ag", "Cd", "In", "Sn", "Sb", "Te", "I",  "Xe", "Cs", "Ba", "La", "Ce", "Pr", "Nd",
  "Pm", "Sm", "Eu", "Gd", "Tb", "Dy", "Ho", "Er", "Tm", "Yb", "Lu", "Hf", "Ta", "W",  "Re",
  "Os", "Ir", "Pt", "Au", "Hg", "Tl", "Pb", "Bi", "Po", "At", "Rn", "Fr", "Ra", "Ac", "Th",
  "Pa", "U",  "Np", "Pu", "Am", "Cm", "Bk", "Cf", "Es", "Fm", "Md", "No", "Lr"]

/-- The tokens of `nep.txt` in the order the constructor reads them, already
converted by `operator>>`; the labels read into `name` are dropped.  The
tokens `zbl_rc_inner`, `zbl_rc_outer` are present in the file only when the
tag enables ZBL, and `L_max_4body`, `L_max_5body` only when the version is
not 2. -/
structure ModelFile (α : Type) where
  nep_name : String
  num_types : Nat
  element : Nat → String
  zbl_rc_inner : α
  zbl_rc_outer : α
  rc_radial : α
  rc_angular : α
  n_max_radial : Nat
  n_max_angular : Nat
  basis_size_radial : Nat
  basis_size_angular : Nat
  L_max : Nat
  L_max_4body : Nat
  L_max_5body : Nat
  num_neurons1 : Nat
  num_neurons2 : Nat
  parameters : Nat → α
  q_scaler : Nat → α

/-- The data members of a `NEP3` object that `nep.cpp` assigns: the three
records, the vector `parameters` and the sizes given to the vectors
`parameters`, `Fp` and `sum_fxyz`. -/
structure NEP3 (α : Type) where
  paramb : ParaMB α
  annmb : ANN α
  zbl : ZBL α
  parameters : Nat → α
  parameters_size : Nat
  Fp_size : Nat
  sum_fxyz_size : Nat

section Constructor

variable {α : Type} [LinearOrderedField α]

/-- Source function `NEP3::update_potential`: the record `ann` with its five
views set. -/
def update_potential (parameters : Nat → α) (ann : ANN α) : ANN α :=
  let w0 := parameters
  let b0 := shift w0 (ann.num_neurons1 * ann.dim)
  let w1 := shift b0 ann.num_neurons1
  let b1 := shift w1 ann.num_neurons1
  let c := shift b1 1
  ANN.mk ann.dim ann.num_neurons1 ann.num_para w0 b0 w1 b1 c

/-- The local `atomic_number` after the search loop of the constructor (source
lines 94-100): `m + 1` for the first `m < NUM_ELEMENTS` with
`element == ELEMENTS[m]`, and `0` when there is none.  Loop state:
`(atomic_number, left by break)`. -/
def atomic_number_of (element : String) : Nat :=
  (forLoop 0 NUM_ELEMENTS
    (fun m (st : Nat × Bool) =>
      if st.2 then st
      else if element = ELEMENTS.getD m "" then (m + 1, true)
      else st)
    (0, false)).1

/-- The final value of the local `num_para_descriptor` of the constructor
(source lines 158-166). -/
def num_para_descriptor (paramb : ParaMB α) : Nat :=
  let num_para_descriptor := paramb.num_types * paramb.num_types *
    ((paramb.n_max_radial + 1) * (paramb.basis_size_radial + 1) +
      (paramb.n_max_angular + 1) * (paramb.basis_size_angular + 1))
  if paramb.version = 2 then
    if paramb.num_types = 1 then 0
    else paramb.num_types * paramb.num_types * (paramb.n_max_radial + paramb.n_max_angular + 2)
  else
    num_para_descriptor

/-- Source function `NEP3::NEP3(int N)`: the object after construction from
the tokens of `nep.txt`, where `init` holds the values the data members have
when the body of the constructor starts (`nep.h` sets them).  Printing and the
exit on a missing file are left out. -/
def NEP3.ctor (init : NEP3 α) (file : ModelFile α) (N : Nat) : NEP3 α :=
  let version : Nat :=
    if file.nep_name = "nep" then 2
    else if file.nep_name = "nep_zbl" then 2
    else if file.nep_name = "nep3" then 3
    else if file.nep_name = "nep3_zbl" then 3
    else init.paramb.version
  let enabled : Bool :=
    if file.nep_name = "nep" then false
    else if file.nep_name = "nep_zbl" then true
    else if file.nep_name = "nep3" then false
    else if file.nep_name = "nep3_zbl" then true
    else init.zbl.enabled
  let num_types := file.num_types
  let atomic_numbers := forLoop 0 num_types
    (fun n (a : Nat → α) => Function.update a n ((atomic_number_of (file.element n) : Nat) : α))
    init.zbl.atomic_numbers
  let rc_inner := if enabled then file.zbl_rc_inner else init.zbl.rc_inner
  let rc_outer := if enabled then file.zbl_rc_outer else init.zbl.rc_outer
  let rc_radial := file.rc_radial
  let rc_angular := file.rc_angular
  let n_max_radial := file.n_max_radial
  let n_max_angular := file.n_max_angular
  let basis_size_radial := file.basis_size_radial
  let basis_size_angular := file.basis_size_angular
  let L_max_4body : Nat := if version = 2 then 0 else file.L_max_4body
  let L_max_5body : Nat := if version = 2 then 0 else file.L_max_5body
  let L_max := file.L_max
  let num_L := L_max
  let num_L :=
    if version = 3 then
      let num_L := if L_max_4body = 2 then num_L + 1 else num_L
      if L_max_5body = 1 then num_L + 1 else num_L
    else num_L
  let dim_angular := (n_max_angular + 1) * num_L
  let num_neurons1 := file.num_neurons1
  let rcinv_radial := 1.0 / rc_radial
  let rcinv_angular := 1.0 / rc_angular
  let dim := (n_max_radial + 1) + (n_max_angular + 1) * num_L
  let num_para := (dim + 2) * num_neurons1 + 1
  let num_types_sq := num_types * num_types
  let num_c_radial := num_types_sq * (n_max_radial + 1) * (basis_size_radial + 1)
  let paramb : ParaMB α :=
    ParaMB.mk version rc_radial rc_angular rcinv_radial rcinv_angular n_max_radial n_max_angular
      L_max dim_angular num_L basis_size_radial basis_size_angular num_types_sq num_c_radial
      num_types init.paramb.q_scaler
  let num_para := num_para + num_para_descriptor paramb
  let parameters := forLoop 0 num_para
    (fun n (p : Nat → α) => Function.update p n (file.parameters n)) (fun _ => 0)
  let annmb := update_potential parameters
    (ANN.mk dim num_neurons1 num_para init.annmb.w0 init.annmb.b0 init.annmb.w1 init.annmb.b1
      init.annmb.c)
  let q_scaler := forLoop 0 dim
    (fun d (q : Nat → α) => Function.update q d (file.q_scaler d)) init.paramb.q_scaler
  let paramb : ParaMB α :=
    ParaMB.mk version rc_radial rc_angular rcinv_radial rcinv_angular n_max_radial n_max_angular
      L_max dim_angular num_L basis_size_radial basis_size_angular num_types_sq num_c_radial
      num_types q_scaler
  NEP3.mk paramb annmb (ZBL.mk enabled rc_inner rc_outer atomic_numbers) parameters num_para
    (N * dim) (N * (n_max_angular + 1) * NUM_OF_ABC)

end Constructor

/-! ## The parts of `find_descriptor_small_box` as functions

The body of the atom loop of `find_descriptor_small_box` (source lines
932-1020), cut into the pieces that the theorems speak about.  The theorem
`find_descriptor_small_box_eq` states that the stage is the loop over these
pieces. -/

section DescriptorParts

variable {α : Type} [LinearOrderedField α]

/-- The body of the radial neighbour loop (source lines 936-963): the new `q`
after slot `i1` of atom `n1`. -/
def radial_slot_step (m : Libm α) (paramb : ParaMB α) (annmb : ANN α) (N : Nat)
    (g_NL_radial g_type : Nat → Nat) (g_x12_radial g_y12_radial g_z12_radial : Nat → α)
    (n1 i1 : Nat) (q : Nat → α) : Nat → α :=
  let t1 := g_type n1
  let index := i1 * N + n1
  let n2 := g_NL_radial index
  let r12 : Nat → α := arrayOf [g_x12_radial index, g_y12_radial index, g_z12_radial index]
  let d12 := m.sqrt (r12 0 * r12 0 + r12 1 * r12 1 + r12 2 * r12 2)
  let fc12 := find_fc m.cos paramb.rc_radial paramb.rcinv_radial d12
  let t2 := g_type n2
  let fn12 : Nat → α := fun _ => 0
  if paramb.version = 2 then
    let fn12 := find_fn_all paramb.n_max_radial paramb.rcinv_radial d12 fc12 fn12
    forLoop 0 (paramb.n_max_radial + 1)
      (fun n (q : Nat → α) =>
        let c := if paramb.num_types = 1 then 1.0
          else annmb.c ((n * paramb.num_types + t1) * paramb.num_types + t2)
        addAt q n (fn12 n * c)) q
  else
    let fn12 := find_fn_all paramb.basis_size_radial paramb.rcinv_radial d12 fc12 fn12
    forLoop 0 (paramb.n_max_radial + 1)
      (fun n (q : Nat → α) =>
        let gn12 := forLoop 0 (paramb.basis_size_radial + 1)
          (fun k (gn12 : α) =>
            let c_index := (n * (paramb.basis_size_radial + 1) + k) * paramb.num_types_sq
            let c_index := c_index + (t1 * paramb.num_types + t2)
            gn12 + fn12 k * annmb.c c_index) (0.0 : α)
        addAt q n gn12) q

/-- The array `q` after the radial neighbour loop of atom `n1` (source lines
933-964). -/
def radial_descriptor (m : Libm α) (paramb : ParaMB α) (annmb : ANN α) (N : Nat)
    (g_NN_radial g_NL_radial g_type : Nat → Nat)
    (g_x12_radial g_y12_radial g_z12_radial : Nat → α) (n1 : Nat) : Nat → α :=
  forLoop 0 (g_NN_radial n1)
    (fun i1 (q : Nat → α) =>
      radial_slot_step m paramb annmb N g_NL_radial g_type g_x12_radial g_y12_radial
        g_z12_radial n1 i1 q)
    (fun _ => 0.0)

/-- The body of the angular neighbour loop (source lines 969-995): the new
moments `s` of channel `n` after slot `i1` of atom `n1`. -/
def angular_slot_step (m : Libm α) (paramb : ParaMB α) (annmb : ANN α) (N : Nat)
    (g_NL_angular g_type : Nat → Nat) (g_x12_angular g_y12_angular g_z12_angular : Nat → α)
    (n1 n i1 : Nat) (s : Nat → α) : Nat → α :=
  let t1 := g_type n1
  let index := i1 * N + n1
  let n2 := g_NL_angular index
  let r12 : Nat → α := arrayOf [g_x12_angular index, g_y12_angular index, g_z12_angular index]
  let d12 := m.sqrt (r12 0 * r12 0 + r12 1 * r12 1 + r12 2 * r12 2)
  let fc12 := find_fc m.cos paramb.rc_angular paramb.rcinv_angular d12
  let t2 := g_type n2
  if paramb.version = 2 then
    let fn := find_fn n paramb.rcinv_angular d12 fc12
    let fn := fn *
      (if paramb.num_types = 1 then 1.0
       else annmb.c
        (((paramb.n_max_radial + 1 + n) * paramb.num_types + t1) * paramb.num_types + t2))
    accumulate_s d12 (r12 0) (r12 1) (r12 2) fn s
  else
    let fn12 : Nat → α := fun _ => 0
    let fn12 := find_fn_all paramb.basis_size_angular paramb.rcinv_angular d12 fc12 fn12
    let gn12 := forLoop 0 (paramb.basis_size_angular + 1)
      (fun k (gn12 : α) =>
        let c_index := (n * (paramb.basis_size_angular + 1) + k) * paramb.num_types_sq
        let c_index := c_index + (t1 * paramb.num_types + t2 + paramb.num_c_radial)
        gn12 + fn12 k * annmb.c c_index) (0.0 : α)
    accumulate_s d12 (r12 0) (r12 1) (r12 2) gn12 s

/-- The 24 moments `s` of channel `n` of atom `n1` after the angular neighbour
loop (source lines 967-996). -/
def angular_moments (m : Libm α) (paramb : ParaMB α) (annmb : ANN α) (N : Nat)
    (g_NN_angular g_NL_angular g_type : Nat → Nat)
    (g_x12_angular g_y12_angular g_z12_angular : Nat → α) (n1 n : Nat) : Nat → α :=
  forLoop 0 (g_NN_angular n1)
    (fun i1 (s : Nat → α) =>
      angular_slot_step m paramb annmb N g_NL_angular g_type g_x12_angular g_y12_angular
        g_z12_angular n1 n i1 s)
    (fun _ => 0.0)

/-- The call of the selected `find_q` variant on `q + (n_max_radial + 1)`
(source lines 997-1003): the new `q`. -/
def select_find_q (paramb : ParaMB α) (n : Nat) (s q : Nat → α) : Nat → α :=
  if paramb.num_L = paramb.L_max then
    unshift q (paramb.n_max_radial + 1)
      (find_q (paramb.n_max_angular + 1) n s (shift q (paramb.n_max_radial + 1)))
  else if paramb.num_L = paramb.L_max + 1 then
    unshift q (paramb.n_max_radial + 1)
      (find_q_with_4body (paramb.n_max_angular + 1) n s (shift q (paramb.n_max_radial + 1)))
  else
    unshift q (paramb.n_max_radial + 1)
      (find_q_with_5body (paramb.n_max_angular + 1) n s (shift q (paramb.n_max_radial + 1)))

/-- The loop that persists the 24 moments of channel `n` of atom `n1` (source
lines 1004-1006): the new `g_sum_fxyz`. -/
def store_sum_fxyz (N n1 n : Nat) (s g_sum_fxyz : Nat → α) : Nat → α :=
  forLoop 0 NUM_OF_ABC
    (fun abc (g : Nat → α) => Function.update g ((n * NUM_OF_ABC + abc) * N + n1) (s abc))
    g_sum_fxyz

/-- The unscaled descriptor `q` of atom `n1` after the channel loop (source
lines 933-1007). -/
def atom_descriptor (m : Libm α) (paramb : ParaMB α) (annmb : ANN α) (N : Nat)
    (g_NN_radial g_NL_radial g_NN_angular g_NL_angular g_type : Nat → Nat)
    (g_x12_radial g_y12_radial g_z12_radial g_x12_angular g_y12_angular g_z12_angular : Nat → α)
    (n1 : Nat) : Nat → α :=
  forLoop 0 (paramb.n_max_angular + 1)
    (fun n (q : Nat → α) =>
      select_find_q paramb n
        (angular_moments m paramb annmb N g_NN_angular g_NL_angular g_type g_x12_angular
          g_y12_angular g_z12_angular n1 n) q)
    (radial_descriptor m paramb annmb N g_NN_radial g_NL_radial g_type g_x12_radial
      g_y12_radial g_z12_radial n1)

/-- The scaling loop and the call of the network (source lines 1009-1015):
the values `(F, Fp)` for the unscaled descriptor `q`. -/
def atom_ann (m : Libm α) (paramb : ParaMB α) (annmb : ANN α) (q : Nat → α) :
    α × (Nat → α) :=
  let q := forLoop 0 annmb.dim
    (fun d (q : Nat → α) => Function.update q d (q d * paramb.q_scaler d)) q
  let F : α := 0.0
  let Fp : Nat → α := fun _ => 0.0
  apply_ann_one_layer m.tanh annmb.dim annmb.num_neurons1 annmb.w0 annmb.b0
    annmb.w1 annmb.b1 q F Fp

/-- The loop that persists the gradient of atom `n1` (source lines 1018-1020):
the new `g_Fp`. -/
def store_Fp (paramb : ParaMB α) (annmb : ANN α) (N n1 : Nat) (Fp g_Fp : Nat → α) : Nat → α :=
  forLoop 0 annmb.dim
    (fun d (g_Fp : Nat → α) => Function.update g_Fp (d * N + n1) (Fp d * paramb.q_scaler d))
    g_Fp

end DescriptorParts

/-! ## Specification-side functions for the invariants, the variants and ZBL -/

/-- The first moment index of degree `L` (degrees 1 to 4 own 0..2, 3..7, 8..14, 15..23). -/
def degreeFirst : Nat → Nat
  | 1 => 0
  | 2 => 3
  | 3 => 8
  | 4 => 15
  | _ => 0

/-- The last moment index of degree `L`. -/
def degreeLast : Nat → Nat
  | 1 => 2
  | 2 => 7
  | 3 => 14
  | 4 => 23
  | _ => 0

/-- The universal ZBL screening function: four exponential terms in the
scaled distance `x`. -/
def zbl_phi {α : Type} [LinearOrderedField α] (exp : α → α) (x : α) : α :=
  0.18175 * exp (-3.1998 * x) + 0.50986 * exp (-0.94229 * x) +
    0.28022 * exp (-0.4029 * x) + 0.02817 * exp (-0.20162 * x)

/-- The polynomial in the normalised components `x12`, `y12`, `z12` that
`accumulate_s` multiplies by `fn` and adds to `s[i]` (source lines 848-872). -/
def moment_poly {α : Type} [LinearOrderedField α] (i : Nat) (x12 y12 z12 : α) : α :=
  match i with
  | 0 => z12
  | 1 => x12
  | 2 => y12
  | 3 => 3.0 * (z12 * z12) - 1.0
  | 4 => x12 * z12
  | 5 => y12 * z12
  | 6 => x12 * x12 - y12 * y12
  | 7 => 2.0 * x12 * y12
  | 8 => (5.0 * (z12 * z12) - 3.0) * z12
  | 9 => (5.0 * (z12 * z12) - 1.0) * x12
  | 10 => (5.0 * (z12 * z12) - 1.0) * y12
  | 11 => (x12 * x12 - y12 * y12) * z12
  | 12 => 2.0 * x12 * y12 * z12
  | 13 => (x12 * x12 - 3.0 * y12 * y12) * x12
  | 14 => (3.0 * x12 * x12 - y12 * y12) * y12
  | 15 => (35.0 * (z12 * z12) - 30.0) * (z12 * z12) + 3.0
  | 16 => (7.0 * (z12 * z12) - 3.0) * x12 * z12
  | 17 => (7.0 * (z12 * z12) - 3.0) * y12 * z12
  | 18 => (7.0 * (z12 * z12) - 1.0) * (x12 * x12 - y12 * y12)
  | 19 => (7.0 * (z12 * z12) - 1.0) * x12 * y12 * 2.0
  | 20 => (x12 * x12 - 3.0 * (y12 * y12)) * x12 * z12
  | 21 => (3.0 * (x12 * x12) - y12 * y12) * y12 * z12
  | 22 => (x12 * x12 - y12 * y12) * (x12 * x12 - y12 * y12) - 4.0 * (x12 * x12) * (y12 * y12)
  | 23 => 4.0 * x12 * y12 * (x12 * x12 - y12 * y12)
  | _ => 0

/-- The moments `s` of a list of `n` neighbours with displacements
`(x k, y k, z k)` and radial weights `fn k`: the array that the neighbour loop
of `find_descriptor_small_box` (source lines 967-996) accumulates, with the
weight of each neighbour given. -/
def accumulate_s_all {α : Type} [LinearOrderedField α] (sqrt : α → α) (n : Nat)
    (x y z fn : Nat → α) : Nat → α :=
  forLoop 0 n
    (fun k (s : Nat → α) =>
      let r12 : Nat → α := arrayOf [x k, y k, z k]
      let d12 := sqrt (r12 0 * r12 0 + r12 1 * r12 1 + r12 2 * r12 2)
      accumulate_s d12 (r12 0) (r12 1) (r12 2) (fn k) s)
    (fun _ => 0.0)

/-- Component `i` of the displacements `(x k, y k, z k)` after the linear map
with matrix `R`: the array `k ↦ R i 0 * x k + R i 1 * y k + R i 2 * z k`. -/
def rotated {α : Type} [LinearOrderedField α] (R : Matrix (Fin 3) (Fin 3) α)
    (x y z : Nat → α) (i : Fin 3) : Nat → α :=
  fun k => R i 0 * x k + R i 1 * y k + R i 2 * z k

section AtomStep

variable {α : Type} [LinearOrderedField α]

/-- The body of the atom loop of `find_descriptor_small_box` (source lines
932-1020): the arrays `(g_pe, g_Fp, g_sum_fxyz)` after the iteration for atom
`n1`, started from the arrays `st`. -/
def descriptor_atom_step (m : Libm α) (paramb : ParaMB α) (annmb : ANN α) (N : Nat)
    (g_NN_radial g_NL_radial g_NN_angular g_NL_angular g_type : Nat → Nat)
    (g_x12_radial g_y12_radial g_z12_radial g_x12_angular g_y12_angular g_z12_angular : Nat → α)
    (n1 : Nat) (st : (Nat → α) × (Nat → α) × (Nat → α)) :
    (Nat → α) × (Nat → α) × (Nat → α) :=
  let q := atom_descriptor m paramb annmb N g_NN_radial g_NL_radial g_NN_angular g_NL_angular
    g_type g_x12_radial g_y12_radial g_z12_radial g_x12_angular g_y12_angular g_z12_angular n1
  let r := atom_ann m paramb annmb q
  (addAt st.1 n1 r.1,
   store_Fp paramb annmb N n1 r.2 st.2.1,
   forLoop 0 (paramb.n_max_angular + 1)
    (fun n (g : Nat → α) =>
      store_sum_fxyz N n1 n
        (angular_moments m paramb annmb N g_NN_angular g_NL_angular g_type g_x12_angular
          g_y12_angular g_z12_angular n1 n) g) st.2.2)

end AtomStep

/-- The number of invariants per channel that the `find_q` variant selected by
the descriptor stage writes (source lines 997-1003): 4 for `find_q`, 5 for
`find_q_with_4body`, 6 for `find_q_with_5body`. -/
def variant_blocks {α : Type} (paramb : ParaMB α) : Nat :=
  if paramb.num_L = paramb.L_max then 4
  else if paramb.num_L = paramb.L_max + 1 then 5
  else 6

/-- An engine before construction, all members zero: the `init` argument of
`NEP3.ctor` in the examples. -/
def blankEngine {α : Type} [LinearOrderedField α] : NEP3 α :=
  NEP3.mk (ParaMB.mk 0 0 0 0 0 0 0 0 0 0 0 0 0 0 0 (fun _ => 0))
    (ANN.mk 0 0 0 (fun _ => 0) (fun _ => 0) (fun _ => 0) (fun _ => 0) (fun _ => 0))
    (ZBL.mk false 0 0 (fun _ => 0)) (fun _ => 0) 0 0 0

/-- A model file with tag `nep3` (version 3, no ZBL), one atom type `H`,
`n_max_radial = n_max_angular = 0`, `basis_size_radial = basis_size_angular = 0`,
the given `L_max`, no 4-body and 5-body invariants, one neuron, all parameters
`0` and all scalers `1`. -/
def demoFile {α : Type} [LinearOrderedField α] (L_max : Nat) : ModelFile α :=
  ModelFile.mk "nep3" 1 (fun _ => "H") 0 0 1 1 0 0 0 0 L_max 0 0 1 0 (fun _ => 0) (fun _ => 1)

/-- The homogeneous polynomial of degree `L` in the displacement `(x12, y12, z12)`
that belongs to the moment `s[i]` of degree `L`: `moment_poly i` of the normalised
displacement times `d12 ^ L`, with `d12 ^ 2` written `x12 * x12 + y12 * y12 + z12 * z12`.
These are the polynomials whose derivatives `get_f12_1` .. `get_f12_4` spell out
(source lines 406-682). -/
def moment_hom {α : Type} [LinearOrderedField α] (i : Nat) (x12 y12 z12 : α) : α :=
  match i with
  | 0 => z12
  | 1 => x12
  | 2 => y12
  | 3 => 3 * (z12 * z12) - (x12 * x12 + y12 * y12 + z12 * z12)
  | 4 => x12 * z12
  | 5 => y12 * z12
  | 6 => x12 * x12 - y12 * y12
  | 7 => 2 * x12 * y12
  | 8 => (5 * (z12 * z12) - 3 * (x12 * x12 + y12 * y12 + z12 * z12)) * z12
  | 9 => (5 * (z12 * z12) - (x12 * x12 + y12 * y12 + z12 * z12)) * x12
  | 10 => (5 * (z12 * z12) - (x12 * x12 + y12 * y12 + z12 * z12)) * y12
  | 11 => (x12 * x12 - y12 * y12) * z12
  | 12 => 2 * x12 * y12 * z12
  | 13 => (x12 * x12 - 3 * (y12 * y12)) * x12
  | 14 => (3 * (x12 * x12) - y12 * y12) * y12
  | 15 => (35 * (z12 * z12) - 30 * (x12 * x12 + y12 * y12 + z12 * z12)) * (z12 * z12) + 3 * ((x12 *
      x12 + y12 * y12 + z12 * z12) * (x12 * x12 + y12 * y12 + z12 * z12))
  | 16 => (7 * (z12 * z12) - 3 * (x12 * x12 + y12 * y12 + z12 * z12)) * x12 * z12
  | 17 => (7 * (z12 * z12) - 3 * (x12 * x12 + y12 * y12 + z12 * z12)) * y12 * z12
  | 18 => (7 * (z12 * z12) - (x12 * x12 + y12 * y12 + z12 * z12)) * (x12 * x12 - y12 * y12)
  | 19 => (7 * (z12 * z12) - (x12 * x12 + y12 * y12 + z12 * z12)) * x12 * y12 * 2
  | 20 => (x12 * x12 - 3 * (y12 * y12)) * x12 * z12
  | 21 => (3 * (x12 * x12) - y12 * y12) * y12 * z12
  | 22 => (x12 * x12 - y12 * y12) * (x12 * x12 - y12 * y12) - 4 * (x12 * x12) * (y12 * y12)
  | 23 => 4 * x12 * y12 * (x12 * x12 - y12 * y12)
  | _ => 0

/-- The moments of one channel after one more neighbour: `s` holds the moments of
the other neighbours, and `accumulate_s` adds the neighbour at displacement
`(x12, y12, z12)` with `d12 = sqrt(x12^2 + y12^2 + z12^2)` and the radial weight
`g(d12)`, as the neighbour loop of `find_descriptor_small_box` does (source lines
972 and 994). -/
def pair_moments {α : Type} [LinearOrderedField α] (sqrt g : α → α) (s : Nat → α)
    (x12 y12 z12 : α) : Nat → α :=
  let d12 := sqrt (x12 * x12 + y12 * y12 + z12 * z12)
  accumulate_s d12 x12 y12 z12 (g d12) s

/-- The memory after `compute` on a one-atom system with the ZBL correction
enabled (`rc_inner = 1`, `rc_outer = 2`, atomic number 1), whose radial list is
empty (`NN_radial[0] = 0`, `NL_radial` has one unused slot, `size_x12 = 1`) and
whose angular list has one neighbour in slot 0 (`NN_angular[0] = 1`, the
neighbour is a periodic image of atom 0).  The buffer `r12` has six entries:
`r12[0..2]` is the displacement of the unused radial slot 0 and `r12[3..5]` the
displacement of angular slot 0.  The model `(paramb, annmb)` is arbitrary. -/
def zblSlotCompute {α : Type} [LinearOrderedField α] (m : Libm α) (paramb : ParaMB α)
    (annmb : ANN α) (r12 : Nat → α) (mem : Memory α) : Memory α :=
  compute m paramb annmb (ZBL.mk true 1 2 (fun _ => 1)) 1 1
    (fun _ => 0) (fun _ => 0) (fun _ => 1) (fun _ => 0) (fun _ => 0) r12 1 3 9 mem

section CoefficientIndex

variable {α : Type}

end CoefficientIndex

/-- The matrix of the rotation about the z axis by the angle with cosine `c`
and sine `s`: it maps `(x, y, z)` to `(c x - s y, s x + c y, z)`. -/
def rotationZ {α : Type} [LinearOrderedField α] (c s : α) : Matrix (Fin 3) (Fin 3) α :=
  Matrix.of ![![c, -s, 0], ![s, c, 0], ![0, 0, 1]]

/-- The pairs of moments of `accumulate_s` (source lines 848-872) that are the
real and the imaginary part of one complex moment, as `(re, im, m)`: `s[re]`
holds the multiple of `Re (x + i y)^m` and `s[im]` the same multiple of
`Im (x + i y)^m`. -/
def momentPairs : List (Nat × Nat × Nat) :=
  [(1, 2, 1), (4, 5, 1), (6, 7, 2), (9, 10, 1), (11, 12, 2), (13, 14, 3),
    (16, 17, 1), (18, 19, 2), (20, 21, 3), (22, 23, 4)]

/-! ## Double arithmetic with rounding (for the two forms of `find_fn_and_fnp`) -/

/-- Number of binary digits of `n`: `0` for `0`, and `k + 1` when
`2 ^ k <= n < 2 ^ (k + 1)`.  The first argument bounds the recursion depth; any
value `>= n` will do. -/
def bitLength : Nat → Nat → Nat
  | 0, _ => 0
  | fuel + 1, n => if n = 0 then 0 else bitLength fuel (n / 2) + 1

/-- A finite `double` (IEEE 754 binary64) other than an infinity or a NaN, given
by an integer significand `m` and an exponent `e`: the value is `m * 2 ^ e`.
The operations below return either `m = 0`, `e = 0` or a significand of exactly
53 binary digits (`2 ^ 52 <= |m| < 2 ^ 53`); the exponent is not bounded, so the
model is binary64 wherever no overflow and no underflow occurs. -/
structure Binary64 where
  m : Int
  e : Int
deriving DecidableEq

namespace Binary64

/-- The `double` nearest to `m * 2 ^ e`, ties to the even significand (the
default rounding of IEEE 754). -/
def round (m e : Int) : Binary64 :=
  let n := m.natAbs
  let L := bitLength n n
  if L ≤ 53 then
    if n = 0 then ⟨0, 0⟩ else ⟨m * 2 ^ (53 - L), e - ((53 - L : Nat) : Int)⟩
  else
    let k := L - 53
    let q := n / 2 ^ k
    let r := n % 2 ^ k
    let q := if 2 * r < 2 ^ k ∨ (2 * r = 2 ^ k ∧ q % 2 = 0) then q else q + 1
    if q = 2 ^ 53 then ⟨m.sign * 2 ^ 52, e + (k : Int) + 1⟩ else ⟨m.sign * (q : Int), e + (k : Int)⟩

/-- The product of two doubles: the exact product, rounded. -/
def mul (a b : Binary64) : Binary64 :=
  round (a.m * b.m) (a.e + b.e)

/-- The sum of two doubles: the exact sum, rounded. -/
def add (a b : Binary64) : Binary64 :=
  let e := min a.e b.e
  round (a.m * 2 ^ (a.e - e).toNat + b.m * 2 ^ (b.e - e).toNat) e

/-- The difference of two doubles: the exact difference, rounded. -/
def sub (a b : Binary64) : Binary64 :=
  let e := min a.e b.e
  round (a.m * 2 ^ (a.e - e).toNat - b.m * 2 ^ (b.e - e).toNat) e

/-- The `double` nearest to the fraction `p / q` (`q > 0`): the quotient is
taken with more than 55 binary digits and one more digit records whether the
division left a remainder. -/
def ofRatio (p q : Nat) : Binary64 :=
  let s := 55 + bitLength q q
  let N := p * 2 ^ s
  round (((2 * (N / q) + (if N % q = 0 then 0 else 1) : Nat) : Int)) (-(s : Int) - 1)

/-- A `double` is normalised when it is the zero `m = 0`, `e = 0` or its
significand has exactly 53 binary digits.  The results of all operations are. -/
def normal (a : Binary64) : Prop :=
  (a.m = 0 ∧ a.e = 0) ∨ (2 ^ 52 ≤ a.m.natAbs ∧ a.m.natAbs < 2 ^ 53)

instance (a : Binary64) : Decidable a.normal :=
  inferInstanceAs (Decidable ((a.m = 0 ∧ a.e = 0) ∨ (2 ^ 52 ≤ a.m.natAbs ∧ a.m.natAbs < 2 ^ 53)))

instance : Mul Binary64 := ⟨mul⟩

instance : Add Binary64 := ⟨add⟩

instance : Sub Binary64 := ⟨sub⟩

instance : Zero Binary64 := ⟨⟨0, 0⟩⟩

/-- The conversion `int -> double`. -/
instance : NatCast Binary64 := ⟨fun n => round (n : Int) 0⟩

/-- A decimal literal `mantissa * 10 ^ (-exponent)` of the source, as the compiler
reads it: the nearest `double`. -/
instance : OfScientific Binary64 :=
  ⟨fun mantissa exponentSign exponent =>
    if exponentSign then ofRatio mantissa (10 ^ exponent)
    else round ((mantissa * 10 ^ exponent : Nat) : Int) 0⟩

end Binary64

section AnyArithmetic

variable {δ : Type} [Add δ] [Sub δ] [Mul δ] [Zero δ] [NatCast δ] [OfScientific δ]

/-- Single-order `find_fn_and_fnp` (source lines 320-358), statement by statement
as `find_fn_and_fnp` above, over any type with the operations `+`, `-`, `*`, the
conversion from `int` and decimal literals; in particular over `Binary64`, where
every operation rounds. -/
def find_fn_and_fnp_arith (n : Nat) (rcinv d12 fc12 fcp12 : δ) : δ × δ :=
  if n = 0 then
    (fc12, fcp12)
  else if n = 1 then
    let x := 2.0 * (d12 * rcinv - 1.0) * (d12 * rcinv - 1.0) - 1.0
    let fn := (x + 1.0) * 0.5
    let fnp := 2.0 * (d12 * rcinv - 1.0) * rcinv * fc12 + fn * fcp12
    let fn := fn * fc12
    (fn, fnp)
  else
    let x := 2.0 * (d12 * rcinv - 1.0) * (d12 * rcinv - 1.0) - 1.0
    let st := forLoop 2 (n + 1)
      (fun _ (st : δ × δ × δ × δ × δ × δ) =>
        let t1 := st.2.1
        let u1 := st.2.2.2.2.1
        let t2 := 2.0 * x * t1 - st.1
        let u2 := 2.0 * x * u1 - st.2.2.2.1
        (t1, t2, t2, u1, u2, u2))
      ((1.0 : δ), x, (0 : δ), (1.0 : δ), 2.0 * x, (0 : δ))
    let t2 := st.2.2.1
    let u0 := st.2.2.2.1
    let fn := (t2 + 1.0) * 0.5
    let fnp := (n : δ) * u0 * 2.0 * (d12 * rcinv - 1.0) * rcinv
    let fnp := fnp * fc12 + fn * fcp12
    let fn := fn * fc12
    (fn, fnp)

/-- All-orders `find_fn_and_fnp` (source lines 374-404), statement by statement as
`find_fn_and_fnp_all` above, over any type with the operations. -/
def find_fn_and_fnp_all_arith (n_max : Nat) (rcinv d12 fc12 fcp12 : δ) (fn fnp : Nat → δ) :
    (Nat → δ) × (Nat → δ) :=
  let x := 2.0 * (d12 * rcinv - 1.0) * (d12 * rcinv - 1.0) - 1.0
  let fn := Function.update fn 0 1.0
  let fnp := Function.update fnp 0 0.0
  let fn := Function.update fn 1 x
  let fnp := Function.update fnp 1 1.0
  let st := forLoop 2 (n_max + 1)
    (fun m (st : (Nat → δ) × (Nat → δ) × δ × δ) =>
      let fn := Function.update st.1 m (2.0 * x * st.1 (m - 1) - st.1 (m - 2))
      let u1 := st.2.2.2
      let fnp := Function.update st.2.1 m ((m : δ) * u1)
      let u2 := 2.0 * x * u1 - st.2.2.1
      (fn, fnp, u1, u2))
    (fn, fnp, (1.0 : δ), 2.0 * x)
  forLoop 0 (n_max + 1)
    (fun m (st : (Nat → δ) × (Nat → δ)) =>
      let fn := Function.update st.1 m ((st.1 m + 1.0) * 0.5)
      let fnp := Function.update st.2 m (st.2 m * (2.0 * (d12 * rcinv - 1.0) * rcinv))
      let fnp := Function.update fnp m (fnp m * fc12 + fn m * fcp12)
      let fn := Function.update fn m (fn m * fc12)
      (fn, fnp))
    (st.1, st.2.1)

/-- The values `t2` of the recursion `t2 = 2.0 * x * t1 - t0` of both forms, started
with `t0 = 1.0`, `t1 = x` (in exact arithmetic the Chebyshev polynomial `T_n(x)`). -/
def chebT_arith (x : δ) : Nat → δ
  | 0 => 1.0
  | 1 => x
  | n + 2 => 2.0 * x * chebT_arith x (n + 1) - chebT_arith x n

/-- The values `u2` of the recursion `u2 = 2.0 * x * u1 - u0` of both forms, started
with `u0 = 1.0`, `u1 = 2.0 * x` (in exact arithmetic the Chebyshev polynomial
`U_n(x)`). -/
def chebU_arith (x : δ) : Nat → δ
  | 0 => 1.0
  | 1 => 2.0 * x
  | n + 2 => 2.0 * x * chebU_arith x (n + 1) - chebU_arith x n

end AnyArithmetic

/-! ## Loop lemmas -/

section Loops

variable {σ : Type}

theorem iterate_zero (body : Nat → σ → σ) (s : σ) : iterate body 0 s = s := rfl

theorem iterate_succ (body : Nat → σ → σ) (k : Nat) (s : σ) :
    iterate body (k + 1) s = body k (iterate body k s) := rfl

theorem forLoop_zero_lo (hi : Nat) (body : Nat → σ → σ) (s : σ) :
    forLoop 0 hi body s = iterate body hi s := by
  unfold forLoop
  have h : (fun k => body (0 + k)) = body := by
    funext k; rw [Nat.zero_add]
  rw [h, Nat.sub_zero]

theorem forLoop_empty (lo hi : Nat) (h : hi ≤ lo) (body : Nat → σ → σ) (s : σ) :
    forLoop lo hi body s = s := by
  unfold forLoop
  rw [Nat.sub_eq_zero_of_le h]
  rfl

theorem forLoop_succ (lo hi : Nat) (h : lo ≤ hi) (body : Nat → σ → σ) (s : σ) :
    forLoop lo (hi + 1) body s = body hi (forLoop lo hi body s) := by
  unfold forLoop
  rw [Nat.succ_sub h, iterate_succ, Nat.add_sub_cancel' h]

/-- A loop invariant that holds before the loop and is preserved by every
iteration holds after it. -/
theorem forLoop_invariant (P : Nat → σ → Prop) (lo hi : Nat) (h : lo ≤ hi)
    (body : Nat → σ → σ) (s : σ) (h0 : P lo s)
    (hstep : ∀ i st, lo ≤ i → i < hi → P i st → P (i + 1) (body i st)) :
    P hi (forLoop lo hi body s) := by
  induction hi with
  | zero =>
    have : lo = 0 := Nat.le_zero.mp h
    subst this
    simpa [forLoop_empty] using h0
  | succ k ih =>
    rcases Nat.lt_or_ge lo (k + 1) with hlt | hge
    · have hk : lo ≤ k := Nat.lt_succ_iff.mp hlt
      rw [forLoop_succ lo k hk]
      exact hstep k _ hk (Nat.lt_succ_self k)
        (ih hk (fun i st h1 h2 hp => hstep i st h1 (Nat.lt_succ_of_lt h2) hp))
    · have : lo = k + 1 := Nat.le_antisymm h hge
      subst this
      rw [forLoop_empty _ _ (Nat.le_refl _)]
      exact h0

end Loops

section Sums

variable {α : Type} [LinearOrderedField α]

/-- An accumulation loop `acc += f d` computes a finite sum. -/
theorem iterate_add_eq_sum (f : Nat → α) (k : Nat) (a : α) :
    iterate (fun d acc => acc + f d) k a = a + ∑ d in Finset.range k, f d := by
  induction k with
  | zero => simp [iterate]
  | succ k ih => rw [iterate_succ, ih, Finset.sum_range_succ, add_assoc]

/-- A loop `ed[d] += g d` over `d < k` adds `g d` to the first `k` entries. -/
theorem iterate_update_add (g : Nat → α) (k : Nat) (ed : Nat → α) :
    iterate (fun d (e : Nat → α) => Function.update e d (e d + g d)) k ed =
      fun d => if d < k then ed d + g d else ed d := by
  induction k with
  | zero => funext d; simp [iterate]
  | succ k ih =>
    rw [iterate_succ, ih]
    funext d
    by_cases hd : d = k
    · subst hd; simp
    · rw [Function.update_noteq hd]
      by_cases hlt : d < k
      · simp [hlt, Nat.lt_succ_of_lt hlt]
      · have : ¬ d < k + 1 := by omega
        simp [hlt, this]

end Sums

/-! ## The network in closed form -/

/-- Closed form of the loop state of `apply_ann_one_layer` after `k` neurons. -/
theorem ann_loop_closed_form (dim : Nat) (w0 b0 w1 q : Nat → ℝ) (energy : ℝ)
    (ed : Nat → ℝ) (k : Nat) :
    iterate
      (fun n (st : ℝ × (Nat → ℝ)) =>
        let w0_times_q := forLoop 0 dim (fun d acc => acc + w0 (n * dim + d) * q d) (0.0 : ℝ)
        let x1 := Real.tanh (w0_times_q - b0 n)
        let energy := st.1 + w1 n * x1
        let energy_derivative := forLoop 0 dim
          (fun d (ed : Nat → ℝ) =>
            let y1 := (1.0 - x1 * x1) * w0 (n * dim + d)
            Function.update ed d (ed d + w1 n * y1)) st.2
        (energy, energy_derivative)) k (energy, ed) =
    (energy + ∑ n in Finset.range k, w1 n * Real.tanh (annPreActivation dim w0 b0 q n),
     fun d => if d < dim then
        ed d + ∑ n in Finset.range k,
          w1 n * ((1 - Real.tanh (annPreActivation dim w0 b0 q n) ^ 2) * w0 (n * dim + d))
      else ed d) := by
  induction k with
  | zero => simp [iterate]
  | succ k ih =>
    rw [iterate_succ, ih]
    simp only [forLoop_zero_lo, iterate_add_eq_sum, Finset.sum_range_succ]
    rw [iterate_update_add]
    refine Prod.ext ?_ ?_
    · simp only [annPreActivation]
      norm_num
      ring
    · funext d
      simp only [annPreActivation]
      by_cases hd : d < dim
      · simp only [hd, if_true]
        norm_num
        ring
      · simp [hd]

/-- Closed form of the energy `apply_ann_one_layer` returns when started from
`energy = 0`. -/
theorem ann_energy_closed_form (dim num_neurons1 : Nat) (w0 b0 w1 b1 q : Nat → ℝ)
    (energy_derivative : Nat → ℝ) :
    (apply_ann_one_layer Real.tanh dim num_neurons1 w0 b0 w1 b1 q 0 energy_derivative).1 =
      (∑ n in Finset.range num_neurons1,
          w1 n * Real.tanh (annPreActivation dim w0 b0 q n)) - b1 0 := by
  unfold apply_ann_one_layer
  rw [forLoop_zero_lo, ann_loop_closed_form]
  simp

/-- C1. Started from `energy = 0`, `apply_ann_one_layer` returns
`Σ_{n < num_neurons1} w1[n] * tanh(Σ_{d < dim} w0[n*dim+d] * q[d] - b0[n]) - b1[0]`,
for every `dim`, `num_neurons1`, weights, input `q` and prior contents of
`energy_derivative`. -/
theorem apply_ann_one_layer_energy (dim num_neurons1 : Nat) (w0 b0 w1 b1 q : Nat → ℝ)
    (energy_derivative : Nat → ℝ) :
    (apply_ann_one_layer Real.tanh dim num_neurons1 w0 b0 w1 b1 q 0 energy_derivative).1 =
      (∑ n in Finset.range num_neurons1,
          w1 n * Real.tanh ((∑ d in Finset.range dim, w0 (n * dim + d) * q d) - b0 n)) -
        b1 0 := by
  rw [ann_energy_closed_form]
  rfl

/-- The derivative of `tanh` is `1 - tanh ^ 2`. -/
theorem hasDerivAt_tanh (x : ℝ) : HasDerivAt Real.tanh (1 - Real.tanh x ^ 2) x := by
  have hc : Real.cosh x ≠ 0 := (Real.cosh_pos x).ne'
  have h := (Real.hasDerivAt_sinh x).div (Real.hasDerivAt_cosh x) hc
  have hfun : (fun y => Real.sinh y / Real.cosh y) = Real.tanh := by
    funext y; rw [Real.tanh_eq_sinh_div_cosh]
  rw [hfun] at h
  convert h using 1
  rw [Real.tanh_eq_sinh_div_cosh]
  field_simp
  linear_combination (-1 : ℝ) * Real.cosh_sq x

/-- The pre-activation of neuron `n` is affine in `q[d]` with slope `w0[n*dim+d]`. -/
theorem hasDerivAt_annPreActivation (dim : Nat) (w0 b0 q : Nat → ℝ) (n d : Nat)
    (hd : d < dim) :
    HasDerivAt (fun t => annPreActivation dim w0 b0 (Function.update q d t) n)
      (w0 (n * dim + d)) (q d) := by
  unfold annPreActivation
  have hterm : ∀ i ∈ Finset.range dim,
      HasDerivAt (fun t => w0 (n * dim + i) * Function.update q d t i)
        (if i = d then w0 (n * dim + i) else 0) (q d) := by
    intro i _
    by_cases hi : i = d
    · subst hi
      simp only [Function.update_same, if_true]
      simpa using (hasDerivAt_id (q i)).const_mul (w0 (n * dim + i))
    · simp only [Function.update_noteq hi, hi, if_false]
      exact hasDerivAt_const _ _
  have hsum := HasDerivAt.sum hterm
  have hval : (∑ i in Finset.range dim, if i = d then w0 (n * dim + i) else 0) =
      w0 (n * dim + d) := by
    rw [Finset.sum_ite_eq' (Finset.range dim) d]
    simp [hd]
  rw [hval] at hsum
  have h2 := hsum.sub_const (b0 n)
  convert h2 using 1

/-- C2. For `d < dim`, the entry `energy_derivative[d]` (started from 0) that
`apply_ann_one_layer` returns is `Σ_n w1[n] * (1 - tanh(z_n)^2) * w0[n*dim+d]`
with `z_n = Σ_d w0[n*dim+d]*q[d] - b0[n]`, and this number is the derivative
of the returned energy with respect to `q[d]`. -/
theorem apply_ann_one_layer_gradient (dim num_neurons1 : Nat) (w0 b0 w1 b1 q : Nat → ℝ)
    (d : Nat) (hd : d < dim) :
    (apply_ann_one_layer Real.tanh dim num_neurons1 w0 b0 w1 b1 q 0 (fun _ => 0)).2 d =
        ∑ n in Finset.range num_neurons1,
          w1 n * (1 - Real.tanh
            ((∑ d in Finset.range dim, w0 (n * dim + d) * q d) - b0 n) ^ 2) *
            w0 (n * dim + d) ∧
      HasDerivAt
        (fun t => (apply_ann_one_layer Real.tanh dim num_neurons1 w0 b0 w1 b1
          (Function.update q d t) 0 (fun _ => 0)).1)
        ((apply_ann_one_layer Real.tanh dim num_neurons1 w0 b0 w1 b1 q 0 (fun _ => 0)).2 d)
        (q d) := by
  have hgrad : (apply_ann_one_layer Real.tanh dim num_neurons1 w0 b0 w1 b1 q 0
      (fun _ => 0)).2 d =
        ∑ n in Finset.range num_neurons1,
          w1 n * (1 - Real.tanh (annPreActivation dim w0 b0 q n) ^ 2) * w0 (n * dim + d) := by
    unfold apply_ann_one_layer
    rw [forLoop_zero_lo, ann_loop_closed_form]
    simp only [hd, if_true, zero_add]
    refine Finset.sum_congr rfl (fun n _ => ?_)
    ring
  refine ⟨hgrad, ?_⟩
  rw [hgrad]
  have hfun : (fun t => (apply_ann_one_layer Real.tanh dim num_neurons1 w0 b0 w1 b1
      (Function.update q d t) 0 (fun _ => 0)).1) =
      fun t => (∑ n in Finset.range num_neurons1,
        w1 n * Real.tanh (annPreActivation dim w0 b0 (Function.update q d t) n)) - b1 0 := by
    funext t
    rw [ann_energy_closed_form]
  rw [hfun]
  have hterm : ∀ n ∈ Finset.range num_neurons1,
      HasDerivAt (fun t => w1 n * Real.tanh (annPreActivation dim w0 b0 (Function.update q d t) n))
        (w1 n * (1 - Real.tanh (annPreActivation dim w0 b0 q n) ^ 2) * w0 (n * dim + d))
        (q d) := by
    intro n _
    have hz := hasDerivAt_annPreActivation dim w0 b0 q n d hd
    have ht := hasDerivAt_tanh (annPreActivation dim w0 b0 (Function.update q d (q d)) n)
    have hcomp := (ht.comp (q d) hz).const_mul (w1 n)
    rw [Function.update_eq_self] at hcomp
    convert hcomp using 1
    ring
  have hsum := (HasDerivAt.sum hterm).sub_const (b1 0)
  convert hsum using 1

/-- Witness of C2: one input, one neuron with weight 1, at `q = 0`. -/
theorem apply_ann_one_layer_gradient_witness :
    (0 : Nat) < 1 ∧
    ((apply_ann_one_layer Real.tanh 1 1 (fun _ => 1) (fun _ => 0) (fun _ => 1) (fun _ => 0)
        (fun _ => 0) 0 (fun _ => 0)).2 0 =
        ∑ n in Finset.range 1,
          (fun _ => (1 : ℝ)) n * (1 - Real.tanh
            ((∑ d in Finset.range 1, (fun _ => (1 : ℝ)) (n * 1 + d) * (fun _ => (0 : ℝ)) d) -
              (fun _ => (0 : ℝ)) n) ^ 2) *
            (fun _ => (1 : ℝ)) (n * 1 + 0) ∧
      HasDerivAt
        (fun t => (apply_ann_one_layer Real.tanh 1 1 (fun _ => 1) (fun _ => 0) (fun _ => 1)
          (fun _ => 0) (Function.update (fun _ => (0 : ℝ)) 0 t) 0 (fun _ => 0)).1)
        ((apply_ann_one_layer Real.tanh 1 1 (fun _ => 1) (fun _ => 0) (fun _ => 1) (fun _ => 0)
          (fun _ => 0) 0 (fun _ => 0)).2 0)
        ((fun _ => (0 : ℝ)) 0)) :=
  ⟨by decide, apply_ann_one_layer_gradient 1 1 (fun _ => 1) (fun _ => 0) (fun _ => 1)
    (fun _ => 0) (fun _ => 0) 0 (by decide)⟩


/-! ## Cutoff envelope -/

/-- The literal `3.1415927` of the source lies strictly between `π` and `π + 10⁻⁷`. -/
theorem pi_lt_literal : Real.pi < (3.1415927 : ℝ) := by
  have h := Real.pi_lt_d20
  norm_num at h ⊢
  linarith

theorem literal_sub_pi_lt : (3.1415927 : ℝ) - Real.pi < 4.7e-8 := by
  have h := Real.pi_gt_d20
  norm_num at h ⊢
  linarith

/-- The value the cosine branch takes at the cutoff is positive: the literal is not `π`. -/
theorem envelope_at_cutoff_pos : 0 < 0.5 * Real.cos (3.1415927 : ℝ) + 0.5 := by
  have h1 : Real.cos (3.1415927 : ℝ) ≠ -1 := by
    intro h
    have h2 : Real.cos ((3.1415927 : ℝ) - Real.pi) = 1 := by
      rw [Real.cos_sub_pi, h]; norm_num
    have h3 := (Real.cos_eq_one_iff_of_lt_of_lt (x := (3.1415927 : ℝ) - Real.pi)
      (by linarith [pi_lt_literal, Real.pi_pos])
      (by linarith [literal_sub_pi_lt, Real.pi_gt_three])).mp h2
    linarith [pi_lt_literal]
  have h4 := Real.neg_one_le_cos (3.1415927 : ℝ)
  have h5 : -1 < Real.cos (3.1415927 : ℝ) := lt_of_le_of_ne h4 (Ne.symm h1)
  norm_num
  linarith

theorem envelope_at_cutoff_small : 0.5 * Real.cos (3.1415927 : ℝ) + 0.5 < 1e-15 := by
  have h1 : Real.cos (3.1415927 : ℝ) = - Real.cos ((3.1415927 : ℝ) - Real.pi) := by
    rw [Real.cos_sub_pi]; ring
  have h2 := Real.one_sub_sq_div_two_le_cos (x := (3.1415927 : ℝ) - Real.pi)
  have h3 : 0 < (3.1415927 : ℝ) - Real.pi := by linarith [pi_lt_literal]
  have h4 := literal_sub_pi_lt
  have h5 : ((3.1415927 : ℝ) - Real.pi) ^ 2 < (4.7e-8 : ℝ) ^ 2 := by
    apply sq_lt_sq'
    · linarith
    · exact h4
  rw [h1]
  norm_num at h5 h2 ⊢
  linarith

/-- C5 (as stated, refuted). With `rc = 2`, `rcinv = 1/2` and `d = 1` the value
of `find_fc` is not `0.5*cos(π*d/rc) + 0.5`. -/
theorem find_fc_ne_cos_pi :
    find_fc Real.cos (2 : ℝ) (1 / 2) 1 ≠ 0.5 * Real.cos (Real.pi * 1 / 2) + 0.5 := by
  have hlt : (1 : ℝ) < 2 := by norm_num
  have hneg : Real.cos ((3.1415927 : ℝ) * (1 * (1 / 2))) < 0 := by
    apply Real.cos_neg_of_pi_div_two_lt_of_lt
    · linarith [pi_lt_literal]
    · have := literal_sub_pi_lt
      have := Real.pi_gt_three
      norm_num at *
      linarith
  have hz : Real.cos (Real.pi * 1 / 2) = 0 := by
    rw [mul_one, Real.cos_pi_div_two]
  unfold find_fc
  rw [if_pos hlt, hz]
  intro h
  norm_num at h hneg
  linarith

/-- C5 (amended). For `rc > 0`, `rcinv = 1/rc` and `0 ≤ d < rc`, `find_fc` and
the `fc` output of `find_fc_and_fcp` return `0.5*cos(3.1415927*d/rc) + 0.5`,
with the decimal literal `3.1415927` of the source in the place of `π`. -/
theorem find_fc_eq_cos_literal (rc rcinv d : ℝ) (_hrc : 0 < rc) (hinv : rcinv = 1 / rc)
    (_h0 : 0 ≤ d) (hd : d < rc) :
    find_fc Real.cos rc rcinv d = 0.5 * Real.cos (3.1415927 * d / rc) + 0.5 ∧
      (find_fc_and_fcp Real.cos Real.sin rc rcinv d).1 =
        0.5 * Real.cos (3.1415927 * d / rc) + 0.5 := by
  subst hinv
  unfold find_fc find_fc_and_fcp
  rw [if_pos hd, if_pos hd]
  have : (3.1415927 : ℝ) * (d * (1 / rc)) = 3.1415927 * d / rc := by ring
  simp only [this]
  exact ⟨trivial, trivial⟩

/-- Witness of the amended C5 at `rc = 2`, `d = 1`. -/
theorem find_fc_eq_cos_literal_witness :
    find_fc Real.cos (2 : ℝ) (1 / 2) 1 = 0.5 * Real.cos (3.1415927 * 1 / 2) + 0.5 ∧
      (find_fc_and_fcp Real.cos Real.sin (2 : ℝ) (1 / 2) 1).1 =
        0.5 * Real.cos (3.1415927 * 1 / 2) + 0.5 :=
  find_fc_eq_cos_literal 2 (1 / 2) 1 (by norm_num) (by norm_num) (by norm_num) (by norm_num)

/-- C6. For every `rc`, `rcinv` and every `d12 ≥ rc`, `find_fc` returns exactly
`0` and `find_fc_and_fcp` returns exactly `(0, 0)`. -/
theorem find_fc_zero_beyond_cutoff (rc rcinv d12 : ℝ) (h : rc ≤ d12) :
    find_fc Real.cos rc rcinv d12 = 0 ∧
      find_fc_and_fcp Real.cos Real.sin rc rcinv d12 = (0, 0) := by
  unfold find_fc find_fc_and_fcp
  rw [if_neg (not_lt.mpr h), if_neg (not_lt.mpr h)]
  norm_num

/-- Witness of C6 at `rc = 1`, `d12 = 2`. -/
theorem find_fc_zero_beyond_cutoff_witness :
    find_fc Real.cos (1 : ℝ) 1 2 = 0 ∧
      find_fc_and_fcp Real.cos Real.sin (1 : ℝ) 1 2 = (0, 0) :=
  find_fc_zero_beyond_cutoff 1 1 2 (by norm_num)

/-- The envelope tends, from below the cutoff, to the value of its cosine
branch at the cutoff. -/
theorem find_fc_tendsto_left (rc rcinv : ℝ) (hrc : 0 < rc) (hinv : rcinv = 1 / rc) :
    Filter.Tendsto (fun d => find_fc Real.cos rc rcinv d) (nhdsWithin rc (Set.Iio rc))
      (nhds (0.5 * Real.cos (3.1415927 : ℝ) + 0.5)) := by
  subst hinv
  have hcont : Continuous (fun d : ℝ => 0.5 * Real.cos (3.1415927 * (d * (1 / rc))) + 0.5) := by
    continuity
  have h1 := (hcont.tendsto rc).mono_left (nhdsWithin_le_nhds (s := Set.Iio rc))
  have hval : (0.5 : ℝ) * Real.cos (3.1415927 * (rc * (1 / rc))) + 0.5 =
      0.5 * Real.cos (3.1415927 : ℝ) + 0.5 := by
    rw [mul_one_div_cancel hrc.ne', mul_one]
  rw [hval] at h1
  refine h1.congr' ?_
  filter_upwards [self_mem_nhdsWithin] with d hd
  have hd' : d < rc := hd
  unfold find_fc
  rw [if_pos hd']

/-- C7 (as stated, refuted). With `rc = 1`, `rcinv = 1` the limit of `find_fc`
from below the cutoff is not its value at the cutoff. -/
theorem find_fc_not_continuous_at_cutoff :
    ¬ Filter.Tendsto (fun d => find_fc Real.cos (1 : ℝ) 1 d) (nhdsWithin 1 (Set.Iio 1))
      (nhds (find_fc Real.cos (1 : ℝ) 1 1)) := by
  intro h
  have h1 := find_fc_tendsto_left 1 1 (by norm_num) (by norm_num)
  have h2 := tendsto_nhds_unique h h1
  have h3 : find_fc Real.cos (1 : ℝ) 1 1 = 0 := by
    unfold find_fc
    rw [if_neg (lt_irrefl _)]
    norm_num
  have h4 := envelope_at_cutoff_pos
  rw [h3] at h2
  linarith

/-- C7 (amended). For `rc > 0` with `rcinv = 1/rc`, the limit of `find_fc` as
`d` approaches `rc` from below is `0.5*cos(3.1415927) + 0.5`, a positive number
below `10⁻¹⁵`, while the value at `d = rc` is `0`. -/
theorem find_fc_left_limit_at_cutoff (rc rcinv : ℝ) (hrc : 0 < rc) (hinv : rcinv = 1 / rc) :
    Filter.Tendsto (fun d => find_fc Real.cos rc rcinv d) (nhdsWithin rc (Set.Iio rc))
        (nhds (0.5 * Real.cos (3.1415927 : ℝ) + 0.5)) ∧
      0 < 0.5 * Real.cos (3.1415927 : ℝ) + 0.5 ∧
      0.5 * Real.cos (3.1415927 : ℝ) + 0.5 < 1e-15 ∧
      find_fc Real.cos rc rcinv rc = 0 := by
  refine ⟨find_fc_tendsto_left rc rcinv hrc hinv, envelope_at_cutoff_pos,
    envelope_at_cutoff_small, ?_⟩
  unfold find_fc
  rw [if_neg (lt_irrefl _)]
  norm_num

/-- Witness of the amended C7 at `rc = 1`. -/
theorem find_fc_left_limit_at_cutoff_witness :
    Filter.Tendsto (fun d => find_fc Real.cos (1 : ℝ) 1 d) (nhdsWithin 1 (Set.Iio 1))
        (nhds (0.5 * Real.cos (3.1415927 : ℝ) + 0.5)) ∧
      0 < 0.5 * Real.cos (3.1415927 : ℝ) + 0.5 ∧
      0.5 * Real.cos (3.1415927 : ℝ) + 0.5 < 1e-15 ∧
      find_fc Real.cos (1 : ℝ) 1 1 = 0 :=
  find_fc_left_limit_at_cutoff 1 1 (by norm_num) (by norm_num)


/-- C8 (the code at a failing input). With `rc = 2`, `rcinv = 1/2` and `d = 1`
the `fcp` returned by `find_fc_and_fcp` is not the derivative of the returned
`fc` with respect to `d`. -/
theorem find_fcp_ne_derivative :
    ¬ HasDerivAt (fun d => (find_fc_and_fcp Real.cos Real.sin (2 : ℝ) (1 / 2) d).1)
      ((find_fc_and_fcp Real.cos Real.sin (2 : ℝ) (1 / 2) 1).2) 1 := by
  intro h
  have hg : HasDerivAt (fun d : ℝ => 0.5 * Real.cos (3.1415927 * (d * (1 / 2))) + 0.5)
      (0.5 * (-Real.sin (3.1415927 * (1 * (1 / 2))) * (3.1415927 * (1 * (1 / 2))))) 1 := by
    have h1 : HasDerivAt (fun d : ℝ => 3.1415927 * (d * (1 / 2)))
        (3.1415927 * (1 * (1 / 2))) 1 :=
      ((hasDerivAt_id (1 : ℝ)).mul_const (1 / 2)).const_mul 3.1415927
    exact ((h1.cos).const_mul 0.5).add_const 0.5
  have heq : (fun d => (find_fc_and_fcp Real.cos Real.sin (2 : ℝ) (1 / 2) d).1) =ᶠ[nhds 1]
      (fun d : ℝ => 0.5 * Real.cos (3.1415927 * (d * (1 / 2))) + 0.5) := by
    filter_upwards [Iio_mem_nhds (show (1 : ℝ) < 2 by norm_num)] with d hd
    have hd' : d < 2 := hd
    unfold find_fc_and_fcp
    rw [if_pos hd']
  have hf := hg.congr_of_eventuallyEq heq
  have huniq := h.unique hf
  have hlt : (1 : ℝ) < 2 := by norm_num
  unfold find_fc_and_fcp at huniq
  rw [if_pos hlt] at huniq
  have hsin : 0 < Real.sin ((3.1415927 : ℝ) * (1 * (1 / 2))) := by
    apply Real.sin_pos_of_pos_of_lt_pi
    · norm_num
    · have := Real.pi_gt_three
      norm_num
      linarith
  norm_num at huniq hsin
  nlinarith

/-! ## Radial basis -/

section Radial

/-- A loop that rewrites entry `m` from its own old value, for `m < k`. -/
theorem iterate_update_map {α : Type} (g : Nat → α → α) (k : Nat) (f : Nat → α) :
    iterate (fun m (f : Nat → α) => Function.update f m (g m (f m))) k f =
      fun m => if m < k then g m (f m) else f m := by
  induction k with
  | zero => funext m; simp [iterate]
  | succ k ih =>
    rw [iterate_succ, ih]
    funext m
    by_cases hm : m = k
    · subst hm; simp
    · rw [Function.update_noteq hm]
      by_cases hlt : m < k
      · simp [hlt, Nat.lt_succ_of_lt hlt]
      · have : ¬ m < k + 1 := by omega
        simp [hlt, this]

variable {α : Type} [LinearOrderedField α]

theorem chebT_succ_succ (x : α) (n : Nat) :
    chebT x (n + 2) = 2 * x * chebT x (n + 1) - chebT x n := rfl

theorem chebU_succ_succ (x : α) (n : Nat) :
    chebU x (n + 2) = 2 * x * chebU x (n + 1) - chebU x n := rfl

/-- The recursion loop of the single-order `find_fn` leaves `T_n(x)` in `t2`. -/
theorem find_fn_loop (x : α) (n : Nat) (hn : 2 ≤ n) :
    (forLoop 2 (n + 1)
      (fun _ (st : α × α × α) =>
        let t2 := 2.0 * x * st.2.1 - st.1
        (st.2.1, t2, t2))
      ((1.0 : α), x, (0 : α))).2.2 = chebT x n := by
  have h := forLoop_invariant
    (fun i (st : α × α × α) =>
      st.1 = chebT x (i - 2) ∧ st.2.1 = chebT x (i - 1) ∧ (2 < i → st.2.2 = chebT x (i - 1)))
    2 (n + 1) (by omega)
    (fun _ (st : α × α × α) =>
        let t2 := 2.0 * x * st.2.1 - st.1
        (st.2.1, t2, t2))
    ((1.0 : α), x, (0 : α))
    (by
      refine ⟨?_, ?_, ?_⟩
      · norm_num [chebT]
      · norm_num [chebT]
      · intro h; omega)
    (by
      intro i st h1 _ hp
      obtain ⟨ha, hb, _⟩ := hp
      obtain ⟨j, rfl⟩ : ∃ j, i = j + 2 := ⟨i - 2, by omega⟩
      have e1 : j + 2 + 1 - 2 = j + 1 := by omega
      have e2 : j + 2 + 1 - 1 = j + 2 := by omega
      have e3 : j + 2 - 2 = j := by omega
      have e4 : j + 2 - 1 = j + 1 := by omega
      rw [e3] at ha
      rw [e4] at hb
      simp only [e1, e2]
      refine ⟨hb, ?_, fun _ => ?_⟩
      · rw [chebT_succ_succ, ha, hb]; norm_num
      · rw [chebT_succ_succ, ha, hb]; norm_num)
  have h3 := h.2.2 (by omega)
  simpa using h3

/-- Closed form of the single-order `find_fn`. -/
theorem find_fn_closed_form (n : Nat) (rcinv d12 fc12 : α) :
    find_fn n rcinv d12 fc12 =
      (chebT (2 * (d12 * rcinv - 1) * (d12 * rcinv - 1) - 1) n + 1) * (1 / 2) * fc12 := by
  unfold find_fn
  by_cases h0 : n = 0
  · subst h0
    norm_num [chebT]
  · by_cases h1 : n = 1
    · subst h1
      norm_num [chebT]
    · rw [if_neg h0, if_neg h1]
      simp only []
      rw [find_fn_loop _ n (by omega)]
      norm_num

/-- The recursion loop of the all-orders `find_fn` fills `fn[m]` with `T_m(x)`. -/
theorem find_fn_all_loop (x : α) (n_max : Nat) (fn : Nat → α) (m : Nat)
    (hm : m ≤ max n_max 1) :
    forLoop 2 (n_max + 1)
      (fun m (fn : Nat → α) => Function.update fn m (2.0 * x * fn (m - 1) - fn (m - 2)))
      (Function.update (Function.update fn 0 1.0) 1 x) m = chebT x m := by
  have hbase : ∀ k < 2, Function.update (Function.update fn 0 (1.0 : α)) 1 x k = chebT x k := by
    intro k hk
    interval_cases k
    · norm_num [chebT]
    · norm_num [chebT]
  rcases Nat.lt_or_ge n_max 1 with hlt | hge
  · rw [forLoop_empty _ _ (by omega)]
    exact hbase m (by omega)
  · have h := forLoop_invariant
      (fun i (f : Nat → α) => ∀ k < i, f k = chebT x k)
      2 (n_max + 1) (by omega)
      (fun m (fn : Nat → α) => Function.update fn m (2.0 * x * fn (m - 1) - fn (m - 2)))
      (Function.update (Function.update fn 0 1.0) 1 x)
      hbase
      (by
        intro i st h1 _ hp k hk
        by_cases hki : k = i
        · subst hki
          obtain ⟨j, rfl⟩ : ∃ j, k = j + 2 := ⟨k - 2, by omega⟩
          have e3 : j + 2 - 2 = j := by omega
          have e4 : j + 2 - 1 = j + 1 := by omega
          beta_reduce
          rw [Function.update_same, e3, e4, hp j (by omega), hp (j + 1) (by omega),
            chebT_succ_succ]
          norm_num
        · beta_reduce
          rw [Function.update_noteq hki]
          exact hp k (by omega))
    exact h m (by omega)

/-- C9. For every `n_max`, every order `n ≤ n_max` and every `rcinv`, `d12`,
`fc12` (and whatever the array held before), the all-orders `find_fn` stores
in `fn[n]` exactly the value the single-order `find_fn` returns for order `n`. -/
theorem find_fn_all_eq_find_fn (n_max n : Nat) (hn : n ≤ n_max) (rcinv d12 fc12 : α)
    (fn : Nat → α) :
    find_fn_all n_max rcinv d12 fc12 fn n = find_fn n rcinv d12 fc12 := by
  rw [find_fn_closed_form]
  unfold find_fn_all
  rw [forLoop_zero_lo, iterate_update_map (fun _ v => (v + 1.0) * 0.5 * fc12)]
  simp only [Nat.lt_succ_of_le hn, if_true]
  rw [find_fn_all_loop _ n_max fn n (le_trans hn (le_max_left _ _))]
  norm_num

/-- Witness of C9 over the rationals: order 2 of an all-orders call with `n_max = 3`. -/
theorem find_fn_all_eq_find_fn_witness :
    find_fn_all 3 (1 / 2 : ℚ) 1 (1 / 3) (fun _ => 0) 2 = find_fn 2 (1 / 2 : ℚ) 1 (1 / 3) :=
  find_fn_all_eq_find_fn 3 2 (by decide) (1 / 2) 1 (1 / 3) (fun _ => 0)

/-- The recursion loop of the single-order `find_fn_and_fnp` leaves `T_n(x)`
in `t2` and `U_{n-1}(x)` in `u0`. -/
theorem find_fn_and_fnp_loop (x : α) (n : Nat) (hn : 2 ≤ n) :
    (forLoop 2 (n + 1)
      (fun _ (st : α × α × α × α × α × α) =>
        let t1 := st.2.1
        let u1 := st.2.2.2.2.1
        let t2 := 2.0 * x * t1 - st.1
        let u2 := 2.0 * x * u1 - st.2.2.2.1
        (t1, t2, t2, u1, u2, u2))
      ((1.0 : α), x, (0 : α), (1.0 : α), 2.0 * x, (0 : α))).2.2.1 = chebT x n ∧
    (forLoop 2 (n + 1)
      (fun _ (st : α × α × α × α × α × α) =>
        let t1 := st.2.1
        let u1 := st.2.2.2.2.1
        let t2 := 2.0 * x * t1 - st.1
        let u2 := 2.0 * x * u1 - st.2.2.2.1
        (t1, t2, t2, u1, u2, u2))
      ((1.0 : α), x, (0 : α), (1.0 : α), 2.0 * x, (0 : α))).2.2.2.1 = chebU x (n - 1) := by
  have h := forLoop_invariant
    (fun i (st : α × α × α × α × α × α) =>
      st.1 = chebT x (i - 2) ∧ st.2.1 = chebT x (i - 1) ∧
        (2 < i → st.2.2.1 = chebT x (i - 1)) ∧
        st.2.2.2.1 = chebU x (i - 2) ∧ st.2.2.2.2.1 = chebU x (i - 1))
    2 (n + 1) (by omega)
    (fun _ (st : α × α × α × α × α × α) =>
        let t1 := st.2.1
        let u1 := st.2.2.2.2.1
        let t2 := 2.0 * x * t1 - st.1
        let u2 := 2.0 * x * u1 - st.2.2.2.1
        (t1, t2, t2, u1, u2, u2))
    ((1.0 : α), x, (0 : α), (1.0 : α), 2.0 * x, (0 : α))
    (by
      refine ⟨?_, ?_, ?_, ?_, ?_⟩
      · norm_num [chebT]
      · norm_num [chebT]
      · intro h; omega
      · norm_num [chebU]
      · norm_num [chebU])
    (by
      intro i st h1 _ hp
      obtain ⟨ha, hb, _, hc, hd⟩ := hp
      obtain ⟨j, rfl⟩ : ∃ j, i = j + 2 := ⟨i - 2, by omega⟩
      have e1 : j + 2 + 1 - 2 = j + 1 := by omega
      have e2 : j + 2 + 1 - 1 = j + 2 := by omega
      have e3 : j + 2 - 2 = j := by omega
      have e4 : j + 2 - 1 = j + 1 := by omega
      rw [e3] at ha hc
      rw [e4] at hb hd
      simp only [e1, e2]
      refine ⟨hb, ?_, fun _ => ?_, hd, ?_⟩
      · rw [chebT_succ_succ, ha, hb]; norm_num
      · rw [chebT_succ_succ, ha, hb]; norm_num
      · rw [chebU_succ_succ, hc, hd]; norm_num)
  obtain ⟨_, _, h3, h4, _⟩ := h
  have e : n + 1 - 2 = n - 1 := by omega
  have e' : n + 1 - 1 = n := by omega
  rw [e] at h4
  rw [e'] at h3
  exact ⟨h3 (by omega), h4⟩

/-- Closed form of the single-order `find_fn_and_fnp`. -/
theorem find_fn_and_fnp_closed_form (n : Nat) (rcinv d12 fc12 fcp12 : α) :
    find_fn_and_fnp n rcinv d12 fc12 fcp12 =
      ((chebT (2 * (d12 * rcinv - 1) * (d12 * rcinv - 1) - 1) n + 1) * (1 / 2) * fc12,
       (n : α) * chebU (2 * (d12 * rcinv - 1) * (d12 * rcinv - 1) - 1) (n - 1) *
           (2 * (d12 * rcinv - 1) * rcinv) * fc12 +
         (chebT (2 * (d12 * rcinv - 1) * (d12 * rcinv - 1) - 1) n + 1) * (1 / 2) * fcp12) := by
  unfold find_fn_and_fnp
  by_cases h0 : n = 0
  · subst h0
    norm_num [chebT]
  · by_cases h1 : n = 1
    · subst h1
      norm_num [chebT, chebU]
    · rw [if_neg h0, if_neg h1]
      obtain ⟨hT, hU⟩ := find_fn_and_fnp_loop
        (2.0 * (d12 * rcinv - 1.0) * (d12 * rcinv - 1.0) - 1.0 : α) n (by omega)
      simp only [hT, hU]
      refine Prod.ext ?_ ?_
      · norm_num
      · have e1 : (1.0 : α) = 1 := by norm_num
        have e2 : (2.0 : α) = 2 := by norm_num
        have e5 : (0.5 : α) = 1 / 2 := by norm_num
        simp only [e1, e2, e5]
        ring

/-- The recursion loop of the all-orders `find_fn_and_fnp` fills `fn[m]` with
`T_m(x)` and `fnp[m]` with `m * U_{m-1}(x)`. -/
theorem find_fn_and_fnp_all_loop (x : α) (n_max : Nat) (fn fnp : Nat → α) (m : Nat)
    (hm : m ≤ max n_max 1) :
    (forLoop 2 (n_max + 1)
      (fun m (st : (Nat → α) × (Nat → α) × α × α) =>
        let fn := Function.update st.1 m (2.0 * x * st.1 (m - 1) - st.1 (m - 2))
        let u1 := st.2.2.2
        let fnp := Function.update st.2.1 m ((m : α) * u1)
        let u2 := 2.0 * x * u1 - st.2.2.1
        (fn, fnp, u1, u2))
      (Function.update (Function.update fn 0 1.0) 1 x,
        Function.update (Function.update fnp 0 0.0) 1 1.0, (1.0 : α), 2.0 * x)).1 m =
        chebT x m ∧
    (forLoop 2 (n_max + 1)
      (fun m (st : (Nat → α) × (Nat → α) × α × α) =>
        let fn := Function.update st.1 m (2.0 * x * st.1 (m - 1) - st.1 (m - 2))
        let u1 := st.2.2.2
        let fnp := Function.update st.2.1 m ((m : α) * u1)
        let u2 := 2.0 * x * u1 - st.2.2.1
        (fn, fnp, u1, u2))
      (Function.update (Function.update fn 0 1.0) 1 x,
        Function.update (Function.update fnp 0 0.0) 1 1.0, (1.0 : α), 2.0 * x)).2.1 m =
        (m : α) * chebU x (m - 1) := by
  have hbase : ∀ k < 2,
      Function.update (Function.update fn 0 (1.0 : α)) 1 x k = chebT x k ∧
      Function.update (Function.update fnp 0 (0.0 : α)) 1 1.0 k = (k : α) * chebU x (k - 1) := by
    intro k hk
    interval_cases k
    · norm_num [chebT]
    · norm_num [chebT, chebU]
  rcases Nat.lt_or_ge n_max 1 with hlt | hge
  · rw [forLoop_empty _ _ (by omega)]
    exact hbase m (by omega)
  · have h := forLoop_invariant
      (fun i (st : (Nat → α) × (Nat → α) × α × α) =>
        (∀ k < i, st.1 k = chebT x k ∧ st.2.1 k = (k : α) * chebU x (k - 1)) ∧
          st.2.2.1 = chebU x (i - 2) ∧ st.2.2.2 = chebU x (i - 1))
      2 (n_max + 1) (by omega)
      (fun m (st : (Nat → α) × (Nat → α) × α × α) =>
        let fn := Function.update st.1 m (2.0 * x * st.1 (m - 1) - st.1 (m - 2))
        let u1 := st.2.2.2
        let fnp := Function.update st.2.1 m ((m : α) * u1)
        let u2 := 2.0 * x * u1 - st.2.2.1
        (fn, fnp, u1, u2))
      (Function.update (Function.update fn 0 1.0) 1 x,
        Function.update (Function.update fnp 0 0.0) 1 1.0, (1.0 : α), 2.0 * x)
      (by
        refine ⟨hbase, ?_, ?_⟩
        · norm_num [chebU]
        · norm_num [chebU])
      (by
        intro i st h1 _ hp
        obtain ⟨hp, hc, hd⟩ := hp
        obtain ⟨j, rfl⟩ : ∃ j, i = j + 2 := ⟨i - 2, by omega⟩
        have e1 : j + 2 + 1 - 2 = j + 1 := by omega
        have e2 : j + 2 + 1 - 1 = j + 2 := by omega
        have e3 : j + 2 - 2 = j := by omega
        have e4 : j + 2 - 1 = j + 1 := by omega
        rw [e3] at hc
        rw [e4] at hd
        simp only [e1, e2, e3, e4]
        refine ⟨?_, hd, ?_⟩
        · intro k hk
          by_cases hki : k = j + 2
          · subst hki
            rw [Function.update_same, Function.update_same, (hp j (by omega)).1,
              (hp (j + 1) (by omega)).1, chebT_succ_succ, hd, e4]
            norm_num
          · rw [Function.update_noteq hki, Function.update_noteq hki]
            exact hp k (by omega)
        · rw [chebU_succ_succ, hc, hd]; norm_num)
    exact h.1 m (by omega)

/-- The scaling loop of the all-orders `find_fn_and_fnp` in closed form. -/
theorem find_fn_and_fnp_all_scale (c fc12 fcp12 : α) (k : Nat) (fn fnp : Nat → α) :
    iterate
      (fun m (st : (Nat → α) × (Nat → α)) =>
        let fn := Function.update st.1 m ((st.1 m + 1.0) * 0.5)
        let fnp := Function.update st.2 m (st.2 m * c)
        let fnp := Function.update fnp m (fnp m * fc12 + fn m * fcp12)
        let fn := Function.update fn m (fn m * fc12)
        (fn, fnp)) k (fn, fnp) =
      (fun m => if m < k then (fn m + 1) * (1 / 2) * fc12 else fn m,
       fun m => if m < k then fnp m * c * fc12 + (fn m + 1) * (1 / 2) * fcp12 else fnp m) := by
  induction k with
  | zero => simp [iterate]
  | succ k ih =>
    rw [iterate_succ, ih]
    refine Prod.ext ?_ ?_
    · funext m
      by_cases hm : m = k
      · subst hm; norm_num
      · have h1 : (m < k + 1) = (m < k) := by
          apply propext; constructor <;> intro h <;> omega
        simp only [Function.update_noteq hm, h1]
    · funext m
      by_cases hm : m = k
      · subst hm; norm_num
      · have h1 : (m < k + 1) = (m < k) := by
          apply propext; constructor <;> intro h <;> omega
        simp only [Function.update_noteq hm, h1]

/-- In exact arithmetic, for every `n_max`, every order `n ≤ n_max` and every
`rcinv`, `d12`, `fc12`, `fcp12` (and whatever the arrays held before), the
all-orders `find_fn_and_fnp` stores in `(fn[n], fnp[n])` the pair that the
single-order `find_fn_and_fnp` returns for order `n`. -/
theorem find_fn_and_fnp_all_eq_find_fn_and_fnp (n_max n : Nat) (hn : n ≤ n_max)
    (rcinv d12 fc12 fcp12 : α) (fn fnp : Nat → α) :
    ((find_fn_and_fnp_all n_max rcinv d12 fc12 fcp12 fn fnp).1 n,
      (find_fn_and_fnp_all n_max rcinv d12 fc12 fcp12 fn fnp).2 n) =
      find_fn_and_fnp n rcinv d12 fc12 fcp12 := by
  rw [find_fn_and_fnp_closed_form]
  unfold find_fn_and_fnp_all
  rw [forLoop_zero_lo]
  have hle : n ≤ max n_max 1 := le_trans hn (le_max_left _ _)
  obtain ⟨hT, hU⟩ := find_fn_and_fnp_all_loop
    (2.0 * (d12 * rcinv - 1.0) * (d12 * rcinv - 1.0) - 1.0 : α) n_max fn fnp n hle
  simp only []
  rw [find_fn_and_fnp_all_scale]
  simp only [Nat.lt_succ_of_le hn, if_true, hT, hU]
  norm_num

/-- An instance over the rationals: order 2 of an all-orders call with
`n_max = 3`. -/
theorem find_fn_and_fnp_all_eq_find_fn_and_fnp_witness :
    ((find_fn_and_fnp_all 3 (1 / 2 : ℚ) 1 (1 / 3) (1 / 7) (fun _ => 0) (fun _ => 0)).1 2,
      (find_fn_and_fnp_all 3 (1 / 2 : ℚ) 1 (1 / 3) (1 / 7) (fun _ => 0) (fun _ => 0)).2 2) =
      find_fn_and_fnp 2 (1 / 2 : ℚ) 1 (1 / 3) (1 / 7) :=
  find_fn_and_fnp_all_eq_find_fn_and_fnp 3 2 (by decide) (1 / 2) 1 (1 / 3) (1 / 7)
    (fun _ => 0) (fun _ => 0)

end Radial

/-! ## Newton third law in the force passes -/

section Forces

variable {α : Type} [LinearOrderedField α]

/-- A store changes a block sum by the change of the stored entry when the
entry lies in the block, and not at all otherwise. -/
theorem blockSum_update (f : Nat → α) (k : Nat) (v : α) (off N : Nat) :
    blockSum (Function.update f k v) off N =
      blockSum f off N + (if off ≤ k ∧ k < off + N then v - f k else 0) := by
  unfold blockSum
  by_cases h : off ≤ k ∧ k < off + N
  · obtain ⟨j, rfl⟩ : ∃ j, k = off + j := ⟨k - off, by omega⟩
    have hj : j < N := by omega
    rw [if_pos h]
    have hterm : ∀ i ∈ Finset.range N,
        Function.update f (off + j) v (off + i) =
          f (off + i) + (if i = j then v - f (off + j) else 0) := by
      intro i _
      by_cases hij : i = j
      · subst hij; simp
      · have : off + i ≠ off + j := by omega
        rw [Function.update_noteq this, if_neg hij, add_zero]
    rw [Finset.sum_congr rfl hterm, Finset.sum_add_distrib, Finset.sum_ite_eq']
    simp [hj]
  · rw [if_neg h, add_zero]
    refine Finset.sum_congr rfl (fun i hi => ?_)
    have hi' : i < N := Finset.mem_range.mp hi
    have : off + i ≠ k := by
      intro hk; apply h; omega
    rw [Function.update_noteq this]

theorem blockSum_addAt_mem (f : Nat → α) (j : Nat) (v : α) (off N : Nat) (hj : j < N) :
    blockSum (addAt f (off + j) v) off N = blockSum f off N + v := by
  unfold addAt
  rw [blockSum_update, if_pos ⟨by omega, by omega⟩]
  ring

theorem blockSum_subAt_mem (f : Nat → α) (j : Nat) (v : α) (off N : Nat) (hj : j < N) :
    blockSum (subAt f (off + j) v) off N = blockSum f off N - v := by
  unfold subAt
  rw [blockSum_update, if_pos ⟨by omega, by omega⟩]
  ring

theorem blockSum_addAt_not_mem (f : Nat → α) (k : Nat) (v : α) (off N : Nat)
    (hk : ¬ (off ≤ k ∧ k < off + N)) :
    blockSum (addAt f k v) off N = blockSum f off N := by
  unfold addAt
  rw [blockSum_update, if_neg hk, add_zero]

theorem blockSum_subAt_not_mem (f : Nat → α) (k : Nat) (v : α) (off N : Nat)
    (hk : ¬ (off ≤ k ∧ k < off + N)) :
    blockSum (subAt f k v) off N = blockSum f off N := by
  unfold subAt
  rw [blockSum_update, if_neg hk, add_zero]

/-- One pair update leaves the sum of each of the three force blocks unchanged
when both atoms of the pair are below `N`. -/
theorem accumulate_pair_blockSum (N n1 n2 : Nat) (h1 : n1 < N) (h2 : n2 < N)
    (r12 f12 g_f g_virial : Nat → α) :
    blockSum (accumulate_pair N n1 n2 0 N (N * 2) r12 f12 g_f g_virial).1 0 N =
        blockSum g_f 0 N ∧
      blockSum (accumulate_pair N n1 n2 0 N (N * 2) r12 f12 g_f g_virial).1 N N =
        blockSum g_f N N ∧
      blockSum (accumulate_pair N n1 n2 0 N (N * 2) r12 f12 g_f g_virial).1 (N * 2) N =
        blockSum g_f (N * 2) N := by
  unfold accumulate_pair
  dsimp only
  refine ⟨?_, ?_, ?_⟩
  · rw [blockSum_subAt_not_mem _ _ _ _ _ (by omega), blockSum_subAt_not_mem _ _ _ _ _ (by omega),
      blockSum_subAt_mem _ _ _ _ _ h2, blockSum_addAt_not_mem _ _ _ _ _ (by omega),
      blockSum_addAt_not_mem _ _ _ _ _ (by omega), blockSum_addAt_mem _ _ _ _ _ h1]
    ring
  · rw [blockSum_subAt_not_mem _ _ _ _ _ (by omega), blockSum_subAt_mem _ _ _ _ _ h2,
      blockSum_subAt_not_mem _ _ _ _ _ (by omega), blockSum_addAt_not_mem _ _ _ _ _ (by omega),
      blockSum_addAt_mem _ _ _ _ _ h1, blockSum_addAt_not_mem _ _ _ _ _ (by omega)]
    ring
  · rw [blockSum_subAt_mem _ _ _ _ _ h2, blockSum_subAt_not_mem _ _ _ _ _ (by omega),
      blockSum_subAt_not_mem _ _ _ _ _ (by omega), blockSum_addAt_mem _ _ _ _ _ h1,
      blockSum_addAt_not_mem _ _ _ _ _ (by omega), blockSum_addAt_not_mem _ _ _ _ _ (by omega)]
    ring

end Forces

section ForcePasses

variable {α : Type} [LinearOrderedField α]

/-- The radial force pass leaves the sum of each force block unchanged. -/
theorem find_force_radial_blockSum (m : Libm α) (paramb : ParaMB α) (annmb : ANN α) (N : Nat)
    (g_NN g_NL g_type : Nat → Nat) (g_x12 g_y12 g_z12 g_Fp : Nat → α)
    (g_f g_virial : Nat → α)
    (hNL : ∀ n1 < N, ∀ i1 < g_NN n1, g_NL (i1 * N + n1) < N) (off : Nat)
    (hoff : off = 0 ∨ off = N ∨ off = N * 2) :
    blockSum (find_force_radial_small_box m paramb annmb N g_NN g_NL g_type g_x12 g_y12 g_z12
      g_Fp 0 N (N * 2) g_f g_virial).1 off N = blockSum g_f off N := by
  unfold find_force_radial_small_box
  refine forLoop_invariant
    (fun _ (st : (Nat → α) × (Nat → α)) => blockSum st.1 off N = blockSum g_f off N)
    0 N (Nat.zero_le _) _ _ rfl ?_
  intro n1 st _ hn1 hst
  refine forLoop_invariant
    (fun _ (st : (Nat → α) × (Nat → α)) => blockSum st.1 off N = blockSum g_f off N)
    0 (g_NN n1) (Nat.zero_le _) _ _ hst ?_
  intro i1 st2 _ hi1 hst2
  have h := accumulate_pair_blockSum N n1 (g_NL (i1 * N + n1)) hn1 (hNL n1 hn1 i1 hi1)
    (arrayOf [g_x12 (i1 * N + n1), g_y12 (i1 * N + n1), g_z12 (i1 * N + n1)])
    (radial_pair_force m paramb annmb N g_NL g_type g_x12 g_y12 g_z12 g_Fp n1 i1) st2.1 st2.2
  dsimp only
  rcases hoff with rfl | rfl | rfl
  · rw [h.1, hst2]
  · rw [h.2.1, hst2]
  · rw [h.2.2, hst2]

/-- The angular force pass leaves the sum of each force block unchanged. -/
theorem find_force_angular_blockSum (m : Libm α) (paramb : ParaMB α) (annmb : ANN α) (N : Nat)
    (g_NN g_NL g_type : Nat → Nat) (g_x12 g_y12 g_z12 g_Fp g_sum_fxyz : Nat → α)
    (g_f g_virial : Nat → α)
    (hNL : ∀ n1 < N, ∀ i1 < g_NN n1, g_NL (i1 * N + n1) < N) (off : Nat)
    (hoff : off = 0 ∨ off = N ∨ off = N * 2) :
    blockSum (find_force_angular_small_box m paramb annmb N g_NN g_NL g_type g_x12 g_y12 g_z12
      g_Fp g_sum_fxyz 0 N (N * 2) g_f g_virial).1 off N = blockSum g_f off N := by
  unfold find_force_angular_small_box
  refine forLoop_invariant
    (fun _ (st : (Nat → α) × (Nat → α)) => blockSum st.1 off N = blockSum g_f off N)
    0 N (Nat.zero_le _) _ _ rfl ?_
  intro n1 st _ hn1 hst
  refine forLoop_invariant
    (fun _ (st : (Nat → α) × (Nat → α)) => blockSum st.1 off N = blockSum g_f off N)
    0 (g_NN n1) (Nat.zero_le _) _ _ hst ?_
  intro i1 st2 _ hi1 hst2
  have hidx : n1 + N * i1 = i1 * N + n1 := by rw [Nat.mul_comm, Nat.add_comm]
  have hn2 : g_NL (n1 + N * i1) < N := by
    rw [hidx]; exact hNL n1 hn1 i1 hi1
  have h := fun f12 => accumulate_pair_blockSum N n1 (g_NL (n1 + N * i1)) hn1 hn2
    (arrayOf [g_x12 (i1 * N + n1), g_y12 (i1 * N + n1), g_z12 (i1 * N + n1)])
    f12 st2.1 st2.2
  dsimp only
  rcases hoff with rfl | rfl | rfl
  · rw [(h _).1, hst2]
  · rw [(h _).2.1, hst2]
  · rw [(h _).2.2, hst2]

/-- The ZBL pass leaves the sum of each force block unchanged. -/
theorem find_force_ZBL_blockSum (m : Libm α) (N : Nat) (zbl : ZBL α)
    (g_NN g_NL g_type : Nat → Nat) (g_x12 g_y12 g_z12 : Nat → α)
    (g_f g_virial g_pe : Nat → α)
    (hNL : ∀ n1 < N, ∀ i1 < g_NN n1, g_NL (i1 * N + n1) < N) (off : Nat)
    (hoff : off = 0 ∨ off = N ∨ off = N * 2) :
    blockSum (find_force_ZBL_small_box m N zbl g_NN g_NL g_type g_x12 g_y12 g_z12
      0 N (N * 2) g_f g_virial g_pe).1 off N = blockSum g_f off N := by
  unfold find_force_ZBL_small_box
  refine forLoop_invariant
    (fun _ (st : (Nat → α) × (Nat → α) × (Nat → α)) => blockSum st.1 off N = blockSum g_f off N)
    0 N (Nat.zero_le _) _ _ rfl ?_
  intro n1 st _ hn1 hst
  refine forLoop_invariant
    (fun _ (st : (Nat → α) × (Nat → α) × (Nat → α)) => blockSum st.1 off N = blockSum g_f off N)
    0 (g_NN n1) (Nat.zero_le _) _ _ hst ?_
  intro i1 st2 _ hi1 hst2
  have h := fun f12 => accumulate_pair_blockSum N n1 (g_NL (i1 * N + n1)) hn1
    (hNL n1 hn1 i1 hi1)
    (arrayOf [g_x12 (i1 * N + n1), g_y12 (i1 * N + n1), g_z12 (i1 * N + n1)])
    f12 st2.1 st2.2.1
  dsimp only
  rcases hoff with rfl | rfl | rfl
  · rw [(h _).1, hst2]
  · rw [(h _).2.1, hst2]
  · rw [(h _).2.2, hst2]

/-- The zeroing loop of `compute` leaves `0` in the first `size` entries. -/
theorem zero_loop_apply (size : Nat) (p : Nat → α) (i : Nat) (hi : i < size) :
    forLoop 0 size (fun n (p : Nat → α) => Function.update p n 0.0) p i = 0 := by
  rw [forLoop_zero_lo, iterate_update_map (fun _ _ => (0.0 : α))]
  simp only [hi, if_true]
  norm_num

theorem zero_loop_blockSum (size : Nat) (p : Nat → α) (off N : Nat) (h : off + N ≤ size) :
    blockSum (forLoop 0 size (fun n (p : Nat → α) => Function.update p n 0.0) p) off N = 0 := by
  unfold blockSum
  refine Finset.sum_eq_zero (fun i hi => ?_)
  have hi' : i < N := Finset.mem_range.mp hi
  exact zero_loop_apply size p (off + i) (by omega)

/-- C3. After `NEP3::compute`, for every atom count `N`, every model (ZBL
enabled or not) and every input whose neighbour indices all lie in `[0, N)`,
with `force_per_atom` of its contractual length `3N`, the per-atom forces sum
to zero in each of the x, y and z blocks, in exact arithmetic. -/
theorem compute_force_sum_zero (m : Libm α) (paramb : ParaMB α) (annmb : ANN α) (zbl : ZBL α)
    (N size_x12 : Nat) (NN_radial NL_radial NN_angular NL_angular type : Nat → Nat)
    (r12 : Nat → α) (pe_size force_size virial_size : Nat) (mem : Memory α)
    (hsize : force_size = 3 * N)
    (hrad : ∀ n1 < N, ∀ i1 < NN_radial n1, NL_radial (i1 * N + n1) < N)
    (hang : ∀ n1 < N, ∀ i1 < NN_angular n1, NL_angular (i1 * N + n1) < N) :
    (∑ i in Finset.range N,
        (compute m paramb annmb zbl N size_x12 NN_radial NL_radial NN_angular NL_angular type
          r12 pe_size force_size virial_size mem).force_per_atom i) = 0 ∧
      (∑ i in Finset.range N,
        (compute m paramb annmb zbl N size_x12 NN_radial NL_radial NN_angular NL_angular type
          r12 pe_size force_size virial_size mem).force_per_atom (N + i)) = 0 ∧
      (∑ i in Finset.range N,
        (compute m paramb annmb zbl N size_x12 NN_radial NL_radial NN_angular NL_angular type
          r12 pe_size force_size virial_size mem).force_per_atom (2 * N + i)) = 0 := by
  have key : ∀ off, (off = 0 ∨ off = N ∨ off = N * 2) →
      blockSum (compute m paramb annmb zbl N size_x12 NN_radial NL_radial NN_angular NL_angular
        type r12 pe_size force_size virial_size mem).force_per_atom off N = 0 := by
    intro off hoff
    have hz : blockSum (forLoop 0 force_size
        (fun n (p : Nat → α) => Function.update p n 0.0) mem.force_per_atom) off N = 0 := by
      apply zero_loop_blockSum
      rcases hoff with rfl | rfl | rfl <;> omega
    unfold compute
    dsimp only
    split
    · dsimp only
      rw [find_force_ZBL_blockSum _ _ _ _ _ _ _ _ _ _ _ _ hang off hoff,
        find_force_angular_blockSum _ _ _ _ _ _ _ _ _ _ _ _ _ _ hang off hoff,
        find_force_radial_blockSum _ _ _ _ _ _ _ _ _ _ _ _ _ hrad off hoff, hz]
    · dsimp only
      rw [find_force_angular_blockSum _ _ _ _ _ _ _ _ _ _ _ _ _ _ hang off hoff,
        find_force_radial_blockSum _ _ _ _ _ _ _ _ _ _ _ _ _ hrad off hoff, hz]
  have h0 := key 0 (Or.inl rfl)
  have h1 := key N (Or.inr (Or.inl rfl))
  have h2 := key (N * 2) (Or.inr (Or.inr rfl))
  unfold blockSum at h0 h1 h2
  refine ⟨?_, h1, ?_⟩
  · simpa using h0
  · rw [Nat.mul_comm 2 N]; exact h2

/-- Witness of C3 over the rationals: two atoms, each the radial and angular
neighbour of the other, ZBL enabled. -/
theorem compute_force_sum_zero_witness :
    ((6 : Nat) = 3 * 2 ∧
      (∀ n1 < 2, ∀ i1 < (arrayOf [1, 1] : Nat → Nat) n1,
        (arrayOf [1, 0] : Nat → Nat) (i1 * 2 + n1) < 2) ∧
      (∀ n1 < 2, ∀ i1 < (arrayOf [1, 1] : Nat → Nat) n1,
        (arrayOf [1, 0] : Nat → Nat) (i1 * 2 + n1) < 2)) ∧
    ((∑ i in Finset.range 2,
        (compute (Libm.mk id id id id id (fun x _ => x))
          (ParaMB.mk 2 2 (1 / 2) (1 / 2) 2 0 0 4 4 4 0 0 1 1 1 (fun _ => 1))
          (ANN.mk 5 1 8 (fun _ => 1) (fun _ => 0) (fun _ => 1) (fun _ => 0) (fun _ => 0))
          (ZBL.mk true 1 2 (fun _ => 1))
          2 2 (arrayOf [1, 1]) (arrayOf [1, 0]) (arrayOf [1, 1]) (arrayOf [1, 0]) (fun _ => 0)
          (arrayOf [(1 : ℚ), -1, 0, 0, 0, 0, 1, -1, 0, 0, 0, 0]) 2 6 18
          (Memory.mk (fun _ => 7) (fun _ => 7) (fun _ => 7) (fun _ => 7) (fun _ => 7))
        ).force_per_atom i) = 0 ∧
      (∑ i in Finset.range 2,
        (compute (Libm.mk id id id id id (fun x _ => x))
          (ParaMB.mk 2 2 (1 / 2) (1 / 2) 2 0 0 4 4 4 0 0 1 1 1 (fun _ => 1))
          (ANN.mk 5 1 8 (fun _ => 1) (fun _ => 0) (fun _ => 1) (fun _ => 0) (fun _ => 0))
          (ZBL.mk true 1 2 (fun _ => 1))
          2 2 (arrayOf [1, 1]) (arrayOf [1, 0]) (arrayOf [1, 1]) (arrayOf [1, 0]) (fun _ => 0)
          (arrayOf [(1 : ℚ), -1, 0, 0, 0, 0, 1, -1, 0, 0, 0, 0]) 2 6 18
          (Memory.mk (fun _ => 7) (fun _ => 7) (fun _ => 7) (fun _ => 7) (fun _ => 7))
        ).force_per_atom (2 + i)) = 0 ∧
      (∑ i in Finset.range 2,
        (compute (Libm.mk id id id id id (fun x _ => x))
          (ParaMB.mk 2 2 (1 / 2) (1 / 2) 2 0 0 4 4 4 0 0 1 1 1 (fun _ => 1))
          (ANN.mk 5 1 8 (fun _ => 1) (fun _ => 0) (fun _ => 1) (fun _ => 0) (fun _ => 0))
          (ZBL.mk true 1 2 (fun _ => 1))
          2 2 (arrayOf [1, 1]) (arrayOf [1, 0]) (arrayOf [1, 1]) (arrayOf [1, 0]) (fun _ => 0)
          (arrayOf [(1 : ℚ), -1, 0, 0, 0, 0, 1, -1, 0, 0, 0, 0]) 2 6 18
          (Memory.mk (fun _ => 7) (fun _ => 7) (fun _ => 7) (fun _ => 7) (fun _ => 7))
        ).force_per_atom (2 * 2 + i)) = 0) :=
  ⟨⟨by decide, by decide, by decide⟩,
    compute_force_sum_zero _ _ _ _ 2 2 _ _ _ _ _ _ 2 6 18 _ (by decide) (by decide) (by decide)⟩

end ForcePasses
/-! ## Force against energy gradient on two atoms -/

theorem forLoop_zero_one {σ : Type} (body : Nat → σ → σ) (s : σ) :
    forLoop 0 1 body s = body 0 s := rfl

theorem forLoop_zero_two {σ : Type} (body : Nat → σ → σ) (s : σ) :
    forLoop 0 2 body s = body 1 (body 0 s) := rfl

theorem forLoop_zero_three {σ : Type} (body : Nat → σ → σ) (s : σ) :
    forLoop 0 3 body s = body 2 (body 1 (body 0 s)) := rfl

theorem forLoop_zero_zero {σ : Type} (body : Nat → σ → σ) (s : σ) :
    forLoop 0 0 body s = s := rfl

theorem forLoop_zero_five {σ : Type} (body : Nat → σ → σ) (s : σ) :
    forLoop 0 5 body s = body 4 (body 3 (body 2 (body 1 (body 0 s)))) := rfl

/-- Radial pass on two atoms, each the only neighbour of the other: the x force
of atom 0. -/
theorem radial_pass_two_atoms (m : Libm ℝ) (P : ParaMB ℝ) (A : ANN ℝ) (g_type : Nat → Nat)
    (gx gy gz g_Fp g_f g_virial : Nat → ℝ) :
    (find_force_radial_small_box m P A 2 (arrayOf [1, 1]) (arrayOf [1, 0]) g_type gx gy gz g_Fp
      0 2 (2 * 2) g_f g_virial).1 0 =
      g_f 0 + radial_pair_force m P A 2 (arrayOf [1, 0]) g_type gx gy gz g_Fp 0 0 0 -
        radial_pair_force m P A 2 (arrayOf [1, 0]) g_type gx gy gz g_Fp 1 0 0 := by
  unfold find_force_radial_small_box
  simp only [forLoop_zero_two]
  have e0 : (arrayOf [1, 1] : Nat → Nat) 0 = 1 := rfl
  have e1 : (arrayOf [1, 1] : Nat → Nat) 1 = 1 := rfl
  have e2 : (arrayOf [1, 0] : Nat → Nat) (0 * 2 + 0) = 1 := rfl
  have e3 : (arrayOf [1, 0] : Nat → Nat) (0 * 2 + 1) = 0 := rfl
  simp only [e0, e1, e2, e3, forLoop_zero_one]
  generalize radial_pair_force m P A 2 (arrayOf [1, 0]) g_type gx gy gz g_Fp 0 0 = fa
  generalize radial_pair_force m P A 2 (arrayOf [1, 0]) g_type gx gy gz g_Fp 1 0 = fb
  simp [accumulate_pair, addAt, subAt, Function.update_apply]

/-- An angular pass without angular neighbours changes no force. -/
theorem angular_pass_no_neighbours (m : Libm ℝ) (P : ParaMB ℝ) (A : ANN ℝ) (N : Nat)
    (g_NL g_type : Nat → Nat) (gx gy gz g_Fp g_sum_fxyz g_f g_virial : Nat → ℝ) (fx fy fz : Nat) :
    find_force_angular_small_box m P A N (fun _ => 0) g_NL g_type gx gy gz g_Fp g_sum_fxyz
      fx fy fz g_f g_virial = (g_f, g_virial) := by
  unfold find_force_angular_small_box
  refine forLoop_invariant (fun _ (st : (Nat → ℝ) × (Nat → ℝ)) => st = (g_f, g_virial))
    0 N (Nat.zero_le _) _ _ rfl ?_
  intro n1 st _ _ hst
  simp only [forLoop_zero_zero]
  exact hst


/-- The radial pair force of the two-atom model, for slot 0 of atom `n1`. -/
theorem radial_pair_force_two_atoms (m : Libm ℝ) (g_NL g_type : Nat → Nat)
    (gx gy gz g_Fp : Nat → ℝ) (n1 : Nat) :
    radial_pair_force m (ParaMB.mk 2 2 0.5 0.5 2 0 0 4 4 4 0 0 1 1 1 (fun _ => 1))
      (ANN.mk 5 1 8 (fun _ => 1) (fun _ => 0) (fun _ => 1) (fun _ => 0) (fun _ => 0))
      2 g_NL g_type gx gy gz g_Fp n1 0 0 =
      g_Fp n1 *
        (find_fc_and_fcp m.cos m.sin 2 0.5
          (m.sqrt (gx n1 * gx n1 + gy n1 * gy n1 + gz n1 * gz n1))).2 *
        (1 / m.sqrt (gx n1 * gx n1 + gy n1 * gy n1 + gz n1 * gz n1)) * gx n1 := by
  unfold radial_pair_force
  simp only [if_true, Nat.zero_mul, Nat.zero_add, Nat.add_zero, forLoop_zero_one,
    forLoop_zero_three, arrayOf, List.getD_cons_zero, List.getD_cons_succ]
  generalize m.sqrt (gx n1 * gx n1 + gy n1 * gy n1 + gz n1 * gz n1) = d
  generalize find_fc_and_fcp m.cos m.sin 2 0.5 d = c
  simp only [find_fn_and_fnp_all, forLoop_empty, forLoop_zero_one, addAt, Function.update_same,
    Function.update_apply, Nat.reduceLeDiff, Nat.reduceAdd, if_true, if_false,
    OfNat.ofNat_ne_zero, OfNat.ofNat_ne_one, zero_ne_one, one_ne_zero, Nat.succ_ne_zero,
    Nat.one_ne_zero, OfNat.zero_ne_ofNat, OfNat.one_ne_ofNat, Nat.le_refl, reduceCtorEq]
  norm_num

set_option maxHeartbeats 1000000 in
/-- The descriptor stage of the two-atom model: energies and cached gradients. -/
theorem descriptor_two_atoms (m : Libm ℝ) (g_NL g_NLa g_type : Nat → Nat)
    (gx gy gz ax ay az pe Fp sfx : Nat → ℝ) :
    ((find_descriptor_small_box m (ParaMB.mk 2 2 0.5 0.5 2 0 0 4 4 4 0 0 1 1 1 (fun _ => 1))
      (ANN.mk 5 1 8 (fun _ => 1) (fun _ => 0) (fun _ => 1) (fun _ => 0) (fun _ => 0))
      2 (arrayOf [1, 1]) g_NL (fun _ => 0) g_NLa g_type gx gy gz ax ay az pe Fp sfx).1 0 =
        pe 0 + m.tanh (find_fc m.cos 2 0.5 (m.sqrt (gx 0 * gx 0 + gy 0 * gy 0 + gz 0 * gz 0))) ∧
    (find_descriptor_small_box m (ParaMB.mk 2 2 0.5 0.5 2 0 0 4 4 4 0 0 1 1 1 (fun _ => 1))
      (ANN.mk 5 1 8 (fun _ => 1) (fun _ => 0) (fun _ => 1) (fun _ => 0) (fun _ => 0))
      2 (arrayOf [1, 1]) g_NL (fun _ => 0) g_NLa g_type gx gy gz ax ay az pe Fp sfx).1 1 =
        pe 1 + m.tanh (find_fc m.cos 2 0.5 (m.sqrt (gx 1 * gx 1 + gy 1 * gy 1 + gz 1 * gz 1)))) ∧
    ((find_descriptor_small_box m (ParaMB.mk 2 2 0.5 0.5 2 0 0 4 4 4 0 0 1 1 1 (fun _ => 1))
      (ANN.mk 5 1 8 (fun _ => 1) (fun _ => 0) (fun _ => 1) (fun _ => 0) (fun _ => 0))
      2 (arrayOf [1, 1]) g_NL (fun _ => 0) g_NLa g_type gx gy gz ax ay az pe Fp sfx).2.1 0 =
        1 - m.tanh (find_fc m.cos 2 0.5 (m.sqrt (gx 0 * gx 0 + gy 0 * gy 0 + gz 0 * gz 0))) ^ 2 ∧
    (find_descriptor_small_box m (ParaMB.mk 2 2 0.5 0.5 2 0 0 4 4 4 0 0 1 1 1 (fun _ => 1))
      (ANN.mk 5 1 8 (fun _ => 1) (fun _ => 0) (fun _ => 1) (fun _ => 0) (fun _ => 0))
      2 (arrayOf [1, 1]) g_NL (fun _ => 0) g_NLa g_type gx gy gz ax ay az pe Fp sfx).2.1 1 =
        1 - m.tanh (find_fc m.cos 2 0.5 (m.sqrt (gx 1 * gx 1 + gy 1 * gy 1 + gz 1 * gz 1))) ^ 2)
    := by
  unfold find_descriptor_small_box
  rw [forLoop_zero_two]
  have e0 : (arrayOf [1, 1] : Nat → Nat) 0 = 1 := rfl
  have e1 : (arrayOf [1, 1] : Nat → Nat) 1 = 1 := rfl
  simp only [e0, e1, arrayOf, List.getD_cons_zero, List.getD_cons_succ, forLoop_zero_one,
    forLoop_zero_zero, if_true, ite_true, Nat.zero_mul, Nat.zero_add, Nat.add_zero]
  generalize find_fc m.cos 2 0.5 (m.sqrt (gx 0 * gx 0 + gy 0 * gy 0 + gz 0 * gz 0)) = c0
  generalize find_fc m.cos 2 0.5 (m.sqrt (gx 1 * gx 1 + gy 1 * gy 1 + gz 1 * gz 1)) = c1
  simp only [find_fn_all, forLoop_empty, find_q, unshift, shift, addAt, apply_ann_one_layer,
    forLoop_zero_one, forLoop_zero_five, Nat.zero_add, Nat.zero_mul, Nat.add_zero,
    Function.update_same, Function.update_apply, Nat.reduceEqDiff, Nat.reduceLeDiff, Nat.reduceSub,
    Nat.reduceAdd, Nat.reduceMul, if_true, if_false, ite_true, ite_false, Nat.reduceLTLE,
    Nat.one_ne_zero, OfNat.ofNat_ne_zero, Nat.le_refl, Nat.sub_self, Nat.lt_irrefl,
    Nat.not_succ_le_zero, Nat.succ_ne_zero, reduceCtorEq, zero_ne_one, one_ne_zero,
    OfNat.zero_ne_ofNat, OfNat.ofNat_ne_one, OfNat.one_ne_ofNat, Nat.le_zero_eq]
  norm_num
  refine ⟨?_, ?_⟩ <;> ring

theorem one_sub_tanh_sq_pos (x : ℝ) : 0 < 1 - Real.tanh x ^ 2 := by
  have hc : 0 < Real.cosh x := Real.cosh_pos x
  have h : 1 - Real.tanh x ^ 2 = 1 / Real.cosh x ^ 2 := by
    rw [Real.tanh_eq_sinh_div_cosh]
    field_simp
  rw [h]
  positivity

/-- Closed form of the total energy of the two-atom system. -/
theorem twoAtomEnergy_eq (m : Libm ℝ) (x : ℝ) :
    twoAtomEnergy m x =
      m.tanh (find_fc m.cos 2 0.5 (m.sqrt ((1 - x) * (1 - x) + 0 * 0 + 0 * 0))) +
        m.tanh (find_fc m.cos 2 0.5 (m.sqrt ((x - 1) * (x - 1) + 0 * 0 + 0 * 0))) := by
  unfold twoAtomEnergy twoAtomCompute compute
  simp only [Bool.false_eq_true, if_false]
  obtain ⟨⟨h0, h1⟩, _⟩ := descriptor_two_atoms m (arrayOf [1, 0]) (fun _ => 0) (fun _ => 0)
    (shift (arrayOf [1 - x, x - 1]) 0) (shift (arrayOf [1 - x, x - 1]) 2)
    (shift (arrayOf [1 - x, x - 1]) (2 * 2)) (shift (arrayOf [1 - x, x - 1]) (2 * 3))
    (shift (arrayOf [1 - x, x - 1]) (2 * 4)) (shift (arrayOf [1 - x, x - 1]) (2 * 5))
    (forLoop 0 2 (fun n (p : Nat → ℝ) => Function.update p n 0.0) (fun _ => 0))
    (fun _ => 0) (fun _ => 0)
  rw [h0, h1, zero_loop_apply 2 _ 0 (by decide), zero_loop_apply 2 _ 1 (by decide)]
  simp [shift, arrayOf]

/-- Closed form of the x force on atom 0 of the two-atom system. -/
theorem twoAtomForceX_eq (m : Libm ℝ) (x : ℝ) :
    twoAtomForceX m x =
      (1 - m.tanh (find_fc m.cos 2 0.5 (m.sqrt ((1 - x) * (1 - x) + 0 * 0 + 0 * 0))) ^ 2) *
          (find_fc_and_fcp m.cos m.sin 2 0.5
            (m.sqrt ((1 - x) * (1 - x) + 0 * 0 + 0 * 0))).2 *
          (1 / m.sqrt ((1 - x) * (1 - x) + 0 * 0 + 0 * 0)) * (1 - x) -
        (1 - m.tanh (find_fc m.cos 2 0.5 (m.sqrt ((x - 1) * (x - 1) + 0 * 0 + 0 * 0))) ^ 2) *
          (find_fc_and_fcp m.cos m.sin 2 0.5
            (m.sqrt ((x - 1) * (x - 1) + 0 * 0 + 0 * 0))).2 *
          (1 / m.sqrt ((x - 1) * (x - 1) + 0 * 0 + 0 * 0)) * (x - 1) := by
  unfold twoAtomForceX twoAtomCompute compute
  simp only [Bool.false_eq_true, if_false]
  rw [angular_pass_no_neighbours, Nat.mul_comm 2 2, radial_pass_two_atoms,
    radial_pair_force_two_atoms, radial_pair_force_two_atoms]
  obtain ⟨_, h0, h1⟩ := descriptor_two_atoms m (arrayOf [1, 0]) (fun _ => 0) (fun _ => 0)
    (shift (arrayOf [1 - x, x - 1]) 0) (shift (arrayOf [1 - x, x - 1]) 2)
    (shift (arrayOf [1 - x, x - 1]) (2 * 2)) (shift (arrayOf [1 - x, x - 1]) (2 * 3))
    (shift (arrayOf [1 - x, x - 1]) (2 * 4)) (shift (arrayOf [1 - x, x - 1]) (2 * 5))
    (forLoop 0 2 (fun n (p : Nat → ℝ) => Function.update p n 0.0) (fun _ => 0))
    (fun _ => 0) (fun _ => 0)
  rw [h0, h1, zero_loop_apply 6 _ 0 (by decide)]
  simp [shift, arrayOf]

/-- C4 (the code at a failing input). Two atoms of one type at `(x, 0, 0)` and
`(1, 0, 0)`, model `nep` with `rc_radial = 2`, `rc_angular = 0.5`,
`n_max = 0 0`, `l_max = 4`, one neuron, weights `1`, biases `0`, scalers `1`;
for `|x| < 1/2` the neighbour lists passed are exactly the neighbours within
the cutoffs.  At `x = 0` the x force that `compute` returns for atom 0 is not
minus the derivative of the total energy it returns with respect to `x`. -/
theorem two_atom_force_ne_neg_gradient :
    ¬ HasDerivAt
      (fun x => twoAtomEnergy
        (Libm.mk Real.tanh Real.cos Real.sin Real.sqrt Real.exp Real.rpow) x)
      (-(twoAtomForceX (Libm.mk Real.tanh Real.cos Real.sin Real.sqrt Real.exp Real.rpow) 0))
      0 := by
  intro h
  -- the energy near `x = 0`
  have heq : (fun x => twoAtomEnergy
      (Libm.mk Real.tanh Real.cos Real.sin Real.sqrt Real.exp Real.rpow) x) =ᶠ[nhds 0]
      (fun x : ℝ => 2 * Real.tanh (0.5 * Real.cos (3.1415927 * ((1 - x) * 0.5)) + 0.5)) := by
    filter_upwards [Ioo_mem_nhds (show (-1 : ℝ) < 0 by norm_num) (show (0 : ℝ) < 1 by norm_num)]
      with x hx
    obtain ⟨hx1, hx2⟩ := hx
    rw [twoAtomEnergy_eq]
    have hs1 : Real.sqrt ((1 - x) * (1 - x) + 0 * 0 + 0 * 0) = 1 - x := by
      rw [mul_zero, add_zero, add_zero, Real.sqrt_mul_self (by linarith)]
    have hs2 : Real.sqrt ((x - 1) * (x - 1) + 0 * 0 + 0 * 0) = 1 - x := by
      have : (x - 1) * (x - 1) = (1 - x) * (1 - x) := by ring
      rw [this]; exact hs1
    simp only [hs1, hs2]
    have hlt : 1 - x < 2 := by linarith
    unfold find_fc
    rw [if_pos hlt]
    ring
  have hg : HasDerivAt
      (fun x : ℝ => 2 * Real.tanh (0.5 * Real.cos (3.1415927 * ((1 - x) * 0.5)) + 0.5))
      (2 * ((1 - Real.tanh (0.5 * Real.cos (3.1415927 * ((1 - 0) * 0.5)) + 0.5) ^ 2) *
        (0.5 * (-Real.sin (3.1415927 * ((1 - 0) * 0.5)) * (3.1415927 * ((0 - 1) * 0.5))))))
      0 := by
    have h1 : HasDerivAt (fun x : ℝ => 3.1415927 * ((1 - x) * 0.5))
        (3.1415927 * ((0 - 1) * 0.5)) 0 :=
      ((((hasDerivAt_id (0 : ℝ)).const_sub 1).mul_const 0.5).const_mul 3.1415927).congr_deriv
        (by norm_num)
    have h2 := ((h1.cos).const_mul 0.5).add_const 0.5
    have h3 := (hasDerivAt_tanh (0.5 * Real.cos (3.1415927 * ((1 - 0) * 0.5)) + 0.5)).comp 0 h2
    exact h3.const_mul 2
  have huniq := h.unique (hg.congr_of_eventuallyEq heq)
  rw [twoAtomForceX_eq] at huniq
  have hs : Real.sqrt ((1 - 0) * (1 - 0) + 0 * 0 + 0 * 0) = 1 := by norm_num
  have hs' : Real.sqrt ((0 - 1) * (0 - 1) + 0 * 0 + 0 * 0) = 1 := by norm_num
  simp only [hs, hs'] at huniq
  have hlt : (1 : ℝ) < 2 := by norm_num
  unfold find_fc find_fc_and_fcp at huniq
  simp only [if_pos hlt] at huniq
  have hsin : 0 < Real.sin ((3.1415927 : ℝ) * (1 * 0.5)) := by
    apply Real.sin_pos_of_pos_of_lt_pi
    · norm_num
    · have := Real.pi_gt_three
      norm_num
      linarith
  have hG := one_sub_tanh_sq_pos (0.5 * Real.cos (3.1415927 * (1 * 0.5)) + 0.5)
  have hprod := mul_pos hG hsin
  norm_num at huniq hprod
  nlinarith

/-! ## Angular invariants -/

section Invariants

variable {α : Type} [LinearOrderedField α]

/-- C11. For every moment vector `s`, `find_q` stores in slot
`(L-1)*(n_max_angular+1)+n`, for `L = 1..4`, the value
`C3B[first_L]*s[first_L]^2 + 2 * Σ C3B[i]*s[i]^2`, the sum over the other
components `i` of degree `L` (index ranges 0..2, 3..7, 8..14, 15..23), and
leaves every other slot of `q` as it was. -/
theorem find_q_slots (n_max_angular n : Nat) (s q : Nat → α) :
    (find_q (n_max_angular + 1) n s q (0 * (n_max_angular + 1) + n) =
        C3B (degreeFirst 1) * s (degreeFirst 1) ^ 2 +
          2 * ∑ i in Finset.Icc (degreeFirst 1 + 1) (degreeLast 1), C3B i * s i ^ 2) ∧
    (find_q (n_max_angular + 1) n s q (1 * (n_max_angular + 1) + n) =
        C3B (degreeFirst 2) * s (degreeFirst 2) ^ 2 +
          2 * ∑ i in Finset.Icc (degreeFirst 2 + 1) (degreeLast 2), C3B i * s i ^ 2) ∧
    (find_q (n_max_angular + 1) n s q (2 * (n_max_angular + 1) + n) =
        C3B (degreeFirst 3) * s (degreeFirst 3) ^ 2 +
          2 * ∑ i in Finset.Icc (degreeFirst 3 + 1) (degreeLast 3), C3B i * s i ^ 2) ∧
    (find_q (n_max_angular + 1) n s q (3 * (n_max_angular + 1) + n) =
        C3B (degreeFirst 4) * s (degreeFirst 4) ^ 2 +
          2 * ∑ i in Finset.Icc (degreeFirst 4 + 1) (degreeLast 4), C3B i * s i ^ 2) ∧
    (∀ j, j ≠ 0 * (n_max_angular + 1) + n → j ≠ 1 * (n_max_angular + 1) + n →
      j ≠ 2 * (n_max_angular + 1) + n → j ≠ 3 * (n_max_angular + 1) + n →
      find_q (n_max_angular + 1) n s q j = q j) := by
  have e1 : Finset.Icc 1 2 = ({1, 2} : Finset Nat) := by decide
  have e2 : Finset.Icc 4 7 = ({4, 5, 6, 7} : Finset Nat) := by decide
  have e3 : Finset.Icc 9 14 = ({9, 10, 11, 12, 13, 14} : Finset Nat) := by decide
  have e4 : Finset.Icc 16 23 = ({16, 17, 18, 19, 20, 21, 22, 23} : Finset Nat) := by decide
  have l2 : (2.0 : α) = 2 := by norm_num
  refine ⟨?_, ?_, ?_, ?_, ?_⟩
  · unfold find_q
    simp only [degreeFirst, degreeLast, e1]
    rw [Function.update_noteq (by omega), Function.update_noteq (by omega),
      Function.update_noteq (by omega), Nat.zero_mul, Nat.zero_add, Function.update_same]
    simp [l2]
    ring
  · unfold find_q
    simp only [degreeFirst, degreeLast, e2]
    rw [Function.update_noteq (by omega), Function.update_noteq (by omega),
      Nat.one_mul, Function.update_same]
    simp [l2]
    ring
  · unfold find_q
    simp only [degreeFirst, degreeLast, e3]
    rw [Function.update_noteq (by omega), Function.update_same]
    simp [l2]
    ring
  · unfold find_q
    simp only [degreeFirst, degreeLast, e4]
    rw [Function.update_same]
    simp [l2]
    ring
  · intro j h0 h1 h2 h3
    unfold find_q
    simp only [Nat.zero_mul, Nat.zero_add, Nat.one_mul] at h0 h1 ⊢
    rw [Function.update_noteq h3, Function.update_noteq h2, Function.update_noteq h1,
      Function.update_noteq h0]

end Invariants

theorem find_q_with_4body_slot {α : Type} [LinearOrderedField α]
    (n_max_angular_plus_1 n : Nat) (s q : Nat → α) :
    find_q_with_4body n_max_angular_plus_1 n s q (4 * n_max_angular_plus_1 + n) =
      C4B 0 * s 3 * s 3 * s 3 + C4B 1 * s 3 * (s 4 * s 4 + s 5 * s 5) +
        C4B 2 * s 3 * (s 6 * s 6 + s 7 * s 7) + C4B 3 * s 6 * (s 5 * s 5 - s 4 * s 4) +
        C4B 4 * s 4 * s 5 * s 7 := by
  unfold find_q_with_4body
  simp only [Function.update_same]

/-- C13 (as stated, refuted). With all 24 moments equal to `1` and `t = 2`,
multiplying the five degree-2 moments by `t` does not multiply the 4-body
invariant by `t^4`. -/
theorem find_q_with_4body_not_quartic :
    find_q_with_4body 1 0 (fun i => if 3 ≤ i ∧ i ≤ 7 then 2 * (1 : ℝ) else 1) (fun _ => 0)
        (4 * 1 + 0) ≠
      2 ^ 4 * find_q_with_4body 1 0 (fun _ => (1 : ℝ)) (fun _ => 0) (4 * 1 + 0) := by
  rw [find_q_with_4body_slot, find_q_with_4body_slot]
  norm_num [C4B, arrayOf]

/-- C13 (amended). The invariant that `find_q_with_4body` stores in slot
`4*(n_max_angular+1)+n` depends only on the five degree-2 moments `s[3..7]`
(the other moments and the prior contents of `q` can be replaced by anything),
and it is a cubic form in them: multiplying those five moments by `t`
multiplies the invariant by `t^3`. -/
theorem find_q_with_4body_cubic (n_max_angular n : Nat) (s s' q q' : Nat → ℝ) (t : ℝ) :
    find_q_with_4body (n_max_angular + 1) n
        (fun i => if 3 ≤ i ∧ i ≤ 7 then s i else s' i) q' (4 * (n_max_angular + 1) + n) =
      find_q_with_4body (n_max_angular + 1) n s q (4 * (n_max_angular + 1) + n) ∧
    find_q_with_4body (n_max_angular + 1) n
        (fun i => if 3 ≤ i ∧ i ≤ 7 then t * s i else s i) q (4 * (n_max_angular + 1) + n) =
      t ^ 3 * find_q_with_4body (n_max_angular + 1) n s q (4 * (n_max_angular + 1) + n) := by
  refine ⟨?_, ?_⟩
  · rw [find_q_with_4body_slot, find_q_with_4body_slot]
    norm_num
  · rw [find_q_with_4body_slot, find_q_with_4body_slot]
    norm_num
    ring

/-! ## Virial, slices, variants, radial pair force, ZBL energy -/

section Virial

variable {α : Type} [LinearOrderedField α]

theorem subAt_same (f : Nat → α) (i : Nat) (v : α) : subAt f i v i = f i - v := by
  unfold subAt
  rw [Function.update_same]

theorem subAt_ne {i j : Nat} (h : j ≠ i) (f : Nat → α) (v : α) : subAt f i v j = f j := by
  unfold subAt
  rw [Function.update_noteq h]

theorem addAt_same (f : Nat → α) (i : Nat) (v : α) : addAt f i v i = f i + v := by
  unfold addAt
  rw [Function.update_same]

theorem addAt_ne {i j : Nat} (h : j ≠ i) (f : Nat → α) (v : α) : addAt f i v j = f j := by
  unfold addAt
  rw [Function.update_noteq h]

/-- C16. Processing one neighbour pair `(n1, n2)` with displacement `r12` and
pair force `f12` (the common tail of the radial, angular and ZBL passes)
subtracts `r12[a]*f12[b]` from the virial entry `(3a+b)*N + n1` for every
`a, b < 3`, and changes no other virial entry: in particular no entry
`k*N + n` of another atom `n < N`, `n ≠ n1`. -/
theorem accumulate_pair_virial (N n1 n2 fx fy fz : Nat) (r12 f12 g_f g_virial : Nat → α)
    (h1 : n1 < N) :
    (∀ a < 3, ∀ b < 3,
      (accumulate_pair N n1 n2 fx fy fz r12 f12 g_f g_virial).2 ((3 * a + b) * N + n1) =
        g_virial ((3 * a + b) * N + n1) - r12 a * f12 b) ∧
    (∀ j, (∀ k < 9, j ≠ k * N + n1) →
      (accumulate_pair N n1 n2 fx fy fz r12 f12 g_f g_virial).2 j = g_virial j) ∧
    (∀ n < N, n ≠ n1 → ∀ k,
      (accumulate_pair N n1 n2 fx fy fz r12 f12 g_f g_virial).2 (k * N + n) =
        g_virial (k * N + n)) := by
  have frame : ∀ j, (∀ k < 9, j ≠ k * N + n1) →
      (accumulate_pair N n1 n2 fx fy fz r12 f12 g_f g_virial).2 j = g_virial j := by
    intro j hj
    have h0 := hj 0 (by omega)
    have h1' := hj 1 (by omega)
    have h2 := hj 2 (by omega)
    have h3 := hj 3 (by omega)
    have h4 := hj 4 (by omega)
    have h5 := hj 5 (by omega)
    have h6 := hj 6 (by omega)
    have h7 := hj 7 (by omega)
    have h8 := hj 8 (by omega)
    unfold accumulate_pair
    dsimp only
    rw [subAt_ne (by omega), subAt_ne (by omega), subAt_ne (by omega), subAt_ne (by omega),
      subAt_ne (by omega), subAt_ne (by omega), subAt_ne (by omega), subAt_ne (by omega),
      subAt_ne (by omega)]
  refine ⟨?_, frame, ?_⟩
  · intro a ha b hb
    unfold accumulate_pair
    dsimp only
    interval_cases a <;> interval_cases b <;>
      simp only [Nat.reduceMul, Nat.reduceAdd, Nat.zero_add, Nat.add_zero] <;>
      (repeat rw [subAt_ne (by omega)]) <;>
      rw [show ∀ k : Nat, k * N + n1 = n1 + k * N from fun k => Nat.add_comm _ _,
        subAt_same] <;>
      (repeat rw [subAt_ne (by omega)])
  · intro n hn hne k
    apply frame
    intro k' _ heq
    have h3 : k * N + n = k' * N + n1 := heq
    have hk : k = k' := by
      rcases Nat.lt_trichotomy k k' with h | h | h
      · have : (k + 1) * N ≤ k' * N := Nat.mul_le_mul_right N h
        rw [Nat.add_mul, Nat.one_mul] at this
        omega
      · exact h
      · have : (k' + 1) * N ≤ k * N := Nat.mul_le_mul_right N h
        rw [Nat.add_mul, Nat.one_mul] at this
        omega
    subst hk
    omega

theorem accumulate_pair_virial_witness :
    (0 : Nat) < 2 ∧
    ((∀ a < 3, ∀ b < 3,
      (accumulate_pair 2 0 1 0 2 4 (fun i => (i : ℚ)) (fun _ => 1) (fun _ => 0)
          (fun _ => 5)).2 ((3 * a + b) * 2 + 0) =
        (fun _ => (5 : ℚ)) ((3 * a + b) * 2 + 0) - (fun i => (i : ℚ)) a * (fun _ => (1 : ℚ)) b) ∧
    (∀ j, (∀ k < 9, j ≠ k * 2 + 0) →
      (accumulate_pair 2 0 1 0 2 4 (fun i => (i : ℚ)) (fun _ => 1) (fun _ => 0)
          (fun _ => 5)).2 j = (fun _ => (5 : ℚ)) j) ∧
    (∀ n < 2, n ≠ 0 → ∀ k,
      (accumulate_pair 2 0 1 0 2 4 (fun i => (i : ℚ)) (fun _ => 1) (fun _ => 0)
          (fun _ => 5)).2 (k * 2 + n) = (fun _ => (5 : ℚ)) (k * 2 + n))) :=
  ⟨by decide, accumulate_pair_virial 2 0 1 0 2 4 _ _ _ _ (by decide)⟩

end Virial

section Slices

variable {α : Type} [LinearOrderedField α]

/-- The sizes the constructor computes, read off its result. -/
theorem ctor_sizes (init : NEP3 α) (file : ModelFile α) (N : Nat) :
    (NEP3.ctor init file N).annmb.dim =
        ((NEP3.ctor init file N).paramb.n_max_radial + 1) +
          ((NEP3.ctor init file N).paramb.n_max_angular + 1) *
            (NEP3.ctor init file N).paramb.num_L ∧
      (NEP3.ctor init file N).paramb.dim_angular =
        ((NEP3.ctor init file N).paramb.n_max_angular + 1) *
          (NEP3.ctor init file N).paramb.num_L ∧
      (NEP3.ctor init file N).paramb.num_types_sq =
        (NEP3.ctor init file N).paramb.num_types * (NEP3.ctor init file N).paramb.num_types ∧
      (NEP3.ctor init file N).annmb.num_para =
        ((NEP3.ctor init file N).annmb.dim + 2) * (NEP3.ctor init file N).annmb.num_neurons1 + 1 +
          num_para_descriptor (NEP3.ctor init file N).paramb := by
  refine ⟨rfl, rfl, rfl, rfl⟩

/-- C18. `update_potential` slices the parameter buffer into five consecutive
views: `w0` at offset 0 (`num_neurons1*dim` entries), then `b0`
(`num_neurons1`), `w1` (`num_neurons1`), `b1` (1 entry) and `c`, each starting
where the one before ends; and for every model the constructor builds,
`num_para = (dim+2)*num_neurons1 + 1 + num_para_descriptor`, so that `c` has
`num_para_descriptor` entries and ends with the buffer. -/
theorem update_potential_slices (init : NEP3 α) (file : ModelFile α) (N : Nat)
    (parameters : Nat → α) (ann : ANN α) (i : Nat) :
    ((update_potential parameters ann).dim = ann.dim ∧
      (update_potential parameters ann).num_neurons1 = ann.num_neurons1 ∧
      (update_potential parameters ann).num_para = ann.num_para) ∧
    ((update_potential parameters ann).w0 i = parameters (0 + i) ∧
      (update_potential parameters ann).b0 i = parameters (0 + ann.num_neurons1 * ann.dim + i) ∧
      (update_potential parameters ann).w1 i =
        parameters (0 + ann.num_neurons1 * ann.dim + ann.num_neurons1 + i) ∧
      (update_potential parameters ann).b1 i =
        parameters (0 + ann.num_neurons1 * ann.dim + ann.num_neurons1 + ann.num_neurons1 + i) ∧
      (update_potential parameters ann).c i =
        parameters
          (0 + ann.num_neurons1 * ann.dim + ann.num_neurons1 + ann.num_neurons1 + 1 + i)) ∧
    ((NEP3.ctor init file N).annmb.w0 i = (NEP3.ctor init file N).parameters (0 + i) ∧
      (NEP3.ctor init file N).annmb.c i = (NEP3.ctor init file N).parameters
        (0 + (NEP3.ctor init file N).annmb.num_neurons1 * (NEP3.ctor init file N).annmb.dim +
          (NEP3.ctor init file N).annmb.num_neurons1 +
          (NEP3.ctor init file N).annmb.num_neurons1 + 1 + i)) ∧
    ((NEP3.ctor init file N).annmb.num_para =
        ((NEP3.ctor init file N).annmb.dim + 2) * (NEP3.ctor init file N).annmb.num_neurons1 + 1 +
          num_para_descriptor (NEP3.ctor init file N).paramb ∧
      0 + (NEP3.ctor init file N).annmb.num_neurons1 * (NEP3.ctor init file N).annmb.dim +
          (NEP3.ctor init file N).annmb.num_neurons1 +
          (NEP3.ctor init file N).annmb.num_neurons1 + 1 +
          num_para_descriptor (NEP3.ctor init file N).paramb =
        (NEP3.ctor init file N).annmb.num_para ∧
      (NEP3.ctor init file N).parameters_size = (NEP3.ctor init file N).annmb.num_para) := by
  refine ⟨⟨rfl, rfl, rfl⟩, ⟨?_, ?_, ?_, ?_, ?_⟩, ⟨?_, ?_⟩, ⟨rfl, ?_, rfl⟩⟩
  · simp [update_potential]
  · simp [update_potential, shift]
  · simp [update_potential, shift, Nat.add_assoc]
  · simp [update_potential, shift, Nat.add_assoc]
  · simp [update_potential, shift, Nat.add_assoc]
  · simp [NEP3.ctor, update_potential]
  · simp [NEP3.ctor, update_potential, shift, Nat.add_assoc]
  · have h := (ctor_sizes init file N).2.2.2
    rw [h]
    ring

end Slices

section RadialForce

variable {α : Type} [LinearOrderedField α]

/-- The accumulation loop over the radial orders adds `(Σ_n T n) * r12[d]` to
the three entries of `f12`. -/
theorem radial_force_loop (T : Nat → α) (r12 : Nat → α) (k : Nat) (f0 : Nat → α) :
    iterate (fun n (f12 : Nat → α) =>
        forLoop 0 3 (fun d (f12 : Nat → α) => addAt f12 d (T n * r12 d)) f12) k f0 =
      fun d => if d < 3 then f0 d + (∑ n in Finset.range k, T n) * r12 d else f0 d := by
  induction k with
  | zero => funext d; simp [iterate]
  | succ k ih =>
    rw [iterate_succ, ih, forLoop_zero_lo]
    unfold addAt
    rw [iterate_update_add (fun d => T k * r12 d)]
    funext d
    by_cases hd : d < 3
    · simp only [hd, if_true, Finset.sum_range_succ]
      ring
    · simp only [hd, if_false]

/-- C17. The pair force of `find_force_radial_small_box` for slot `i1` of atom
`n1` is `f12 = (Σ_{n ≤ n_max_radial} Fp[n*N+n1] * gnp_n / d12) * r12`; in the
default mode `gnp_n = Σ_{k ≤ basis_size_radial} fnp12[k] * c[(n*(basis_size_radial+1)+k)
* num_types^2 + t1*num_types + t2]`, and in version 2
`gnp_n = fnp12[n]` times the type-pair coefficient (`1` for one type), where
`fnp12` is the derivative output of the all-orders `find_fn_and_fnp`. -/
theorem radial_pair_force_formula (m : Libm α) (paramb : ParaMB α) (annmb : ANN α) (N : Nat)
    (g_NL g_type : Nat → Nat) (g_x12 g_y12 g_z12 g_Fp : Nat → α) (n1 i1 d : Nat)
    (hd : d < 3) (hsq : paramb.num_types_sq = paramb.num_types ^ 2) :
    let index := i1 * N + n1
    let t1 := g_type n1
    let t2 := g_type (g_NL index)
    let r12 : Nat → α := arrayOf [g_x12 index, g_y12 index, g_z12 index]
    let d12 := m.sqrt (r12 0 * r12 0 + r12 1 * r12 1 + r12 2 * r12 2)
    let fc := find_fc_and_fcp m.cos m.sin paramb.rc_radial paramb.rcinv_radial d12
    (paramb.version ≠ 2 →
      radial_pair_force m paramb annmb N g_NL g_type g_x12 g_y12 g_z12 g_Fp n1 i1 d =
        (∑ n in Finset.range (paramb.n_max_radial + 1),
          g_Fp (n * N + n1) *
            (∑ k in Finset.range (paramb.basis_size_radial + 1),
              (find_fn_and_fnp_all paramb.basis_size_radial paramb.rcinv_radial d12 fc.1 fc.2
                (fun _ => 0) (fun _ => 0)).2 k *
              annmb.c ((n * (paramb.basis_size_radial + 1) + k) * paramb.num_types ^ 2 +
                t1 * paramb.num_types + t2)) / d12) * r12 d) ∧
    (paramb.version = 2 →
      radial_pair_force m paramb annmb N g_NL g_type g_x12 g_y12 g_z12 g_Fp n1 i1 d =
        (∑ n in Finset.range (paramb.n_max_radial + 1),
          g_Fp (n * N + n1) *
            ((find_fn_and_fnp_all paramb.n_max_radial paramb.rcinv_radial d12 fc.1 fc.2
                (fun _ => 0) (fun _ => 0)).2 n *
              (if paramb.num_types = 1 then 1
               else annmb.c ((n * paramb.num_types + t1) * paramb.num_types + t2))) / d12) *
          r12 d) := by
  intro index t1 t2 r12 d12 fc
  have l1 : (1.0 : α) = 1 := by norm_num
  have l0 : (0.0 : α) = 0 := by norm_num
  refine ⟨fun hv => ?_, fun hv => ?_⟩
  · unfold radial_pair_force
    simp only [if_neg hv]
    rw [forLoop_zero_lo, radial_force_loop (fun n => g_Fp (n1 + n * N) *
      forLoop 0 (paramb.basis_size_radial + 1)
        (fun k (gnp12 : α) =>
          gnp12 + (find_fn_and_fnp_all paramb.basis_size_radial paramb.rcinv_radial d12 fc.1 fc.2
            (fun _ => 0) (fun _ => 0)).2 k *
            annmb.c ((n * (paramb.basis_size_radial + 1) + k) * paramb.num_types_sq +
              (g_type n1 * paramb.num_types + g_type (g_NL (i1 * N + n1))))) (0.0 : α) *
      (1.0 / d12))]
    simp only [hd, if_true, l0, zero_add]
    congr 1
    refine Finset.sum_congr rfl (fun n _ => ?_)
    rw [forLoop_zero_lo, iterate_add_eq_sum, Nat.add_comm n1 (n * N)]
    simp only [zero_add, l1, hsq, Nat.add_assoc, t1, t2, index]
    ring
  · unfold radial_pair_force
    simp only [if_pos hv]
    rw [forLoop_zero_lo, radial_force_loop (fun n => g_Fp (n1 + n * N) *
      (find_fn_and_fnp_all paramb.n_max_radial paramb.rcinv_radial d12 fc.1 fc.2
            (fun _ => 0) (fun _ => 0)).2 n * (1.0 / d12) *
        (if paramb.num_types = 1 then 1.0
         else annmb.c ((n * paramb.num_types + g_type n1) * paramb.num_types +
          g_type (g_NL (i1 * N + n1)))))]
    simp only [hd, if_true, l0, zero_add]
    congr 1
    refine Finset.sum_congr rfl (fun n _ => ?_)
    rw [Nat.add_comm n1 (n * N)]
    simp only [l1, t1, t2, index]
    ring

/-- Witness of C17 over the rationals: one atom type, `n_max_radial = 1`,
`basis_size_radial = 1`, in the default mode. -/
theorem radial_pair_force_formula_witness :
    ((0 : Nat) < 3 ∧
      (ParaMB.mk 3 2 2 (1 / 2) (1 / 2) 1 0 4 4 4 1 0 1 4 1 (fun _ => (1 : ℚ))).num_types_sq =
        (ParaMB.mk 3 2 2 (1 / 2) (1 / 2) 1 0 4 4 4 1 0 1 4 1 (fun _ => (1 : ℚ))).num_types ^ 2 ∧
      (ParaMB.mk 3 2 2 (1 / 2) (1 / 2) 1 0 4 4 4 1 0 1 4 1 (fun _ => (1 : ℚ))).version ≠ 2) ∧
    radial_pair_force (Libm.mk id id id id id (fun x _ => x))
        (ParaMB.mk 3 2 2 (1 / 2) (1 / 2) 1 0 4 4 4 1 0 1 4 1 (fun _ => (1 : ℚ)))
        (ANN.mk 6 1 13 (fun _ => 1) (fun _ => 0) (fun _ => 1) (fun _ => 0) (fun _ => 1))
        1 (fun _ => 0) (fun _ => 0) (fun _ => 1) (fun _ => 0) (fun _ => 0) (fun _ => 1) 0 0 0 =
      (∑ n in Finset.range (1 + 1),
        (fun _ => (1 : ℚ)) (n * 1 + 0) *
          (∑ k in Finset.range (1 + 1),
            (find_fn_and_fnp_all 1 (1 / 2 : ℚ)
              (id ((arrayOf [(1 : ℚ), 0, 0] : Nat → ℚ) 0 * (arrayOf [(1 : ℚ), 0, 0] : Nat → ℚ) 0 +
                (arrayOf [(1 : ℚ), 0, 0] : Nat → ℚ) 1 * (arrayOf [(1 : ℚ), 0, 0] : Nat → ℚ) 1 +
                (arrayOf [(1 : ℚ), 0, 0] : Nat → ℚ) 2 * (arrayOf [(1 : ℚ), 0, 0] : Nat → ℚ) 2))
              (find_fc_and_fcp id id (2 : ℚ) (1 / 2)
                (id ((arrayOf [(1 : ℚ), 0, 0] : Nat → ℚ) 0 * (arrayOf [(1 : ℚ), 0, 0] : Nat → ℚ) 0 +
                  (arrayOf [(1 : ℚ), 0, 0] : Nat → ℚ) 1 * (arrayOf [(1 : ℚ), 0, 0] : Nat → ℚ) 1 +
                  (arrayOf [(1 : ℚ), 0, 0] : Nat → ℚ) 2 * (arrayOf [(1 : ℚ), 0, 0] : Nat → ℚ) 2))).1
              (find_fc_and_fcp id id (2 : ℚ) (1 / 2)
                (id ((arrayOf [(1 : ℚ), 0, 0] : Nat → ℚ) 0 * (arrayOf [(1 : ℚ), 0, 0] : Nat → ℚ) 0 +
                  (arrayOf [(1 : ℚ), 0, 0] : Nat → ℚ) 1 * (arrayOf [(1 : ℚ), 0, 0] : Nat → ℚ) 1 +
                  (arrayOf [(1 : ℚ), 0, 0] : Nat → ℚ) 2 * (arrayOf [(1 : ℚ), 0, 0] : Nat → ℚ) 2))).2
              (fun _ => 0) (fun _ => 0)).2 k *
            (fun _ => (1 : ℚ)) ((n * (1 + 1) + k) * 1 ^ 2 + 0 * 1 + 0)) /
          id ((arrayOf [(1 : ℚ), 0, 0] : Nat → ℚ) 0 * (arrayOf [(1 : ℚ), 0, 0] : Nat → ℚ) 0 +
            (arrayOf [(1 : ℚ), 0, 0] : Nat → ℚ) 1 * (arrayOf [(1 : ℚ), 0, 0] : Nat → ℚ) 1 +
            (arrayOf [(1 : ℚ), 0, 0] : Nat → ℚ) 2 * (arrayOf [(1 : ℚ), 0, 0] : Nat → ℚ) 2)) *
        (arrayOf [(1 : ℚ), 0, 0] : Nat → ℚ) 0 :=
  ⟨⟨by decide, rfl, by decide⟩,
    (radial_pair_force_formula (Libm.mk id id id id id (fun x _ => x))
      (ParaMB.mk 3 2 2 (1 / 2) (1 / 2) 1 0 4 4 4 1 0 1 4 1 (fun _ => (1 : ℚ)))
      (ANN.mk 6 1 13 (fun _ => 1) (fun _ => 0) (fun _ => 1) (fun _ => 0) (fun _ => 1))
      1 (fun _ => 0) (fun _ => 0) (fun _ => 1) (fun _ => 0) (fun _ => 0) (fun _ => 1) 0 0 0
      (by decide) rfl).1 (by decide)⟩

end RadialForce

section ZBLEnergy

variable {α : Type} [LinearOrderedField α]

/-- Inside the inner cutoff `find_f_and_fp_zbl` returns the unswitched
screened-Coulomb value. -/
theorem find_f_zbl_inner (m : Libm α) (zizj a_inv rc_inner rc_outer d12 d12inv : α)
    (h : d12 < rc_inner) :
    (find_f_and_fp_zbl m zizj a_inv rc_inner rc_outer d12 d12inv).1 =
      zizj * zbl_phi m.exp (d12 * a_inv) * d12inv := by
  unfold find_f_and_fp_zbl find_fc_and_fcp_zbl find_phi_and_phip_zbl zbl_phi
  have l1 : (1.0 : α) = 1 := by norm_num
  have l0 : (0.0 : α) = 0 := by norm_num
  simp only [if_pos h, arrayOf, List.getD_cons_zero, List.getD_cons_succ, l0, l1]
  ring

/-- C14. For two atoms that list each other (atomic numbers `Zi`, `Zj`,
displacements `r` and `-r`) at a distance `0 < d < rc_inner`,
`find_f_and_fp_zbl` returns `f = K*Zi*Zj*phi(d*a_inv)/d` with the four-term
`phi`, `K = 14.399645` and `a_inv = (Zi^0.23 + Zj^0.23)*2.134563`, and the ZBL
pass adds `f/2` to the potential of each atom, `f` in total. -/
theorem zbl_two_atom_energy (zbl : ZBL ℝ) (g_NN g_NL g_type : Nat → Nat)
    (g_x12 g_y12 g_z12 g_f g_virial g_pe : Nat → ℝ) (fx fy fz : Nat) (d : ℝ)
    (hNN0 : g_NN 0 = 1) (hNN1 : g_NN 1 = 1) (hNL0 : g_NL 0 = 1) (hNL1 : g_NL 1 = 0)
    (hx : g_x12 1 = -g_x12 0) (hy : g_y12 1 = -g_y12 0) (hz : g_z12 1 = -g_z12 0)
    (hd : d = Real.sqrt (g_x12 0 * g_x12 0 + g_y12 0 * g_y12 0 + g_z12 0 * g_z12 0))
    (_hpos : 0 < d) (hin : d < zbl.rc_inner) :
    let Zi := zbl.atomic_numbers (g_type 0)
    let Zj := zbl.atomic_numbers (g_type 1)
    let a_inv := (Zi ^ (0.23 : ℝ) + Zj ^ (0.23 : ℝ)) * 2.134563
    let f := 14.399645 * Zi * Zj * zbl_phi Real.exp (d * a_inv) / d
    (find_f_and_fp_zbl (Libm.mk Real.tanh Real.cos Real.sin Real.sqrt Real.exp Real.rpow)
        (14.399645 * Zi * Zj) a_inv zbl.rc_inner zbl.rc_outer d (1 / d)).1 = f ∧
      (find_force_ZBL_small_box (Libm.mk Real.tanh Real.cos Real.sin Real.sqrt Real.exp Real.rpow)
        2 zbl g_NN g_NL g_type g_x12 g_y12 g_z12 fx fy fz g_f g_virial g_pe).2.2 0 =
          g_pe 0 + f / 2 ∧
      (find_force_ZBL_small_box (Libm.mk Real.tanh Real.cos Real.sin Real.sqrt Real.exp Real.rpow)
        2 zbl g_NN g_NL g_type g_x12 g_y12 g_z12 fx fy fz g_f g_virial g_pe).2.2 1 =
          g_pe 1 + f / 2 := by
  intro Zi Zj a_inv f
  have hd1 : Real.sqrt (g_x12 1 * g_x12 1 + g_y12 1 * g_y12 1 + g_z12 1 * g_z12 1) = d := by
    rw [hd, hx, hy, hz]
    congr 1
    ring
  have e0 : (0 : Nat) * 2 + 0 = 0 := rfl
  have e1 : (0 : Nat) * 2 + 1 = 1 := rfl
  refine ⟨?_, ?_, ?_⟩
  · rw [find_f_zbl_inner _ _ _ _ _ _ _ hin]
    simp only [f]
    ring
  · unfold find_force_ZBL_small_box
    simp only [forLoop_zero_two, hNN0, hNN1, forLoop_zero_one, e0, e1, hNL0, hNL1, arrayOf,
      List.getD_cons_zero, List.getD_cons_succ]
    rw [addAt_ne (by decide), addAt_same]
    rw [← hd, find_f_zbl_inner _ _ _ _ _ _ _ hin]
    simp only [f, a_inv, Zi, Zj, K_C_SP]
    norm_num
    ring
  · unfold find_force_ZBL_small_box
    simp only [forLoop_zero_two, hNN0, hNN1, forLoop_zero_one, e0, e1, hNL0, hNL1, arrayOf,
      List.getD_cons_zero, List.getD_cons_succ]
    rw [addAt_same, addAt_ne (by decide)]
    rw [hd1, find_f_zbl_inner _ _ _ _ _ _ _ hin]
    simp only [f, a_inv, Zi, Zj, K_C_SP]
    norm_num
    ring_nf

/-- Witness of C14: two atoms with atomic number 1 at distance `1/2`, inner
cutoff 1. -/
theorem zbl_two_atom_energy_witness :
    (((fun _ => 1 : Nat → Nat) 0 = 1 ∧ (fun _ => 1 : Nat → Nat) 1 = 1 ∧
        (arrayOf [1, 0] : Nat → Nat) 0 = 1 ∧ (arrayOf [1, 0] : Nat → Nat) 1 = 0) ∧
      ((arrayOf [1 / 2, -(1 / 2)] : Nat → ℝ) 1 = -(arrayOf [1 / 2, -(1 / 2)] : Nat → ℝ) 0 ∧
        (0 : ℝ) < 1 / 2 ∧ (1 / 2 : ℝ) < (ZBL.mk true 1 2 (fun _ => (1 : ℝ))).rc_inner)) ∧
    ((find_force_ZBL_small_box (Libm.mk Real.tanh Real.cos Real.sin Real.sqrt Real.exp Real.rpow)
        2 (ZBL.mk true 1 2 (fun _ => (1 : ℝ))) (fun _ => 1) (arrayOf [1, 0]) (fun _ => 0)
        (arrayOf [1 / 2, -(1 / 2)]) (fun _ => 0) (fun _ => 0) 0 2 4
        (fun _ => 0) (fun _ => 0) (fun _ => 0)).2.2 0 =
      0 + 14.399645 * 1 * 1 *
        zbl_phi Real.exp (1 / 2 * (((1 : ℝ) ^ (0.23 : ℝ) + (1 : ℝ) ^ (0.23 : ℝ)) * 2.134563)) /
          (1 / 2) / 2) :=
  ⟨⟨⟨rfl, rfl, rfl, rfl⟩, by norm_num [arrayOf], by norm_num, by norm_num⟩,
    (zbl_two_atom_energy (ZBL.mk true 1 2 (fun _ => (1 : ℝ))) (fun _ => 1) (arrayOf [1, 0])
      (fun _ => 0) (arrayOf [1 / 2, -(1 / 2)]) (fun _ => 0) (fun _ => 0)
      (fun _ => 0) (fun _ => 0) (fun _ => 0) 0 2 4 (1 / 2)
      rfl rfl rfl rfl (by norm_num [arrayOf]) (by norm_num) (by norm_num)
      (by
        have h : (arrayOf [1 / 2, -(1 / 2)] : Nat → ℝ) 0 = 1 / 2 := by norm_num [arrayOf]
        rw [h, mul_zero, add_zero, add_zero, Real.sqrt_mul_self (by norm_num)])
      (by norm_num) (by norm_num)).2.1⟩

end ZBLEnergy

/-! ## The descriptor stage as a loop over its parts -/

theorem iterate_congr {σ : Type} (body body' : Nat → σ → σ) (k : Nat) (s : σ)
    (h : ∀ i s, i < k → body i s = body' i s) : iterate body k s = iterate body' k s := by
  induction k with
  | zero => rfl
  | succ k ih =>
    rw [iterate_succ, iterate_succ, ih (fun i s hi => h i s (Nat.lt_succ_of_lt hi)),
      h k _ (Nat.lt_succ_self k)]

/-- Two loops with the same bounds whose bodies agree on the range of the loop
compute the same state. -/
@[congr]
theorem forLoop_congr {σ : Type} {lo hi : Nat} {body body' : Nat → σ → σ} {s s' : σ}
    (h : ∀ i s, lo ≤ i → i < hi → body i s = body' i s) (hs : s = s') :
    forLoop lo hi body s = forLoop lo hi body' s' := by
  subst hs
  unfold forLoop
  apply iterate_congr
  intro i s hi
  exact h (lo + i) s (Nat.le_add_right _ _) (by omega)

section Parts

variable {α : Type} [LinearOrderedField α]

/-- A loop on a pair of states whose components do not interact is the pair of
the two loops. -/
theorem forLoop_prod {β γ : Type} (A : Nat → β → β) (B : Nat → γ → γ) (lo hi : Nat)
    (a : β) (b : γ) :
    forLoop lo hi (fun i (st : β × γ) => (A i st.1, B i st.2)) (a, b) =
      (forLoop lo hi A a, forLoop lo hi B b) := by
  unfold forLoop
  generalize hi - lo = k
  induction k with
  | zero => rfl
  | succ k ih => rw [iterate_succ, ih, iterate_succ, iterate_succ]

/-- The descriptor stage is the loop over the atoms that adds the network
energy of the atom to `g_pe`, persists its gradient in `g_Fp` and its moments in
`g_sum_fxyz`. -/
theorem find_descriptor_small_box_eq (m : Libm α) (paramb : ParaMB α) (annmb : ANN α) (N : Nat)
    (NNr NLr NNa NLa type : Nat → Nat) (gx gy gz ax ay az pe Fp sfx : Nat → α) :
    find_descriptor_small_box m paramb annmb N NNr NLr NNa NLa type gx gy gz ax ay az pe Fp sfx =
      forLoop 0 N
        (fun n1 (st : (Nat → α) × (Nat → α) × (Nat → α)) =>
          (addAt st.1 n1
            (atom_ann m paramb annmb
              (atom_descriptor m paramb annmb N NNr NLr NNa NLa type gx gy gz ax ay az n1)).1,
           store_Fp paramb annmb N n1
            (atom_ann m paramb annmb
              (atom_descriptor m paramb annmb N NNr NLr NNa NLa type gx gy gz ax ay az n1)).2
            st.2.1,
           forLoop 0 (paramb.n_max_angular + 1)
            (fun n (g : Nat → α) =>
              store_sum_fxyz N n1 n
                (angular_moments m paramb annmb N NNa NLa type ax ay az n1 n) g) st.2.2))
        (pe, Fp, sfx) := by
  have step : find_descriptor_small_box m paramb annmb N NNr NLr NNa NLa type gx gy gz ax ay az
      pe Fp sfx =
      forLoop 0 N
        (fun n1 (st : (Nat → α) × (Nat → α) × (Nat → α)) =>
          (addAt st.1 n1
            (atom_ann m paramb annmb
              (forLoop 0 (paramb.n_max_angular + 1)
                (fun n (st2 : (Nat → α) × (Nat → α)) =>
                  (select_find_q paramb n
                    (angular_moments m paramb annmb N NNa NLa type ax ay az n1 n) st2.1,
                   store_sum_fxyz N n1 n
                    (angular_moments m paramb annmb N NNa NLa type ax ay az n1 n) st2.2))
                (radial_descriptor m paramb annmb N NNr NLr type gx gy gz n1, st.2.2)).1).1,
           store_Fp paramb annmb N n1
            (atom_ann m paramb annmb
              (forLoop 0 (paramb.n_max_angular + 1)
                (fun n (st2 : (Nat → α) × (Nat → α)) =>
                  (select_find_q paramb n
                    (angular_moments m paramb annmb N NNa NLa type ax ay az n1 n) st2.1,
                   store_sum_fxyz N n1 n
                    (angular_moments m paramb annmb N NNa NLa type ax ay az n1 n) st2.2))
                (radial_descriptor m paramb annmb N NNr NLr type gx gy gz n1, st.2.2)).1).2
            st.2.1,
           (forLoop 0 (paramb.n_max_angular + 1)
                (fun n (st2 : (Nat → α) × (Nat → α)) =>
                  (select_find_q paramb n
                    (angular_moments m paramb annmb N NNa NLa type ax ay az n1 n) st2.1,
                   store_sum_fxyz N n1 n
                    (angular_moments m paramb annmb N NNa NLa type ax ay az n1 n) st2.2))
                (radial_descriptor m paramb annmb N NNr NLr type gx gy gz n1, st.2.2)).2))
        (pe, Fp, sfx) := rfl
  rw [step]
  refine forLoop_congr (fun n1 st _ _ => ?_) rfl
  rw [forLoop_prod
    (fun n (q : Nat → α) => select_find_q paramb n
      (angular_moments m paramb annmb N NNa NLa type ax ay az n1 n) q)
    (fun n (g : Nat → α) => store_sum_fxyz N n1 n
      (angular_moments m paramb annmb N NNa NLa type ax ay az n1 n) g)]
  rfl

end Parts

/-! ## The layout of the displacement buffer -/

section Reads

variable {α : Type} [LinearOrderedField α]

theorem radial_slot_step_congr (m : Libm α) (paramb : ParaMB α) (annmb : ANN α) (N : Nat)
    (NL type : Nat → Nat) (gx gy gz gx' gy' gz' : Nat → α) (n1 i1 : Nat) (q : Nat → α)
    (hx : gx (i1 * N + n1) = gx' (i1 * N + n1)) (hy : gy (i1 * N + n1) = gy' (i1 * N + n1))
    (hz : gz (i1 * N + n1) = gz' (i1 * N + n1)) :
    radial_slot_step m paramb annmb N NL type gx gy gz n1 i1 q =
      radial_slot_step m paramb annmb N NL type gx' gy' gz' n1 i1 q := by
  have e : ∀ g1 g2 g3 : Nat → α,
      radial_slot_step m paramb annmb N NL type g1 g2 g3 n1 i1 q =
        radial_slot_step m paramb annmb N NL type (fun _ => g1 (i1 * N + n1))
          (fun _ => g2 (i1 * N + n1)) (fun _ => g3 (i1 * N + n1)) n1 i1 q := fun _ _ _ => rfl
  rw [e gx, e gx', hx, hy, hz]

theorem angular_slot_step_congr (m : Libm α) (paramb : ParaMB α) (annmb : ANN α) (N : Nat)
    (NL type : Nat → Nat) (gx gy gz gx' gy' gz' : Nat → α) (n1 n i1 : Nat) (s : Nat → α)
    (hx : gx (i1 * N + n1) = gx' (i1 * N + n1)) (hy : gy (i1 * N + n1) = gy' (i1 * N + n1))
    (hz : gz (i1 * N + n1) = gz' (i1 * N + n1)) :
    angular_slot_step m paramb annmb N NL type gx gy gz n1 n i1 s =
      angular_slot_step m paramb annmb N NL type gx' gy' gz' n1 n i1 s := by
  have e : ∀ g1 g2 g3 : Nat → α,
      angular_slot_step m paramb annmb N NL type g1 g2 g3 n1 n i1 s =
        angular_slot_step m paramb annmb N NL type (fun _ => g1 (i1 * N + n1))
          (fun _ => g2 (i1 * N + n1)) (fun _ => g3 (i1 * N + n1)) n1 n i1 s := fun _ _ _ => rfl
  rw [e gx, e gx', hx, hy, hz]

/-- The descriptor stage reads the displacement arrays only at the slots
`i1 * N + n1` of the neighbour lists. -/
theorem find_descriptor_congr_r12 (m : Libm α) (paramb : ParaMB α) (annmb : ANN α) (N : Nat)
    (NNr NLr NNa NLa type : Nat → Nat) (gx gy gz ax ay az gx' gy' gz' ax' ay' az' : Nat → α)
    (pe Fp sfx : Nat → α)
    (hr : ∀ n1, n1 < N → ∀ i1, i1 < NNr n1 →
      gx (i1 * N + n1) = gx' (i1 * N + n1) ∧ gy (i1 * N + n1) = gy' (i1 * N + n1) ∧
        gz (i1 * N + n1) = gz' (i1 * N + n1))
    (ha : ∀ n1, n1 < N → ∀ i1, i1 < NNa n1 →
      ax (i1 * N + n1) = ax' (i1 * N + n1) ∧ ay (i1 * N + n1) = ay' (i1 * N + n1) ∧
        az (i1 * N + n1) = az' (i1 * N + n1)) :
    find_descriptor_small_box m paramb annmb N NNr NLr NNa NLa type gx gy gz ax ay az pe Fp sfx =
      find_descriptor_small_box m paramb annmb N NNr NLr NNa NLa type gx' gy' gz' ax' ay' az'
        pe Fp sfx := by
  rw [find_descriptor_small_box_eq, find_descriptor_small_box_eq]
  refine forLoop_congr (fun n1 st _ hn1 => ?_) rfl
  have hrd : radial_descriptor m paramb annmb N NNr NLr type gx gy gz n1 =
      radial_descriptor m paramb annmb N NNr NLr type gx' gy' gz' n1 := by
    unfold radial_descriptor
    refine forLoop_congr (fun i1 q _ hi1 => ?_) rfl
    obtain ⟨h1, h2, h3⟩ := hr n1 hn1 i1 hi1
    exact radial_slot_step_congr m paramb annmb N NLr type _ _ _ _ _ _ n1 i1 q h1 h2 h3
  have ham : ∀ n, angular_moments m paramb annmb N NNa NLa type ax ay az n1 n =
      angular_moments m paramb annmb N NNa NLa type ax' ay' az' n1 n := by
    intro n
    unfold angular_moments
    refine forLoop_congr (fun i1 s _ hi1 => ?_) rfl
    obtain ⟨h1, h2, h3⟩ := ha n1 hn1 i1 hi1
    exact angular_slot_step_congr m paramb annmb N NLa type _ _ _ _ _ _ n1 n i1 s h1 h2 h3
  have had : atom_descriptor m paramb annmb N NNr NLr NNa NLa type gx gy gz ax ay az n1 =
      atom_descriptor m paramb annmb N NNr NLr NNa NLa type gx' gy' gz' ax' ay' az' n1 := by
    unfold atom_descriptor
    rw [hrd]
    simp only [ham]
  rw [had]
  simp only [ham]

/-- The ZBL pass reads the displacement arrays only at the slots `i1 * N + n1`
of its neighbour list. -/
theorem find_force_ZBL_congr_r12 (m : Libm α) (N : Nat) (zbl : ZBL α)
    (NN NL type : Nat → Nat) (gx gy gz gx' gy' gz' : Nat → α) (fx fy fz : Nat)
    (g_f g_virial g_pe : Nat → α)
    (hr : ∀ n1, n1 < N → ∀ i1, i1 < NN n1 →
      gx (i1 * N + n1) = gx' (i1 * N + n1) ∧ gy (i1 * N + n1) = gy' (i1 * N + n1) ∧
        gz (i1 * N + n1) = gz' (i1 * N + n1)) :
    find_force_ZBL_small_box m N zbl NN NL type gx gy gz fx fy fz g_f g_virial g_pe =
      find_force_ZBL_small_box m N zbl NN NL type gx' gy' gz' fx fy fz g_f g_virial g_pe := by
  unfold find_force_ZBL_small_box
  refine forLoop_congr (fun n1 st _ hn1 => ?_) rfl
  refine forLoop_congr (fun i1 st2 _ hi1 => ?_) rfl
  obtain ⟨h1, h2, h3⟩ := hr n1 hn1 i1 hi1
  dsimp only
  rw [h1, h2, h3]

end Reads

/-- A relational loop invariant: two loops with the same bounds whose bodies
preserve a relation between their states end in related states. -/
theorem forLoop_rel {σ τ : Type} (R : Nat → σ → τ → Prop) (lo hi : Nat) (h : lo ≤ hi)
    (f : Nat → σ → σ) (g : Nat → τ → τ) (s : σ) (t : τ) (h0 : R lo s t)
    (hstep : ∀ i s t, lo ≤ i → i < hi → R i s t → R (i + 1) (f i s) (g i t)) :
    R hi (forLoop lo hi f s) (forLoop lo hi g t) := by
  have key := forLoop_invariant (fun i (st : σ × τ) => R i st.1 st.2) lo hi h
    (fun i st => (f i st.1, g i st.2)) (s, t) h0
    (fun i st h1 h2 hp => hstep i st.1 st.2 h1 h2 hp)
  rw [forLoop_prod] at key
  exact key

section Agreement

variable {α : Type} [LinearOrderedField α]

theorem addAt_agree (P : Nat → Prop) (f g : Nat → α) (j : Nat) (v : α)
    (h : ∀ i, P i → f i = g i) : ∀ i, P i → addAt f j v i = addAt g j v i := by
  intro i hi
  unfold addAt
  by_cases e : i = j
  · subst e
    rw [Function.update_same, Function.update_same, h i hi]
  · rw [Function.update_noteq e, Function.update_noteq e, h i hi]

theorem subAt_agree (P : Nat → Prop) (f g : Nat → α) (j : Nat) (v : α)
    (h : ∀ i, P i → f i = g i) : ∀ i, P i → subAt f j v i = subAt g j v i := by
  intro i hi
  unfold subAt
  by_cases e : i = j
  · subst e
    rw [Function.update_same, Function.update_same, h i hi]
  · rw [Function.update_noteq e, Function.update_noteq e, h i hi]

/-- A loop of stores `g[idx i] = v i` makes two arrays agree on the stored
indices and keeps them equal wherever they were. -/
theorem update_loop_agree (P : Nat → Prop) (K : Nat) (idx : Nat → Nat) (v : Nat → α)
    (g g' : Nat → α) (h : ∀ j, P j → g j = g' j) :
    ∀ j, (P j ∨ ∃ i, i < K ∧ j = idx i) →
      forLoop 0 K (fun i (g : Nat → α) => Function.update g (idx i) (v i)) g j =
        forLoop 0 K (fun i (g : Nat → α) => Function.update g (idx i) (v i)) g' j := by
  refine forLoop_rel
    (fun e (a b : Nat → α) => ∀ j, (P j ∨ ∃ i, i < e ∧ j = idx i) → a j = b j)
    0 K (Nat.zero_le _) _ _ g g' ?_ ?_
  · intro j hj
    rcases hj with hj | ⟨i, hi, _⟩
    · exact h j hj
    · omega
  · intro e a b _ _ hab j hj
    by_cases ej : j = idx e
    · subst ej
      rw [Function.update_same, Function.update_same]
    · rw [Function.update_noteq ej, Function.update_noteq ej]
      apply hab
      rcases hj with hj | ⟨i, hi, hji⟩
      · exact Or.inl hj
      · refine Or.inr ⟨i, ?_, hji⟩
        rcases Nat.lt_succ_iff_lt_or_eq.mp hi with h1 | h1
        · exact h1
        · subst h1
          exact absurd hji ej

/-- The fifteen closing statements of a force pass keep two pairs of arrays
equal wherever they were. -/
theorem accumulate_pair_agree (Pf Pv : Nat → Prop) (N n1 n2 fx fy fz : Nat)
    (r12 f12 g_f g_f' g_v g_v' : Nat → α)
    (hf : ∀ i, Pf i → g_f i = g_f' i) (hv : ∀ i, Pv i → g_v i = g_v' i) :
    (∀ i, Pf i → (accumulate_pair N n1 n2 fx fy fz r12 f12 g_f g_v).1 i =
      (accumulate_pair N n1 n2 fx fy fz r12 f12 g_f' g_v').1 i) ∧
    (∀ i, Pv i → (accumulate_pair N n1 n2 fx fy fz r12 f12 g_f g_v).2 i =
      (accumulate_pair N n1 n2 fx fy fz r12 f12 g_f' g_v').2 i) := by
  unfold accumulate_pair
  dsimp only
  constructor
  · repeat (first | apply addAt_agree | apply subAt_agree)
    exact hf
  · repeat (first | apply addAt_agree | apply subAt_agree)
    exact hv

/-- The descriptor stage, array by array. -/
theorem find_descriptor_small_box_split (m : Libm α) (paramb : ParaMB α) (annmb : ANN α)
    (N : Nat) (NNr NLr NNa NLa type : Nat → Nat) (gx gy gz ax ay az pe Fp sfx : Nat → α) :
    find_descriptor_small_box m paramb annmb N NNr NLr NNa NLa type gx gy gz ax ay az pe Fp sfx =
      (forLoop 0 N
        (fun n1 (pe : Nat → α) => addAt pe n1
          (atom_ann m paramb annmb
            (atom_descriptor m paramb annmb N NNr NLr NNa NLa type gx gy gz ax ay az n1)).1) pe,
       forLoop 0 N
        (fun n1 (g : Nat → α) => store_Fp paramb annmb N n1
          (atom_ann m paramb annmb
            (atom_descriptor m paramb annmb N NNr NLr NNa NLa type gx gy gz ax ay az n1)).2 g) Fp,
       forLoop 0 N
        (fun n1 (g : Nat → α) => forLoop 0 (paramb.n_max_angular + 1)
          (fun n g => store_sum_fxyz N n1 n
            (angular_moments m paramb annmb N NNa NLa type ax ay az n1 n) g) g) sfx) := by
  rw [find_descriptor_small_box_eq]
  have h1 := forLoop_prod
    (fun n1 (pe : Nat → α) => addAt pe n1
      (atom_ann m paramb annmb
        (atom_descriptor m paramb annmb N NNr NLr NNa NLa type gx gy gz ax ay az n1)).1)
    (fun n1 (st : (Nat → α) × (Nat → α)) =>
      (store_Fp paramb annmb N n1
        (atom_ann m paramb annmb
          (atom_descriptor m paramb annmb N NNr NLr NNa NLa type gx gy gz ax ay az n1)).2 st.1,
       forLoop 0 (paramb.n_max_angular + 1)
        (fun n g => store_sum_fxyz N n1 n
          (angular_moments m paramb annmb N NNa NLa type ax ay az n1 n) g) st.2))
    0 N pe (Fp, sfx)
  have h2 := forLoop_prod
    (fun n1 (g : Nat → α) => store_Fp paramb annmb N n1
      (atom_ann m paramb annmb
        (atom_descriptor m paramb annmb N NNr NLr NNa NLa type gx gy gz ax ay az n1)).2 g)
    (fun n1 (g : Nat → α) => forLoop 0 (paramb.n_max_angular + 1)
      (fun n g => store_sum_fxyz N n1 n
        (angular_moments m paramb annmb N NNa NLa type ax ay az n1 n) g) g)
    0 N Fp sfx
  rw [h2] at h1
  exact h1

/-- The descriptor stage on two memories: the energies stay equal wherever
they were, and the stage overwrites every entry of `g_Fp` and `g_sum_fxyz` that
the force passes read. -/
theorem find_descriptor_agree (m : Libm α) (paramb : ParaMB α) (annmb : ANN α)
    (N : Nat) (NNr NLr NNa NLa type : Nat → Nat) (gx gy gz ax ay az : Nat → α)
    (pe pe' Fp Fp' sfx sfx' : Nat → α) (P : Nat → Prop) (hpe : ∀ i, P i → pe i = pe' i) :
    (∀ i, P i →
      (find_descriptor_small_box m paramb annmb N NNr NLr NNa NLa type gx gy gz ax ay az
        pe Fp sfx).1 i =
      (find_descriptor_small_box m paramb annmb N NNr NLr NNa NLa type gx gy gz ax ay az
        pe' Fp' sfx').1 i) ∧
    (∀ n1, n1 < N → ∀ d, d < annmb.dim →
      (find_descriptor_small_box m paramb annmb N NNr NLr NNa NLa type gx gy gz ax ay az
        pe Fp sfx).2.1 (d * N + n1) =
      (find_descriptor_small_box m paramb annmb N NNr NLr NNa NLa type gx gy gz ax ay az
        pe' Fp' sfx').2.1 (d * N + n1)) ∧
    (∀ n1, n1 < N → ∀ d, d < (paramb.n_max_angular + 1) * NUM_OF_ABC →
      (find_descriptor_small_box m paramb annmb N NNr NLr NNa NLa type gx gy gz ax ay az
        pe Fp sfx).2.2 (d * N + n1) =
      (find_descriptor_small_box m paramb annmb N NNr NLr NNa NLa type gx gy gz ax ay az
        pe' Fp' sfx').2.2 (d * N + n1)) := by
  rw [find_descriptor_small_box_split, find_descriptor_small_box_split]
  dsimp only
  refine ⟨?_, ?_, ?_⟩
  · refine forLoop_rel (fun _ (a b : Nat → α) => ∀ i, P i → a i = b i) 0 N (Nat.zero_le _)
      _ _ pe pe' hpe ?_
    intro n1 a b _ _ hab
    exact addAt_agree P a b n1 _ hab
  · have key := forLoop_rel
      (fun k (a b : Nat → α) => ∀ j, (∃ n1, n1 < k ∧ ∃ d, d < annmb.dim ∧ j = d * N + n1) →
        a j = b j) 0 N (Nat.zero_le _)
      (fun n1 (g : Nat → α) => store_Fp paramb annmb N n1
        (atom_ann m paramb annmb
          (atom_descriptor m paramb annmb N NNr NLr NNa NLa type gx gy gz ax ay az n1)).2 g)
      (fun n1 (g : Nat → α) => store_Fp paramb annmb N n1
        (atom_ann m paramb annmb
          (atom_descriptor m paramb annmb N NNr NLr NNa NLa type gx gy gz ax ay az n1)).2 g)
      Fp Fp' (fun j hj => by obtain ⟨n1, h, _⟩ := hj; omega)
      (fun k a b _ _ hab j hj => by
        apply update_loop_agree _ annmb.dim (fun d => d * N + k) _ a b hab
        obtain ⟨n1, hn1, d, hd, hj⟩ := hj
        rcases Nat.lt_succ_iff_lt_or_eq.mp hn1 with h1 | h1
        · exact Or.inl ⟨n1, h1, d, hd, hj⟩
        · subst h1
          exact Or.inr ⟨d, hd, hj⟩)
    intro n1 hn1 d hd
    exact key _ ⟨n1, hn1, d, hd, rfl⟩
  · have key := forLoop_rel
      (fun k (a b : Nat → α) =>
        ∀ j, (∃ n1, n1 < k ∧ ∃ n, n < paramb.n_max_angular + 1 ∧ ∃ abc, abc < NUM_OF_ABC ∧
          j = (n * NUM_OF_ABC + abc) * N + n1) → a j = b j) 0 N (Nat.zero_le _)
      (fun n1 (g : Nat → α) => forLoop 0 (paramb.n_max_angular + 1)
        (fun n g => store_sum_fxyz N n1 n
          (angular_moments m paramb annmb N NNa NLa type ax ay az n1 n) g) g)
      (fun n1 (g : Nat → α) => forLoop 0 (paramb.n_max_angular + 1)
        (fun n g => store_sum_fxyz N n1 n
          (angular_moments m paramb annmb N NNa NLa type ax ay az n1 n) g) g)
      sfx sfx' (fun j hj => by obtain ⟨n1, h, _⟩ := hj; omega)
      (fun k a b _ _ hab => by
        have inner := forLoop_rel
          (fun e (a b : Nat → α) =>
            ∀ j, ((∃ n1, n1 < k ∧ ∃ n, n < paramb.n_max_angular + 1 ∧ ∃ abc,
                abc < NUM_OF_ABC ∧ j = (n * NUM_OF_ABC + abc) * N + n1) ∨
              ∃ n, n < e ∧ ∃ abc, abc < NUM_OF_ABC ∧ j = (n * NUM_OF_ABC + abc) * N + k) →
              a j = b j) 0 (paramb.n_max_angular + 1) (Nat.zero_le _)
          (fun n g => store_sum_fxyz N k n
            (angular_moments m paramb annmb N NNa NLa type ax ay az k n) g)
          (fun n g => store_sum_fxyz N k n
            (angular_moments m paramb annmb N NNa NLa type ax ay az k n) g)
          a b
          (fun j hj => by
            rcases hj with hj | ⟨n, hn, _⟩
            · exact hab j hj
            · omega)
          (fun e a2 b2 _ _ hab2 j hj => by
            apply update_loop_agree _ NUM_OF_ABC (fun abc => (e * NUM_OF_ABC + abc) * N + k)
              _ a2 b2 hab2
            rcases hj with hj | ⟨n, hn, abc, habc, hj⟩
            · exact Or.inl (Or.inl hj)
            · rcases Nat.lt_succ_iff_lt_or_eq.mp hn with h1 | h1
              · exact Or.inl (Or.inr ⟨n, h1, abc, habc, hj⟩)
              · subst h1
                exact Or.inr ⟨abc, habc, hj⟩)
        intro j hj
        apply inner
        obtain ⟨n1, hn1, n, hn, abc, habc, hj⟩ := hj
        rcases Nat.lt_succ_iff_lt_or_eq.mp hn1 with h1 | h1
        · exact Or.inl ⟨n1, h1, n, hn, abc, habc, hj⟩
        · subst h1
          exact Or.inr ⟨n, hn, abc, habc, hj⟩)
    intro n1 hn1 d hd
    have h24 : 0 < NUM_OF_ABC := by decide
    refine key _ ⟨n1, hn1, d / NUM_OF_ABC, ?_, d % NUM_OF_ABC, Nat.mod_lt _ h24, ?_⟩
    · exact Nat.div_lt_of_lt_mul (by rw [Nat.mul_comm]; exact hd)
    · rw [Nat.mul_comm (d / NUM_OF_ABC), Nat.div_add_mod]

/-- The radial pair force reads `g_Fp` only at the entries `n1 + n * N` with
`n ≤ n_max_radial`. -/
theorem radial_pair_force_congr_Fp (m : Libm α) (paramb : ParaMB α) (annmb : ANN α) (N : Nat)
    (NL type : Nat → Nat) (gx gy gz g_Fp g_Fp' : Nat → α) (n1 i1 : Nat)
    (h : ∀ n, n < paramb.n_max_radial + 1 → g_Fp (n1 + n * N) = g_Fp' (n1 + n * N)) :
    radial_pair_force m paramb annmb N NL type gx gy gz g_Fp n1 i1 =
      radial_pair_force m paramb annmb N NL type gx gy gz g_Fp' n1 i1 := by
  unfold radial_pair_force
  dsimp only
  split
  · refine forLoop_congr (fun n f12 _ hn => ?_) rfl
    rw [h n hn]
  · refine forLoop_congr (fun n f12 _ hn => ?_) rfl
    rw [h n hn]

/-- The radial force pass on two memories. -/
theorem find_force_radial_agree (m : Libm α) (paramb : ParaMB α) (annmb : ANN α) (N : Nat)
    (NN NL type : Nat → Nat) (gx gy gz g_Fp g_Fp' : Nat → α) (fx fy fz : Nat)
    (g_f g_f' g_v g_v' : Nat → α) (Pf Pv : Nat → Prop)
    (hFp : ∀ n1, n1 < N → ∀ n, n < paramb.n_max_radial + 1 →
      g_Fp (n * N + n1) = g_Fp' (n * N + n1))
    (hf : ∀ i, Pf i → g_f i = g_f' i) (hv : ∀ i, Pv i → g_v i = g_v' i) :
    (∀ i, Pf i →
      (find_force_radial_small_box m paramb annmb N NN NL type gx gy gz g_Fp fx fy fz
        g_f g_v).1 i =
      (find_force_radial_small_box m paramb annmb N NN NL type gx gy gz g_Fp' fx fy fz
        g_f' g_v').1 i) ∧
    (∀ i, Pv i →
      (find_force_radial_small_box m paramb annmb N NN NL type gx gy gz g_Fp fx fy fz
        g_f g_v).2 i =
      (find_force_radial_small_box m paramb annmb N NN NL type gx gy gz g_Fp' fx fy fz
        g_f' g_v').2 i) := by
  unfold find_force_radial_small_box
  refine forLoop_rel
    (fun _ (a b : (Nat → α) × (Nat → α)) =>
      (∀ i, Pf i → a.1 i = b.1 i) ∧ (∀ i, Pv i → a.2 i = b.2 i))
    0 N (Nat.zero_le _) _ _ (g_f, g_v) (g_f', g_v') ⟨hf, hv⟩ ?_
  intro n1 a b _ hn1 hab
  refine forLoop_rel
    (fun _ (a b : (Nat → α) × (Nat → α)) =>
      (∀ i, Pf i → a.1 i = b.1 i) ∧ (∀ i, Pv i → a.2 i = b.2 i))
    0 (NN n1) (Nat.zero_le _) _ _ a b hab ?_
  intro i1 a2 b2 _ _ hab2
  dsimp only
  rw [radial_pair_force_congr_Fp m paramb annmb N NL type gx gy gz g_Fp g_Fp' n1 i1
    (fun n hn => by rw [Nat.add_comm n1 (n * N)]; exact hFp n1 hn1 n hn)]
  exact accumulate_pair_agree Pf Pv N n1 _ fx fy fz _ _ a2.1 b2.1 a2.2 b2.2 hab2.1 hab2.2

/-- The angular force pass on two memories. -/
theorem find_force_angular_agree (m : Libm α) (paramb : ParaMB α) (annmb : ANN α) (N : Nat)
    (NN NL type : Nat → Nat) (gx gy gz g_Fp g_Fp' g_sfx g_sfx' : Nat → α) (fx fy fz : Nat)
    (g_f g_f' g_v g_v' : Nat → α) (Pf Pv : Nat → Prop)
    (hFp : ∀ n1, n1 < N → ∀ d, d < paramb.dim_angular →
      g_Fp ((paramb.n_max_radial + 1 + d) * N + n1) =
        g_Fp' ((paramb.n_max_radial + 1 + d) * N + n1))
    (hsfx : ∀ n1, n1 < N → ∀ d, d < (paramb.n_max_angular + 1) * NUM_OF_ABC →
      g_sfx (d * N + n1) = g_sfx' (d * N + n1))
    (hf : ∀ i, Pf i → g_f i = g_f' i) (hv : ∀ i, Pv i → g_v i = g_v' i) :
    (∀ i, Pf i →
      (find_force_angular_small_box m paramb annmb N NN NL type gx gy gz g_Fp g_sfx fx fy fz
        g_f g_v).1 i =
      (find_force_angular_small_box m paramb annmb N NN NL type gx gy gz g_Fp' g_sfx' fx fy fz
        g_f' g_v').1 i) ∧
    (∀ i, Pv i →
      (find_force_angular_small_box m paramb annmb N NN NL type gx gy gz g_Fp g_sfx fx fy fz
        g_f g_v).2 i =
      (find_force_angular_small_box m paramb annmb N NN NL type gx gy gz g_Fp' g_sfx' fx fy fz
        g_f' g_v').2 i) := by
  unfold find_force_angular_small_box
  refine forLoop_rel
    (fun _ (a b : (Nat → α) × (Nat → α)) =>
      (∀ i, Pf i → a.1 i = b.1 i) ∧ (∀ i, Pv i → a.2 i = b.2 i))
    0 N (Nat.zero_le _) _ _ (g_f, g_v) (g_f', g_v') ⟨hf, hv⟩ ?_
  intro n1 a b _ hn1 hab
  dsimp only
  have e1 : forLoop 0 paramb.dim_angular
      (fun d (Fp : Nat → α) =>
        Function.update Fp d (g_Fp ((paramb.n_max_radial + 1 + d) * N + n1))) (fun _ => 0.0) =
      forLoop 0 paramb.dim_angular
      (fun d (Fp : Nat → α) =>
        Function.update Fp d (g_Fp' ((paramb.n_max_radial + 1 + d) * N + n1))) (fun _ => 0.0) :=
    forLoop_congr (fun d Fp _ hd => by rw [hFp n1 hn1 d hd]) rfl
  have e2 : forLoop 0 ((paramb.n_max_angular + 1) * NUM_OF_ABC)
      (fun d (s : Nat → α) => Function.update s d (g_sfx (d * N + n1))) (fun _ => 0) =
      forLoop 0 ((paramb.n_max_angular + 1) * NUM_OF_ABC)
      (fun d (s : Nat → α) => Function.update s d (g_sfx' (d * N + n1))) (fun _ => 0) :=
    forLoop_congr (fun d s _ hd => by rw [hsfx n1 hn1 d hd]) rfl
  rw [e1, e2]
  refine forLoop_rel
    (fun _ (a b : (Nat → α) × (Nat → α)) =>
      (∀ i, Pf i → a.1 i = b.1 i) ∧ (∀ i, Pv i → a.2 i = b.2 i))
    0 (NN n1) (Nat.zero_le _) _ _ a b hab ?_
  intro i1 a2 b2 _ _ hab2
  exact accumulate_pair_agree Pf Pv N n1 _ fx fy fz _ _ a2.1 b2.1 a2.2 b2.2 hab2.1 hab2.2

/-- The ZBL pass on two memories. -/
theorem find_force_ZBL_agree (m : Libm α) (N : Nat) (zbl : ZBL α)
    (NN NL type : Nat → Nat) (gx gy gz : Nat → α) (fx fy fz : Nat)
    (g_f g_f' g_v g_v' g_pe g_pe' : Nat → α) (Pf Pv Pp : Nat → Prop)
    (hf : ∀ i, Pf i → g_f i = g_f' i) (hv : ∀ i, Pv i → g_v i = g_v' i)
    (hp : ∀ i, Pp i → g_pe i = g_pe' i) :
    (∀ i, Pf i →
      (find_force_ZBL_small_box m N zbl NN NL type gx gy gz fx fy fz g_f g_v g_pe).1 i =
      (find_force_ZBL_small_box m N zbl NN NL type gx gy gz fx fy fz g_f' g_v' g_pe').1 i) ∧
    (∀ i, Pv i →
      (find_force_ZBL_small_box m N zbl NN NL type gx gy gz fx fy fz g_f g_v g_pe).2.1 i =
      (find_force_ZBL_small_box m N zbl NN NL type gx gy gz fx fy fz g_f' g_v' g_pe').2.1 i) ∧
    (∀ i, Pp i →
      (find_force_ZBL_small_box m N zbl NN NL type gx gy gz fx fy fz g_f g_v g_pe).2.2 i =
      (find_force_ZBL_small_box m N zbl NN NL type gx gy gz fx fy fz g_f' g_v' g_pe').2.2 i) := by
  unfold find_force_ZBL_small_box
  refine forLoop_rel
    (fun _ (a b : (Nat → α) × (Nat → α) × (Nat → α)) =>
      (∀ i, Pf i → a.1 i = b.1 i) ∧ (∀ i, Pv i → a.2.1 i = b.2.1 i) ∧
        (∀ i, Pp i → a.2.2 i = b.2.2 i))
    0 N (Nat.zero_le _) _ _ (g_f, g_v, g_pe) (g_f', g_v', g_pe') ⟨hf, hv, hp⟩ ?_
  intro n1 a b _ hn1 hab
  dsimp only
  refine forLoop_rel
    (fun _ (a b : (Nat → α) × (Nat → α) × (Nat → α)) =>
      (∀ i, Pf i → a.1 i = b.1 i) ∧ (∀ i, Pv i → a.2.1 i = b.2.1 i) ∧
        (∀ i, Pp i → a.2.2 i = b.2.2 i))
    0 (NN n1) (Nat.zero_le _) _ _ a b hab ?_
  intro i1 a2 b2 _ _ hab2
  dsimp only
  exact ⟨(accumulate_pair_agree Pf Pv N n1 _ fx fy fz _ _ a2.1 b2.1 a2.2.1 b2.2.1
      hab2.1 hab2.2.1).1,
    (accumulate_pair_agree Pf Pv N n1 _ fx fy fz _ _ a2.1 b2.1 a2.2.1 b2.2.1
      hab2.1 hab2.2.1).2,
    addAt_agree Pp _ _ n1 _ hab2.2.2⟩

/-- The outputs of `compute` on two memories agree on the zeroed ranges. -/
theorem compute_agree (m : Libm α) (paramb : ParaMB α) (annmb : ANN α) (zbl : ZBL α)
    (N size_x12 : Nat) (NN_radial NL_radial NN_angular NL_angular type : Nat → Nat)
    (r12 : Nat → α) (pe_size force_size virial_size : Nat) (mem mem' : Memory α)
    (hdim : paramb.n_max_radial + 1 + paramb.dim_angular ≤ annmb.dim) :
    (∀ i, i < pe_size →
      (compute m paramb annmb zbl N size_x12 NN_radial NL_radial NN_angular NL_angular type r12
        pe_size force_size virial_size mem).potential_per_atom i =
      (compute m paramb annmb zbl N size_x12 NN_radial NL_radial NN_angular NL_angular type r12
        pe_size force_size virial_size mem').potential_per_atom i) ∧
    (∀ i, i < force_size →
      (compute m paramb annmb zbl N size_x12 NN_radial NL_radial NN_angular NL_angular type r12
        pe_size force_size virial_size mem).force_per_atom i =
      (compute m paramb annmb zbl N size_x12 NN_radial NL_radial NN_angular NL_angular type r12
        pe_size force_size virial_size mem').force_per_atom i) ∧
    (∀ i, i < virial_size →
      (compute m paramb annmb zbl N size_x12 NN_radial NL_radial NN_angular NL_angular type r12
        pe_size force_size virial_size mem).virial_per_atom i =
      (compute m paramb annmb zbl N size_x12 NN_radial NL_radial NN_angular NL_angular type r12
        pe_size force_size virial_size mem').virial_per_atom i) := by
  have zp : ∀ i, i < pe_size →
      forLoop 0 pe_size (fun n (p : Nat → α) => Function.update p n 0.0)
        mem.potential_per_atom i =
      forLoop 0 pe_size (fun n (p : Nat → α) => Function.update p n 0.0)
        mem'.potential_per_atom i :=
    fun i hi => by rw [zero_loop_apply _ _ i hi, zero_loop_apply _ _ i hi]
  have zf : ∀ i, i < force_size →
      forLoop 0 force_size (fun n (p : Nat → α) => Function.update p n 0.0)
        mem.force_per_atom i =
      forLoop 0 force_size (fun n (p : Nat → α) => Function.update p n 0.0)
        mem'.force_per_atom i :=
    fun i hi => by rw [zero_loop_apply _ _ i hi, zero_loop_apply _ _ i hi]
  have zv : ∀ i, i < virial_size →
      forLoop 0 virial_size (fun n (p : Nat → α) => Function.update p n 0.0)
        mem.virial_per_atom i =
      forLoop 0 virial_size (fun n (p : Nat → α) => Function.update p n 0.0)
        mem'.virial_per_atom i :=
    fun i hi => by rw [zero_loop_apply _ _ i hi, zero_loop_apply _ _ i hi]
  obtain ⟨dp, dF, ds⟩ := find_descriptor_agree m paramb annmb N NN_radial NL_radial NN_angular
    NL_angular type (shift r12 0) (shift r12 size_x12) (shift r12 (size_x12 * 2))
    (shift r12 (size_x12 * 3)) (shift r12 (size_x12 * 4)) (shift r12 (size_x12 * 5))
    _ _ mem.Fp mem'.Fp mem.sum_fxyz mem'.sum_fxyz (fun i => i < pe_size) zp
  obtain ⟨rf, rv⟩ := find_force_radial_agree m paramb annmb N NN_radial NL_radial type
    (shift r12 0) (shift r12 size_x12) (shift r12 (size_x12 * 2)) _ _ 0 N (N * 2)
    _ _ _ _ (fun i => i < force_size) (fun i => i < virial_size)
    (fun n1 hn1 n hn => dF n1 hn1 n (by omega)) zf zv
  obtain ⟨af, av⟩ := find_force_angular_agree m paramb annmb N NN_angular NL_angular type
    (shift r12 (size_x12 * 3)) (shift r12 (size_x12 * 4)) (shift r12 (size_x12 * 5))
    _ _ _ _ 0 N (N * 2) _ _ _ _ (fun i => i < force_size) (fun i => i < virial_size)
    (fun n1 hn1 d hd => dF n1 hn1 (paramb.n_max_radial + 1 + d) (by omega)) ds rf rv
  unfold compute
  dsimp only
  split
  · obtain ⟨z1, z2, z3⟩ := find_force_ZBL_agree m N zbl NN_angular NL_angular type
      (shift r12 0) (shift r12 size_x12) (shift r12 (size_x12 * 2)) 0 N (N * 2)
      _ _ _ _ _ _ (fun i => i < force_size) (fun i => i < virial_size) (fun i => i < pe_size)
      af av dp
    exact ⟨z3, z1, z2⟩
  · exact ⟨dp, af, av⟩

/-- C15. The three output arrays of `compute` depend only on the model and the
inputs of the call: for an engine built by the constructor and any two
memories `mem`, `mem'` (prior contents of `potential_per_atom`,
`force_per_atom`, `virial_per_atom`, `Fp` and `sum_fxyz`), the two calls on the
same inputs give the same entries in the three output vectors; in particular
a second call on the memory the first call left returns the same outputs. -/
theorem compute_independent_of_prior_memory (m : Libm α) (init : NEP3 α) (file : ModelFile α)
    (N size_x12 : Nat) (NN_radial NL_radial NN_angular NL_angular type : Nat → Nat)
    (r12 : Nat → α) (pe_size force_size virial_size : Nat) (mem mem' : Memory α) :
    ((∀ i, i < pe_size →
        (compute m (NEP3.ctor init file N).paramb (NEP3.ctor init file N).annmb (NEP3.ctor init file N).zbl N size_x12
          NN_radial NL_radial NN_angular NL_angular type r12 pe_size force_size virial_size mem).potential_per_atom i =
        (compute m (NEP3.ctor init file N).paramb (NEP3.ctor init file N).annmb (NEP3.ctor init file N).zbl N size_x12
          NN_radial NL_radial NN_angular NL_angular type r12 pe_size force_size virial_size mem').potential_per_atom i) ∧
      (∀ i, i < force_size →
        (compute m (NEP3.ctor init file N).paramb (NEP3.ctor init file N).annmb (NEP3.ctor init file N).zbl N size_x12
          NN_radial NL_radial NN_angular NL_angular type r12 pe_size force_size virial_size mem).force_per_atom i =
        (compute m (NEP3.ctor init file N).paramb (NEP3.ctor init file N).annmb (NEP3.ctor init file N).zbl N size_x12
          NN_radial NL_radial NN_angular NL_angular type r12 pe_size force_size virial_size mem').force_per_atom i) ∧
      (∀ i, i < virial_size →
        (compute m (NEP3.ctor init file N).paramb (NEP3.ctor init file N).annmb (NEP3.ctor init file N).zbl N size_x12
          NN_radial NL_radial NN_angular NL_angular type r12 pe_size force_size virial_size mem).virial_per_atom i =
        (compute m (NEP3.ctor init file N).paramb (NEP3.ctor init file N).annmb (NEP3.ctor init file N).zbl N size_x12
          NN_radial NL_radial NN_angular NL_angular type r12 pe_size force_size virial_size mem').virial_per_atom i)) ∧
    ((∀ i, i < pe_size →
        (compute m (NEP3.ctor init file N).paramb (NEP3.ctor init file N).annmb (NEP3.ctor init file N).zbl N size_x12
          NN_radial NL_radial NN_angular NL_angular type r12 pe_size force_size virial_size 
          (compute m (NEP3.ctor init file N).paramb (NEP3.ctor init file N).annmb (NEP3.ctor init file N).zbl N size_x12
          NN_radial NL_radial NN_angular NL_angular type r12 pe_size force_size virial_size mem)).potential_per_atom i =
        (compute m (NEP3.ctor init file N).paramb (NEP3.ctor init file N).annmb (NEP3.ctor init file N).zbl N size_x12
          NN_radial NL_radial NN_angular NL_angular type r12 pe_size force_size virial_size mem).potential_per_atom i) ∧
      (∀ i, i < force_size →
        (compute m (NEP3.ctor init file N).paramb (NEP3.ctor init file N).annmb (NEP3.ctor init file N).zbl N size_x12
          NN_radial NL_radial NN_angular NL_angular type r12 pe_size force_size virial_size 
          (compute m (NEP3.ctor init file N).paramb (NEP3.ctor init file N).annmb (NEP3.ctor init file N).zbl N size_x12
          NN_radial NL_radial NN_angular NL_angular type r12 pe_size force_size virial_size mem)).force_per_atom i =
        (compute m (NEP3.ctor init file N).paramb (NEP3.ctor init file N).annmb (NEP3.ctor init file N).zbl N size_x12
          NN_radial NL_radial NN_angular NL_angular type r12 pe_size force_size virial_size mem).force_per_atom i) ∧
      (∀ i, i < virial_size →
        (compute m (NEP3.ctor init file N).paramb (NEP3.ctor init file N).annmb (NEP3.ctor init file N).zbl N size_x12
          NN_radial NL_radial NN_angular NL_angular type r12 pe_size force_size virial_size 
          (compute m (NEP3.ctor init file N).paramb (NEP3.ctor init file N).annmb (NEP3.ctor init file N).zbl N size_x12
          NN_radial NL_radial NN_angular NL_angular type r12 pe_size force_size virial_size mem)).virial_per_atom i =
        (compute m (NEP3.ctor init file N).paramb (NEP3.ctor init file N).annmb (NEP3.ctor init file N).zbl N size_x12
          NN_radial NL_radial NN_angular NL_angular type r12 pe_size force_size virial_size mem).virial_per_atom i)) :=
  ⟨compute_agree m _ _ _ N size_x12 NN_radial NL_radial NN_angular NL_angular type r12
      pe_size force_size virial_size mem mem' (Nat.le_refl _),
    compute_agree m _ _ _ N size_x12 NN_radial NL_radial NN_angular NL_angular type r12
      pe_size force_size virial_size _ mem (Nat.le_refl _)⟩

end Agreement

/-! ## Rotations and the angular invariants -/

section Moments
variable {α : Type} [LinearOrderedField α]

set_option maxHeartbeats 4000000 in
/-- One call of `accumulate_s` adds `moment_poly i * fn` to `s[i]`. -/
theorem accumulate_s_apply (d12 x12 y12 z12 fn : α) (s : Nat → α) (i : Nat) (hi : i < 24) :
    accumulate_s d12 x12 y12 z12 fn s i =
      s i + moment_poly i (x12 * (1.0 / d12)) (y12 * (1.0 / d12)) (z12 * (1.0 / d12)) * fn := by
  interval_cases i <;>
    simp only [accumulate_s, addAt, moment_poly, Function.update_apply, Nat.reduceEqDiff,
      OfNat.ofNat_ne_zero, OfNat.zero_ne_ofNat, OfNat.ofNat_ne_one, OfNat.one_ne_ofNat,
      zero_ne_one, one_ne_zero, if_true, if_false, ite_true, ite_false, reduceCtorEq,
      Nat.succ_ne_zero]

/-- The moments of a neighbour list are sums over the neighbours. -/
theorem accumulate_s_all_apply (sqrt : α → α) (n : Nat) (x y z fn : Nat → α) (i : Nat)
    (hi : i < 24) :
    accumulate_s_all sqrt n x y z fn i =
      ∑ k in Finset.range n,
        moment_poly i (x k * (1 / sqrt (x k * x k + y k * y k + z k * z k)))
          (y k * (1 / sqrt (x k * x k + y k * y k + z k * z k)))
          (z k * (1 / sqrt (x k * x k + y k * y k + z k * z k))) * fn k := by
  unfold accumulate_s_all
  rw [forLoop_zero_lo]
  induction n with
  | zero =>
    simp only [iterate_zero, Finset.range_zero, Finset.sum_empty]
    norm_num
  | succ n ih =>
    rw [iterate_succ, Finset.sum_range_succ, ← ih]
    simp only [arrayOf, List.getD_cons_zero, List.getD_cons_succ]
    rw [accumulate_s_apply _ _ _ _ _ _ i hi]
    have l1 : (1.0 : α) = 1 := by norm_num
    rw [l1]

end Moments

section Addition

end Addition

section Ideal

end Ideal

section Rotation

end Rotation

section Approx

theorem find_q_value_one (n_max_angular n : Nat) (s q : Nat → ℝ) :
    find_q (n_max_angular + 1) n s q n =
      C3B 0 * s 0 * s 0 + 2.0 * (C3B 1 * s 1 * s 1 + C3B 2 * s 2 * s 2) := by
  unfold find_q
  rw [Function.update_noteq (by omega), Function.update_noteq (by omega),
    Function.update_noteq (by omega), Function.update_same]

theorem find_q_value_two (n_max_angular n : Nat) (s q : Nat → ℝ) :
    find_q (n_max_angular + 1) n s q (n_max_angular + 1 + n) =
      C3B 3 * s 3 * s 3 + 2.0 * (C3B 4 * s 4 * s 4 + C3B 5 * s 5 * s 5 + C3B 6 * s 6 * s 6 + C3B 7 * s 7 * s 7) := by
  unfold find_q
  rw [Function.update_noteq (by omega), Function.update_noteq (by omega),
    Function.update_same]

theorem find_q_value_three (n_max_angular n : Nat) (s q : Nat → ℝ) :
    find_q (n_max_angular + 1) n s q (2 * (n_max_angular + 1) + n) =
      C3B 8 * s 8 * s 8 + 2.0 * (C3B 9 * s 9 * s 9 + C3B 10 * s 10 * s 10 + C3B 11 * s 11 * s 11 + C3B 12 * s 12 * s 12 + C3B 13 * s 13 * s 13 + C3B 14 * s 14 * s 14) := by
  unfold find_q
  rw [Function.update_noteq (by omega), Function.update_same]

theorem find_q_value_four (n_max_angular n : Nat) (s q : Nat → ℝ) :
    find_q (n_max_angular + 1) n s q (3 * (n_max_angular + 1) + n) =
      C3B 15 * s 15 * s 15 + 2.0 * (C3B 16 * s 16 * s 16 + C3B 17 * s 17 * s 17 + C3B 18 * s 18 * s 18 + C3B 19 * s 19 * s 19 + C3B 20 * s 20 * s 20 + C3B 21 * s 21 * s 21 + C3B 22 * s 22 * s 22 + C3B 23 * s 23 * s 23) := by
  unfold find_q
  rw [Function.update_same]

end Approx

section Cheb
variable {α : Type} [LinearOrderedField α]

/-- The recursion of `chebT` is the recursion of the Chebyshev polynomials of
the first kind. -/
theorem chebT_eq_eval (x : α) (n : Nat) :
    chebT x n = Polynomial.eval x (Polynomial.Chebyshev.T α (n : ℤ)) := by
  induction n using Nat.strong_induction_on with
  | _ n ih =>
    match n, ih with
    | 0, _ => simp [chebT]
    | 1, _ => simp [chebT]
    | k + 2, ih =>
      rw [chebT_succ_succ, ih (k + 1) (by omega), ih k (by omega)]
      have h := Polynomial.Chebyshev.T_add_two α (k : ℤ)
      push_cast
      rw [h]
      simp

/-- C24. For every order `n`, the single-order `find_fn` returns
`fc12 * (T_n(x) + 1) / 2` with `x = 2*(d12*rcinv - 1)^2 - 1`, where `T_n` is the
Chebyshev polynomial of the first kind of degree `n`. -/
theorem find_fn_chebyshev (n : Nat) (rcinv d12 fc12 : α) :
    find_fn n rcinv d12 fc12 =
      fc12 * (Polynomial.eval (2 * (d12 * rcinv - 1) ^ 2 - 1)
        (Polynomial.Chebyshev.T α (n : ℤ)) + 1) / 2 := by
  rw [find_fn_closed_form, ← chebT_eq_eval]
  ring_nf

end Cheb

section ZBLOuter
variable {α : Type} [LinearOrderedField α]

theorem addAt_zero (f : Nat → α) (i : Nat) : addAt f i 0 = f := by
  unfold addAt
  rw [add_zero, Function.update_eq_self]

theorem subAt_zero (f : Nat → α) (i : Nat) : subAt f i 0 = f := by
  unfold subAt
  rw [sub_zero, Function.update_eq_self]

/-- A pair whose force vector is zero changes neither the forces nor the
virial. -/
theorem accumulate_pair_zero (N n1 n2 fx fy fz : Nat) (r12 f12 g_f g_virial : Nat → α)
    (h0 : f12 0 = 0) (h1 : f12 1 = 0) (h2 : f12 2 = 0) :
    accumulate_pair N n1 n2 fx fy fz r12 f12 g_f g_virial = (g_f, g_virial) := by
  unfold accumulate_pair
  simp only [h0, h1, h2, mul_zero, addAt_zero, subAt_zero]

/-- At or beyond the outer cutoff `find_f_and_fp_zbl` returns `(0, 0)`. -/
theorem find_f_and_fp_zbl_outer (m : Libm α) (zizj a_inv rc_inner rc_outer d12 d12inv : α)
    (hrc : rc_inner < rc_outer) (hd : rc_outer ≤ d12) :
    find_f_and_fp_zbl m zizj a_inv rc_inner rc_outer d12 d12inv = (0, 0) := by
  unfold find_f_and_fp_zbl find_fc_and_fcp_zbl
  have l0 : (0.0 : α) = 0 := by norm_num
  have h1 : ¬ d12 < rc_inner := not_lt.mpr (le_trans hrc.le hd)
  have h2 : ¬ d12 < rc_outer := not_lt.mpr hd
  simp only [if_neg h1, if_neg h2, l0, mul_zero, add_zero]

/-- C29. For `rc_inner < rc_outer` and a pair at distance `d12 >= rc_outer`,
`find_f_and_fp_zbl` returns `f = 0` and `fp = 0`; the statements the ZBL pass
executes for such a pair (the force and virial updates with
`f12 = r12 * (fp * d12inv * 0.5)` and `g_pe[n1] += f * 0.5`) leave the three
arrays as they were; and a ZBL pass in which every listed pair is at or beyond
`rc_outer` changes nothing. -/
theorem zbl_beyond_outer_cutoff (m : Libm α) (N : Nat) (zbl : ZBL α)
    (g_NN g_NL g_type : Nat → Nat) (g_x12 g_y12 g_z12 : Nat → α) (fx fy fz : Nat)
    (g_f g_virial g_pe : Nat → α) (zizj a_inv d12 d12inv : α) (n1 n2 : Nat) (r12 : Nat → α)
    (hrc : zbl.rc_inner < zbl.rc_outer) (hd : zbl.rc_outer ≤ d12) :
    find_f_and_fp_zbl m zizj a_inv zbl.rc_inner zbl.rc_outer d12 d12inv = (0, 0) ∧
    accumulate_pair N n1 n2 fx fy fz r12
        (arrayOf
          [r12 0 * ((find_f_and_fp_zbl m zizj a_inv zbl.rc_inner zbl.rc_outer d12 d12inv).2 *
              d12inv * 0.5),
           r12 1 * ((find_f_and_fp_zbl m zizj a_inv zbl.rc_inner zbl.rc_outer d12 d12inv).2 *
              d12inv * 0.5),
           r12 2 * ((find_f_and_fp_zbl m zizj a_inv zbl.rc_inner zbl.rc_outer d12 d12inv).2 *
              d12inv * 0.5)])
        g_f g_virial = (g_f, g_virial) ∧
    addAt g_pe n1
        ((find_f_and_fp_zbl m zizj a_inv zbl.rc_inner zbl.rc_outer d12 d12inv).1 * 0.5) =
      g_pe ∧
    ((∀ k1, k1 < N → ∀ i1, i1 < g_NN k1 →
        zbl.rc_outer ≤ m.sqrt (g_x12 (i1 * N + k1) * g_x12 (i1 * N + k1) +
          g_y12 (i1 * N + k1) * g_y12 (i1 * N + k1) +
          g_z12 (i1 * N + k1) * g_z12 (i1 * N + k1))) →
      find_force_ZBL_small_box m N zbl g_NN g_NL g_type g_x12 g_y12 g_z12 fx fy fz
        g_f g_virial g_pe = (g_f, g_virial, g_pe)) := by
  have hz := find_f_and_fp_zbl_outer m zizj a_inv zbl.rc_inner zbl.rc_outer d12 d12inv hrc hd
  refine ⟨hz, ?_, ?_, ?_⟩
  · rw [hz]
    apply accumulate_pair_zero <;> simp [arrayOf]
  · rw [hz]
    simp only [zero_mul, addAt_zero]
  · intro hall
    unfold find_force_ZBL_small_box
    refine forLoop_invariant (fun _ st => st = (g_f, g_virial, g_pe)) 0 N (Nat.zero_le _) _ _
      rfl ?_
    intro k1 st _ hk1 hst
    refine forLoop_invariant (fun _ st => st = (g_f, g_virial, g_pe)) 0 (g_NN k1)
      (Nat.zero_le _) _ _ hst ?_
    intro i1 st2 _ hi1 hst2
    subst hst2
    simp only [arrayOf, List.getD_cons_zero, List.getD_cons_succ]
    rw [find_f_and_fp_zbl_outer m _ _ zbl.rc_inner zbl.rc_outer _ _ hrc (hall k1 hk1 i1 hi1)]
    simp only [zero_mul, mul_zero, addAt_zero]
    rw [accumulate_pair_zero _ _ _ _ _ _ _ _ _ _ rfl rfl rfl]

end ZBLOuter

/-! ## The frame of one atom iteration of the descriptor stage -/

/-- A loop of stores `g[idx i] = v i` with pairwise different indices leaves
`v i` in `g[idx i]` and every other entry as it was. -/
theorem update_loop_spec {α : Type} (K : Nat) (idx : Nat → Nat) (v : Nat → α) (g : Nat → α)
    (hinj : ∀ i, i < K → ∀ i', i' < K → idx i = idx i' → i = i') :
    (∀ i, i < K →
      forLoop 0 K (fun i (g : Nat → α) => Function.update g (idx i) (v i)) g (idx i) = v i) ∧
    (∀ j, (∀ i, i < K → j ≠ idx i) →
      forLoop 0 K (fun i (g : Nat → α) => Function.update g (idx i) (v i)) g j = g j) := by
  have key := forLoop_invariant
    (fun e (g' : Nat → α) => e ≤ K ∧ (∀ i, i < e → g' (idx i) = v i) ∧
      (∀ j, (∀ i, i < e → j ≠ idx i) → g' j = g j))
    0 K (Nat.zero_le _) (fun i (g : Nat → α) => Function.update g (idx i) (v i)) g
    ⟨Nat.zero_le _, fun i hi => absurd hi (Nat.not_lt_zero _), fun _ _ => rfl⟩
    (by
      intro e g' _ he ⟨_, h1, h2⟩
      dsimp only
      refine ⟨he, ?_, ?_⟩
      · intro i hi
        rcases Nat.lt_succ_iff_lt_or_eq.mp hi with hlt | heq
        · have hne : idx i ≠ idx e := fun h => by
            have := hinj i (by omega) e he h
            omega
          rw [Function.update_noteq hne]
          exact h1 i hlt
        · subst heq
          rw [Function.update_same]
      · intro j hj
        rw [Function.update_noteq (hj e (Nat.lt_succ_self e))]
        exact h2 j (fun i hi => hj i (Nat.lt_succ_of_lt hi)))
  exact ⟨key.2.1, key.2.2⟩

/-- The store loops of the moments of atom `n1`. -/
theorem store_sum_fxyz_spec {α : Type} (N n1 K : Nat) (hn1 : n1 < N) (s : Nat → Nat → α)
    (g : Nat → α) :
    (∀ n, n < K → ∀ abc, abc < NUM_OF_ABC →
      forLoop 0 K (fun n (g : Nat → α) => store_sum_fxyz N n1 n (s n) g) g
        ((n * NUM_OF_ABC + abc) * N + n1) = s n abc) ∧
    (∀ j, (∀ n, n < K → ∀ abc, abc < NUM_OF_ABC → j ≠ (n * NUM_OF_ABC + abc) * N + n1) →
      forLoop 0 K (fun n (g : Nat → α) => store_sum_fxyz N n1 n (s n) g) g j = g j) := by
  have hN : 0 < N := by omega
  have h24 : NUM_OF_ABC = 24 := rfl
  have inner : ∀ (n : Nat) (g' : Nat → α),
      (∀ abc, abc < NUM_OF_ABC →
        store_sum_fxyz N n1 n (s n) g' ((n * NUM_OF_ABC + abc) * N + n1) = s n abc) ∧
      (∀ j, (∀ abc, abc < NUM_OF_ABC → j ≠ (n * NUM_OF_ABC + abc) * N + n1) →
        store_sum_fxyz N n1 n (s n) g' j = g' j) := fun n g' =>
    update_loop_spec NUM_OF_ABC (fun abc => (n * NUM_OF_ABC + abc) * N + n1) (s n) g'
      (fun i _ i' _ h => by
        have := Nat.eq_of_mul_eq_mul_right hN (Nat.add_right_cancel h)
        omega)
  have key := forLoop_invariant
    (fun e (g' : Nat → α) =>
      (∀ n, n < e → ∀ abc, abc < NUM_OF_ABC → g' ((n * NUM_OF_ABC + abc) * N + n1) = s n abc) ∧
      (∀ j, (∀ n, n < e → ∀ abc, abc < NUM_OF_ABC → j ≠ (n * NUM_OF_ABC + abc) * N + n1) →
        g' j = g j))
    0 K (Nat.zero_le _) (fun n (g : Nat → α) => store_sum_fxyz N n1 n (s n) g) g
    ⟨fun n hn => absurd hn (Nat.not_lt_zero _), fun _ _ => rfl⟩
    (by
      intro e g' _ _ ⟨h1, h2⟩
      dsimp only
      refine ⟨?_, ?_⟩
      · intro n hn abc habc
        rcases Nat.lt_succ_iff_lt_or_eq.mp hn with hlt | heq
        · rw [(inner e g').2]
          · exact h1 n hlt abc habc
          · intro abc' habc' h
            have := Nat.eq_of_mul_eq_mul_right hN (Nat.add_right_cancel h)
            rw [h24] at habc habc' this
            omega
        · subst heq
          exact (inner n g').1 abc habc
      · intro j hj
        rw [(inner e g').2 j (fun abc habc => hj e (Nat.lt_succ_self e) abc habc)]
        exact h2 j (fun n hn abc habc => hj n (Nat.lt_succ_of_lt hn) abc habc))
  exact key

section Frame
variable {α : Type} [LinearOrderedField α]

theorem addAt_apply_same (f : Nat → α) (i : Nat) (v : α) : addAt f i v i = f i + v := by
  unfold addAt
  rw [Function.update_same]

theorem addAt_apply_ne {i j : Nat} (h : j ≠ i) (f : Nat → α) (v : α) : addAt f i v j = f j := by
  unfold addAt
  rw [Function.update_noteq h]

/-- The store loop of the gradient of atom `n1`. -/
theorem store_Fp_spec (paramb : ParaMB α) (annmb : ANN α) (N n1 : Nat) (hn1 : n1 < N)
    (Fp g_Fp : Nat → α) :
    (∀ d, d < annmb.dim →
      store_Fp paramb annmb N n1 Fp g_Fp (d * N + n1) = Fp d * paramb.q_scaler d) ∧
    (∀ j, (∀ d, d < annmb.dim → j ≠ d * N + n1) →
      store_Fp paramb annmb N n1 Fp g_Fp j = g_Fp j) := by
  have hN : 0 < N := by omega
  exact update_loop_spec annmb.dim (fun d => d * N + n1) (fun d => Fp d * paramb.q_scaler d) g_Fp
    (fun i _ i' _ h => Nat.eq_of_mul_eq_mul_right hN (Nat.add_right_cancel h))

/-- The descriptor stage is the loop of `descriptor_atom_step` over the atoms. -/
theorem find_descriptor_small_box_steps (m : Libm α) (paramb : ParaMB α) (annmb : ANN α)
    (N : Nat) (NNr NLr NNa NLa type : Nat → Nat) (gx gy gz ax ay az pe Fp sfx : Nat → α) :
    find_descriptor_small_box m paramb annmb N NNr NLr NNa NLa type gx gy gz ax ay az pe Fp sfx =
      forLoop 0 N
        (descriptor_atom_step m paramb annmb N NNr NLr NNa NLa type gx gy gz ax ay az)
        (pe, Fp, sfx) :=
  find_descriptor_small_box_eq m paramb annmb N NNr NLr NNa NLa type gx gy gz ax ay az pe Fp sfx

/-- C21. The descriptor stage is the loop of `descriptor_atom_step` over the
atoms, and the iteration for atom `n1 < N` writes only `g_pe[n1]` (adding the
network energy of the atom), the entries `g_Fp[d*N+n1]` with `d < dim` and the
entries `g_sum_fxyz[(n*24+abc)*N+n1]`: every other entry, in particular every
entry `k*N+n2` of another atom `n2 < N`, is left as it was, and the values
written are functions of the descriptor of atom `n1` alone, not of the arrays
the iteration starts from. -/
theorem descriptor_atom_step_frame (m : Libm α) (paramb : ParaMB α) (annmb : ANN α)
    (N : Nat) (NNr NLr NNa NLa type : Nat → Nat) (gx gy gz ax ay az pe Fp sfx : Nat → α)
    (n1 : Nat) (st : (Nat → α) × (Nat → α) × (Nat → α)) (hn1 : n1 < N) :
    (find_descriptor_small_box m paramb annmb N NNr NLr NNa NLa type gx gy gz ax ay az
        pe Fp sfx =
      forLoop 0 N
        (descriptor_atom_step m paramb annmb N NNr NLr NNa NLa type gx gy gz ax ay az)
        (pe, Fp, sfx)) ∧
    ((descriptor_atom_step m paramb annmb N NNr NLr NNa NLa type gx gy gz ax ay az n1 st).1 n1 =
        st.1 n1 + (atom_ann m paramb annmb
          (atom_descriptor m paramb annmb N NNr NLr NNa NLa type gx gy gz ax ay az n1)).1 ∧
      (∀ j, j ≠ n1 →
        (descriptor_atom_step m paramb annmb N NNr NLr NNa NLa type gx gy gz ax ay az n1 st).1 j =
          st.1 j)) ∧
    ((∀ d, d < annmb.dim →
        (descriptor_atom_step m paramb annmb N NNr NLr NNa NLa type gx gy gz ax ay az
          n1 st).2.1 (d * N + n1) =
          (atom_ann m paramb annmb
            (atom_descriptor m paramb annmb N NNr NLr NNa NLa type gx gy gz ax ay az n1)).2 d *
            paramb.q_scaler d) ∧
      (∀ j, (∀ d, d < annmb.dim → j ≠ d * N + n1) →
        (descriptor_atom_step m paramb annmb N NNr NLr NNa NLa type gx gy gz ax ay az
          n1 st).2.1 j = st.2.1 j)) ∧
    ((∀ n, n < paramb.n_max_angular + 1 → ∀ abc, abc < NUM_OF_ABC →
        (descriptor_atom_step m paramb annmb N NNr NLr NNa NLa type gx gy gz ax ay az
          n1 st).2.2 ((n * NUM_OF_ABC + abc) * N + n1) =
          angular_moments m paramb annmb N NNa NLa type ax ay az n1 n abc) ∧
      (∀ j, (∀ n, n < paramb.n_max_angular + 1 → ∀ abc, abc < NUM_OF_ABC →
          j ≠ (n * NUM_OF_ABC + abc) * N + n1) →
        (descriptor_atom_step m paramb annmb N NNr NLr NNa NLa type gx gy gz ax ay az
          n1 st).2.2 j = st.2.2 j)) ∧
    (∀ n2, n2 < N → n2 ≠ n1 → ∀ k,
      (descriptor_atom_step m paramb annmb N NNr NLr NNa NLa type gx gy gz ax ay az n1 st).1 n2 =
          st.1 n2 ∧
        (descriptor_atom_step m paramb annmb N NNr NLr NNa NLa type gx gy gz ax ay az
          n1 st).2.1 (k * N + n2) = st.2.1 (k * N + n2) ∧
        (descriptor_atom_step m paramb annmb N NNr NLr NNa NLa type gx gy gz ax ay az
          n1 st).2.2 (k * N + n2) = st.2.2 (k * N + n2)) := by
  have hmod : ∀ a b c e : Nat, c < N → e < N → a * N + c = b * N + e → c = e := by
    intro a b c e hc he h
    have h1 : (a * N + c) % N = c := by
      rw [Nat.add_comm, Nat.add_mul_mod_self_right, Nat.mod_eq_of_lt hc]
    have h2 : (b * N + e) % N = e := by
      rw [Nat.add_comm, Nat.add_mul_mod_self_right, Nat.mod_eq_of_lt he]
    rw [h] at h1
    rw [h1] at h2
    exact h2
  have hF := store_Fp_spec paramb annmb N n1 hn1
    (atom_ann m paramb annmb
      (atom_descriptor m paramb annmb N NNr NLr NNa NLa type gx gy gz ax ay az n1)).2 st.2.1
  have hS := store_sum_fxyz_spec N n1 (paramb.n_max_angular + 1) hn1
    (fun n => angular_moments m paramb annmb N NNa NLa type ax ay az n1 n) st.2.2
  refine ⟨find_descriptor_small_box_steps m paramb annmb N NNr NLr NNa NLa type gx gy gz
    ax ay az pe Fp sfx, ⟨addAt_apply_same _ _ _, fun j hj => addAt_apply_ne hj _ _⟩,
    hF, hS, ?_⟩
  intro n2 hn2 hne k
  refine ⟨addAt_apply_ne hne _ _, hF.2 _ ?_, hS.2 _ ?_⟩
  · intro d _ h
    exact hne (hmod k d n2 n1 hn2 hn1 h)
  · intro n _ abc _ h
    exact hne (hmod k _ n2 n1 hn2 hn1 h)

end Frame

/-- Witness of C21: one atom without neighbours, the iteration for atom 0. -/
theorem descriptor_atom_step_frame_witness :
    (0 : Nat) < 1 ∧
    (descriptor_atom_step (Libm.mk id id id id id (fun x _ => x))
        (ParaMB.mk 2 2 4 0.5 0.25 0 0 4 4 4 0 0 1 1 1 (fun _ => (1 : ℚ)))
        (ANN.mk 5 1 8 (fun _ => 1) (fun _ => 0) (fun _ => 1) (fun _ => 0) (fun _ => 0))
        1 (fun _ => 0) (fun _ => 0) (fun _ => 0) (fun _ => 0) (fun _ => 0)
        (fun _ => 0) (fun _ => 0) (fun _ => 0) (fun _ => 0) (fun _ => 0) (fun _ => 0)
        0 ((fun _ => 0), (fun _ => 0), (fun _ => 0))).1 0 =
      ((fun _ => (0 : ℚ)), (fun _ : Nat => (0 : ℚ)), (fun _ : Nat => (0 : ℚ))).1 0 +
        (atom_ann (Libm.mk id id id id id (fun x _ => x))
          (ParaMB.mk 2 2 4 0.5 0.25 0 0 4 4 4 0 0 1 1 1 (fun _ => (1 : ℚ)))
          (ANN.mk 5 1 8 (fun _ => 1) (fun _ => 0) (fun _ => 1) (fun _ => 0) (fun _ => 0))
          (atom_descriptor (Libm.mk id id id id id (fun x _ => x))
            (ParaMB.mk 2 2 4 0.5 0.25 0 0 4 4 4 0 0 1 1 1 (fun _ => (1 : ℚ)))
            (ANN.mk 5 1 8 (fun _ => 1) (fun _ => 0) (fun _ => 1) (fun _ => 0) (fun _ => 0))
            1 (fun _ => 0) (fun _ => 0) (fun _ => 0) (fun _ => 0) (fun _ => 0)
            (fun _ => 0) (fun _ => 0) (fun _ => 0) (fun _ => 0) (fun _ => 0) (fun _ => 0) 0)).1 :=
  ⟨by decide,
    (descriptor_atom_step_frame (Libm.mk id id id id id (fun x _ => x))
      (ParaMB.mk 2 2 4 0.5 0.25 0 0 4 4 4 0 0 1 1 1 (fun _ => (1 : ℚ)))
      (ANN.mk 5 1 8 (fun _ => 1) (fun _ => 0) (fun _ => 1) (fun _ => 0) (fun _ => 0))
      1 (fun _ => 0) (fun _ => 0) (fun _ => 0) (fun _ => 0) (fun _ => 0)
      (fun _ => 0) (fun _ => 0) (fun _ => 0) (fun _ => 0) (fun _ => 0) (fun _ => 0)
      (fun _ => 0) (fun _ => 0) (fun _ => 0)
      0 ((fun _ => 0), (fun _ => 0), (fun _ => 0)) (by decide)).2.1.1⟩

/-! ## The stored gradient -/

section StoredGradient

/-- The value the descriptor stage leaves in `g_Fp[d*N+n1]`. -/
theorem find_descriptor_Fp_value {α : Type} [LinearOrderedField α] (m : Libm α)
    (paramb : ParaMB α) (annmb : ANN α)
    (N : Nat) (NNr NLr NNa NLa type : Nat → Nat) (gx gy gz ax ay az pe Fp sfx : Nat → α)
    (n1 d : Nat) (hn1 : n1 < N) (hd : d < annmb.dim) :
    (find_descriptor_small_box m paramb annmb N NNr NLr NNa NLa type gx gy gz ax ay az
        pe Fp sfx).2.1 (d * N + n1) =
      (atom_ann m paramb annmb
        (atom_descriptor m paramb annmb N NNr NLr NNa NLa type gx gy gz ax ay az n1)).2 d *
        paramb.q_scaler d := by
  rw [find_descriptor_small_box_split]
  dsimp only
  have key := forLoop_invariant
    (fun k (g : Nat → α) => ∀ n, n < k → n < N → ∀ e, e < annmb.dim →
      g (e * N + n) =
        (atom_ann m paramb annmb
          (atom_descriptor m paramb annmb N NNr NLr NNa NLa type gx gy gz ax ay az n)).2 e *
          paramb.q_scaler e)
    0 N (Nat.zero_le _)
    (fun n1 (g : Nat → α) => store_Fp paramb annmb N n1
      (atom_ann m paramb annmb
        (atom_descriptor m paramb annmb N NNr NLr NNa NLa type gx gy gz ax ay az n1)).2 g) Fp
    (fun n hn => absurd hn (Nat.not_lt_zero _))
    (by
      intro k g _ hk ih n hn hnN e he
      dsimp only
      rcases Nat.lt_succ_iff_lt_or_eq.mp hn with hlt | heq
      · rw [(store_Fp_spec paramb annmb N k hk _ g).2]
        · exact ih n hlt hnN e he
        · intro e' _ h
          have h1 : (e * N + n) % N = n := by
            rw [Nat.add_comm, Nat.add_mul_mod_self_right, Nat.mod_eq_of_lt hnN]
          have h2 : (e' * N + k) % N = k := by
            rw [Nat.add_comm, Nat.add_mul_mod_self_right, Nat.mod_eq_of_lt hk]
          rw [h, h2] at h1
          omega
      · subst heq
        exact (store_Fp_spec paramb annmb N n hk _ g).1 e he)
  exact key n1 hn1 hn1 d hd

/-- The scaling loop of `atom_ann` multiplies the first `dim` entries by
`q_scaler`. -/
theorem atom_ann_eq (paramb : ParaMB ℝ) (annmb : ANN ℝ) (m : Libm ℝ) (q : Nat → ℝ) :
    atom_ann m paramb annmb q =
      apply_ann_one_layer m.tanh annmb.dim annmb.num_neurons1 annmb.w0 annmb.b0
        annmb.w1 annmb.b1
        (fun i => if i < annmb.dim then q i * paramb.q_scaler i else q i) 0 (fun _ => 0) := by
  unfold atom_ann
  dsimp only
  rw [forLoop_zero_lo, iterate_update_map (fun i v => v * paramb.q_scaler i)]
  norm_num

/-- Closed form of the gradient `apply_ann_one_layer` returns when started
from `0`, and the derivative of the returned energy along `q[d]`. -/
theorem ann_gradient_closed_form (dim num_neurons1 : Nat) (w0 b0 w1 b1 q : Nat → ℝ)
    (d : Nat) (hd : d < dim) :
    (apply_ann_one_layer Real.tanh dim num_neurons1 w0 b0 w1 b1 q 0 (fun _ => 0)).2 d =
        ∑ n in Finset.range num_neurons1,
          w1 n * (1 - Real.tanh (annPreActivation dim w0 b0 q n) ^ 2) * w0 (n * dim + d) := by
  unfold apply_ann_one_layer
  rw [forLoop_zero_lo, ann_loop_closed_form]
  simp only [hd, if_true, zero_add]
  refine Finset.sum_congr rfl (fun n _ => ?_)
  ring

/-- C22. For every atom `n1 < N` and every `d < dim`, the value that
`find_descriptor_small_box` stores in `g_Fp[d*N+n1]` is `q_scaler[d]` times the
gradient of the network at the scaled descriptor, and it is the derivative of
the network energy of the atom (the value `F` the stage adds to `g_pe[n1]`) with
respect to the unscaled descriptor component `q[d]`. -/
theorem stored_Fp_is_energy_gradient (paramb : ParaMB ℝ) (annmb : ANN ℝ)
    (N : Nat) (NNr NLr NNa NLa type : Nat → Nat) (gx gy gz ax ay az pe Fp sfx : Nat → ℝ)
    (n1 d : Nat) (hn1 : n1 < N) (hd : d < annmb.dim) :
    (find_descriptor_small_box (Libm.mk Real.tanh Real.cos Real.sin Real.sqrt Real.exp Real.rpow)
        paramb annmb N NNr NLr NNa NLa type gx gy gz ax ay az pe Fp sfx).2.1 (d * N + n1) =
      paramb.q_scaler d *
        ∑ n in Finset.range annmb.num_neurons1,
          annmb.w1 n *
            (1 - Real.tanh (annPreActivation annmb.dim annmb.w0 annmb.b0
              (fun i => if i < annmb.dim then
                (atom_descriptor (Libm.mk Real.tanh Real.cos Real.sin Real.sqrt Real.exp Real.rpow)
          paramb annmb N NNr NLr NNa NLa type gx gy gz ax ay az n1) i * paramb.q_scaler i
                else (atom_descriptor (Libm.mk Real.tanh Real.cos Real.sin Real.sqrt Real.exp
                    Real.rpow)
          paramb annmb N NNr NLr NNa NLa type gx gy gz ax ay az n1) i) n) ^ 2) *
            annmb.w0 (n * annmb.dim + d) ∧
    HasDerivAt
      (fun t => (atom_ann (Libm.mk Real.tanh Real.cos Real.sin Real.sqrt Real.exp Real.rpow) paramb
          annmb
        (Function.update (atom_descriptor (Libm.mk Real.tanh Real.cos Real.sin Real.sqrt Real.exp
            Real.rpow)
          paramb annmb N NNr NLr NNa NLa type gx gy gz ax ay az n1) d t)).1)
      ((find_descriptor_small_box (Libm.mk Real.tanh Real.cos Real.sin Real.sqrt Real.exp Real.rpow)
        paramb annmb N NNr NLr NNa NLa type gx gy gz ax ay az pe Fp sfx).2.1 (d * N + n1))
      ((atom_descriptor (Libm.mk Real.tanh Real.cos Real.sin Real.sqrt Real.exp Real.rpow)
          paramb annmb N NNr NLr NNa NLa type gx gy gz ax ay az n1) d) := by
  rw [find_descriptor_Fp_value _ _ _ _ _ _ _ _ _ _ _ _ _ _ _ _ _ _ n1 d hn1 hd]
  generalize (atom_descriptor (Libm.mk Real.tanh Real.cos Real.sin Real.sqrt Real.exp Real.rpow)
          paramb annmb N NNr NLr NNa NLa type gx gy gz ax ay az n1) = q
  rw [atom_ann_eq]
  dsimp only
  rw [ann_gradient_closed_form _ _ _ _ _ _ _ d hd]
  refine ⟨by ring, ?_⟩
  have hscale : ∀ t : ℝ, (fun i => if i < annmb.dim then Function.update q d t i * paramb.q_scaler i
      else Function.update q d t i) =
      Function.update (fun i => if i < annmb.dim then q i * paramb.q_scaler i else q i) d
        (t * paramb.q_scaler d) := by
    intro t
    funext i
    by_cases hi : i = d
    · subst hi
      simp [hd]
    · simp [Function.update_noteq hi]
  have hfun : (fun t => (atom_ann (Libm.mk Real.tanh Real.cos Real.sin Real.sqrt Real.exp
      Real.rpow) paramb annmb (Function.update q d t)).1) =
      fun t => (∑ n in Finset.range annmb.num_neurons1,
        annmb.w1 n * Real.tanh (annPreActivation annmb.dim annmb.w0 annmb.b0
          (Function.update (fun i => if i < annmb.dim then q i * paramb.q_scaler i else q i) d
            (t * paramb.q_scaler d)) n)) - annmb.b1 0 := by
    funext t
    rw [atom_ann_eq]
    dsimp only
    rw [ann_energy_closed_form, hscale]
  rw [hfun]
  have hsd : (fun i => if i < annmb.dim then q i * paramb.q_scaler i else q i) d =
      q d * paramb.q_scaler d := by simp [hd]
  have hterm : ∀ n ∈ Finset.range annmb.num_neurons1,
      HasDerivAt (fun t => annmb.w1 n * Real.tanh (annPreActivation annmb.dim annmb.w0 annmb.b0
          (Function.update (fun i => if i < annmb.dim then q i * paramb.q_scaler i else q i) d
            (t * paramb.q_scaler d)) n))
        (annmb.w1 n * (1 - Real.tanh (annPreActivation annmb.dim annmb.w0 annmb.b0
          (fun i => if i < annmb.dim then q i * paramb.q_scaler i else q i) n) ^ 2) *
          annmb.w0 (n * annmb.dim + d) * paramb.q_scaler d) (q d) := by
    intro n _
    have hz := hasDerivAt_annPreActivation annmb.dim annmb.w0 annmb.b0
      (fun i => if i < annmb.dim then q i * paramb.q_scaler i else q i) n d hd
    rw [hsd] at hz
    have hin : HasDerivAt (fun t : ℝ => t * paramb.q_scaler d) (paramb.q_scaler d) (q d) := by
      simpa using (hasDerivAt_id (q d)).mul_const (paramb.q_scaler d)
    have hcomp := hz.comp (q d) hin
    have ht := hasDerivAt_tanh (annPreActivation annmb.dim annmb.w0 annmb.b0
      (Function.update (fun i => if i < annmb.dim then q i * paramb.q_scaler i else q i) d
        (q d * paramb.q_scaler d)) n)
    have hall := (ht.comp (q d) hcomp).const_mul (annmb.w1 n)
    rw [← hsd, Function.update_eq_self] at hall
    convert hall using 1
    ring
  have hsum := (HasDerivAt.sum hterm).sub_const (annmb.b1 0)
  convert hsum using 1
  rw [Finset.sum_mul]

end StoredGradient

/-- Witness of C22: one atom without neighbours, one neuron, all scalers 2,
component `d = 0`. -/
theorem stored_Fp_is_energy_gradient_witness :
    (0 : Nat) < 1 ∧ (0 : Nat) < (ANN.mk 5 1 8 (fun _ => 1) (fun _ => 0) (fun _ => 1) (fun _ => 0)
        (fun _ => 0)).dim ∧
    HasDerivAt
      (fun t => (atom_ann (Libm.mk Real.tanh Real.cos Real.sin Real.sqrt Real.exp Real.rpow)
        (ParaMB.mk 2 2 4 0.5 0.25 0 0 4 4 4 0 0 1 1 1 (fun _ => (2 : ℝ)))
        (ANN.mk 5 1 8 (fun _ => 1) (fun _ => 0) (fun _ => 1) (fun _ => 0) (fun _ => 0))
        (Function.update (atom_descriptor (Libm.mk Real.tanh Real.cos Real.sin Real.sqrt Real.exp
            Real.rpow)
          (ParaMB.mk 2 2 4 0.5 0.25 0 0 4 4 4 0 0 1 1 1 (fun _ => (2 : ℝ)))
          (ANN.mk 5 1 8 (fun _ => 1) (fun _ => 0) (fun _ => 1) (fun _ => 0) (fun _ => 0))
          1 (fun _ => 0) (fun _ => 0) (fun _ => 0) (fun _ => 0) (fun _ => 0)
          (fun _ => 0) (fun _ => 0) (fun _ => 0) (fun _ => 0) (fun _ => 0) (fun _ => 0) 0) 0 t)).1)
      ((find_descriptor_small_box (Libm.mk Real.tanh Real.cos Real.sin Real.sqrt Real.exp Real.rpow)
          (ParaMB.mk 2 2 4 0.5 0.25 0 0 4 4 4 0 0 1 1 1 (fun _ => (2 : ℝ)))
          (ANN.mk 5 1 8 (fun _ => 1) (fun _ => 0) (fun _ => 1) (fun _ => 0) (fun _ => 0))
          1 (fun _ => 0) (fun _ => 0) (fun _ => 0) (fun _ => 0) (fun _ => 0)
          (fun _ => 0) (fun _ => 0) (fun _ => 0) (fun _ => 0) (fun _ => 0) (fun _ => 0)
          (fun _ => 0) (fun _ => 0) (fun _ => 0)).2.1 (0 * 1 + 0))
      ((atom_descriptor (Libm.mk Real.tanh Real.cos Real.sin Real.sqrt Real.exp Real.rpow)
          (ParaMB.mk 2 2 4 0.5 0.25 0 0 4 4 4 0 0 1 1 1 (fun _ => (2 : ℝ)))
          (ANN.mk 5 1 8 (fun _ => 1) (fun _ => 0) (fun _ => 1) (fun _ => 0) (fun _ => 0))
          1 (fun _ => 0) (fun _ => 0) (fun _ => 0) (fun _ => 0) (fun _ => 0)
          (fun _ => 0) (fun _ => 0) (fun _ => 0) (fun _ => 0) (fun _ => 0) (fun _ => 0) 0) 0) :=
  ⟨by decide, by decide,
    (stored_Fp_is_energy_gradient (ParaMB.mk 2 2 4 0.5 0.25 0 0 4 4 4 0 0 1 1 1 (fun _ => (2 : ℝ)))
      (ANN.mk 5 1 8 (fun _ => 1) (fun _ => 0) (fun _ => 1) (fun _ => 0) (fun _ => 0))
      1 (fun _ => 0) (fun _ => 0) (fun _ => 0) (fun _ => 0) (fun _ => 0)
          (fun _ => 0) (fun _ => 0) (fun _ => 0) (fun _ => 0) (fun _ => 0) (fun _ => 0)
      (fun _ => 0) (fun _ => 0) (fun _ => 0) 0 0 (by decide) (by decide)).2⟩

/-! ## The descriptor slots of the `find_q` variants -/

section Slots
variable {α : Type} [LinearOrderedField α]

theorem find_q_written (N1 n : Nat) (s q q' : Nat → α) (L : Nat) (hL : L < 4) :
    find_q N1 n s q (L * N1 + n) = find_q N1 n s q' (L * N1 + n) := by
  unfold find_q
  interval_cases L <;> simp [Function.update_apply]

theorem find_q_frame (N1 n : Nat) (s q : Nat → α) (j : Nat)
    (hj : ∀ L, L < 4 → j ≠ L * N1 + n) : find_q N1 n s q j = q j := by
  unfold find_q
  have h0 := hj 0 (by omega)
  have h1 := hj 1 (by omega)
  have h2 := hj 2 (by omega)
  have h3 := hj 3 (by omega)
  simp only [Nat.zero_mul, Nat.zero_add, Nat.one_mul] at h0 h1
  rw [Function.update_noteq h3, Function.update_noteq h2, Function.update_noteq h1,
    Function.update_noteq h0]

theorem find_q_with_4body_written (N1 n : Nat) (s q q' : Nat → α) (L : Nat) (hL : L < 5) :
    find_q_with_4body N1 n s q (L * N1 + n) = find_q_with_4body N1 n s q' (L * N1 + n) := by
  unfold find_q_with_4body
  by_cases h : L * N1 + n = 4 * N1 + n
  · rw [h, Function.update_same, Function.update_same]
  · rw [Function.update_noteq h, Function.update_noteq h]
    have hL4 : L < 4 := by
      rcases Nat.lt_succ_iff_lt_or_eq.mp hL with h' | h'
      · exact h'
      · subst h'
        exact absurd rfl h
    exact find_q_written N1 n s q q' L hL4

theorem find_q_with_4body_frame (N1 n : Nat) (s q : Nat → α) (j : Nat)
    (hj : ∀ L, L < 5 → j ≠ L * N1 + n) : find_q_with_4body N1 n s q j = q j := by
  unfold find_q_with_4body
  rw [Function.update_noteq (hj 4 (by omega))]
  exact find_q_frame N1 n s q j (fun L hL => hj L (by omega))

theorem find_q_with_5body_written (N1 n : Nat) (s q q' : Nat → α) (L : Nat) (hL : L < 6) :
    find_q_with_5body N1 n s q (L * N1 + n) = find_q_with_5body N1 n s q' (L * N1 + n) := by
  unfold find_q_with_5body
  by_cases h : L * N1 + n = 5 * N1 + n
  · rw [h, Function.update_same, Function.update_same]
  · rw [Function.update_noteq h, Function.update_noteq h]
    have hL5 : L < 5 := by
      rcases Nat.lt_succ_iff_lt_or_eq.mp hL with h' | h'
      · exact h'
      · subst h'
        exact absurd rfl h
    exact find_q_with_4body_written N1 n s q q' L hL5

theorem find_q_with_5body_frame (N1 n : Nat) (s q : Nat → α) (j : Nat)
    (hj : ∀ L, L < 6 → j ≠ L * N1 + n) : find_q_with_5body N1 n s q j = q j := by
  unfold find_q_with_5body
  rw [Function.update_noteq (hj 5 (by omega))]
  exact find_q_with_4body_frame N1 n s q j (fun L hL => hj L (by omega))

theorem select_find_q_written (paramb : ParaMB α) (n : Nat) (s q q' : Nat → α) (L : Nat)
    (hL : L < variant_blocks paramb) :
    select_find_q paramb n s q
        (paramb.n_max_radial + 1 + (L * (paramb.n_max_angular + 1) + n)) =
      select_find_q paramb n s q'
        (paramb.n_max_radial + 1 + (L * (paramb.n_max_angular + 1) + n)) := by
  unfold select_find_q
  unfold variant_blocks at hL
  split_ifs at hL ⊢ <;>
    simp only [unshift, Nat.le_add_right, if_true, Nat.add_sub_cancel_left]
  · exact find_q_written _ _ _ _ _ L hL
  · exact find_q_with_4body_written _ _ _ _ _ L hL
  · exact find_q_with_5body_written _ _ _ _ _ L hL

theorem select_find_q_frame (paramb : ParaMB α) (n : Nat) (s q : Nat → α) (j : Nat)
    (hj : ∀ L, L < variant_blocks paramb →
      j ≠ paramb.n_max_radial + 1 + (L * (paramb.n_max_angular + 1) + n)) :
    select_find_q paramb n s q j = q j := by
  have key : ∀ (W : (Nat → α) → Nat → α),
      (∀ i, (∀ L, L < variant_blocks paramb → i ≠ L * (paramb.n_max_angular + 1) + n) →
        W (shift q (paramb.n_max_radial + 1)) i = shift q (paramb.n_max_radial + 1) i) →
      unshift q (paramb.n_max_radial + 1) (W (shift q (paramb.n_max_radial + 1))) j = q j := by
    intro W hW
    unfold unshift
    by_cases hk : paramb.n_max_radial + 1 ≤ j
    · rw [if_pos hk, hW]
      · unfold shift
        rw [Nat.add_sub_cancel' hk]
      · intro L hL h
        apply hj L hL
        omega
    · rw [if_neg hk]
  unfold select_find_q
  unfold variant_blocks at hj key
  split_ifs at hj key ⊢
  · exact key _ (fun i hi => find_q_frame _ _ _ _ i hi)
  · exact key _ (fun i hi => find_q_with_4body_frame _ _ _ _ i hi)
  · exact key _ (fun i hi => find_q_with_5body_frame _ _ _ _ i hi)

/-- The channel loop of the descriptor stage: slot
`n_max_radial + 1 + L*(n_max_angular+1) + n` holds the value the selected variant
writes for channel `n`, and every other slot is as before. -/
theorem channel_loop_spec (paramb : ParaMB α) (s : Nat → Nat → α) (q0 q0' : Nat → α) :
    (∀ L, L < variant_blocks paramb → ∀ n, n < paramb.n_max_angular + 1 →
      forLoop 0 (paramb.n_max_angular + 1) (fun n q => select_find_q paramb n (s n) q) q0
          (paramb.n_max_radial + 1 + (L * (paramb.n_max_angular + 1) + n)) =
        select_find_q paramb n (s n) q0'
          (paramb.n_max_radial + 1 + (L * (paramb.n_max_angular + 1) + n))) ∧
    (∀ j, (∀ L, L < variant_blocks paramb → ∀ n, n < paramb.n_max_angular + 1 →
        j ≠ paramb.n_max_radial + 1 + (L * (paramb.n_max_angular + 1) + n)) →
      forLoop 0 (paramb.n_max_angular + 1) (fun n q => select_find_q paramb n (s n) q) q0 j =
        q0 j) := by
  have key := forLoop_invariant
    (fun e (q : Nat → α) => e ≤ paramb.n_max_angular + 1 ∧
      (∀ L, L < variant_blocks paramb → ∀ n, n < e →
        q (paramb.n_max_radial + 1 + (L * (paramb.n_max_angular + 1) + n)) =
          select_find_q paramb n (s n) q0'
            (paramb.n_max_radial + 1 + (L * (paramb.n_max_angular + 1) + n))) ∧
      (∀ j, (∀ L, L < variant_blocks paramb → ∀ n, n < e →
          j ≠ paramb.n_max_radial + 1 + (L * (paramb.n_max_angular + 1) + n)) → q j = q0 j))
    0 (paramb.n_max_angular + 1) (Nat.zero_le _)
    (fun n q => select_find_q paramb n (s n) q) q0
    ⟨Nat.zero_le _, fun _ _ n hn => absurd hn (Nat.not_lt_zero _), fun _ _ => rfl⟩
    (by
      intro e q _ he ⟨_, h1, h2⟩
      dsimp only
      refine ⟨he, ?_, ?_⟩
      · intro L hL n hn
        rcases Nat.lt_succ_iff_lt_or_eq.mp hn with hlt | heq
        · rw [select_find_q_frame]
          · exact h1 L hL n hlt
          · intro L' _ h
            have h' : L * (paramb.n_max_angular + 1) + n =
                L' * (paramb.n_max_angular + 1) + e := Nat.add_left_cancel h
            have e1 : (L * (paramb.n_max_angular + 1) + n) % (paramb.n_max_angular + 1) = n := by
              rw [Nat.add_comm, Nat.add_mul_mod_self_right, Nat.mod_eq_of_lt (by omega)]
            have e2 : (L' * (paramb.n_max_angular + 1) + e) % (paramb.n_max_angular + 1) = e := by
              rw [Nat.add_comm, Nat.add_mul_mod_self_right, Nat.mod_eq_of_lt he]
            rw [h', e2] at e1
            omega
        · subst heq
          exact select_find_q_written paramb n (s n) q q0' L hL
      · intro j hj
        rw [select_find_q_frame paramb e (s e) q j
          (fun L hL => hj L hL e (Nat.lt_succ_self e))]
        exact h2 j (fun L hL n hn => hj L hL n (Nat.lt_succ_of_lt hn)))
  exact ⟨key.2.1, key.2.2⟩

end Slots

section CtorSlots
variable {α : Type} [LinearOrderedField α]

/-- The constructor sets `num_L` to `L_max`, `L_max + 1` or `L_max + 2`. -/
theorem ctor_num_L_cases (init : NEP3 α) (file : ModelFile α) (N : Nat) :
    (NEP3.ctor init file N).paramb.L_max = file.L_max ∧
    ((NEP3.ctor init file N).paramb.num_L = file.L_max ∨
      (NEP3.ctor init file N).paramb.num_L = file.L_max + 1 ∨
      (NEP3.ctor init file N).paramb.num_L = file.L_max + 2) := by
  refine ⟨rfl, ?_⟩
  simp only [NEP3.ctor]
  generalize (if file.nep_name = "nep" then 2
    else if file.nep_name = "nep_zbl" then 2
    else if file.nep_name = "nep3" then 3
    else if file.nep_name = "nep3_zbl" then 3 else init.paramb.version) = v
  generalize (if v = 2 then 0 else file.L_max_4body) = a
  generalize (if v = 2 then 0 else file.L_max_5body) = b
  split_ifs <;> omega

/-- For `L_max = 4` the constructor sets `num_L` to the number of invariants the
selected variant writes. -/
theorem ctor_variant_blocks (init : NEP3 α) (file : ModelFile α) (N : Nat)
    (hL : file.L_max = 4) :
    variant_blocks (NEP3.ctor init file N).paramb = (NEP3.ctor init file N).paramb.num_L := by
  obtain ⟨h1, h2⟩ := ctor_num_L_cases init file N
  unfold variant_blocks
  rw [h1]
  rcases h2 with h | h | h <;> rw [h, hL] <;> simp

theorem block_slot_iff (k N1 B j : Nat) (hN1 : 0 < N1) :
    (k ≤ j ∧ j < k + N1 * B) ↔ ∃ L, L < B ∧ ∃ n, n < N1 ∧ j = k + (L * N1 + n) := by
  constructor
  · rintro ⟨h1, h2⟩
    refine ⟨(j - k) / N1, ?_, (j - k) % N1, Nat.mod_lt _ hN1, ?_⟩
    · exact Nat.div_lt_of_lt_mul (by omega)
    · have := Nat.div_add_mod (j - k) N1
      rw [Nat.mul_comm] at this
      omega
  · rintro ⟨L, hL, n, hn, rfl⟩
    refine ⟨by omega, ?_⟩
    have : L * N1 + N1 ≤ N1 * B := by
      have h := Nat.mul_le_mul_left N1 (Nat.succ_le_of_lt hL)
      rw [Nat.mul_succ, Nat.mul_comm N1 L] at h
      exact h
    omega

/-- C23 (amended). For every parameter set the constructor produces with
`L_max = 4` (any tag, any `L_max_4body`, `L_max_5body`), the channel loop of the
descriptor stage (the selected `find_q` variant called for `n = 0..n_max_angular`)
overwrites every slot `j` with `n_max_radial + 1 <= j < dim`, leaves every other
slot of `q` as it was, and every invariant the variant computes lands in a slot
below `dim`, where `dim = (n_max_radial+1) + (n_max_angular+1)*num_L`. -/
theorem ctor_angular_slots_filled (init : NEP3 α) (file : ModelFile α) (N : Nat)
    (hL : file.L_max = 4) (s : Nat → Nat → α) (q0 q0' : Nat → α) :
    (NEP3.ctor init file N).annmb.dim = (NEP3.ctor init file N).paramb.n_max_radial + 1 +
        ((NEP3.ctor init file N).paramb.n_max_angular + 1) * (NEP3.ctor init file N).paramb.num_L ∧
    (∀ j, (NEP3.ctor init file N).paramb.n_max_radial + 1 ≤ j → j < (NEP3.ctor init file
        N).annmb.dim →
      forLoop 0 ((NEP3.ctor init file N).paramb.n_max_angular + 1)
          (fun n q => select_find_q (NEP3.ctor init file N).paramb n (s n) q) q0 j =
      forLoop 0 ((NEP3.ctor init file N).paramb.n_max_angular + 1)
          (fun n q => select_find_q (NEP3.ctor init file N).paramb n (s n) q) q0' j) ∧
    (∀ j, (j < (NEP3.ctor init file N).paramb.n_max_radial + 1 ∨ (NEP3.ctor init file N).annmb.dim
        ≤ j) →
      forLoop 0 ((NEP3.ctor init file N).paramb.n_max_angular + 1)
          (fun n q => select_find_q (NEP3.ctor init file N).paramb n (s n) q) q0 j = q0 j) ∧
    (∀ L, L < variant_blocks (NEP3.ctor init file N).paramb → ∀ n, n < (NEP3.ctor init file
        N).paramb.n_max_angular + 1 →
      ((NEP3.ctor init file N).paramb.n_max_radial + 1 +
            (L * ((NEP3.ctor init file N).paramb.n_max_angular + 1) + n)) < (NEP3.ctor init file
                N).annmb.dim ∧
      forLoop 0 ((NEP3.ctor init file N).paramb.n_max_angular + 1)
          (fun n q => select_find_q (NEP3.ctor init file N).paramb n (s n) q) q0
          ((NEP3.ctor init file N).paramb.n_max_radial + 1 +
            (L * ((NEP3.ctor init file N).paramb.n_max_angular + 1) + n)) =
        select_find_q (NEP3.ctor init file N).paramb n (s n) q0'
          ((NEP3.ctor init file N).paramb.n_max_radial + 1 +
            (L * ((NEP3.ctor init file N).paramb.n_max_angular + 1) + n))) := by
  have hdim := (ctor_sizes init file N).1
  have hB := ctor_variant_blocks init file N hL
  obtain ⟨hw, hf⟩ := channel_loop_spec (NEP3.ctor init file N).paramb s q0 q0'
  obtain ⟨hw', _⟩ := channel_loop_spec (NEP3.ctor init file N).paramb s q0' q0'
  have hiff := fun j => block_slot_iff ((NEP3.ctor init file N).paramb.n_max_radial + 1)
    ((NEP3.ctor init file N).paramb.n_max_angular + 1) (variant_blocks (NEP3.ctor init file
        N).paramb) j (Nat.succ_pos _)
  rw [hB] at hiff
  refine ⟨hdim, ?_, ?_, ?_⟩
  · intro j h1 h2
    obtain ⟨L, hLlt, n, hn, rfl⟩ := (hiff j).mp ⟨h1, by rw [hdim] at h2; exact h2⟩
    rw [hw L (by rw [hB]; exact hLlt) n hn, hw' L (by rw [hB]; exact hLlt) n hn]
  · intro j hj
    apply hf
    intro L hLlt n hn h
    have := (hiff j).mpr ⟨L, by rw [← hB]; exact hLlt, n, hn, h⟩
    rw [hdim] at hj
    omega
  · intro L hLlt n hn
    refine ⟨?_, hw L hLlt n hn⟩
    have := (hiff _).mpr ⟨L, by rw [← hB]; exact hLlt, n, hn, rfl⟩
    rw [hdim]
    exact this.2

end CtorSlots

/-- The channel loop of the descriptor stage is the loop of `atom_descriptor`. -/
theorem atom_descriptor_eq_channel_loop {α : Type} [LinearOrderedField α] (m : Libm α)
    (paramb : ParaMB α) (annmb : ANN α) (N : Nat) (NNr NLr NNa NLa type : Nat → Nat)
    (gx gy gz ax ay az : Nat → α) (n1 : Nat) :
    atom_descriptor m paramb annmb N NNr NLr NNa NLa type gx gy gz ax ay az n1 =
      forLoop 0 (paramb.n_max_angular + 1)
        (fun n q => select_find_q paramb n
          (angular_moments m paramb annmb N NNa NLa type ax ay az n1 n) q)
        (radial_descriptor m paramb annmb N NNr NLr type gx gy gz n1) := rfl

/-- C23 (counterexample). Tag `nep3`, `L_max = 3`, `n_max_radial = n_max_angular = 0`:
the constructor sets `dim = 4`, and with all moments `1` the variant `find_q`
changes slot 4 of `q`, which is not below `dim`: the degree-4 invariant is
computed but not fed to the network. -/
theorem ctor_angular_slots_counterexample :
    (1 ≤ (demoFile 3 : ModelFile ℚ).L_max ∧ (demoFile 3 : ModelFile ℚ).L_max ≤ 4) ∧
    (NEP3.ctor (blankEngine : NEP3 ℚ) (demoFile 3) 1).annmb.dim = 4 ∧
    forLoop 0 ((NEP3.ctor (blankEngine : NEP3 ℚ) (demoFile 3) 1).paramb.n_max_angular + 1)
        (fun n q => select_find_q (NEP3.ctor (blankEngine : NEP3 ℚ) (demoFile 3) 1).paramb
          n ((fun _ _ => (1 : ℚ)) n) q) (fun _ => 0) 4 ≠ (fun _ => (0 : ℚ)) 4 := by
  refine ⟨by decide, rfl, ?_⟩
  have h := (channel_loop_spec (NEP3.ctor (blankEngine : NEP3 ℚ) (demoFile 3) 1).paramb
    (fun _ _ => (1 : ℚ)) (fun _ => 0) (fun _ => 0)).1 3 (by decide) 0 (by decide)
  have e : (NEP3.ctor (blankEngine : NEP3 ℚ) (demoFile 3) 1).paramb.n_max_radial + 1 +
      (3 * ((NEP3.ctor (blankEngine : NEP3 ℚ) (demoFile 3) 1).paramb.n_max_angular + 1) + 0) = 4 :=
          rfl
  rw [e] at h
  rw [h]
  have hv : select_find_q (NEP3.ctor (blankEngine : NEP3 ℚ) (demoFile 3) 1).paramb
      0 ((fun _ _ => (1 : ℚ)) 0) (fun _ => 0) 4 =
      find_q 1 0 (fun _ => (1 : ℚ)) (shift (fun _ => 0) 1) (3 * 1 + 0) := rfl
  rw [hv]
  unfold find_q
  rw [Function.update_same]
  norm_num [C3B, arrayOf]

/-- Witness of C23 (amended): tag `nep3`, `L_max = 4`, one channel. -/
theorem ctor_angular_slots_filled_witness :
    (demoFile 4 : ModelFile ℚ).L_max = 4 ∧
    (NEP3.ctor (blankEngine : NEP3 ℚ) (demoFile 4) 1).annmb.dim =
      (NEP3.ctor (blankEngine : NEP3 ℚ) (demoFile 4) 1).paramb.n_max_radial + 1 +
        ((NEP3.ctor (blankEngine : NEP3 ℚ) (demoFile 4) 1).paramb.n_max_angular + 1) *
          (NEP3.ctor (blankEngine : NEP3 ℚ) (demoFile 4) 1).paramb.num_L :=
  ⟨rfl, (ctor_angular_slots_filled (blankEngine : NEP3 ℚ) (demoFile 4) 1 rfl
    (fun _ _ => 1) (fun _ => 0) (fun _ => 0)).1⟩

/-! ## The derivative of the radial basis -/

section ChebDeriv

/-- The recursion of `chebU` is the recursion of the Chebyshev polynomials of
the second kind. -/
theorem chebU_eq_eval {α : Type} [LinearOrderedField α] (x : α) (n : Nat) :
    chebU x n = Polynomial.eval x (Polynomial.Chebyshev.U α (n : ℤ)) := by
  induction n using Nat.strong_induction_on with
  | _ n ih =>
    match n, ih with
    | 0, _ => simp [chebU]
    | 1, _ => simp [chebU]
    | k + 2, ih =>
      rw [chebU_succ_succ, ih (k + 1) (by omega), ih k (by omega)]
      have h := Polynomial.Chebyshev.U_add_two α (k : ℤ)
      push_cast
      rw [h]
      simp

/-- The derivative of `T_n` is `n * U_(n-1)`, in terms of the recursions. -/
theorem hasDerivAt_chebT (n : Nat) (x : ℝ) :
    HasDerivAt (fun y => Polynomial.eval y (Polynomial.Chebyshev.T ℝ (n : ℤ)))
      ((n : ℝ) * chebU x (n - 1)) x := by
  have h := Polynomial.hasDerivAt (Polynomial.Chebyshev.T ℝ (n : ℤ)) x
  rw [Polynomial.Chebyshev.T_derivative_eq_U] at h
  convert h using 1
  rcases Nat.eq_zero_or_pos n with h0 | hpos
  · subst h0
    simp
  · rw [chebU_eq_eval]
    have e : ((n - 1 : Nat) : ℤ) = (n : ℤ) - 1 := by omega
    rw [e]
    simp

/-- Closed form of the entry `fnp[n]` of the all-orders `find_fn_and_fnp`. -/
theorem find_fn_and_fnp_all_closed_form {α : Type} [LinearOrderedField α] (n_max n : Nat)
    (hn : n ≤ n_max) (rcinv d12 fc12 fcp12 : α) (fn fnp : Nat → α) :
    (find_fn_and_fnp_all n_max rcinv d12 fc12 fcp12 fn fnp).2 n =
      (n : α) * chebU (2 * (d12 * rcinv - 1) * (d12 * rcinv - 1) - 1) (n - 1) *
          (2 * (d12 * rcinv - 1) * rcinv) * fc12 +
        (chebT (2 * (d12 * rcinv - 1) * (d12 * rcinv - 1) - 1) n + 1) * (1 / 2) * fcp12 := by
  unfold find_fn_and_fnp_all
  rw [forLoop_zero_lo]
  have hle : n ≤ max n_max 1 := le_trans hn (le_max_left _ _)
  obtain ⟨hT, hU⟩ := find_fn_and_fnp_all_loop
    (2.0 * (d12 * rcinv - 1.0) * (d12 * rcinv - 1.0) - 1.0 : α) n_max fn fnp n hle
  simp only []
  rw [find_fn_and_fnp_all_scale]
  simp only [Nat.lt_succ_of_le hn, if_true, hT, hU]
  norm_num

/-- C25. For every order `n`, every `rcinv` and every envelope `fc` that is
differentiable at `d12` with derivative `fcp12`, the `fnp` that the single-order
`find_fn_and_fnp` returns for `fc12 = fc(d12)` is the derivative at `d = d12` of
`d ↦ fc(d) * (T_n(2*(d*rcinv - 1)^2 - 1) + 1) / 2`, and so is the entry `fnp[n]`
of the all-orders `find_fn_and_fnp` for every `n_max >= n`. -/
theorem find_fn_and_fnp_derivative (n : Nat) (rcinv d12 fcp12 : ℝ) (fc : ℝ → ℝ)
    (hfc : HasDerivAt fc fcp12 d12) :
    HasDerivAt
      (fun d => fc d * (Polynomial.eval (2 * (d * rcinv - 1) ^ 2 - 1)
        (Polynomial.Chebyshev.T ℝ (n : ℤ)) + 1) / 2)
      (find_fn_and_fnp n rcinv d12 (fc d12) fcp12).2 d12 ∧
    (∀ n_max, n ≤ n_max → ∀ fn fnp : Nat → ℝ,
      HasDerivAt
        (fun d => fc d * (Polynomial.eval (2 * (d * rcinv - 1) ^ 2 - 1)
          (Polynomial.Chebyshev.T ℝ (n : ℤ)) + 1) / 2)
        ((find_fn_and_fnp_all n_max rcinv d12 (fc d12) fcp12 fn fnp).2 n) d12) := by
  have hx : HasDerivAt (fun d : ℝ => 2 * (d * rcinv - 1) ^ 2 - 1)
      (2 * (2 * (d12 * rcinv - 1) * rcinv)) d12 := by
    have h1 : HasDerivAt (fun d : ℝ => d * rcinv - 1) rcinv d12 := by
      simpa using ((hasDerivAt_id d12).mul_const rcinv).sub_const 1
    have h2 := ((h1.pow 2).const_mul 2).sub_const 1
    convert h2 using 1
    simp
  have hT := (hasDerivAt_chebT n (2 * (d12 * rcinv - 1) ^ 2 - 1)).comp d12 hx
  have hall := (hfc.mul (hT.add_const 1)).div_const 2
  have key : HasDerivAt
      (fun d => fc d * (Polynomial.eval (2 * (d * rcinv - 1) ^ 2 - 1)
        (Polynomial.Chebyshev.T ℝ (n : ℤ)) + 1) / 2)
      ((n : ℝ) * chebU (2 * (d12 * rcinv - 1) * (d12 * rcinv - 1) - 1) (n - 1) *
          (2 * (d12 * rcinv - 1) * rcinv) * fc d12 +
        (chebT (2 * (d12 * rcinv - 1) * (d12 * rcinv - 1) - 1) n + 1) * (1 / 2) * fcp12)
      d12 := by
    convert hall using 1
    have e : (2 : ℝ) * (d12 * rcinv - 1) * (d12 * rcinv - 1) - 1 =
        2 * (d12 * rcinv - 1) ^ 2 - 1 := by ring
    rw [e, chebT_eq_eval]
    simp only [Function.comp]
    ring
  refine ⟨?_, ?_⟩
  · rw [find_fn_and_fnp_closed_form]
    exact key
  · intro n_max hn fn fnp
    rw [find_fn_and_fnp_all_closed_form n_max n hn]
    exact key

/-- Witness of C25: the envelope `fc(d) = d`, order 2. -/
theorem find_fn_and_fnp_derivative_witness :
    HasDerivAt (fun d : ℝ => d) 1 1 ∧
    HasDerivAt
      (fun d => (fun d : ℝ => d) d * (Polynomial.eval (2 * (d * (1 / 2) - 1) ^ 2 - 1)
        (Polynomial.Chebyshev.T ℝ ((2 : Nat) : ℤ)) + 1) / 2)
      (find_fn_and_fnp 2 (1 / 2) 1 ((fun d : ℝ => d) 1) 1).2 1 :=
  ⟨hasDerivAt_id 1,
    (find_fn_and_fnp_derivative 2 (1 / 2) 1 1 (fun d : ℝ => d) (hasDerivAt_id 1)).1⟩

end ChebDeriv

/-! ## The derivative of the ZBL pair function -/

section ZBLDeriv

/-- Witness of C29: cutoffs 1 and 2, a pair at distance 3. -/
theorem zbl_beyond_outer_cutoff_witness :
    ((1 : ℚ) < 2 ∧ (2 : ℚ) ≤ 3) ∧
    find_f_and_fp_zbl (Libm.mk id id id id id (fun x _ => x)) (1 : ℚ) 1
      (ZBL.mk true (1 : ℚ) 2 (fun _ => 0)).rc_inner
      (ZBL.mk true (1 : ℚ) 2 (fun _ => 0)).rc_outer 3 (1 / 3) = (0, 0) :=
  ⟨⟨by norm_num, by norm_num⟩,
    (zbl_beyond_outer_cutoff (Libm.mk id id id id id (fun x _ => x)) 1
      (ZBL.mk true (1 : ℚ) 2 (fun _ => 0)) (fun _ => 0) (fun _ => 0) (fun _ => 0)
      (fun _ => 0) (fun _ => 0) (fun _ => 0) 0 1 2 (fun _ => 0) (fun _ => 0) (fun _ => 0)
      1 1 3 (1 / 3) 0 0 (fun _ => 0) (by norm_num) (by norm_num)).1⟩

/-- The switching function of `find_fc_and_fcp_zbl` is differentiable at every
`d < r2`, with the derivative the function returns; at `d = r1` both one-sided
derivatives are zero. -/
theorem hasDerivAt_fc_zbl (r1 r2 d : ℝ) (hr : r1 < r2) (hd : d < r2) :
    HasDerivAt (fun t => (find_fc_and_fcp_zbl Real.cos Real.sin r1 r2 t).1)
      (find_fc_and_fcp_zbl Real.cos Real.sin r1 r2 d).2 d := by
  have l0 : (0.0 : ℝ) = 0 := by norm_num
  have l1 : (1.0 : ℝ) = 1 := by norm_num
  have hsm : ∀ t : ℝ, HasDerivAt
      (fun t => Real.cos (3.1415927 / (r2 - r1) * (t - r1)) * 0.5 + 0.5)
      (-Real.sin (3.1415927 / (r2 - r1) * (t - r1)) * (3.1415927 / (r2 - r1)) * 0.5) t := by
    intro t
    have h1 : HasDerivAt (fun t : ℝ => 3.1415927 / (r2 - r1) * (t - r1))
        (3.1415927 / (r2 - r1)) t := by
      simpa using ((hasDerivAt_id t).sub_const r1).const_mul (3.1415927 / (r2 - r1))
    have h2 := ((Real.hasDerivAt_cos _).comp t h1).mul_const (0.5 : ℝ) |>.add_const (0.5 : ℝ)
    convert h2 using 1
  rcases lt_trichotomy d r1 with h | h | h
  · have hv : (find_fc_and_fcp_zbl Real.cos Real.sin r1 r2 d).2 = 0 := by
      unfold find_fc_and_fcp_zbl
      rw [if_pos h, l0]
    rw [hv]
    refine (hasDerivAt_const d (1 : ℝ)).congr_of_eventuallyEq ?_
    filter_upwards [Iio_mem_nhds h] with t ht
    unfold find_fc_and_fcp_zbl
    rw [if_pos (Set.mem_Iio.mp ht), l1]
  · subst h
    have hv : (find_fc_and_fcp_zbl Real.cos Real.sin d r2 d).2 = 0 := by
      unfold find_fc_and_fcp_zbl
      rw [if_neg (lt_irrefl d), if_pos hd]
      simp
    rw [hv]
    have hleft : HasDerivWithinAt
        (fun t => (find_fc_and_fcp_zbl Real.cos Real.sin d r2 t).1) 0 (Set.Iic d) d := by
      refine (hasDerivWithinAt_const d (Set.Iic d) (1 : ℝ)).congr ?_ ?_
      · intro t ht
        unfold find_fc_and_fcp_zbl
        rcases lt_or_eq_of_le (Set.mem_Iic.mp ht) with h' | h'
        · rw [if_pos h', l1]
        · subst h'
          rw [if_neg (lt_irrefl t), if_pos hd]
          simp
          norm_num
      · unfold find_fc_and_fcp_zbl
        rw [if_neg (lt_irrefl d), if_pos hd]
        simp
        norm_num
    have hright : HasDerivWithinAt
        (fun t => (find_fc_and_fcp_zbl Real.cos Real.sin d r2 t).1) 0 (Set.Ico d r2) d := by
      have h0 : HasDerivWithinAt
          (fun t => Real.cos (3.1415927 / (r2 - d) * (t - d)) * 0.5 + 0.5)
          (-Real.sin (3.1415927 / (r2 - d) * (d - d)) * (3.1415927 / (r2 - d)) * 0.5)
          (Set.Ico d r2) d := (hsm d).hasDerivWithinAt
      have e : -Real.sin (3.1415927 / (r2 - d) * (d - d)) * (3.1415927 / (r2 - d)) * 0.5
          = (0 : ℝ) := by simp
      rw [e] at h0
      refine h0.congr ?_ ?_
      · intro t ht
        unfold find_fc_and_fcp_zbl
        rw [if_neg (not_lt.mpr ht.1), if_pos ht.2]
      · unfold find_fc_and_fcp_zbl
        rw [if_neg (lt_irrefl d), if_pos hd]
    have hu := hleft.union hright
    refine hu.hasDerivAt ?_
    have : Set.Iio r2 ⊆ Set.Iic d ∪ Set.Ico d r2 := by
      intro t ht
      rcases le_or_lt t d with h' | h'
      · exact Or.inl h'
      · exact Or.inr ⟨h'.le, ht⟩
    exact Filter.mem_of_superset (Iio_mem_nhds hd) this
  · have hv : (find_fc_and_fcp_zbl Real.cos Real.sin r1 r2 d).2 =
        -Real.sin (3.1415927 / (r2 - r1) * (d - r1)) * (3.1415927 / (r2 - r1)) * 0.5 := by
      unfold find_fc_and_fcp_zbl
      rw [if_neg (not_lt.mpr h.le), if_pos hd]
    rw [hv]
    refine (hsm d).congr_of_eventuallyEq ?_
    filter_upwards [Ioo_mem_nhds h hd] with t ht
    unfold find_fc_and_fcp_zbl
    rw [if_neg (not_lt.mpr ht.1.le), if_pos ht.2]

/-- One screening term `a * exp(-b * x)` with `x = t * a_inv`, as a function of
the distance `t`. -/
theorem hasDerivAt_phi_term (a b a_inv d : ℝ) :
    HasDerivAt (fun t => a * Real.exp (-b * (t * a_inv)))
      (-(b * (a * Real.exp (-b * (d * a_inv)))) * a_inv) d := by
  have h1 : HasDerivAt (fun t : ℝ => -b * (t * a_inv)) (-b * a_inv) d := by
    simpa using ((hasDerivAt_id d).mul_const a_inv).const_mul (-b)
  have h2 := ((Real.hasDerivAt_exp _).comp d h1).const_mul a
  convert h2 using 1
  ring

/-- C30. For every `zizj`, `a_inv`, `rc_inner < rc_outer` and every `d` with
`0 < d < rc_outer`, the `fp` that `find_f_and_fp_zbl` returns at `d` (with
`d12inv = 1/d`) is the derivative at `d` of the `f` it returns as a function of
the distance, also at `d = rc_inner` and throughout the switching region. -/
theorem zbl_fp_is_derivative (zizj a_inv rc_inner rc_outer d : ℝ)
    (hrc : rc_inner < rc_outer) (hd0 : 0 < d) (hd : d < rc_outer) :
    HasDerivAt
      (fun t => (find_f_and_fp_zbl
        (Libm.mk Real.tanh Real.cos Real.sin Real.sqrt Real.exp Real.rpow)
        zizj a_inv rc_inner rc_outer t (1 / t)).1)
      (find_f_and_fp_zbl (Libm.mk Real.tanh Real.cos Real.sin Real.sqrt Real.exp Real.rpow)
        zizj a_inv rc_inner rc_outer d (1 / d)).2 d := by
  have hfc := hasDerivAt_fc_zbl rc_inner rc_outer d hrc hd
  have hinv : HasDerivAt (fun t : ℝ => 1 / t) (-(1 / d) * (1 / d)) d := by
    have := hasDerivAt_inv hd0.ne.symm
    convert this using 1
    · funext t
      simp
    · field_simp
      ring
  have hphi := (((((hasDerivAt_const d (0.0 : ℝ)).add
      (hasDerivAt_phi_term 0.18175 3.1998 a_inv d)).add
      (hasDerivAt_phi_term 0.50986 0.94229 a_inv d)).add
      (hasDerivAt_phi_term 0.28022 0.4029 a_inv d)).add
      (hasDerivAt_phi_term 0.02817 0.20162 a_inv d))
  have hall := (((hphi.mul_const zizj).mul hinv).mul hfc)
  simp only [find_f_and_fp_zbl, find_phi_and_phip_zbl, arrayOf, List.getD_cons_zero,
    List.getD_cons_succ]
  convert hall using 1
  ring

/-- Witness of C30: unit charges and screening length, cutoffs 1 and 2, at the
inner cutoff `d = 1`. -/
theorem zbl_fp_is_derivative_witness :
    ((1 : ℝ) < 2 ∧ (0 : ℝ) < 1 ∧ (1 : ℝ) < 2) ∧
    HasDerivAt
      (fun t => (find_f_and_fp_zbl
        (Libm.mk Real.tanh Real.cos Real.sin Real.sqrt Real.exp Real.rpow)
        1 1 1 2 t (1 / t)).1)
      (find_f_and_fp_zbl (Libm.mk Real.tanh Real.cos Real.sin Real.sqrt Real.exp Real.rpow)
        1 1 1 2 1 (1 / 1)).2 1 :=
  ⟨⟨by norm_num, by norm_num, by norm_num⟩,
    zbl_fp_is_derivative 1 1 1 2 1 (by norm_num) (by norm_num) (by norm_num)⟩

end ZBLDeriv

/-! ## The pair-force kernels as gradients of the invariants -/

section Gradients

set_option maxHeartbeats 4000000 in
/-- The increment of `get_f12_1` is the gradient of `Fp` times the degree-1 invariant:
along every differentiable curve `(X, Y, Z)` through the displacement, with the radial
weight `W` (derivative `fnp * d12inv * (r12 . v)`), the invariant of the moments
`S i + moment_hom i X Y Z * W` has the derivative `increment . v`. -/
theorem get_f12_1_gradient (X Y Z W : ℝ → ℝ) (x y z vx vy vz d12inv fn fnp Fp : ℝ)
    (S f12 : Nat → ℝ)
    (hX : HasDerivAt X vx 0) (hY : HasDerivAt Y vy 0) (hZ : HasDerivAt Z vz 0)
    (hW : HasDerivAt W (fnp * d12inv * (x * vx + y * vy + z * vz)) 0)
    (hX0 : X 0 = x) (hY0 : Y 0 = y) (hZ0 : Z 0 = z) (hW0 : W 0 = fn) :
    HasDerivAt
      (fun t => Fp * (C3B 0 * (S 0 + moment_hom 0 (X t) (Y t) (Z t) * W t) * (S 0 + moment_hom 0 (X
          t) (Y t) (Z t) * W t) + 2.0 * (C3B 1 * (S 1 + moment_hom 1 (X t) (Y t) (Z t) * W t) * (S
          1 + moment_hom 1 (X t) (Y t) (Z t) * W t) + C3B 2 * (S 2 + moment_hom 2 (X t) (Y t) (Z t)
          * W t) * (S 2 + moment_hom 2 (X t) (Y t) (Z t) * W t))))
      ((get_f12_1 d12inv fn fnp Fp (arrayOf [(S 0 + moment_hom 0 x y z * fn) * C3B 0, (S 1 +
          moment_hom 1 x y z * fn) * C3B 1, (S 2 + moment_hom 2 x y z * fn) * C3B 2]) (arrayOf [x,
          y, z]) f12 0 - f12 0) * vx +
        (get_f12_1 d12inv fn fnp Fp (arrayOf [(S 0 + moment_hom 0 x y z * fn) * C3B 0, (S 1 +
            moment_hom 1 x y z * fn) * C3B 1, (S 2 + moment_hom 2 x y z * fn) * C3B 2]) (arrayOf
            [x, y, z]) f12 1 - f12 1) * vy +
        (get_f12_1 d12inv fn fnp Fp (arrayOf [(S 0 + moment_hom 0 x y z * fn) * C3B 0, (S 1 +
            moment_hom 1 x y z * fn) * C3B 1, (S 2 + moment_hom 2 x y z * fn) * C3B 2]) (arrayOf
            [x, y, z]) f12 2 - f12 2) * vz) 0 := by
  have l1 : (1.0 : ℝ) = 1 := by norm_num
  have l2 : (2.0 : ℝ) = 2 := by norm_num
  have l3 : (3.0 : ℝ) = 3 := by norm_num
  have l4 : (4.0 : ℝ) = 4 := by norm_num
  have l5 : (5.0 : ℝ) = 5 := by norm_num
  have l6 : (6.0 : ℝ) = 6 := by norm_num
  have l7 : (7.0 : ℝ) = 7 := by norm_num
  have l8 : (8.0 : ℝ) = 8 := by norm_num
  have l9 : (9.0 : ℝ) = 9 := by norm_num
  have l12 : (12.0 : ℝ) = 12 := by norm_num
  have l16 : (16.0 : ℝ) = 16 := by norm_num
  have l24 : (24.0 : ℝ) = 24 := by norm_num
  have l30 : (30.0 : ℝ) = 30 := by norm_num
  have l35 : (35.0 : ℝ) = 35 := by norm_num
  have hM0 : HasDerivAt (fun t => S 0 + moment_hom 0 (X t) (Y t) (Z t) * W t) _ 0 :=
    HasDerivAt.const_add (S 0) (HasDerivAt.mul hZ hW)
  have hM1 : HasDerivAt (fun t => S 1 + moment_hom 1 (X t) (Y t) (Z t) * W t) _ 0 :=
    HasDerivAt.const_add (S 1) (HasDerivAt.mul hX hW)
  have hM2 : HasDerivAt (fun t => S 2 + moment_hom 2 (X t) (Y t) (Z t) * W t) _ 0 :=
    HasDerivAt.const_add (S 2) (HasDerivAt.mul hY hW)
  refine HasDerivAt.congr_deriv (HasDerivAt.const_mul (Fp) (HasDerivAt.add (HasDerivAt.mul
      (HasDerivAt.const_mul (C3B 0) hM0) hM0) (HasDerivAt.const_mul (2.0) (HasDerivAt.add
      (HasDerivAt.mul (HasDerivAt.const_mul (C3B 1) hM1) hM1) (HasDerivAt.mul (HasDerivAt.const_mul
      (C3B 2) hM2) hM2))))) ?_
  simp only [hX0, hY0, hZ0, hW0]
  obtain ⟨M, hM⟩ : ∃ M : Nat → ℝ, ∀ i, S i + moment_hom i x y z * fn = M i :=
    ⟨fun i => S i + moment_hom i x y z * fn, fun _ => rfl⟩
  simp only [hM]
  simp only [get_f12_1, moment_hom, addAt, forLoop, iterate, Function.update_apply, arrayOf,
      List.getD_cons_zero,
    List.getD_cons_succ, Nat.sub_zero, Nat.zero_add, Nat.reduceEqDiff, OfNat.ofNat_ne_zero,
    OfNat.zero_ne_ofNat, OfNat.ofNat_ne_one, OfNat.one_ne_ofNat, zero_ne_one, one_ne_zero,
    if_true, if_false, reduceCtorEq, Nat.succ_ne_zero, Nat.reduceAdd, Nat.reduceSub]
  simp only [l1, l2, l3, l4, l5, l6, l7, l8, l9, l12, l16, l24, l30, l35]
  ring

set_option maxHeartbeats 4000000 in
/-- The increment of `get_f12_2` is the gradient of `Fp` times the degree-2 invariant:
along every differentiable curve `(X, Y, Z)` through the displacement, with the radial
weight `W` (derivative `fnp * d12inv * (r12 . v)`), the invariant of the moments
`S i + moment_hom i X Y Z * W` has the derivative `increment . v`. -/
theorem get_f12_2_gradient (X Y Z W : ℝ → ℝ) (x y z vx vy vz d12 d12inv fn fnp Fp : ℝ)
    (S f12 : Nat → ℝ)
    (hX : HasDerivAt X vx 0) (hY : HasDerivAt Y vy 0) (hZ : HasDerivAt Z vz 0)
    (hW : HasDerivAt W (fnp * d12inv * (x * vx + y * vy + z * vz)) 0)
    (hX0 : X 0 = x) (hY0 : Y 0 = y) (hZ0 : Z 0 = z) (hW0 : W 0 = fn)
    (hdd : d12 * d12 = x * x + y * y + z * z) :
    HasDerivAt
      (fun t => Fp * (C3B 3 * (S 3 + moment_hom 3 (X t) (Y t) (Z t) * W t) * (S 3 + moment_hom 3 (X
          t) (Y t) (Z t) * W t) + 2.0 * (C3B 4 * (S 4 + moment_hom 4 (X t) (Y t) (Z t) * W t) * (S
          4 + moment_hom 4 (X t) (Y t) (Z t) * W t) + C3B 5 * (S 5 + moment_hom 5 (X t) (Y t) (Z t)
          * W t) * (S 5 + moment_hom 5 (X t) (Y t) (Z t) * W t) + C3B 6 * (S 6 + moment_hom 6 (X t)
          (Y t) (Z t) * W t) * (S 6 + moment_hom 6 (X t) (Y t) (Z t) * W t) + C3B 7 * (S 7 +
          moment_hom 7 (X t) (Y t) (Z t) * W t) * (S 7 + moment_hom 7 (X t) (Y t) (Z t) * W t))))
      ((get_f12_2 d12 d12inv fn fnp Fp (arrayOf [(S 3 + moment_hom 3 x y z * fn) * C3B 3, (S 4 +
          moment_hom 4 x y z * fn) * C3B 4, (S 5 + moment_hom 5 x y z * fn) * C3B 5, (S 6 +
          moment_hom 6 x y z * fn) * C3B 6, (S 7 + moment_hom 7 x y z * fn) * C3B 7]) (arrayOf [x,
          y, z]) f12 0 - f12 0) * vx +
        (get_f12_2 d12 d12inv fn fnp Fp (arrayOf [(S 3 + moment_hom 3 x y z * fn) * C3B 3, (S 4 +
            moment_hom 4 x y z * fn) * C3B 4, (S 5 + moment_hom 5 x y z * fn) * C3B 5, (S 6 +
            moment_hom 6 x y z * fn) * C3B 6, (S 7 + moment_hom 7 x y z * fn) * C3B 7]) (arrayOf
            [x, y, z]) f12 1 - f12 1) * vy +
        (get_f12_2 d12 d12inv fn fnp Fp (arrayOf [(S 3 + moment_hom 3 x y z * fn) * C3B 3, (S 4 +
            moment_hom 4 x y z * fn) * C3B 4, (S 5 + moment_hom 5 x y z * fn) * C3B 5, (S 6 +
            moment_hom 6 x y z * fn) * C3B 6, (S 7 + moment_hom 7 x y z * fn) * C3B 7]) (arrayOf
            [x, y, z]) f12 2 - f12 2) * vz) 0 := by
  have l1 : (1.0 : ℝ) = 1 := by norm_num
  have l2 : (2.0 : ℝ) = 2 := by norm_num
  have l3 : (3.0 : ℝ) = 3 := by norm_num
  have l4 : (4.0 : ℝ) = 4 := by norm_num
  have l5 : (5.0 : ℝ) = 5 := by norm_num
  have l6 : (6.0 : ℝ) = 6 := by norm_num
  have l7 : (7.0 : ℝ) = 7 := by norm_num
  have l8 : (8.0 : ℝ) = 8 := by norm_num
  have l9 : (9.0 : ℝ) = 9 := by norm_num
  have l12 : (12.0 : ℝ) = 12 := by norm_num
  have l16 : (16.0 : ℝ) = 16 := by norm_num
  have l24 : (24.0 : ℝ) = 24 := by norm_num
  have l30 : (30.0 : ℝ) = 30 := by norm_num
  have l35 : (35.0 : ℝ) = 35 := by norm_num
  have hM3 : HasDerivAt (fun t => S 3 + moment_hom 3 (X t) (Y t) (Z t) * W t) _ 0 :=
    HasDerivAt.const_add (S 3) (HasDerivAt.mul (HasDerivAt.sub (HasDerivAt.const_mul (3)
        (HasDerivAt.mul hZ hZ)) (HasDerivAt.add (HasDerivAt.add (HasDerivAt.mul hX hX)
        (HasDerivAt.mul hY hY)) (HasDerivAt.mul hZ hZ))) hW)
  have hM4 : HasDerivAt (fun t => S 4 + moment_hom 4 (X t) (Y t) (Z t) * W t) _ 0 :=
    HasDerivAt.const_add (S 4) (HasDerivAt.mul (HasDerivAt.mul hX hZ) hW)
  have hM5 : HasDerivAt (fun t => S 5 + moment_hom 5 (X t) (Y t) (Z t) * W t) _ 0 :=
    HasDerivAt.const_add (S 5) (HasDerivAt.mul (HasDerivAt.mul hY hZ) hW)
  have hM6 : HasDerivAt (fun t => S 6 + moment_hom 6 (X t) (Y t) (Z t) * W t) _ 0 :=
    HasDerivAt.const_add (S 6) (HasDerivAt.mul (HasDerivAt.sub (HasDerivAt.mul hX hX)
        (HasDerivAt.mul hY hY)) hW)
  have hM7 : HasDerivAt (fun t => S 7 + moment_hom 7 (X t) (Y t) (Z t) * W t) _ 0 :=
    HasDerivAt.const_add (S 7) (HasDerivAt.mul (HasDerivAt.mul (HasDerivAt.const_mul (2) hX) hY) hW)
  refine HasDerivAt.congr_deriv (HasDerivAt.const_mul (Fp) (HasDerivAt.add (HasDerivAt.mul
      (HasDerivAt.const_mul (C3B 3) hM3) hM3) (HasDerivAt.const_mul (2.0) (HasDerivAt.add
      (HasDerivAt.add (HasDerivAt.add (HasDerivAt.mul (HasDerivAt.const_mul (C3B 4) hM4) hM4)
      (HasDerivAt.mul (HasDerivAt.const_mul (C3B 5) hM5) hM5)) (HasDerivAt.mul
      (HasDerivAt.const_mul (C3B 6) hM6) hM6)) (HasDerivAt.mul (HasDerivAt.const_mul (C3B 7) hM7)
      hM7))))) ?_
  simp only [hX0, hY0, hZ0, hW0]
  obtain ⟨M, hM⟩ : ∃ M : Nat → ℝ, ∀ i, S i + moment_hom i x y z * fn = M i :=
    ⟨fun i => S i + moment_hom i x y z * fn, fun _ => rfl⟩
  simp only [hM]
  simp only [get_f12_2, moment_hom, addAt, forLoop, iterate, Function.update_apply, arrayOf,
      List.getD_cons_zero,
    List.getD_cons_succ, Nat.sub_zero, Nat.zero_add, Nat.reduceEqDiff, OfNat.ofNat_ne_zero,
    OfNat.zero_ne_ofNat, OfNat.ofNat_ne_one, OfNat.one_ne_ofNat, zero_ne_one, one_ne_zero,
    if_true, if_false, reduceCtorEq, Nat.succ_ne_zero, Nat.reduceAdd, Nat.reduceSub]
  simp only [l1, l2, l3, l4, l5, l6, l7, l8, l9, l12, l16, l24, l30, l35]
  rw [hdd]
  ring

set_option maxHeartbeats 4000000 in
/-- The increment of `get_f12_3` is the gradient of `Fp` times the degree-3 invariant:
along every differentiable curve `(X, Y, Z)` through the displacement, with the radial
weight `W` (derivative `fnp * d12inv * (r12 . v)`), the invariant of the moments
`S i + moment_hom i X Y Z * W` has the derivative `increment . v`. -/
theorem get_f12_3_gradient (X Y Z W : ℝ → ℝ) (x y z vx vy vz d12 d12inv fn fnp Fp : ℝ)
    (S f12 : Nat → ℝ)
    (hX : HasDerivAt X vx 0) (hY : HasDerivAt Y vy 0) (hZ : HasDerivAt Z vz 0)
    (hW : HasDerivAt W (fnp * d12inv * (x * vx + y * vy + z * vz)) 0)
    (hX0 : X 0 = x) (hY0 : Y 0 = y) (hZ0 : Z 0 = z) (hW0 : W 0 = fn)
    (hdd : d12 * d12 = x * x + y * y + z * z) :
    HasDerivAt
      (fun t => Fp * (C3B 8 * (S 8 + moment_hom 8 (X t) (Y t) (Z t) * W t) * (S 8 + moment_hom 8 (X
          t) (Y t) (Z t) * W t) + 2.0 * (C3B 9 * (S 9 + moment_hom 9 (X t) (Y t) (Z t) * W t) * (S
          9 + moment_hom 9 (X t) (Y t) (Z t) * W t) + C3B 10 * (S 10 + moment_hom 10 (X t) (Y t) (Z
          t) * W t) * (S 10 + moment_hom 10 (X t) (Y t) (Z t) * W t) + C3B 11 * (S 11 + moment_hom
          11 (X t) (Y t) (Z t) * W t) * (S 11 + moment_hom 11 (X t) (Y t) (Z t) * W t) + C3B 12 *
          (S 12 + moment_hom 12 (X t) (Y t) (Z t) * W t) * (S 12 + moment_hom 12 (X t) (Y t) (Z t)
          * W t) + C3B 13 * (S 13 + moment_hom 13 (X t) (Y t) (Z t) * W t) * (S 13 + moment_hom 13
          (X t) (Y t) (Z t) * W t) + C3B 14 * (S 14 + moment_hom 14 (X t) (Y t) (Z t) * W t) * (S
          14 + moment_hom 14 (X t) (Y t) (Z t) * W t))))
      ((get_f12_3 d12 d12inv fn fnp Fp (arrayOf [(S 8 + moment_hom 8 x y z * fn) * C3B 8, (S 9 +
          moment_hom 9 x y z * fn) * C3B 9, (S 10 + moment_hom 10 x y z * fn) * C3B 10, (S 11 +
          moment_hom 11 x y z * fn) * C3B 11, (S 12 + moment_hom 12 x y z * fn) * C3B 12, (S 13 +
          moment_hom 13 x y z * fn) * C3B 13, (S 14 + moment_hom 14 x y z * fn) * C3B 14]) (arrayOf
          [x, y, z]) f12 0 - f12 0) * vx +
        (get_f12_3 d12 d12inv fn fnp Fp (arrayOf [(S 8 + moment_hom 8 x y z * fn) * C3B 8, (S 9 +
            moment_hom 9 x y z * fn) * C3B 9, (S 10 + moment_hom 10 x y z * fn) * C3B 10, (S 11 +
            moment_hom 11 x y z * fn) * C3B 11, (S 12 + moment_hom 12 x y z * fn) * C3B 12, (S 13 +
            moment_hom 13 x y z * fn) * C3B 13, (S 14 + moment_hom 14 x y z * fn) * C3B 14])
            (arrayOf [x, y, z]) f12 1 - f12 1) * vy +
        (get_f12_3 d12 d12inv fn fnp Fp (arrayOf [(S 8 + moment_hom 8 x y z * fn) * C3B 8, (S 9 +
            moment_hom 9 x y z * fn) * C3B 9, (S 10 + moment_hom 10 x y z * fn) * C3B 10, (S 11 +
            moment_hom 11 x y z * fn) * C3B 11, (S 12 + moment_hom 12 x y z * fn) * C3B 12, (S 13 +
            moment_hom 13 x y z * fn) * C3B 13, (S 14 + moment_hom 14 x y z * fn) * C3B 14])
            (arrayOf [x, y, z]) f12 2 - f12 2) * vz) 0 := by
  have l1 : (1.0 : ℝ) = 1 := by norm_num
  have l2 : (2.0 : ℝ) = 2 := by norm_num
  have l3 : (3.0 : ℝ) = 3 := by norm_num
  have l4 : (4.0 : ℝ) = 4 := by norm_num
  have l5 : (5.0 : ℝ) = 5 := by norm_num
  have l6 : (6.0 : ℝ) = 6 := by norm_num
  have l7 : (7.0 : ℝ) = 7 := by norm_num
  have l8 : (8.0 : ℝ) = 8 := by norm_num
  have l9 : (9.0 : ℝ) = 9 := by norm_num
  have l12 : (12.0 : ℝ) = 12 := by norm_num
  have l16 : (16.0 : ℝ) = 16 := by norm_num
  have l24 : (24.0 : ℝ) = 24 := by norm_num
  have l30 : (30.0 : ℝ) = 30 := by norm_num
  have l35 : (35.0 : ℝ) = 35 := by norm_num
  have hM8 : HasDerivAt (fun t => S 8 + moment_hom 8 (X t) (Y t) (Z t) * W t) _ 0 :=
    HasDerivAt.const_add (S 8) (HasDerivAt.mul (HasDerivAt.mul (HasDerivAt.sub
        (HasDerivAt.const_mul (5) (HasDerivAt.mul hZ hZ)) (HasDerivAt.const_mul (3) (HasDerivAt.add
        (HasDerivAt.add (HasDerivAt.mul hX hX) (HasDerivAt.mul hY hY)) (HasDerivAt.mul hZ hZ))))
        hZ) hW)
  have hM9 : HasDerivAt (fun t => S 9 + moment_hom 9 (X t) (Y t) (Z t) * W t) _ 0 :=
    HasDerivAt.const_add (S 9) (HasDerivAt.mul (HasDerivAt.mul (HasDerivAt.sub
        (HasDerivAt.const_mul (5) (HasDerivAt.mul hZ hZ)) (HasDerivAt.add (HasDerivAt.add
        (HasDerivAt.mul hX hX) (HasDerivAt.mul hY hY)) (HasDerivAt.mul hZ hZ))) hX) hW)
  have hM10 : HasDerivAt (fun t => S 10 + moment_hom 10 (X t) (Y t) (Z t) * W t) _ 0 :=
    HasDerivAt.const_add (S 10) (HasDerivAt.mul (HasDerivAt.mul (HasDerivAt.sub
        (HasDerivAt.const_mul (5) (HasDerivAt.mul hZ hZ)) (HasDerivAt.add (HasDerivAt.add
        (HasDerivAt.mul hX hX) (HasDerivAt.mul hY hY)) (HasDerivAt.mul hZ hZ))) hY) hW)
  have hM11 : HasDerivAt (fun t => S 11 + moment_hom 11 (X t) (Y t) (Z t) * W t) _ 0 :=
    HasDerivAt.const_add (S 11) (HasDerivAt.mul (HasDerivAt.mul (HasDerivAt.sub (HasDerivAt.mul hX
        hX) (HasDerivAt.mul hY hY)) hZ) hW)
  have hM12 : HasDerivAt (fun t => S 12 + moment_hom 12 (X t) (Y t) (Z t) * W t) _ 0 :=
    HasDerivAt.const_add (S 12) (HasDerivAt.mul (HasDerivAt.mul (HasDerivAt.mul
        (HasDerivAt.const_mul (2) hX) hY) hZ) hW)
  have hM13 : HasDerivAt (fun t => S 13 + moment_hom 13 (X t) (Y t) (Z t) * W t) _ 0 :=
    HasDerivAt.const_add (S 13) (HasDerivAt.mul (HasDerivAt.mul (HasDerivAt.sub (HasDerivAt.mul hX
        hX) (HasDerivAt.const_mul (3) (HasDerivAt.mul hY hY))) hX) hW)
  have hM14 : HasDerivAt (fun t => S 14 + moment_hom 14 (X t) (Y t) (Z t) * W t) _ 0 :=
    HasDerivAt.const_add (S 14) (HasDerivAt.mul (HasDerivAt.mul (HasDerivAt.sub
        (HasDerivAt.const_mul (3) (HasDerivAt.mul hX hX)) (HasDerivAt.mul hY hY)) hY) hW)
  refine HasDerivAt.congr_deriv (HasDerivAt.const_mul (Fp) (HasDerivAt.add (HasDerivAt.mul
      (HasDerivAt.const_mul (C3B 8) hM8) hM8) (HasDerivAt.const_mul (2.0) (HasDerivAt.add
      (HasDerivAt.add (HasDerivAt.add (HasDerivAt.add (HasDerivAt.add (HasDerivAt.mul
      (HasDerivAt.const_mul (C3B 9) hM9) hM9) (HasDerivAt.mul (HasDerivAt.const_mul (C3B 10) hM10)
      hM10)) (HasDerivAt.mul (HasDerivAt.const_mul (C3B 11) hM11) hM11)) (HasDerivAt.mul
      (HasDerivAt.const_mul (C3B 12) hM12) hM12)) (HasDerivAt.mul (HasDerivAt.const_mul (C3B 13)
      hM13) hM13)) (HasDerivAt.mul (HasDerivAt.const_mul (C3B 14) hM14) hM14))))) ?_
  simp only [hX0, hY0, hZ0, hW0]
  obtain ⟨M, hM⟩ : ∃ M : Nat → ℝ, ∀ i, S i + moment_hom i x y z * fn = M i :=
    ⟨fun i => S i + moment_hom i x y z * fn, fun _ => rfl⟩
  simp only [hM]
  simp only [get_f12_3, moment_hom, addAt, forLoop, iterate, Function.update_apply, arrayOf,
      List.getD_cons_zero,
    List.getD_cons_succ, Nat.sub_zero, Nat.zero_add, Nat.reduceEqDiff, OfNat.ofNat_ne_zero,
    OfNat.zero_ne_ofNat, OfNat.ofNat_ne_one, OfNat.one_ne_ofNat, zero_ne_one, one_ne_zero,
    if_true, if_false, reduceCtorEq, Nat.succ_ne_zero, Nat.reduceAdd, Nat.reduceSub]
  simp only [l1, l2, l3, l4, l5, l6, l7, l8, l9, l12, l16, l24, l30, l35]
  rw [hdd]
  ring

set_option maxHeartbeats 4000000 in
/-- The increment of `get_f12_4` is the gradient of `Fp` times the degree-4 invariant:
along every differentiable curve `(X, Y, Z)` through the displacement, with the radial
weight `W` (derivative `fnp * d12inv * (r12 . v)`), the invariant of the moments
`S i + moment_hom i X Y Z * W` has the derivative `increment . v`. -/
theorem get_f12_4_gradient (X Y Z W : ℝ → ℝ) (x y z vx vy vz d12 d12inv fn fnp Fp : ℝ)
    (S f12 : Nat → ℝ)
    (hX : HasDerivAt X vx 0) (hY : HasDerivAt Y vy 0) (hZ : HasDerivAt Z vz 0)
    (hW : HasDerivAt W (fnp * d12inv * (x * vx + y * vy + z * vz)) 0)
    (hX0 : X 0 = x) (hY0 : Y 0 = y) (hZ0 : Z 0 = z) (hW0 : W 0 = fn)
    (hdd : d12 * d12 = x * x + y * y + z * z) :
    HasDerivAt
      (fun t => Fp * (C3B 15 * (S 15 + moment_hom 15 (X t) (Y t) (Z t) * W t) * (S 15 + moment_hom
          15 (X t) (Y t) (Z t) * W t) + 2.0 * (C3B 16 * (S 16 + moment_hom 16 (X t) (Y t) (Z t) * W
          t) * (S 16 + moment_hom 16 (X t) (Y t) (Z t) * W t) + C3B 17 * (S 17 + moment_hom 17 (X
          t) (Y t) (Z t) * W t) * (S 17 + moment_hom 17 (X t) (Y t) (Z t) * W t) + C3B 18 * (S 18 +
          moment_hom 18 (X t) (Y t) (Z t) * W t) * (S 18 + moment_hom 18 (X t) (Y t) (Z t) * W t) +
          C3B 19 * (S 19 + moment_hom 19 (X t) (Y t) (Z t) * W t) * (S 19 + moment_hom 19 (X t) (Y
          t) (Z t) * W t) + C3B 20 * (S 20 + moment_hom 20 (X t) (Y t) (Z t) * W t) * (S 20 +
          moment_hom 20 (X t) (Y t) (Z t) * W t) + C3B 21 * (S 21 + moment_hom 21 (X t) (Y t) (Z t)
          * W t) * (S 21 + moment_hom 21 (X t) (Y t) (Z t) * W t) + C3B 22 * (S 22 + moment_hom 22
          (X t) (Y t) (Z t) * W t) * (S 22 + moment_hom 22 (X t) (Y t) (Z t) * W t) + C3B 23 * (S
          23 + moment_hom 23 (X t) (Y t) (Z t) * W t) * (S 23 + moment_hom 23 (X t) (Y t) (Z t) * W
          t))))
      ((get_f12_4 x y z d12 d12inv fn fnp Fp (arrayOf [(S 15 + moment_hom 15 x y z * fn) * C3B 15,
          (S 16 + moment_hom 16 x y z * fn) * C3B 16, (S 17 + moment_hom 17 x y z * fn) * C3B 17,
          (S 18 + moment_hom 18 x y z * fn) * C3B 18, (S 19 + moment_hom 19 x y z * fn) * C3B 19,
          (S 20 + moment_hom 20 x y z * fn) * C3B 20, (S 21 + moment_hom 21 x y z * fn) * C3B 21,
          (S 22 + moment_hom 22 x y z * fn) * C3B 22, (S 23 + moment_hom 23 x y z * fn) * C3B 23])
          f12 0 - f12 0) * vx +
        (get_f12_4 x y z d12 d12inv fn fnp Fp (arrayOf [(S 15 + moment_hom 15 x y z * fn) * C3B 15,
            (S 16 + moment_hom 16 x y z * fn) * C3B 16, (S 17 + moment_hom 17 x y z * fn) * C3B 17,
            (S 18 + moment_hom 18 x y z * fn) * C3B 18, (S 19 + moment_hom 19 x y z * fn) * C3B 19,
            (S 20 + moment_hom 20 x y z * fn) * C3B 20, (S 21 + moment_hom 21 x y z * fn) * C3B 21,
            (S 22 + moment_hom 22 x y z * fn) * C3B 22, (S 23 + moment_hom 23 x y z * fn) * C3B
            23]) f12 1 - f12 1) * vy +
        (get_f12_4 x y z d12 d12inv fn fnp Fp (arrayOf [(S 15 + moment_hom 15 x y z * fn) * C3B 15,
            (S 16 + moment_hom 16 x y z * fn) * C3B 16, (S 17 + moment_hom 17 x y z * fn) * C3B 17,
            (S 18 + moment_hom 18 x y z * fn) * C3B 18, (S 19 + moment_hom 19 x y z * fn) * C3B 19,
            (S 20 + moment_hom 20 x y z * fn) * C3B 20, (S 21 + moment_hom 21 x y z * fn) * C3B 21,
            (S 22 + moment_hom 22 x y z * fn) * C3B 22, (S 23 + moment_hom 23 x y z * fn) * C3B
            23]) f12 2 - f12 2) * vz) 0 := by
  have l1 : (1.0 : ℝ) = 1 := by norm_num
  have l2 : (2.0 : ℝ) = 2 := by norm_num
  have l3 : (3.0 : ℝ) = 3 := by norm_num
  have l4 : (4.0 : ℝ) = 4 := by norm_num
  have l5 : (5.0 : ℝ) = 5 := by norm_num
  have l6 : (6.0 : ℝ) = 6 := by norm_num
  have l7 : (7.0 : ℝ) = 7 := by norm_num
  have l8 : (8.0 : ℝ) = 8 := by norm_num
  have l9 : (9.0 : ℝ) = 9 := by norm_num
  have l12 : (12.0 : ℝ) = 12 := by norm_num
  have l16 : (16.0 : ℝ) = 16 := by norm_num
  have l24 : (24.0 : ℝ) = 24 := by norm_num
  have l30 : (30.0 : ℝ) = 30 := by norm_num
  have l35 : (35.0 : ℝ) = 35 := by norm_num
  have hM15 : HasDerivAt (fun t => S 15 + moment_hom 15 (X t) (Y t) (Z t) * W t) _ 0 :=
    HasDerivAt.const_add (S 15) (HasDerivAt.mul (HasDerivAt.add (HasDerivAt.mul (HasDerivAt.sub
        (HasDerivAt.const_mul (35) (HasDerivAt.mul hZ hZ)) (HasDerivAt.const_mul (30)
        (HasDerivAt.add (HasDerivAt.add (HasDerivAt.mul hX hX) (HasDerivAt.mul hY hY))
        (HasDerivAt.mul hZ hZ)))) (HasDerivAt.mul hZ hZ)) (HasDerivAt.const_mul (3) (HasDerivAt.mul
        (HasDerivAt.add (HasDerivAt.add (HasDerivAt.mul hX hX) (HasDerivAt.mul hY hY))
        (HasDerivAt.mul hZ hZ)) (HasDerivAt.add (HasDerivAt.add (HasDerivAt.mul hX hX)
        (HasDerivAt.mul hY hY)) (HasDerivAt.mul hZ hZ))))) hW)
  have hM16 : HasDerivAt (fun t => S 16 + moment_hom 16 (X t) (Y t) (Z t) * W t) _ 0 :=
    HasDerivAt.const_add (S 16) (HasDerivAt.mul (HasDerivAt.mul (HasDerivAt.mul (HasDerivAt.sub
        (HasDerivAt.const_mul (7) (HasDerivAt.mul hZ hZ)) (HasDerivAt.const_mul (3) (HasDerivAt.add
        (HasDerivAt.add (HasDerivAt.mul hX hX) (HasDerivAt.mul hY hY)) (HasDerivAt.mul hZ hZ))))
        hX) hZ) hW)
  have hM17 : HasDerivAt (fun t => S 17 + moment_hom 17 (X t) (Y t) (Z t) * W t) _ 0 :=
    HasDerivAt.const_add (S 17) (HasDerivAt.mul (HasDerivAt.mul (HasDerivAt.mul (HasDerivAt.sub
        (HasDerivAt.const_mul (7) (HasDerivAt.mul hZ hZ)) (HasDerivAt.const_mul (3) (HasDerivAt.add
        (HasDerivAt.add (HasDerivAt.mul hX hX) (HasDerivAt.mul hY hY)) (HasDerivAt.mul hZ hZ))))
        hY) hZ) hW)
  have hM18 : HasDerivAt (fun t => S 18 + moment_hom 18 (X t) (Y t) (Z t) * W t) _ 0 :=
    HasDerivAt.const_add (S 18) (HasDerivAt.mul (HasDerivAt.mul (HasDerivAt.sub
        (HasDerivAt.const_mul (7) (HasDerivAt.mul hZ hZ)) (HasDerivAt.add (HasDerivAt.add
        (HasDerivAt.mul hX hX) (HasDerivAt.mul hY hY)) (HasDerivAt.mul hZ hZ))) (HasDerivAt.sub
        (HasDerivAt.mul hX hX) (HasDerivAt.mul hY hY))) hW)
  have hM19 : HasDerivAt (fun t => S 19 + moment_hom 19 (X t) (Y t) (Z t) * W t) _ 0 :=
    HasDerivAt.const_add (S 19) (HasDerivAt.mul (HasDerivAt.mul_const (HasDerivAt.mul
        (HasDerivAt.mul (HasDerivAt.sub (HasDerivAt.const_mul (7) (HasDerivAt.mul hZ hZ))
        (HasDerivAt.add (HasDerivAt.add (HasDerivAt.mul hX hX) (HasDerivAt.mul hY hY))
        (HasDerivAt.mul hZ hZ))) hX) hY) (2)) hW)
  have hM20 : HasDerivAt (fun t => S 20 + moment_hom 20 (X t) (Y t) (Z t) * W t) _ 0 :=
    HasDerivAt.const_add (S 20) (HasDerivAt.mul (HasDerivAt.mul (HasDerivAt.mul (HasDerivAt.sub
        (HasDerivAt.mul hX hX) (HasDerivAt.const_mul (3) (HasDerivAt.mul hY hY))) hX) hZ) hW)
  have hM21 : HasDerivAt (fun t => S 21 + moment_hom 21 (X t) (Y t) (Z t) * W t) _ 0 :=
    HasDerivAt.const_add (S 21) (HasDerivAt.mul (HasDerivAt.mul (HasDerivAt.mul (HasDerivAt.sub
        (HasDerivAt.const_mul (3) (HasDerivAt.mul hX hX)) (HasDerivAt.mul hY hY)) hY) hZ) hW)
  have hM22 : HasDerivAt (fun t => S 22 + moment_hom 22 (X t) (Y t) (Z t) * W t) _ 0 :=
    HasDerivAt.const_add (S 22) (HasDerivAt.mul (HasDerivAt.sub (HasDerivAt.mul (HasDerivAt.sub
        (HasDerivAt.mul hX hX) (HasDerivAt.mul hY hY)) (HasDerivAt.sub (HasDerivAt.mul hX hX)
        (HasDerivAt.mul hY hY))) (HasDerivAt.mul (HasDerivAt.const_mul (4) (HasDerivAt.mul hX hX))
        (HasDerivAt.mul hY hY))) hW)
  have hM23 : HasDerivAt (fun t => S 23 + moment_hom 23 (X t) (Y t) (Z t) * W t) _ 0 :=
    HasDerivAt.const_add (S 23) (HasDerivAt.mul (HasDerivAt.mul (HasDerivAt.mul
        (HasDerivAt.const_mul (4) hX) hY) (HasDerivAt.sub (HasDerivAt.mul hX hX) (HasDerivAt.mul hY
        hY))) hW)
  refine HasDerivAt.congr_deriv (HasDerivAt.const_mul (Fp) (HasDerivAt.add (HasDerivAt.mul
      (HasDerivAt.const_mul (C3B 15) hM15) hM15) (HasDerivAt.const_mul (2.0) (HasDerivAt.add
      (HasDerivAt.add (HasDerivAt.add (HasDerivAt.add (HasDerivAt.add (HasDerivAt.add
      (HasDerivAt.add (HasDerivAt.mul (HasDerivAt.const_mul (C3B 16) hM16) hM16) (HasDerivAt.mul
      (HasDerivAt.const_mul (C3B 17) hM17) hM17)) (HasDerivAt.mul (HasDerivAt.const_mul (C3B 18)
      hM18) hM18)) (HasDerivAt.mul (HasDerivAt.const_mul (C3B 19) hM19) hM19)) (HasDerivAt.mul
      (HasDerivAt.const_mul (C3B 20) hM20) hM20)) (HasDerivAt.mul (HasDerivAt.const_mul (C3B 21)
      hM21) hM21)) (HasDerivAt.mul (HasDerivAt.const_mul (C3B 22) hM22) hM22)) (HasDerivAt.mul
      (HasDerivAt.const_mul (C3B 23) hM23) hM23))))) ?_
  simp only [hX0, hY0, hZ0, hW0]
  obtain ⟨M, hM⟩ : ∃ M : Nat → ℝ, ∀ i, S i + moment_hom i x y z * fn = M i :=
    ⟨fun i => S i + moment_hom i x y z * fn, fun _ => rfl⟩
  simp only [hM]
  simp only [get_f12_4, moment_hom, addAt, forLoop, iterate, Function.update_apply, arrayOf,
      List.getD_cons_zero,
    List.getD_cons_succ, Nat.sub_zero, Nat.zero_add, Nat.reduceEqDiff, OfNat.ofNat_ne_zero,
    OfNat.zero_ne_ofNat, OfNat.ofNat_ne_one, OfNat.one_ne_ofNat, zero_ne_one, one_ne_zero,
    if_true, if_false, reduceCtorEq, Nat.succ_ne_zero, Nat.reduceAdd, Nat.reduceSub]
  simp only [l1, l2, l3, l4, l5, l6, l7, l8, l9, l12, l16, l24, l30, l35]
  rw [hdd]
  ring

set_option maxHeartbeats 4000000 in
/-- The increment of `get_f12_4body` is the gradient of `Fp` times the 4-body invariant
of `find_q_with_4body`: along every differentiable curve `(X, Y, Z)` through the
displacement, with the radial weight `W` (derivative `fnp * d12inv * (r12 . v)`), the
invariant of the degree-2 moments `S i + moment_hom i X Y Z * W` has the derivative
`increment . v`. -/
theorem get_f12_4body_gradient (X Y Z W : ℝ → ℝ) (x y z vx vy vz d12 d12inv fn fnp Fp : ℝ)
    (S f12 : Nat → ℝ)
    (hX : HasDerivAt X vx 0) (hY : HasDerivAt Y vy 0) (hZ : HasDerivAt Z vz 0)
    (hW : HasDerivAt W (fnp * d12inv * (x * vx + y * vy + z * vz)) 0)
    (hX0 : X 0 = x) (hY0 : Y 0 = y) (hZ0 : Z 0 = z) (hW0 : W 0 = fn)
    (hdd : d12 * d12 = x * x + y * y + z * z) :
    HasDerivAt
      (fun t => Fp * (C4B 0 * (S 3 + moment_hom 3 (X t) (Y t) (Z t) * W t) * (S 3 + moment_hom 3 (X
          t) (Y t) (Z t) * W t) * (S 3 + moment_hom 3 (X t) (Y t) (Z t) * W t) + C4B 1 * (S 3 +
          moment_hom 3 (X t) (Y t) (Z t) * W t) * ((S 4 + moment_hom 4 (X t) (Y t) (Z t) * W t) *
          (S 4 + moment_hom 4 (X t) (Y t) (Z t) * W t) + (S 5 + moment_hom 5 (X t) (Y t) (Z t) * W
          t) * (S 5 + moment_hom 5 (X t) (Y t) (Z t) * W t)) + C4B 2 * (S 3 + moment_hom 3 (X t) (Y
          t) (Z t) * W t) * ((S 6 + moment_hom 6 (X t) (Y t) (Z t) * W t) * (S 6 + moment_hom 6 (X
          t) (Y t) (Z t) * W t) + (S 7 + moment_hom 7 (X t) (Y t) (Z t) * W t) * (S 7 + moment_hom
          7 (X t) (Y t) (Z t) * W t)) + C4B 3 * (S 6 + moment_hom 6 (X t) (Y t) (Z t) * W t) * ((S
          5 + moment_hom 5 (X t) (Y t) (Z t) * W t) * (S 5 + moment_hom 5 (X t) (Y t) (Z t) * W t)
          - (S 4 + moment_hom 4 (X t) (Y t) (Z t) * W t) * (S 4 + moment_hom 4 (X t) (Y t) (Z t) *
          W t)) + C4B 4 * (S 4 + moment_hom 4 (X t) (Y t) (Z t) * W t) * (S 5 + moment_hom 5 (X t)
          (Y t) (Z t) * W t) * (S 7 + moment_hom 7 (X t) (Y t) (Z t) * W t)))
      ((get_f12_4body d12 d12inv fn fnp Fp (arrayOf [S 3 + moment_hom 3 x y z * fn, S 4 +
          moment_hom 4 x y z * fn, S 5 + moment_hom 5 x y z * fn, S 6 + moment_hom 6 x y z * fn, S
          7 + moment_hom 7 x y z * fn]) (arrayOf [x, y, z]) f12 0 - f12 0) * vx +
        (get_f12_4body d12 d12inv fn fnp Fp (arrayOf [S 3 + moment_hom 3 x y z * fn, S 4 +
            moment_hom 4 x y z * fn, S 5 + moment_hom 5 x y z * fn, S 6 + moment_hom 6 x y z * fn,
            S 7 + moment_hom 7 x y z * fn]) (arrayOf [x, y, z]) f12 1 - f12 1) * vy +
        (get_f12_4body d12 d12inv fn fnp Fp (arrayOf [S 3 + moment_hom 3 x y z * fn, S 4 +
            moment_hom 4 x y z * fn, S 5 + moment_hom 5 x y z * fn, S 6 + moment_hom 6 x y z * fn,
            S 7 + moment_hom 7 x y z * fn]) (arrayOf [x, y, z]) f12 2 - f12 2) * vz) 0 := by
  have l1 : (1.0 : ℝ) = 1 := by norm_num
  have l2 : (2.0 : ℝ) = 2 := by norm_num
  have l3 : (3.0 : ℝ) = 3 := by norm_num
  have l4 : (4.0 : ℝ) = 4 := by norm_num
  have l5 : (5.0 : ℝ) = 5 := by norm_num
  have l6 : (6.0 : ℝ) = 6 := by norm_num
  have l7 : (7.0 : ℝ) = 7 := by norm_num
  have l8 : (8.0 : ℝ) = 8 := by norm_num
  have l9 : (9.0 : ℝ) = 9 := by norm_num
  have l12 : (12.0 : ℝ) = 12 := by norm_num
  have l16 : (16.0 : ℝ) = 16 := by norm_num
  have l24 : (24.0 : ℝ) = 24 := by norm_num
  have l30 : (30.0 : ℝ) = 30 := by norm_num
  have l35 : (35.0 : ℝ) = 35 := by norm_num
  have hM3 : HasDerivAt (fun t => S 3 + moment_hom 3 (X t) (Y t) (Z t) * W t) _ 0 :=
    HasDerivAt.const_add (S 3) (HasDerivAt.mul (HasDerivAt.sub (HasDerivAt.const_mul (3)
        (HasDerivAt.mul hZ hZ)) (HasDerivAt.add (HasDerivAt.add (HasDerivAt.mul hX hX)
        (HasDerivAt.mul hY hY)) (HasDerivAt.mul hZ hZ))) hW)
  have hM4 : HasDerivAt (fun t => S 4 + moment_hom 4 (X t) (Y t) (Z t) * W t) _ 0 :=
    HasDerivAt.const_add (S 4) (HasDerivAt.mul (HasDerivAt.mul hX hZ) hW)
  have hM5 : HasDerivAt (fun t => S 5 + moment_hom 5 (X t) (Y t) (Z t) * W t) _ 0 :=
    HasDerivAt.const_add (S 5) (HasDerivAt.mul (HasDerivAt.mul hY hZ) hW)
  have hM6 : HasDerivAt (fun t => S 6 + moment_hom 6 (X t) (Y t) (Z t) * W t) _ 0 :=
    HasDerivAt.const_add (S 6) (HasDerivAt.mul (HasDerivAt.sub (HasDerivAt.mul hX hX)
        (HasDerivAt.mul hY hY)) hW)
  have hM7 : HasDerivAt (fun t => S 7 + moment_hom 7 (X t) (Y t) (Z t) * W t) _ 0 :=
    HasDerivAt.const_add (S 7) (HasDerivAt.mul (HasDerivAt.mul (HasDerivAt.const_mul (2) hX) hY) hW)
  refine HasDerivAt.congr_deriv (HasDerivAt.const_mul (Fp) (HasDerivAt.add (HasDerivAt.add
      (HasDerivAt.add (HasDerivAt.add (HasDerivAt.mul (HasDerivAt.mul (HasDerivAt.const_mul (C4B 0)
      hM3) hM3) hM3) (HasDerivAt.mul (HasDerivAt.const_mul (C4B 1) hM3) (HasDerivAt.add
      (HasDerivAt.mul hM4 hM4) (HasDerivAt.mul hM5 hM5)))) (HasDerivAt.mul (HasDerivAt.const_mul
      (C4B 2) hM3) (HasDerivAt.add (HasDerivAt.mul hM6 hM6) (HasDerivAt.mul hM7 hM7))))
      (HasDerivAt.mul (HasDerivAt.const_mul (C4B 3) hM6) (HasDerivAt.sub (HasDerivAt.mul hM5 hM5)
      (HasDerivAt.mul hM4 hM4)))) (HasDerivAt.mul (HasDerivAt.mul (HasDerivAt.const_mul (C4B 4)
      hM4) hM5) hM7))) ?_
  simp only [hX0, hY0, hZ0, hW0]
  obtain ⟨M, hM⟩ : ∃ M : Nat → ℝ, ∀ i, S i + moment_hom i x y z * fn = M i :=
    ⟨fun i => S i + moment_hom i x y z * fn, fun _ => rfl⟩
  simp only [hM]
  simp only [get_f12_4body, moment_hom, addAt, forLoop, iterate, Function.update_apply, arrayOf,
      List.getD_cons_zero,
    List.getD_cons_succ, Nat.sub_zero, Nat.zero_add, Nat.reduceEqDiff, OfNat.ofNat_ne_zero,
    OfNat.zero_ne_ofNat, OfNat.ofNat_ne_one, OfNat.one_ne_ofNat, zero_ne_one, one_ne_zero,
    if_true, if_false, reduceCtorEq, Nat.succ_ne_zero, Nat.reduceAdd, Nat.reduceSub]
  simp only [l1, l2, l3, l4, l5, l6, l7, l8, l9, l12, l16, l24, l30, l35]
  rw [hdd]
  ring

set_option maxHeartbeats 4000000 in
/-- The increment of `get_f12_5body` is the gradient of `Fp` times the 5-body invariant
of `find_q_with_5body`: along every differentiable curve `(X, Y, Z)` through the
displacement, with the radial weight `W` (derivative `fnp * d12inv * (r12 . v)`), the
invariant of the degree-1 moments `S i + moment_hom i X Y Z * W` has the derivative
`increment . v`. -/
theorem get_f12_5body_gradient (X Y Z W : ℝ → ℝ) (x y z vx vy vz d12 d12inv fn fnp Fp : ℝ)
    (S f12 : Nat → ℝ)
    (hX : HasDerivAt X vx 0) (hY : HasDerivAt Y vy 0) (hZ : HasDerivAt Z vz 0)
    (hW : HasDerivAt W (fnp * d12inv * (x * vx + y * vy + z * vz)) 0)
    (hX0 : X 0 = x) (hY0 : Y 0 = y) (hZ0 : Z 0 = z) (hW0 : W 0 = fn) :
    HasDerivAt
      (fun t => Fp * (C5B 0 * ((S 0 + moment_hom 0 (X t) (Y t) (Z t) * W t) * (S 0 + moment_hom 0
          (X t) (Y t) (Z t) * W t)) * ((S 0 + moment_hom 0 (X t) (Y t) (Z t) * W t) * (S 0 +
          moment_hom 0 (X t) (Y t) (Z t) * W t)) + C5B 1 * ((S 0 + moment_hom 0 (X t) (Y t) (Z t) *
          W t) * (S 0 + moment_hom 0 (X t) (Y t) (Z t) * W t)) * ((S 1 + moment_hom 1 (X t) (Y t)
          (Z t) * W t) * (S 1 + moment_hom 1 (X t) (Y t) (Z t) * W t) + (S 2 + moment_hom 2 (X t)
          (Y t) (Z t) * W t) * (S 2 + moment_hom 2 (X t) (Y t) (Z t) * W t)) + C5B 2 * ((S 1 +
          moment_hom 1 (X t) (Y t) (Z t) * W t) * (S 1 + moment_hom 1 (X t) (Y t) (Z t) * W t) + (S
          2 + moment_hom 2 (X t) (Y t) (Z t) * W t) * (S 2 + moment_hom 2 (X t) (Y t) (Z t) * W t))
          * ((S 1 + moment_hom 1 (X t) (Y t) (Z t) * W t) * (S 1 + moment_hom 1 (X t) (Y t) (Z t) *
          W t) + (S 2 + moment_hom 2 (X t) (Y t) (Z t) * W t) * (S 2 + moment_hom 2 (X t) (Y t) (Z
          t) * W t))))
      ((get_f12_5body d12 d12inv fn fnp Fp (arrayOf [S 0 + moment_hom 0 x y z * fn, S 1 +
          moment_hom 1 x y z * fn, S 2 + moment_hom 2 x y z * fn]) (arrayOf [x, y, z]) f12 0 - f12
          0) * vx +
        (get_f12_5body d12 d12inv fn fnp Fp (arrayOf [S 0 + moment_hom 0 x y z * fn, S 1 +
            moment_hom 1 x y z * fn, S 2 + moment_hom 2 x y z * fn]) (arrayOf [x, y, z]) f12 1 -
            f12 1) * vy +
        (get_f12_5body d12 d12inv fn fnp Fp (arrayOf [S 0 + moment_hom 0 x y z * fn, S 1 +
            moment_hom 1 x y z * fn, S 2 + moment_hom 2 x y z * fn]) (arrayOf [x, y, z]) f12 2 -
            f12 2) * vz) 0 := by
  have l1 : (1.0 : ℝ) = 1 := by norm_num
  have l2 : (2.0 : ℝ) = 2 := by norm_num
  have l3 : (3.0 : ℝ) = 3 := by norm_num
  have l4 : (4.0 : ℝ) = 4 := by norm_num
  have l5 : (5.0 : ℝ) = 5 := by norm_num
  have l6 : (6.0 : ℝ) = 6 := by norm_num
  have l7 : (7.0 : ℝ) = 7 := by norm_num
  have l8 : (8.0 : ℝ) = 8 := by norm_num
  have l9 : (9.0 : ℝ) = 9 := by norm_num
  have l12 : (12.0 : ℝ) = 12 := by norm_num
  have l16 : (16.0 : ℝ) = 16 := by norm_num
  have l24 : (24.0 : ℝ) = 24 := by norm_num
  have l30 : (30.0 : ℝ) = 30 := by norm_num
  have l35 : (35.0 : ℝ) = 35 := by norm_num
  have hM0 : HasDerivAt (fun t => S 0 + moment_hom 0 (X t) (Y t) (Z t) * W t) _ 0 :=
    HasDerivAt.const_add (S 0) (HasDerivAt.mul hZ hW)
  have hM1 : HasDerivAt (fun t => S 1 + moment_hom 1 (X t) (Y t) (Z t) * W t) _ 0 :=
    HasDerivAt.const_add (S 1) (HasDerivAt.mul hX hW)
  have hM2 : HasDerivAt (fun t => S 2 + moment_hom 2 (X t) (Y t) (Z t) * W t) _ 0 :=
    HasDerivAt.const_add (S 2) (HasDerivAt.mul hY hW)
  refine HasDerivAt.congr_deriv (HasDerivAt.const_mul (Fp) (HasDerivAt.add (HasDerivAt.add
      (HasDerivAt.mul (HasDerivAt.const_mul (C5B 0) (HasDerivAt.mul hM0 hM0)) (HasDerivAt.mul hM0
      hM0)) (HasDerivAt.mul (HasDerivAt.const_mul (C5B 1) (HasDerivAt.mul hM0 hM0)) (HasDerivAt.add
      (HasDerivAt.mul hM1 hM1) (HasDerivAt.mul hM2 hM2)))) (HasDerivAt.mul (HasDerivAt.const_mul
      (C5B 2) (HasDerivAt.add (HasDerivAt.mul hM1 hM1) (HasDerivAt.mul hM2 hM2))) (HasDerivAt.add
      (HasDerivAt.mul hM1 hM1) (HasDerivAt.mul hM2 hM2))))) ?_
  simp only [hX0, hY0, hZ0, hW0]
  obtain ⟨M, hM⟩ : ∃ M : Nat → ℝ, ∀ i, S i + moment_hom i x y z * fn = M i :=
    ⟨fun i => S i + moment_hom i x y z * fn, fun _ => rfl⟩
  simp only [hM]
  simp only [get_f12_5body, moment_hom, addAt, forLoop, iterate, Function.update_apply, arrayOf,
      List.getD_cons_zero,
    List.getD_cons_succ, Nat.sub_zero, Nat.zero_add, Nat.reduceEqDiff, OfNat.ofNat_ne_zero,
    OfNat.zero_ne_ofNat, OfNat.ofNat_ne_one, OfNat.one_ne_ofNat, zero_ne_one, one_ne_zero,
    if_true, if_false, reduceCtorEq, Nat.succ_ne_zero, Nat.reduceAdd, Nat.reduceSub]
  simp only [l1, l2, l3, l4, l5, l6, l7, l8, l9, l12, l16, l24, l30, l35]
  ring

end Gradients

section Increments

/-- The increment that `get_f12_1` makes to `f12[k]` does not depend on `f12`. -/
theorem get_f12_1_incr (d12inv fn fnp Fp : ℝ) (s r12 f f' : Nat → ℝ) (k : Nat) (hk : k < 3) :
    get_f12_1 d12inv fn fnp Fp s r12 f k - f k =
      get_f12_1 d12inv fn fnp Fp s r12 f' k - f' k := by
  interval_cases k <;>
    simp only [get_f12_1, addAt, forLoop, iterate, Function.update_apply, Nat.sub_zero,
      Nat.zero_add, Nat.reduceEqDiff, OfNat.ofNat_ne_zero, OfNat.zero_ne_ofNat,
      OfNat.ofNat_ne_one, OfNat.one_ne_ofNat, zero_ne_one, one_ne_zero, if_true, if_false,
      reduceCtorEq, Nat.succ_ne_zero, Nat.reduceAdd, Nat.reduceSub] <;>
    ring

/-- The increment that `get_f12_2` makes to `f12[k]` does not depend on `f12`. -/
theorem get_f12_2_incr (d12 d12inv fn fnp Fp : ℝ) (s r12 f f' : Nat → ℝ) (k : Nat)
    (hk : k < 3) :
    get_f12_2 d12 d12inv fn fnp Fp s r12 f k - f k =
      get_f12_2 d12 d12inv fn fnp Fp s r12 f' k - f' k := by
  interval_cases k <;>
    simp only [get_f12_2, addAt, forLoop, iterate, Function.update_apply, Nat.sub_zero,
      Nat.zero_add, Nat.reduceEqDiff, OfNat.ofNat_ne_zero, OfNat.zero_ne_ofNat,
      OfNat.ofNat_ne_one, OfNat.one_ne_ofNat, zero_ne_one, one_ne_zero, if_true, if_false,
      reduceCtorEq, Nat.succ_ne_zero, Nat.reduceAdd, Nat.reduceSub] <;>
    ring

/-- The increment that `get_f12_3` makes to `f12[k]` does not depend on `f12`. -/
theorem get_f12_3_incr (d12 d12inv fn fnp Fp : ℝ) (s r12 f f' : Nat → ℝ) (k : Nat)
    (hk : k < 3) :
    get_f12_3 d12 d12inv fn fnp Fp s r12 f k - f k =
      get_f12_3 d12 d12inv fn fnp Fp s r12 f' k - f' k := by
  interval_cases k <;>
    simp only [get_f12_3, addAt, forLoop, iterate, Function.update_apply, Nat.sub_zero,
      Nat.zero_add, Nat.reduceEqDiff, OfNat.ofNat_ne_zero, OfNat.zero_ne_ofNat,
      OfNat.ofNat_ne_one, OfNat.one_ne_ofNat, zero_ne_one, one_ne_zero, if_true, if_false,
      reduceCtorEq, Nat.succ_ne_zero, Nat.reduceAdd, Nat.reduceSub] <;>
    ring

/-- The increment that `get_f12_4` makes to `f12[k]` does not depend on `f12`. -/
theorem get_f12_4_incr (x y z r rinv fn fnp Fp : ℝ) (s f f' : Nat → ℝ) (k : Nat)
    (hk : k < 3) :
    get_f12_4 x y z r rinv fn fnp Fp s f k - f k =
      get_f12_4 x y z r rinv fn fnp Fp s f' k - f' k := by
  interval_cases k <;>
    simp only [get_f12_4, addAt, Function.update_apply, Nat.reduceEqDiff,
      OfNat.ofNat_ne_zero, OfNat.zero_ne_ofNat, OfNat.ofNat_ne_one, OfNat.one_ne_ofNat,
      zero_ne_one, one_ne_zero, if_true, if_false, reduceCtorEq, Nat.succ_ne_zero] <;>
    ring

/-- The increment that `get_f12_4body` makes to `f12[k]` does not depend on `f12`. -/
theorem get_f12_4body_incr (d12 d12inv fn fnp Fp : ℝ) (s r12 f f' : Nat → ℝ) (k : Nat)
    (hk : k < 3) :
    get_f12_4body d12 d12inv fn fnp Fp s r12 f k - f k =
      get_f12_4body d12 d12inv fn fnp Fp s r12 f' k - f' k := by
  interval_cases k <;>
    simp only [get_f12_4body, addAt, Function.update_apply, Nat.reduceEqDiff,
      OfNat.ofNat_ne_zero, OfNat.zero_ne_ofNat, OfNat.ofNat_ne_one, OfNat.one_ne_ofNat,
      zero_ne_one, one_ne_zero, if_true, if_false, reduceCtorEq, Nat.succ_ne_zero] <;>
    ring

/-- The increment that `get_f12_5body` makes to `f12[k]` does not depend on `f12`. -/
theorem get_f12_5body_incr (d12 d12inv fn fnp Fp : ℝ) (s r12 f f' : Nat → ℝ) (k : Nat)
    (hk : k < 3) :
    get_f12_5body d12 d12inv fn fnp Fp s r12 f k - f k =
      get_f12_5body d12 d12inv fn fnp Fp s r12 f' k - f' k := by
  interval_cases k <;>
    simp only [get_f12_5body, addAt, Function.update_apply, Nat.reduceEqDiff,
      OfNat.ofNat_ne_zero, OfNat.zero_ne_ofNat, OfNat.ofNat_ne_one, OfNat.one_ne_ofNat,
      zero_ne_one, one_ne_zero, if_true, if_false, reduceCtorEq, Nat.succ_ne_zero] <;>
    ring

/-- The kernel `get_f12_1` reads `s[0..2]` only. -/
theorem get_f12_1_congr_s (d12inv fn fnp Fp : ℝ) (s s' r12 f : Nat → ℝ)
    (h : ∀ i, i < 3 → s i = s' i) :
    get_f12_1 d12inv fn fnp Fp s r12 f = get_f12_1 d12inv fn fnp Fp s' r12 f := by
  simp only [get_f12_1, h 0 (by norm_num), h 1 (by norm_num), h 2 (by norm_num)]

/-- The kernel `get_f12_2` reads `s[0..4]` only. -/
theorem get_f12_2_congr_s (d12 d12inv fn fnp Fp : ℝ) (s s' r12 f : Nat → ℝ)
    (h : ∀ i, i < 5 → s i = s' i) :
    get_f12_2 d12 d12inv fn fnp Fp s r12 f = get_f12_2 d12 d12inv fn fnp Fp s' r12 f := by
  simp only [get_f12_2, h 0 (by norm_num), h 1 (by norm_num), h 2 (by norm_num),
    h 3 (by norm_num), h 4 (by norm_num)]

end Increments

section Homogeneous

/-- For a non-zero displacement, `(x^2 + y^2 + z^2) * (1/d12)^2 = 1`. -/
theorem inv_sqrt_mul_self (x y z : ℝ) (hr : x * x + y * y + z * z ≠ 0) :
    (x * x + y * y + z * z) * (1 / Real.sqrt (x * x + y * y + z * z)) *
      (1 / Real.sqrt (x * x + y * y + z * z)) = 1 := by
  have h0 : 0 ≤ x * x + y * y + z * z :=
    add_nonneg (add_nonneg (mul_self_nonneg x) (mul_self_nonneg y)) (mul_self_nonneg z)
  have hs : Real.sqrt (x * x + y * y + z * z) ≠ 0 := by
    rw [Ne, Real.sqrt_eq_zero h0]
    exact hr
  field_simp

/-- A moment of degree 1 in homogeneous form: `accumulate_s` adds `moment_hom i` of
the displacement times `fn / d12^1`. -/
theorem accumulate_s_hom_1 (x y z fn : ℝ) (s : Nat → ℝ)
    (hr : x * x + y * y + z * z ≠ 0) (i : Nat) (ha : 0 ≤ i) (hb : i < 3) :
    accumulate_s (Real.sqrt (x * x + y * y + z * z)) x y z fn s i =
      s i + moment_hom i x y z *
        (fn * (1.0 / Real.sqrt (x * x + y * y + z * z))) := by
  have hI := inv_sqrt_mul_self x y z hr
  have l1 : (1.0 : ℝ) = 1 := by norm_num
  rw [accumulate_s_apply _ _ _ _ _ _ i (by omega), l1]
  generalize 1 / Real.sqrt (x * x + y * y + z * z) = I at hI ⊢
  interval_cases i
  · simp only [moment_poly, moment_hom]
    norm_num
    ring
  · simp only [moment_poly, moment_hom]
    norm_num
    ring
  · simp only [moment_poly, moment_hom]
    norm_num
    ring

/-- A moment of degree 2 in homogeneous form: `accumulate_s` adds `moment_hom i` of
the displacement times `fn / d12^2`. -/
theorem accumulate_s_hom_2 (x y z fn : ℝ) (s : Nat → ℝ)
    (hr : x * x + y * y + z * z ≠ 0) (i : Nat) (ha : 3 ≤ i) (hb : i < 8) :
    accumulate_s (Real.sqrt (x * x + y * y + z * z)) x y z fn s i =
      s i + moment_hom i x y z *
        (fn * (1.0 / Real.sqrt (x * x + y * y + z * z)) * (1.0 / Real.sqrt (x * x + y * y + z *
            z))) := by
  have hI := inv_sqrt_mul_self x y z hr
  have l1 : (1.0 : ℝ) = 1 := by norm_num
  rw [accumulate_s_apply _ _ _ _ _ _ i (by omega), l1]
  generalize 1 / Real.sqrt (x * x + y * y + z * z) = I at hI ⊢
  interval_cases i
  · simp only [moment_poly, moment_hom]
    norm_num
    linear_combination (fn) * hI
  · simp only [moment_poly, moment_hom]
    norm_num
    ring
  · simp only [moment_poly, moment_hom]
    norm_num
    ring
  · simp only [moment_poly, moment_hom]
    norm_num
    ring
  · simp only [moment_poly, moment_hom]
    norm_num
    ring

/-- A moment of degree 3 in homogeneous form: `accumulate_s` adds `moment_hom i` of
the displacement times `fn / d12^3`. -/
theorem accumulate_s_hom_3 (x y z fn : ℝ) (s : Nat → ℝ)
    (hr : x * x + y * y + z * z ≠ 0) (i : Nat) (ha : 8 ≤ i) (hb : i < 15) :
    accumulate_s (Real.sqrt (x * x + y * y + z * z)) x y z fn s i =
      s i + moment_hom i x y z *
        (fn * (1.0 / Real.sqrt (x * x + y * y + z * z)) * (1.0 / Real.sqrt (x * x + y * y + z * z))
            * (1.0 / Real.sqrt (x * x + y * y + z * z))) := by
  have hI := inv_sqrt_mul_self x y z hr
  have l1 : (1.0 : ℝ) = 1 := by norm_num
  rw [accumulate_s_apply _ _ _ _ _ _ i (by omega), l1]
  generalize 1 / Real.sqrt (x * x + y * y + z * z) = I at hI ⊢
  interval_cases i
  · simp only [moment_poly, moment_hom]
    norm_num
    linear_combination (3 * z * I * fn) * hI
  · simp only [moment_poly, moment_hom]
    norm_num
    linear_combination (x * I * fn) * hI
  · simp only [moment_poly, moment_hom]
    norm_num
    linear_combination (y * I * fn) * hI
  · simp only [moment_poly, moment_hom]
    norm_num
    ring
  · simp only [moment_poly, moment_hom]
    norm_num
    ring
  · simp only [moment_poly, moment_hom]
    norm_num
    ring
  · simp only [moment_poly, moment_hom]
    norm_num
    ring

/-- A moment of degree 4 in homogeneous form: `accumulate_s` adds `moment_hom i` of
the displacement times `fn / d12^4`. -/
theorem accumulate_s_hom_4 (x y z fn : ℝ) (s : Nat → ℝ)
    (hr : x * x + y * y + z * z ≠ 0) (i : Nat) (ha : 15 ≤ i) (hb : i < 24) :
    accumulate_s (Real.sqrt (x * x + y * y + z * z)) x y z fn s i =
      s i + moment_hom i x y z *
        (fn * (1.0 / Real.sqrt (x * x + y * y + z * z)) * (1.0 / Real.sqrt (x * x + y * y + z * z))
            * (1.0 / Real.sqrt (x * x + y * y + z * z)) * (1.0 / Real.sqrt (x * x + y * y + z *
            z))) := by
  have hI := inv_sqrt_mul_self x y z hr
  have l1 : (1.0 : ℝ) = 1 := by norm_num
  rw [accumulate_s_apply _ _ _ _ _ _ i (by omega), l1]
  generalize 1 / Real.sqrt (x * x + y * y + z * z) = I at hI ⊢
  interval_cases i
  · simp only [moment_poly, moment_hom]
    norm_num
    linear_combination ((30 * z * z * I * I - 3 * (x * x + y * y + z * z) * I * I - 3) * fn) * hI
  · simp only [moment_poly, moment_hom]
    norm_num
    linear_combination (3 * x * z * I * I * fn) * hI
  · simp only [moment_poly, moment_hom]
    norm_num
    linear_combination (3 * y * z * I * I * fn) * hI
  · simp only [moment_poly, moment_hom]
    norm_num
    linear_combination ((x * x - y * y) * I * I * fn) * hI
  · simp only [moment_poly, moment_hom]
    norm_num
    linear_combination (2 * x * y * I * I * fn) * hI
  · simp only [moment_poly, moment_hom]
    norm_num
    ring
  · simp only [moment_poly, moment_hom]
    norm_num
    ring
  · simp only [moment_poly, moment_hom]
    norm_num
    ring
  · simp only [moment_poly, moment_hom]
    norm_num
    ring

end Homogeneous

section Curve

/-- The radial weights `g(d)/d^L`, `L = 1..4`, along the line `r12 + t * v`: their
derivatives at `t = 0` are the values that the recursion
`fnp = fnp * d12inv - fn * d12inv * d12inv; fn = fn * d12inv` of `accumulate_f12`
produces, times `d12inv * (r12 . v)`. -/
theorem radial_weight_curve (x y z vx vy vz d di g' : ℝ) (g : ℝ → ℝ)
    (hr : x * x + y * y + z * z ≠ 0) (hd : d = Real.sqrt (x * x + y * y + z * z))
    (hdi : di = 1.0 / d) (hg : HasDerivAt g g' d) :
    HasDerivAt
      (fun t : ℝ => g (Real.sqrt ((x + t * vx) * (x + t * vx) + (y + t * vy) * (y + t * vy) +
        (z + t * vz) * (z + t * vz))))
      (g' * (di * (x * vx + y * vy + z * vz))) 0 ∧
    HasDerivAt
      (fun t : ℝ => 1.0 / Real.sqrt ((x + t * vx) * (x + t * vx) + (y + t * vy) * (y + t * vy) +
        (z + t * vz) * (z + t * vz)))
      (-(di * di) * (di * (x * vx + y * vy + z * vz))) 0 ∧
    (∀ᶠ t : ℝ in nhds 0, (x + t * vx) * (x + t * vx) + (y + t * vy) * (y + t * vy) +
        (z + t * vz) * (z + t * vz) ≠ 0) ∧
    g (Real.sqrt ((x + 0 * vx) * (x + 0 * vx) + (y + 0 * vy) * (y + 0 * vy) +
        (z + 0 * vz) * (z + 0 * vz))) = g d ∧
    1.0 / Real.sqrt ((x + 0 * vx) * (x + 0 * vx) + (y + 0 * vy) * (y + 0 * vy) +
        (z + 0 * vz) * (z + 0 * vz)) = di := by
  have l1 : (1.0 : ℝ) = 1 := by norm_num
  have h0 : 0 ≤ x * x + y * y + z * z :=
    add_nonneg (add_nonneg (mul_self_nonneg x) (mul_self_nonneg y)) (mul_self_nonneg z)
  have hs : Real.sqrt (x * x + y * y + z * z) ≠ 0 := by
    rw [Ne, Real.sqrt_eq_zero h0]
    exact hr
  have hd0 : d ≠ 0 := by
    rw [hd]
    exact hs
  have hdid : di * d = 1 := by
    rw [hdi, l1]
    field_simp
  have hX : HasDerivAt (fun t : ℝ => x + t * vx) vx 0 := by
    simpa using ((hasDerivAt_id (0 : ℝ)).mul_const vx).const_add x
  have hY : HasDerivAt (fun t : ℝ => y + t * vy) vy 0 := by
    simpa using ((hasDerivAt_id (0 : ℝ)).mul_const vy).const_add y
  have hZ : HasDerivAt (fun t : ℝ => z + t * vz) vz 0 := by
    simpa using ((hasDerivAt_id (0 : ℝ)).mul_const vz).const_add z
  have hR : HasDerivAt
      (fun t : ℝ => (x + t * vx) * (x + t * vx) + (y + t * vy) * (y + t * vy) +
        (z + t * vz) * (z + t * vz))
      (2 * (x * vx + y * vy + z * vz)) 0 := by
    refine (((hX.mul hX).add (hY.mul hY)).add (hZ.mul hZ)).congr_deriv ?_
    simp only [zero_mul, add_zero]
    ring
  have hR0 : (x + 0 * vx) * (x + 0 * vx) + (y + 0 * vy) * (y + 0 * vy) +
      (z + 0 * vz) * (z + 0 * vz) = x * x + y * y + z * z := by
    simp only [zero_mul, add_zero]
  have hD : HasDerivAt
      (fun t : ℝ => Real.sqrt ((x + t * vx) * (x + t * vx) + (y + t * vy) * (y + t * vy) +
        (z + t * vz) * (z + t * vz)))
      (di * (x * vx + y * vy + z * vz)) 0 := by
    have h := hR.sqrt (by rw [hR0]; exact hr)
    refine h.congr_deriv ?_
    rw [hR0, ← hd]
    field_simp
    linear_combination (-2 * (x * vx + y * vy + z * vz)) * hdid
  have hD0 : Real.sqrt ((x + 0 * vx) * (x + 0 * vx) + (y + 0 * vy) * (y + 0 * vy) +
      (z + 0 * vz) * (z + 0 * vz)) = d := by
    rw [hR0, hd]
  refine ⟨?_, ?_, ?_, ?_, ?_⟩
  · have hg0 : HasDerivAt g g'
        ((fun t : ℝ => Real.sqrt ((x + t * vx) * (x + t * vx) + (y + t * vy) * (y + t * vy) +
          (z + t * vz) * (z + t * vz))) 0) := by
      simp only []
      rw [hD0]
      exact hg
    exact hg0.comp (0 : ℝ) hD
  · have h := hD.inv (by rw [hD0]; exact hd0)
    have e : (fun t : ℝ => 1.0 / Real.sqrt ((x + t * vx) * (x + t * vx) +
        (y + t * vy) * (y + t * vy) + (z + t * vz) * (z + t * vz))) =
        fun t : ℝ => (Real.sqrt ((x + t * vx) * (x + t * vx) +
        (y + t * vy) * (y + t * vy) + (z + t * vz) * (z + t * vz)))⁻¹ := by
      funext t
      rw [l1, one_div]
    rw [e]
    refine h.congr_deriv ?_
    rw [hD0, div_eq_iff (pow_ne_zero 2 hd0)]
    linear_combination ((x * vx + y * vy + z * vz) * di * (di * d + 1)) * hdid
  · exact hR.continuousAt.eventually_ne (by rw [hR0]; exact hr)
  · rw [hD0]
  · rw [hD0, hdi]

/-- The radial weights `g(d)/d^L`, `L = 1..4`, along the line `r12 + t * v`: the
derivative at `t = 0` is the `fnp` of stage `L` of `accumulate_f12` times
`d12inv * (r12 . v)`, and the value at `t = 0` is the `fn` of stage `L`. -/
theorem radial_weight_powers (x y z vx vy vz d di g' : ℝ) (g : ℝ → ℝ)
    (hr : x * x + y * y + z * z ≠ 0) (hd : d = Real.sqrt (x * x + y * y + z * z))
    (hdi : di = 1.0 / d) (hg : HasDerivAt g g' d) :
    (HasDerivAt (fun t : ℝ => g (Real.sqrt ((x + t * vx) * (x + t * vx) + (y + t * vy) * (y + t *
        vy) + (z + t * vz) * (z + t * vz))) * (1.0 / Real.sqrt ((x + t * vx) * (x + t * vx) + (y +
        t * vy) * (y + t * vy) + (z + t * vz) * (z + t * vz))))
      ((g' * di - g d * di * di) * di * (x * vx + y * vy + z * vz)) 0 ∧
     (fun t : ℝ => g (Real.sqrt ((x + t * vx) * (x + t * vx) + (y + t * vy) * (y + t * vy) + (z + t
         * vz) * (z + t * vz))) * (1.0 / Real.sqrt ((x + t * vx) * (x + t * vx) + (y + t * vy) * (y
         + t * vy) + (z + t * vz) * (z + t * vz)))) 0 = g d * di) ∧
    (HasDerivAt (fun t : ℝ => g (Real.sqrt ((x + t * vx) * (x + t * vx) + (y + t * vy) * (y + t *
        vy) + (z + t * vz) * (z + t * vz))) * (1.0 / Real.sqrt ((x + t * vx) * (x + t * vx) + (y +
        t * vy) * (y + t * vy) + (z + t * vz) * (z + t * vz))) * (1.0 / Real.sqrt ((x + t * vx) *
        (x + t * vx) + (y + t * vy) * (y + t * vy) + (z + t * vz) * (z + t * vz))))
      (((g' * di - g d * di * di) * di - g d * di * di * di) * di * (x * vx + y * vy + z * vz)) 0 ∧
     (fun t : ℝ => g (Real.sqrt ((x + t * vx) * (x + t * vx) + (y + t * vy) * (y + t * vy) + (z + t
         * vz) * (z + t * vz))) * (1.0 / Real.sqrt ((x + t * vx) * (x + t * vx) + (y + t * vy) * (y
         + t * vy) + (z + t * vz) * (z + t * vz))) * (1.0 / Real.sqrt ((x + t * vx) * (x + t * vx)
         + (y + t * vy) * (y + t * vy) + (z + t * vz) * (z + t * vz)))) 0 = g d * di * di) ∧
    (HasDerivAt (fun t : ℝ => g (Real.sqrt ((x + t * vx) * (x + t * vx) + (y + t * vy) * (y + t *
        vy) + (z + t * vz) * (z + t * vz))) * (1.0 / Real.sqrt ((x + t * vx) * (x + t * vx) + (y +
        t * vy) * (y + t * vy) + (z + t * vz) * (z + t * vz))) * (1.0 / Real.sqrt ((x + t * vx) *
        (x + t * vx) + (y + t * vy) * (y + t * vy) + (z + t * vz) * (z + t * vz))) * (1.0 /
        Real.sqrt ((x + t * vx) * (x + t * vx) + (y + t * vy) * (y + t * vy) + (z + t * vz) * (z +
        t * vz))))
      ((((g' * di - g d * di * di) * di - g d * di * di * di) * di - g d * di * di * di * di) * di
          * (x * vx + y * vy + z * vz)) 0 ∧
     (fun t : ℝ => g (Real.sqrt ((x + t * vx) * (x + t * vx) + (y + t * vy) * (y + t * vy) + (z + t
         * vz) * (z + t * vz))) * (1.0 / Real.sqrt ((x + t * vx) * (x + t * vx) + (y + t * vy) * (y
         + t * vy) + (z + t * vz) * (z + t * vz))) * (1.0 / Real.sqrt ((x + t * vx) * (x + t * vx)
         + (y + t * vy) * (y + t * vy) + (z + t * vz) * (z + t * vz))) * (1.0 / Real.sqrt ((x + t *
         vx) * (x + t * vx) + (y + t * vy) * (y + t * vy) + (z + t * vz) * (z + t * vz)))) 0 = g d
         * di * di * di) ∧
    (HasDerivAt (fun t : ℝ => g (Real.sqrt ((x + t * vx) * (x + t * vx) + (y + t * vy) * (y + t *
        vy) + (z + t * vz) * (z + t * vz))) * (1.0 / Real.sqrt ((x + t * vx) * (x + t * vx) + (y +
        t * vy) * (y + t * vy) + (z + t * vz) * (z + t * vz))) * (1.0 / Real.sqrt ((x + t * vx) *
        (x + t * vx) + (y + t * vy) * (y + t * vy) + (z + t * vz) * (z + t * vz))) * (1.0 /
        Real.sqrt ((x + t * vx) * (x + t * vx) + (y + t * vy) * (y + t * vy) + (z + t * vz) * (z +
        t * vz))) * (1.0 / Real.sqrt ((x + t * vx) * (x + t * vx) + (y + t * vy) * (y + t * vy) +
        (z + t * vz) * (z + t * vz))))
      (((((g' * di - g d * di * di) * di - g d * di * di * di) * di - g d * di * di * di * di) * di
          - g d * di * di * di * di * di) * di * (x * vx + y * vy + z * vz)) 0 ∧
     (fun t : ℝ => g (Real.sqrt ((x + t * vx) * (x + t * vx) + (y + t * vy) * (y + t * vy) + (z + t
         * vz) * (z + t * vz))) * (1.0 / Real.sqrt ((x + t * vx) * (x + t * vx) + (y + t * vy) * (y
         + t * vy) + (z + t * vz) * (z + t * vz))) * (1.0 / Real.sqrt ((x + t * vx) * (x + t * vx)
         + (y + t * vy) * (y + t * vy) + (z + t * vz) * (z + t * vz))) * (1.0 / Real.sqrt ((x + t *
         vx) * (x + t * vx) + (y + t * vy) * (y + t * vy) + (z + t * vz) * (z + t * vz))) * (1.0 /
         Real.sqrt ((x + t * vx) * (x + t * vx) + (y + t * vy) * (y + t * vy) + (z + t * vz) * (z +
         t * vz)))) 0 = g d * di * di * di * di) := by
  obtain ⟨hG, hI, _, hG0, hI0⟩ := radial_weight_curve x y z vx vy vz d di g' g hr hd hdi hg
  have hW1 : HasDerivAt (fun t : ℝ => g (Real.sqrt ((x + t * vx) * (x + t * vx) + (y + t * vy) * (y
      + t * vy) + (z + t * vz) * (z + t * vz))) * (1.0 / Real.sqrt ((x + t * vx) * (x + t * vx) +
      (y + t * vy) * (y + t * vy) + (z + t * vz) * (z + t * vz))))
      ((g' * di - g d * di * di) * di * (x * vx + y * vy + z * vz)) 0 := by
    refine (hG.mul hI).congr_deriv ?_
    simp only [hG0, hI0]
    ring
  have hV1 : (fun t : ℝ => g (Real.sqrt ((x + t * vx) * (x + t * vx) + (y + t * vy) * (y + t * vy)
      + (z + t * vz) * (z + t * vz))) * (1.0 / Real.sqrt ((x + t * vx) * (x + t * vx) + (y + t *
      vy) * (y + t * vy) + (z + t * vz) * (z + t * vz)))) 0 = g d * di := by
    simp only [hG0, hI0]
  have hW2 : HasDerivAt (fun t : ℝ => g (Real.sqrt ((x + t * vx) * (x + t * vx) + (y + t * vy) * (y
      + t * vy) + (z + t * vz) * (z + t * vz))) * (1.0 / Real.sqrt ((x + t * vx) * (x + t * vx) +
      (y + t * vy) * (y + t * vy) + (z + t * vz) * (z + t * vz))) * (1.0 / Real.sqrt ((x + t * vx)
      * (x + t * vx) + (y + t * vy) * (y + t * vy) + (z + t * vz) * (z + t * vz))))
      (((g' * di - g d * di * di) * di - g d * di * di * di) * di * (x * vx + y * vy + z * vz)) 0
          := by
    refine (hW1.mul hI).congr_deriv ?_
    simp only [hG0, hI0]
    ring
  have hV2 : (fun t : ℝ => g (Real.sqrt ((x + t * vx) * (x + t * vx) + (y + t * vy) * (y + t * vy)
      + (z + t * vz) * (z + t * vz))) * (1.0 / Real.sqrt ((x + t * vx) * (x + t * vx) + (y + t *
      vy) * (y + t * vy) + (z + t * vz) * (z + t * vz))) * (1.0 / Real.sqrt ((x + t * vx) * (x + t
      * vx) + (y + t * vy) * (y + t * vy) + (z + t * vz) * (z + t * vz)))) 0 = g d * di * di := by
    simp only [hG0, hI0]
  have hW3 : HasDerivAt (fun t : ℝ => g (Real.sqrt ((x + t * vx) * (x + t * vx) + (y + t * vy) * (y
      + t * vy) + (z + t * vz) * (z + t * vz))) * (1.0 / Real.sqrt ((x + t * vx) * (x + t * vx) +
      (y + t * vy) * (y + t * vy) + (z + t * vz) * (z + t * vz))) * (1.0 / Real.sqrt ((x + t * vx)
      * (x + t * vx) + (y + t * vy) * (y + t * vy) + (z + t * vz) * (z + t * vz))) * (1.0 /
      Real.sqrt ((x + t * vx) * (x + t * vx) + (y + t * vy) * (y + t * vy) + (z + t * vz) * (z + t
      * vz))))
      ((((g' * di - g d * di * di) * di - g d * di * di * di) * di - g d * di * di * di * di) * di
          * (x * vx + y * vy + z * vz)) 0 := by
    refine (hW2.mul hI).congr_deriv ?_
    simp only [hG0, hI0]
    ring
  have hV3 : (fun t : ℝ => g (Real.sqrt ((x + t * vx) * (x + t * vx) + (y + t * vy) * (y + t * vy)
      + (z + t * vz) * (z + t * vz))) * (1.0 / Real.sqrt ((x + t * vx) * (x + t * vx) + (y + t *
      vy) * (y + t * vy) + (z + t * vz) * (z + t * vz))) * (1.0 / Real.sqrt ((x + t * vx) * (x + t
      * vx) + (y + t * vy) * (y + t * vy) + (z + t * vz) * (z + t * vz))) * (1.0 / Real.sqrt ((x +
      t * vx) * (x + t * vx) + (y + t * vy) * (y + t * vy) + (z + t * vz) * (z + t * vz)))) 0 = g d
      * di * di * di := by
    simp only [hG0, hI0]
  have hW4 : HasDerivAt (fun t : ℝ => g (Real.sqrt ((x + t * vx) * (x + t * vx) + (y + t * vy) * (y
      + t * vy) + (z + t * vz) * (z + t * vz))) * (1.0 / Real.sqrt ((x + t * vx) * (x + t * vx) +
      (y + t * vy) * (y + t * vy) + (z + t * vz) * (z + t * vz))) * (1.0 / Real.sqrt ((x + t * vx)
      * (x + t * vx) + (y + t * vy) * (y + t * vy) + (z + t * vz) * (z + t * vz))) * (1.0 /
      Real.sqrt ((x + t * vx) * (x + t * vx) + (y + t * vy) * (y + t * vy) + (z + t * vz) * (z + t
      * vz))) * (1.0 / Real.sqrt ((x + t * vx) * (x + t * vx) + (y + t * vy) * (y + t * vy) + (z +
      t * vz) * (z + t * vz))))
      (((((g' * di - g d * di * di) * di - g d * di * di * di) * di - g d * di * di * di * di) * di
          - g d * di * di * di * di * di) * di * (x * vx + y * vy + z * vz)) 0 := by
    refine (hW3.mul hI).congr_deriv ?_
    simp only [hG0, hI0]
    ring
  have hV4 : (fun t : ℝ => g (Real.sqrt ((x + t * vx) * (x + t * vx) + (y + t * vy) * (y + t * vy)
      + (z + t * vz) * (z + t * vz))) * (1.0 / Real.sqrt ((x + t * vx) * (x + t * vx) + (y + t *
      vy) * (y + t * vy) + (z + t * vz) * (z + t * vz))) * (1.0 / Real.sqrt ((x + t * vx) * (x + t
      * vx) + (y + t * vy) * (y + t * vy) + (z + t * vz) * (z + t * vz))) * (1.0 / Real.sqrt ((x +
      t * vx) * (x + t * vx) + (y + t * vy) * (y + t * vy) + (z + t * vz) * (z + t * vz))) * (1.0 /
      Real.sqrt ((x + t * vx) * (x + t * vx) + (y + t * vy) * (y + t * vy) + (z + t * vz) * (z + t
      * vz)))) 0 = g d * di * di * di * di := by
    simp only [hG0, hI0]
  exact ⟨⟨hW1, hV1⟩, ⟨hW2, hV2⟩, ⟨hW3, hV3⟩, ⟨hW4, hV4⟩⟩

end Curve

/-! ## The increments of `accumulate_f12` and its variants as gradients -/

section AngularGradient

set_option maxHeartbeats 4000000 in
/-- C26. For every channel `n`, non-zero displacement `r12 = (x, y, z)` with
`d12 = sqrt(x^2 + y^2 + z^2)`, radial function `g` differentiable at `d12` with
`fn = g(d12)` and `fnp = g'(d12)`, gradient values `Fp` and moments `S_rest` of the
other neighbours: when `sum_fxyz` holds the channel-`n` moments `S(r12)` (`S_rest` plus
the increment of `accumulate_s` for `r12` with weight `g(|r12|)`), the increment that
`accumulate_f12` makes to `f12` is the gradient with respect to `r12` of
`sum over L < 4 of Fp[L*(n_max_angular+1)+n] * q_L(S(r12))`, `q_L` the invariants of
`find_q`: the derivative of that sum along every direction `v` is `increment . v`. -/
theorem accumulate_f12_is_gradient (n n_max_angular : Nat) (x y z vx vy vz g' : ℝ)
    (g : ℝ → ℝ) (Fp S_rest sum_fxyz f12 q0 : Nat → ℝ)
    (hr : x * x + y * y + z * z ≠ 0)
    (hg : HasDerivAt g g' (Real.sqrt (x * x + y * y + z * z)))
    (hsum : ∀ i, i < 24 →
      sum_fxyz (n * NUM_OF_ABC + i) = pair_moments Real.sqrt g S_rest x y z i) :
    HasDerivAt
      (fun t => ∑ L in Finset.range 4, Fp (L * (n_max_angular + 1) + n) *
        find_q (n_max_angular + 1) n (pair_moments Real.sqrt g S_rest (x + t * vx) (y + t * vy) (z
            + t * vz)) q0
          (L * (n_max_angular + 1) + n))
      ((accumulate_f12 n (n_max_angular + 1) (Real.sqrt (x * x + y * y + z * z)) (arrayOf [x, y,
          z]) (g (Real.sqrt (x * x + y * y + z * z))) g' Fp sum_fxyz f12 0 - f12 0) * vx +
        (accumulate_f12 n (n_max_angular + 1) (Real.sqrt (x * x + y * y + z * z)) (arrayOf [x, y,
            z]) (g (Real.sqrt (x * x + y * y + z * z))) g' Fp sum_fxyz f12 1 - f12 1) * vy +
        (accumulate_f12 n (n_max_angular + 1) (Real.sqrt (x * x + y * y + z * z)) (arrayOf [x, y,
            z]) (g (Real.sqrt (x * x + y * y + z * z))) g' Fp sum_fxyz f12 2 - f12 2) * vz) 0 := by
  have l1 : (1.0 : ℝ) = 1 := by norm_num
  have h0 : 0 ≤ x * x + y * y + z * z :=
    add_nonneg (add_nonneg (mul_self_nonneg x) (mul_self_nonneg y)) (mul_self_nonneg z)
  have hdd : Real.sqrt (x * x + y * y + z * z) * Real.sqrt (x * x + y * y + z * z) = x * x + y * y
      + z * z := Real.mul_self_sqrt h0
  obtain ⟨d, hd⟩ : ∃ d : ℝ, d = Real.sqrt (x * x + y * y + z * z) := ⟨_, rfl⟩
  obtain ⟨di, hdi⟩ : ∃ di : ℝ, di = 1.0 / d := ⟨_, rfl⟩
  have hdi2 : 1.0 / d = di := hdi.symm
  rw [← hd] at hg hdd ⊢
  obtain ⟨_, _, hev, _, _⟩ := radial_weight_curve x y z vx vy vz d di g' g hr hd hdi hg
  obtain ⟨⟨hW1, hV1⟩, ⟨hW2, hV2⟩, ⟨hW3, hV3⟩, ⟨hW4, hV4⟩⟩ :=
    radial_weight_powers x y z vx vy vz d di g' g hr hd hdi hg
  have hX : HasDerivAt (fun t : ℝ => x + t * vx) vx 0 := by
    simpa using ((hasDerivAt_id (0 : ℝ)).mul_const vx).const_add x
  have hY : HasDerivAt (fun t : ℝ => y + t * vy) vy 0 := by
    simpa using ((hasDerivAt_id (0 : ℝ)).mul_const vy).const_add y
  have hZ : HasDerivAt (fun t : ℝ => z + t * vz) vz 0 := by
    simpa using ((hasDerivAt_id (0 : ℝ)).mul_const vz).const_add z
  have hX0 : (fun t : ℝ => x + t * vx) 0 = x := by simp
  have hY0 : (fun t : ℝ => y + t * vy) 0 = y := by simp
  have hZ0 : (fun t : ℝ => z + t * vz) 0 = z := by simp
  have r0 : arrayOf [x, y, z] 0 = x := rfl
  have r1 : arrayOf [x, y, z] 1 = y := rfl
  have r2 : arrayOf [x, y, z] 2 = z := rfl
  have hs0 : sum_fxyz (n * NUM_OF_ABC + 0) =
      S_rest 0 + moment_hom 0 x y z * (g d * di) := by
    rw [hsum 0 (by norm_num)]
    simp only [pair_moments]
    rw [accumulate_s_hom_1 x y z _ S_rest hr 0 (by norm_num) (by norm_num), ← hd,
      ← hdi]
  have hs1 : sum_fxyz (n * NUM_OF_ABC + 1) =
      S_rest 1 + moment_hom 1 x y z * (g d * di) := by
    rw [hsum 1 (by norm_num)]
    simp only [pair_moments]
    rw [accumulate_s_hom_1 x y z _ S_rest hr 1 (by norm_num) (by norm_num), ← hd,
      ← hdi]
  have hs2 : sum_fxyz (n * NUM_OF_ABC + 2) =
      S_rest 2 + moment_hom 2 x y z * (g d * di) := by
    rw [hsum 2 (by norm_num)]
    simp only [pair_moments]
    rw [accumulate_s_hom_1 x y z _ S_rest hr 2 (by norm_num) (by norm_num), ← hd,
      ← hdi]
  have hs3 : sum_fxyz (n * NUM_OF_ABC + 3) =
      S_rest 3 + moment_hom 3 x y z * (g d * di * di) := by
    rw [hsum 3 (by norm_num)]
    simp only [pair_moments]
    rw [accumulate_s_hom_2 x y z _ S_rest hr 3 (by norm_num) (by norm_num), ← hd,
      ← hdi]
  have hs4 : sum_fxyz (n * NUM_OF_ABC + 4) =
      S_rest 4 + moment_hom 4 x y z * (g d * di * di) := by
    rw [hsum 4 (by norm_num)]
    simp only [pair_moments]
    rw [accumulate_s_hom_2 x y z _ S_rest hr 4 (by norm_num) (by norm_num), ← hd,
      ← hdi]
  have hs5 : sum_fxyz (n * NUM_OF_ABC + 5) =
      S_rest 5 + moment_hom 5 x y z * (g d * di * di) := by
    rw [hsum 5 (by norm_num)]
    simp only [pair_moments]
    rw [accumulate_s_hom_2 x y z _ S_rest hr 5 (by norm_num) (by norm_num), ← hd,
      ← hdi]
  have hs6 : sum_fxyz (n * NUM_OF_ABC + 6) =
      S_rest 6 + moment_hom 6 x y z * (g d * di * di) := by
    rw [hsum 6 (by norm_num)]
    simp only [pair_moments]
    rw [accumulate_s_hom_2 x y z _ S_rest hr 6 (by norm_num) (by norm_num), ← hd,
      ← hdi]
  have hs7 : sum_fxyz (n * NUM_OF_ABC + 7) =
      S_rest 7 + moment_hom 7 x y z * (g d * di * di) := by
    rw [hsum 7 (by norm_num)]
    simp only [pair_moments]
    rw [accumulate_s_hom_2 x y z _ S_rest hr 7 (by norm_num) (by norm_num), ← hd,
      ← hdi]
  have hs8 : sum_fxyz (n * NUM_OF_ABC + 8) =
      S_rest 8 + moment_hom 8 x y z * (g d * di * di * di) := by
    rw [hsum 8 (by norm_num)]
    simp only [pair_moments]
    rw [accumulate_s_hom_3 x y z _ S_rest hr 8 (by norm_num) (by norm_num), ← hd,
      ← hdi]
  have hs9 : sum_fxyz (n * NUM_OF_ABC + 9) =
      S_rest 9 + moment_hom 9 x y z * (g d * di * di * di) := by
    rw [hsum 9 (by norm_num)]
    simp only [pair_moments]
    rw [accumulate_s_hom_3 x y z _ S_rest hr 9 (by norm_num) (by norm_num), ← hd,
      ← hdi]
  have hs10 : sum_fxyz (n * NUM_OF_ABC + 10) =
      S_rest 10 + moment_hom 10 x y z * (g d * di * di * di) := by
    rw [hsum 10 (by norm_num)]
    simp only [pair_moments]
    rw [accumulate_s_hom_3 x y z _ S_rest hr 10 (by norm_num) (by norm_num), ← hd,
      ← hdi]
  have hs11 : sum_fxyz (n * NUM_OF_ABC + 11) =
      S_rest 11 + moment_hom 11 x y z * (g d * di * di * di) := by
    rw [hsum 11 (by norm_num)]
    simp only [pair_moments]
    rw [accumulate_s_hom_3 x y z _ S_rest hr 11 (by norm_num) (by norm_num), ← hd,
      ← hdi]
  have hs12 : sum_fxyz (n * NUM_OF_ABC + 12) =
      S_rest 12 + moment_hom 12 x y z * (g d * di * di * di) := by
    rw [hsum 12 (by norm_num)]
    simp only [pair_moments]
    rw [accumulate_s_hom_3 x y z _ S_rest hr 12 (by norm_num) (by norm_num), ← hd,
      ← hdi]
  have hs13 : sum_fxyz (n * NUM_OF_ABC + 13) =
      S_rest 13 + moment_hom 13 x y z * (g d * di * di * di) := by
    rw [hsum 13 (by norm_num)]
    simp only [pair_moments]
    rw [accumulate_s_hom_3 x y z _ S_rest hr 13 (by norm_num) (by norm_num), ← hd,
      ← hdi]
  have hs14 : sum_fxyz (n * NUM_OF_ABC + 14) =
      S_rest 14 + moment_hom 14 x y z * (g d * di * di * di) := by
    rw [hsum 14 (by norm_num)]
    simp only [pair_moments]
    rw [accumulate_s_hom_3 x y z _ S_rest hr 14 (by norm_num) (by norm_num), ← hd,
      ← hdi]
  have hs15 : sum_fxyz (n * NUM_OF_ABC + 15) =
      S_rest 15 + moment_hom 15 x y z * (g d * di * di * di * di) := by
    rw [hsum 15 (by norm_num)]
    simp only [pair_moments]
    rw [accumulate_s_hom_4 x y z _ S_rest hr 15 (by norm_num) (by norm_num), ← hd,
      ← hdi]
  have hs16 : sum_fxyz (n * NUM_OF_ABC + 16) =
      S_rest 16 + moment_hom 16 x y z * (g d * di * di * di * di) := by
    rw [hsum 16 (by norm_num)]
    simp only [pair_moments]
    rw [accumulate_s_hom_4 x y z _ S_rest hr 16 (by norm_num) (by norm_num), ← hd,
      ← hdi]
  have hs17 : sum_fxyz (n * NUM_OF_ABC + 17) =
      S_rest 17 + moment_hom 17 x y z * (g d * di * di * di * di) := by
    rw [hsum 17 (by norm_num)]
    simp only [pair_moments]
    rw [accumulate_s_hom_4 x y z _ S_rest hr 17 (by norm_num) (by norm_num), ← hd,
      ← hdi]
  have hs18 : sum_fxyz (n * NUM_OF_ABC + 18) =
      S_rest 18 + moment_hom 18 x y z * (g d * di * di * di * di) := by
    rw [hsum 18 (by norm_num)]
    simp only [pair_moments]
    rw [accumulate_s_hom_4 x y z _ S_rest hr 18 (by norm_num) (by norm_num), ← hd,
      ← hdi]
  have hs19 : sum_fxyz (n * NUM_OF_ABC + 19) =
      S_rest 19 + moment_hom 19 x y z * (g d * di * di * di * di) := by
    rw [hsum 19 (by norm_num)]
    simp only [pair_moments]
    rw [accumulate_s_hom_4 x y z _ S_rest hr 19 (by norm_num) (by norm_num), ← hd,
      ← hdi]
  have hs20 : sum_fxyz (n * NUM_OF_ABC + 20) =
      S_rest 20 + moment_hom 20 x y z * (g d * di * di * di * di) := by
    rw [hsum 20 (by norm_num)]
    simp only [pair_moments]
    rw [accumulate_s_hom_4 x y z _ S_rest hr 20 (by norm_num) (by norm_num), ← hd,
      ← hdi]
  have hs21 : sum_fxyz (n * NUM_OF_ABC + 21) =
      S_rest 21 + moment_hom 21 x y z * (g d * di * di * di * di) := by
    rw [hsum 21 (by norm_num)]
    simp only [pair_moments]
    rw [accumulate_s_hom_4 x y z _ S_rest hr 21 (by norm_num) (by norm_num), ← hd,
      ← hdi]
  have hs22 : sum_fxyz (n * NUM_OF_ABC + 22) =
      S_rest 22 + moment_hom 22 x y z * (g d * di * di * di * di) := by
    rw [hsum 22 (by norm_num)]
    simp only [pair_moments]
    rw [accumulate_s_hom_4 x y z _ S_rest hr 22 (by norm_num) (by norm_num), ← hd,
      ← hdi]
  have hs23 : sum_fxyz (n * NUM_OF_ABC + 23) =
      S_rest 23 + moment_hom 23 x y z * (g d * di * di * di * di) := by
    rw [hsum 23 (by norm_num)]
    simp only [pair_moments]
    rw [accumulate_s_hom_4 x y z _ S_rest hr 23 (by norm_num) (by norm_num), ← hd,
      ← hdi]
  have h1 := get_f12_1_gradient (fun t : ℝ => x + t * vx) (fun t : ℝ => y + t * vy) (fun t : ℝ => z
      + t * vz)
    (fun t : ℝ => g (Real.sqrt ((x + t * vx) * (x + t * vx) + (y + t * vy) * (y + t * vy) + (z + t
        * vz) * (z + t * vz))) * (1.0 / Real.sqrt ((x + t * vx) * (x + t * vx) + (y + t * vy) * (y
        + t * vy) + (z + t * vz) * (z + t * vz)))) x y z vx vy vz di (g d * di) (g' * di - g d * di
        * di) (Fp (n)) S_rest f12 hX hY hZ hW1 hX0 hY0 hZ0 hV1
  have h2 := get_f12_2_gradient (fun t : ℝ => x + t * vx) (fun t : ℝ => y + t * vy) (fun t : ℝ => z
      + t * vz)
    (fun t : ℝ => g (Real.sqrt ((x + t * vx) * (x + t * vx) + (y + t * vy) * (y + t * vy) + (z + t
        * vz) * (z + t * vz))) * (1.0 / Real.sqrt ((x + t * vx) * (x + t * vx) + (y + t * vy) * (y
        + t * vy) + (z + t * vz) * (z + t * vz))) * (1.0 / Real.sqrt ((x + t * vx) * (x + t * vx) +
        (y + t * vy) * (y + t * vy) + (z + t * vz) * (z + t * vz)))) x y z vx vy vz d di (g d * di
        * di) ((g' * di - g d * di * di) * di - g d * di * di * di) (Fp (n_max_angular + 1 + n))
        S_rest
    (get_f12_1 di (g d * di) (g' * di - g d * di * di) (Fp (n)) (arrayOf [(S_rest 0 + moment_hom 0
        x y z * (g d * di)) * C3B 0, (S_rest 1 + moment_hom 1 x y z * (g d * di)) * C3B 1, (S_rest
        2 + moment_hom 2 x y z * (g d * di)) * C3B 2]) (arrayOf [x, y, z]) f12)
    hX hY hZ hW2 hX0 hY0 hZ0 hV2 hdd
  have h3 := get_f12_3_gradient (fun t : ℝ => x + t * vx) (fun t : ℝ => y + t * vy) (fun t : ℝ => z
      + t * vz)
    (fun t : ℝ => g (Real.sqrt ((x + t * vx) * (x + t * vx) + (y + t * vy) * (y + t * vy) + (z + t
        * vz) * (z + t * vz))) * (1.0 / Real.sqrt ((x + t * vx) * (x + t * vx) + (y + t * vy) * (y
        + t * vy) + (z + t * vz) * (z + t * vz))) * (1.0 / Real.sqrt ((x + t * vx) * (x + t * vx) +
        (y + t * vy) * (y + t * vy) + (z + t * vz) * (z + t * vz))) * (1.0 / Real.sqrt ((x + t *
        vx) * (x + t * vx) + (y + t * vy) * (y + t * vy) + (z + t * vz) * (z + t * vz)))) x y z vx
        vy vz d di (g d * di * di * di) (((g' * di - g d * di * di) * di - g d * di * di * di) * di
        - g d * di * di * di * di) (Fp (2 * (n_max_angular + 1) + n)) S_rest
    (get_f12_2 d di (g d * di * di) ((g' * di - g d * di * di) * di - g d * di * di * di) (Fp
        (n_max_angular + 1 + n)) (arrayOf [(S_rest 3 + moment_hom 3 x y z * (g d * di * di)) * C3B
        3, (S_rest 4 + moment_hom 4 x y z * (g d * di * di)) * C3B 4, (S_rest 5 + moment_hom 5 x y
        z * (g d * di * di)) * C3B 5, (S_rest 6 + moment_hom 6 x y z * (g d * di * di)) * C3B 6,
        (S_rest 7 + moment_hom 7 x y z * (g d * di * di)) * C3B 7]) (arrayOf [x, y, z]) (get_f12_1
        di (g d * di) (g' * di - g d * di * di) (Fp (n)) (arrayOf [(S_rest 0 + moment_hom 0 x y z *
        (g d * di)) * C3B 0, (S_rest 1 + moment_hom 1 x y z * (g d * di)) * C3B 1, (S_rest 2 +
        moment_hom 2 x y z * (g d * di)) * C3B 2]) (arrayOf [x, y, z]) f12))
    hX hY hZ hW3 hX0 hY0 hZ0 hV3 hdd
  have h4 := get_f12_4_gradient (fun t : ℝ => x + t * vx) (fun t : ℝ => y + t * vy) (fun t : ℝ => z
      + t * vz)
    (fun t : ℝ => g (Real.sqrt ((x + t * vx) * (x + t * vx) + (y + t * vy) * (y + t * vy) + (z + t
        * vz) * (z + t * vz))) * (1.0 / Real.sqrt ((x + t * vx) * (x + t * vx) + (y + t * vy) * (y
        + t * vy) + (z + t * vz) * (z + t * vz))) * (1.0 / Real.sqrt ((x + t * vx) * (x + t * vx) +
        (y + t * vy) * (y + t * vy) + (z + t * vz) * (z + t * vz))) * (1.0 / Real.sqrt ((x + t *
        vx) * (x + t * vx) + (y + t * vy) * (y + t * vy) + (z + t * vz) * (z + t * vz))) * (1.0 /
        Real.sqrt ((x + t * vx) * (x + t * vx) + (y + t * vy) * (y + t * vy) + (z + t * vz) * (z +
        t * vz)))) x y z vx vy vz d di (g d * di * di * di * di) ((((g' * di - g d * di * di) * di
        - g d * di * di * di) * di - g d * di * di * di * di) * di - g d * di * di * di * di * di)
        (Fp (3 * (n_max_angular + 1) + n)) S_rest
    (get_f12_3 d di (g d * di * di * di) (((g' * di - g d * di * di) * di - g d * di * di * di) *
        di - g d * di * di * di * di) (Fp (2 * (n_max_angular + 1) + n)) (arrayOf [(S_rest 8 +
        moment_hom 8 x y z * (g d * di * di * di)) * C3B 8, (S_rest 9 + moment_hom 9 x y z * (g d *
        di * di * di)) * C3B 9, (S_rest 10 + moment_hom 10 x y z * (g d * di * di * di)) * C3B 10,
        (S_rest 11 + moment_hom 11 x y z * (g d * di * di * di)) * C3B 11, (S_rest 12 + moment_hom
        12 x y z * (g d * di * di * di)) * C3B 12, (S_rest 13 + moment_hom 13 x y z * (g d * di *
        di * di)) * C3B 13, (S_rest 14 + moment_hom 14 x y z * (g d * di * di * di)) * C3B 14])
        (arrayOf [x, y, z]) (get_f12_2 d di (g d * di * di) ((g' * di - g d * di * di) * di - g d *
        di * di * di) (Fp (n_max_angular + 1 + n)) (arrayOf [(S_rest 3 + moment_hom 3 x y z * (g d
        * di * di)) * C3B 3, (S_rest 4 + moment_hom 4 x y z * (g d * di * di)) * C3B 4, (S_rest 5 +
        moment_hom 5 x y z * (g d * di * di)) * C3B 5, (S_rest 6 + moment_hom 6 x y z * (g d * di *
        di)) * C3B 6, (S_rest 7 + moment_hom 7 x y z * (g d * di * di)) * C3B 7]) (arrayOf [x, y,
        z]) (get_f12_1 di (g d * di) (g' * di - g d * di * di) (Fp (n)) (arrayOf [(S_rest 0 +
        moment_hom 0 x y z * (g d * di)) * C3B 0, (S_rest 1 + moment_hom 1 x y z * (g d * di)) *
        C3B 1, (S_rest 2 + moment_hom 2 x y z * (g d * di)) * C3B 2]) (arrayOf [x, y, z]) f12)))
    hX hY hZ hW4 hX0 hY0 hZ0 hV4 hdd
  refine ((((h1.add h2).add h3).add h4).congr_of_eventuallyEq ?_).congr_deriv ?_
  · filter_upwards [hev] with t ht
    simp only [Finset.sum_range_succ, Finset.sum_range_zero, zero_add, Nat.zero_mul,
      Nat.one_mul, Nat.zero_add]
    rw [find_q_value_one, find_q_value_two, find_q_value_three, find_q_value_four]
    simp only [pair_moments]
    rw [accumulate_s_hom_1 _ _ _ _ S_rest ht 0 (by norm_num) (by norm_num), accumulate_s_hom_1 _ _
        _ _ S_rest ht 1 (by norm_num) (by norm_num), accumulate_s_hom_1 _ _ _ _ S_rest ht 2 (by
        norm_num) (by norm_num), accumulate_s_hom_2 _ _ _ _ S_rest ht 3 (by norm_num) (by
        norm_num), accumulate_s_hom_2 _ _ _ _ S_rest ht 4 (by norm_num) (by norm_num),
        accumulate_s_hom_2 _ _ _ _ S_rest ht 5 (by norm_num) (by norm_num), accumulate_s_hom_2 _ _
        _ _ S_rest ht 6 (by norm_num) (by norm_num), accumulate_s_hom_2 _ _ _ _ S_rest ht 7 (by
        norm_num) (by norm_num), accumulate_s_hom_3 _ _ _ _ S_rest ht 8 (by norm_num) (by
        norm_num), accumulate_s_hom_3 _ _ _ _ S_rest ht 9 (by norm_num) (by norm_num),
        accumulate_s_hom_3 _ _ _ _ S_rest ht 10 (by norm_num) (by norm_num), accumulate_s_hom_3 _ _
        _ _ S_rest ht 11 (by norm_num) (by norm_num), accumulate_s_hom_3 _ _ _ _ S_rest ht 12 (by
        norm_num) (by norm_num), accumulate_s_hom_3 _ _ _ _ S_rest ht 13 (by norm_num) (by
        norm_num), accumulate_s_hom_3 _ _ _ _ S_rest ht 14 (by norm_num) (by norm_num),
        accumulate_s_hom_4 _ _ _ _ S_rest ht 15 (by norm_num) (by norm_num), accumulate_s_hom_4 _ _
        _ _ S_rest ht 16 (by norm_num) (by norm_num), accumulate_s_hom_4 _ _ _ _ S_rest ht 17 (by
        norm_num) (by norm_num), accumulate_s_hom_4 _ _ _ _ S_rest ht 18 (by norm_num) (by
        norm_num), accumulate_s_hom_4 _ _ _ _ S_rest ht 19 (by norm_num) (by norm_num),
        accumulate_s_hom_4 _ _ _ _ S_rest ht 20 (by norm_num) (by norm_num), accumulate_s_hom_4 _ _
        _ _ S_rest ht 21 (by norm_num) (by norm_num), accumulate_s_hom_4 _ _ _ _ S_rest ht 22 (by
        norm_num) (by norm_num), accumulate_s_hom_4 _ _ _ _ S_rest ht 23 (by norm_num) (by
        norm_num)]
  · simp only [accumulate_f12, hs0, hs1, hs2, hs3, hs4, hs5, hs6, hs7, hs8, hs9, hs10, hs11, hs12,
      hs13, hs14, hs15, hs16, hs17, hs18, hs19, hs20, hs21, hs22, hs23, hdi2, r0, r1, r2]
    ring

end AngularGradient

section ManyBodyGradient

/-- Two runs of `get_f12_1` with the same arguments differ by what their `f12` differed. -/
theorem get_f12_1_sub (d12inv fn fnp Fp : ℝ) (s r12 f f' : Nat → ℝ) (k : Nat) (hk : k < 3) :
    get_f12_1 d12inv fn fnp Fp s r12 f k - get_f12_1 d12inv fn fnp Fp s r12 f' k =
      f k - f' k := by
  linarith [get_f12_1_incr d12inv fn fnp Fp s r12 f f' k hk]

/-- Two runs of `get_f12_2` with the same arguments differ by what their `f12` differed. -/
theorem get_f12_2_sub (d12 d12inv fn fnp Fp : ℝ) (s r12 f f' : Nat → ℝ) (k : Nat)
    (hk : k < 3) :
    get_f12_2 d12 d12inv fn fnp Fp s r12 f k - get_f12_2 d12 d12inv fn fnp Fp s r12 f' k =
      f k - f' k := by
  linarith [get_f12_2_incr d12 d12inv fn fnp Fp s r12 f f' k hk]

/-- Two runs of `get_f12_3` with the same arguments differ by what their `f12` differed. -/
theorem get_f12_3_sub (d12 d12inv fn fnp Fp : ℝ) (s r12 f f' : Nat → ℝ) (k : Nat)
    (hk : k < 3) :
    get_f12_3 d12 d12inv fn fnp Fp s r12 f k - get_f12_3 d12 d12inv fn fnp Fp s r12 f' k =
      f k - f' k := by
  linarith [get_f12_3_incr d12 d12inv fn fnp Fp s r12 f f' k hk]

/-- Two runs of `get_f12_4` with the same arguments differ by what their `f12` differed. -/
theorem get_f12_4_sub (x y z r rinv fn fnp Fp : ℝ) (s f f' : Nat → ℝ) (k : Nat)
    (hk : k < 3) :
    get_f12_4 x y z r rinv fn fnp Fp s f k - get_f12_4 x y z r rinv fn fnp Fp s f' k =
      f k - f' k := by
  linarith [get_f12_4_incr x y z r rinv fn fnp Fp s f f' k hk]

/-- Two runs of `get_f12_4body` with the same arguments differ by what their `f12` differed. -/
theorem get_f12_4body_sub (d12 d12inv fn fnp Fp : ℝ) (s r12 f f' : Nat → ℝ) (k : Nat)
    (hk : k < 3) :
    get_f12_4body d12 d12inv fn fnp Fp s r12 f k -
        get_f12_4body d12 d12inv fn fnp Fp s r12 f' k =
      f k - f' k := by
  linarith [get_f12_4body_incr d12 d12inv fn fnp Fp s r12 f f' k hk]

set_option maxHeartbeats 4000000 in
/-- C27. Under the hypotheses of C26 (non-zero `r12`, `fn = g(d12)`, `fnp = g'(d12)`,
`sum_fxyz` the moments including this neighbour): what `accumulate_f12_with_4body`
adds to `f12` beyond `accumulate_f12` is the increment of its `get_f12_4body` call
(made with `Fp[4*(n_max_angular+1)+n]`, the unscaled degree-2 moments and the `fn`,
`fnp` of stage 2), and this contribution is `Fp[4*(n_max_angular+1)+n]` times the
gradient with respect to `r12` of the 4-body invariant of `find_q_with_4body`: the
derivative of that product along every direction `v` is `contribution . v`. -/
theorem get_f12_4body_is_gradient (n n_max_angular : Nat) (x y z vx vy vz g' : ℝ)
    (g : ℝ → ℝ) (Fp S_rest sum_fxyz f12 q0 : Nat → ℝ)
    (hr : x * x + y * y + z * z ≠ 0)
    (hg : HasDerivAt g g' (Real.sqrt (x * x + y * y + z * z)))
    (hsum : ∀ i, i < 24 →
      sum_fxyz (n * NUM_OF_ABC + i) = pair_moments Real.sqrt g S_rest x y z i) :
    (∀ (d12 fn fnp : ℝ) (r12 f : Nat → ℝ) (k : Nat), k < 3 →
      accumulate_f12_with_4body n (n_max_angular + 1) d12 r12 fn fnp Fp sum_fxyz f12 k -
          accumulate_f12 n (n_max_angular + 1) d12 r12 fn fnp Fp sum_fxyz f12 k =
        get_f12_4body d12 (1.0 / d12) (fn * (1.0 / d12) * (1.0 / d12)) ((fnp * (1.0 / d12) - fn *
            (1.0 / d12) * (1.0 / d12)) * (1.0 / d12) - fn * (1.0 / d12) * (1.0 / d12) * (1.0 /
            d12)) (Fp (4 * (n_max_angular + 1) + n)) (arrayOf [sum_fxyz (n * NUM_OF_ABC + 3),
            sum_fxyz (n * NUM_OF_ABC + 4), sum_fxyz (n * NUM_OF_ABC + 5), sum_fxyz (n * NUM_OF_ABC
            + 6), sum_fxyz (n * NUM_OF_ABC + 7)]) r12 f k - f k) ∧
    HasDerivAt
      (fun t => Fp (4 * (n_max_angular + 1) + n) *
        find_q_with_4body (n_max_angular + 1) n (pair_moments Real.sqrt g S_rest (x + t * vx) (y +
            t * vy) (z + t * vz)) q0
          (4 * (n_max_angular + 1) + n))
      ((accumulate_f12_with_4body n (n_max_angular + 1) (Real.sqrt (x * x + y * y + z * z))
          (arrayOf [x, y, z]) (g (Real.sqrt (x * x + y * y + z * z))) g' Fp sum_fxyz f12 0 -
          accumulate_f12 n (n_max_angular + 1) (Real.sqrt (x * x + y * y + z * z)) (arrayOf [x, y,
          z]) (g (Real.sqrt (x * x + y * y + z * z))) g' Fp sum_fxyz f12 0) * vx +
        (accumulate_f12_with_4body n (n_max_angular + 1) (Real.sqrt (x * x + y * y + z * z))
            (arrayOf [x, y, z]) (g (Real.sqrt (x * x + y * y + z * z))) g' Fp sum_fxyz f12 1 -
            accumulate_f12 n (n_max_angular + 1) (Real.sqrt (x * x + y * y + z * z)) (arrayOf [x,
            y, z]) (g (Real.sqrt (x * x + y * y + z * z))) g' Fp sum_fxyz f12 1) * vy +
        (accumulate_f12_with_4body n (n_max_angular + 1) (Real.sqrt (x * x + y * y + z * z))
            (arrayOf [x, y, z]) (g (Real.sqrt (x * x + y * y + z * z))) g' Fp sum_fxyz f12 2 -
            accumulate_f12 n (n_max_angular + 1) (Real.sqrt (x * x + y * y + z * z)) (arrayOf [x,
            y, z]) (g (Real.sqrt (x * x + y * y + z * z))) g' Fp sum_fxyz f12 2) * vz) 0 := by
  have c1 : ∀ (d12 fn fnp : ℝ) (r12 f : Nat → ℝ) (k : Nat), k < 3 →
      accumulate_f12_with_4body n (n_max_angular + 1) d12 r12 fn fnp Fp sum_fxyz f12 k -
          accumulate_f12 n (n_max_angular + 1) d12 r12 fn fnp Fp sum_fxyz f12 k =
        get_f12_4body d12 (1.0 / d12) (fn * (1.0 / d12) * (1.0 / d12)) ((fnp * (1.0 / d12) - fn *
            (1.0 / d12) * (1.0 / d12)) * (1.0 / d12) - fn * (1.0 / d12) * (1.0 / d12) * (1.0 /
            d12)) (Fp (4 * (n_max_angular + 1) + n)) (arrayOf [sum_fxyz (n * NUM_OF_ABC + 3),
            sum_fxyz (n * NUM_OF_ABC + 4), sum_fxyz (n * NUM_OF_ABC + 5), sum_fxyz (n * NUM_OF_ABC
            + 6), sum_fxyz (n * NUM_OF_ABC + 7)]) r12 f k - f k := by
    intro d12 fn fnp r12 f k hk
    unfold accumulate_f12_with_4body accumulate_f12
    rw [get_f12_4_sub _ _ _ _ _ _ _ _ _ _ _ k hk, get_f12_3_sub _ _ _ _ _ _ _ _ _ k hk,
      get_f12_2_congr_s _ _ _ _ _ _ (arrayOf [sum_fxyz (n * NUM_OF_ABC + 3) * C3B 3, sum_fxyz (n *
          NUM_OF_ABC + 4) * C3B 4, sum_fxyz (n * NUM_OF_ABC + 5) * C3B 5, sum_fxyz (n * NUM_OF_ABC
          + 6) * C3B 6, sum_fxyz (n * NUM_OF_ABC + 7) * C3B 7]) _ _
        (by intro i hi; interval_cases i <;> simp [Function.update_apply, arrayOf]),
      get_f12_2_sub _ _ _ _ _ _ _ _ _ k hk]
    exact get_f12_4body_incr _ _ _ _ _ _ _ _ _ k hk
  refine ⟨c1, ?_⟩
  have l1 : (1.0 : ℝ) = 1 := by norm_num
  have h0 : 0 ≤ x * x + y * y + z * z :=
    add_nonneg (add_nonneg (mul_self_nonneg x) (mul_self_nonneg y)) (mul_self_nonneg z)
  have hdd : Real.sqrt (x * x + y * y + z * z) * Real.sqrt (x * x + y * y + z * z) = x * x + y * y
      + z * z := Real.mul_self_sqrt h0
  obtain ⟨d, hd⟩ : ∃ d : ℝ, d = Real.sqrt (x * x + y * y + z * z) := ⟨_, rfl⟩
  obtain ⟨di, hdi⟩ : ∃ di : ℝ, di = 1.0 / d := ⟨_, rfl⟩
  have hdi2 : 1.0 / d = di := hdi.symm
  rw [← hd] at hg hdd ⊢
  obtain ⟨_, _, hev, _, _⟩ := radial_weight_curve x y z vx vy vz d di g' g hr hd hdi hg
  obtain ⟨⟨hW1, hV1⟩, ⟨hW2, hV2⟩, ⟨hW3, hV3⟩, ⟨hW4, hV4⟩⟩ :=
    radial_weight_powers x y z vx vy vz d di g' g hr hd hdi hg
  have hX : HasDerivAt (fun t : ℝ => x + t * vx) vx 0 := by
    simpa using ((hasDerivAt_id (0 : ℝ)).mul_const vx).const_add x
  have hY : HasDerivAt (fun t : ℝ => y + t * vy) vy 0 := by
    simpa using ((hasDerivAt_id (0 : ℝ)).mul_const vy).const_add y
  have hZ : HasDerivAt (fun t : ℝ => z + t * vz) vz 0 := by
    simpa using ((hasDerivAt_id (0 : ℝ)).mul_const vz).const_add z
  have hX0 : (fun t : ℝ => x + t * vx) 0 = x := by simp
  have hY0 : (fun t : ℝ => y + t * vy) 0 = y := by simp
  have hZ0 : (fun t : ℝ => z + t * vz) 0 = z := by simp
  have r0 : arrayOf [x, y, z] 0 = x := rfl
  have r1 : arrayOf [x, y, z] 1 = y := rfl
  have r2 : arrayOf [x, y, z] 2 = z := rfl
  have hs3 : sum_fxyz (n * NUM_OF_ABC + 3) =
      S_rest 3 + moment_hom 3 x y z * (g d * di * di) := by
    rw [hsum 3 (by norm_num)]
    simp only [pair_moments]
    rw [accumulate_s_hom_2 x y z _ S_rest hr 3 (by norm_num) (by norm_num), ← hd,
      ← hdi]
  have hs4 : sum_fxyz (n * NUM_OF_ABC + 4) =
      S_rest 4 + moment_hom 4 x y z * (g d * di * di) := by
    rw [hsum 4 (by norm_num)]
    simp only [pair_moments]
    rw [accumulate_s_hom_2 x y z _ S_rest hr 4 (by norm_num) (by norm_num), ← hd,
      ← hdi]
  have hs5 : sum_fxyz (n * NUM_OF_ABC + 5) =
      S_rest 5 + moment_hom 5 x y z * (g d * di * di) := by
    rw [hsum 5 (by norm_num)]
    simp only [pair_moments]
    rw [accumulate_s_hom_2 x y z _ S_rest hr 5 (by norm_num) (by norm_num), ← hd,
      ← hdi]
  have hs6 : sum_fxyz (n * NUM_OF_ABC + 6) =
      S_rest 6 + moment_hom 6 x y z * (g d * di * di) := by
    rw [hsum 6 (by norm_num)]
    simp only [pair_moments]
    rw [accumulate_s_hom_2 x y z _ S_rest hr 6 (by norm_num) (by norm_num), ← hd,
      ← hdi]
  have hs7 : sum_fxyz (n * NUM_OF_ABC + 7) =
      S_rest 7 + moment_hom 7 x y z * (g d * di * di) := by
    rw [hsum 7 (by norm_num)]
    simp only [pair_moments]
    rw [accumulate_s_hom_2 x y z _ S_rest hr 7 (by norm_num) (by norm_num), ← hd,
      ← hdi]
  have h := get_f12_4body_gradient (fun t : ℝ => x + t * vx) (fun t : ℝ => y + t * vy) (fun t : ℝ
      => z + t * vz)
    (fun t : ℝ => g (Real.sqrt ((x + t * vx) * (x + t * vx) + (y + t * vy) * (y + t * vy) + (z + t
        * vz) * (z + t * vz))) * (1.0 / Real.sqrt ((x + t * vx) * (x + t * vx) + (y + t * vy) * (y
        + t * vy) + (z + t * vz) * (z + t * vz))) * (1.0 / Real.sqrt ((x + t * vx) * (x + t * vx) +
        (y + t * vy) * (y + t * vy) + (z + t * vz) * (z + t * vz)))) x y z vx vy vz d di (g d * di
        * di) ((g' * di - g d * di * di) * di - g d * di * di * di) (Fp (4 * (n_max_angular + 1) +
        n)) S_rest f12
    hX hY hZ hW2 hX0 hY0 hZ0 hV2 hdd
  refine (h.congr_of_eventuallyEq ?_).congr_deriv ?_
  · filter_upwards [hev] with t ht
    simp only [find_q_with_4body, Function.update_same, pair_moments]
    rw [accumulate_s_hom_2 _ _ _ _ S_rest ht 3 (by norm_num) (by norm_num), accumulate_s_hom_2 _ _
        _ _ S_rest ht 4 (by norm_num) (by norm_num), accumulate_s_hom_2 _ _ _ _ S_rest ht 5 (by
        norm_num) (by norm_num), accumulate_s_hom_2 _ _ _ _ S_rest ht 6 (by norm_num) (by
        norm_num), accumulate_s_hom_2 _ _ _ _ S_rest ht 7 (by norm_num) (by norm_num)]
  · rw [c1 d (g d) g' (arrayOf [x, y, z]) f12 0 (by norm_num),
      c1 d (g d) g' (arrayOf [x, y, z]) f12 1 (by norm_num),
      c1 d (g d) g' (arrayOf [x, y, z]) f12 2 (by norm_num)]
    simp only [hs3, hs4, hs5, hs6, hs7, hdi2]

set_option maxHeartbeats 4000000 in
/-- C28. Under the hypotheses of C26 (non-zero `r12`, `fn = g(d12)`, `fnp = g'(d12)`,
`sum_fxyz` the moments including this neighbour): what `accumulate_f12_with_5body`
adds to `f12` beyond `accumulate_f12_with_4body` is the increment of its
`get_f12_5body` call (made with `Fp[5*(n_max_angular+1)+n]`, the three unscaled
degree-1 moments and the `fn`, `fnp` of stage 1), and this contribution is
`Fp[5*(n_max_angular+1)+n]` times the gradient with respect to `r12` of the 5-body
invariant of `find_q_with_5body`: the derivative of that product along every
direction `v` is `contribution . v`. -/
theorem get_f12_5body_is_gradient (n n_max_angular : Nat) (x y z vx vy vz g' : ℝ)
    (g : ℝ → ℝ) (Fp S_rest sum_fxyz f12 q0 : Nat → ℝ)
    (hr : x * x + y * y + z * z ≠ 0)
    (hg : HasDerivAt g g' (Real.sqrt (x * x + y * y + z * z)))
    (hsum : ∀ i, i < 24 →
      sum_fxyz (n * NUM_OF_ABC + i) = pair_moments Real.sqrt g S_rest x y z i) :
    (∀ (d12 fn fnp : ℝ) (r12 f : Nat → ℝ) (k : Nat), k < 3 →
      accumulate_f12_with_5body n (n_max_angular + 1) d12 r12 fn fnp Fp sum_fxyz f12 k -
          accumulate_f12_with_4body n (n_max_angular + 1) d12 r12 fn fnp Fp sum_fxyz f12 k =
        get_f12_5body d12 (1.0 / d12) (fn * (1.0 / d12)) (fnp * (1.0 / d12) - fn * (1.0 / d12) *
            (1.0 / d12)) (Fp (5 * (n_max_angular + 1) + n)) (arrayOf [sum_fxyz (n * NUM_OF_ABC +
            0), sum_fxyz (n * NUM_OF_ABC + 1), sum_fxyz (n * NUM_OF_ABC + 2)]) r12 f k - f k) ∧
    HasDerivAt
      (fun t => Fp (5 * (n_max_angular + 1) + n) *
        find_q_with_5body (n_max_angular + 1) n (pair_moments Real.sqrt g S_rest (x + t * vx) (y +
            t * vy) (z + t * vz)) q0
          (5 * (n_max_angular + 1) + n))
      ((accumulate_f12_with_5body n (n_max_angular + 1) (Real.sqrt (x * x + y * y + z * z))
          (arrayOf [x, y, z]) (g (Real.sqrt (x * x + y * y + z * z))) g' Fp sum_fxyz f12 0 -
          accumulate_f12_with_4body n (n_max_angular + 1) (Real.sqrt (x * x + y * y + z * z))
          (arrayOf [x, y, z]) (g (Real.sqrt (x * x + y * y + z * z))) g' Fp sum_fxyz f12 0) * vx +
        (accumulate_f12_with_5body n (n_max_angular + 1) (Real.sqrt (x * x + y * y + z * z))
            (arrayOf [x, y, z]) (g (Real.sqrt (x * x + y * y + z * z))) g' Fp sum_fxyz f12 1 -
            accumulate_f12_with_4body n (n_max_angular + 1) (Real.sqrt (x * x + y * y + z * z))
            (arrayOf [x, y, z]) (g (Real.sqrt (x * x + y * y + z * z))) g' Fp sum_fxyz f12 1) * vy +
        (accumulate_f12_with_5body n (n_max_angular + 1) (Real.sqrt (x * x + y * y + z * z))
            (arrayOf [x, y, z]) (g (Real.sqrt (x * x + y * y + z * z))) g' Fp sum_fxyz f12 2 -
            accumulate_f12_with_4body n (n_max_angular + 1) (Real.sqrt (x * x + y * y + z * z))
            (arrayOf [x, y, z]) (g (Real.sqrt (x * x + y * y + z * z))) g' Fp sum_fxyz f12 2) * vz)
            0 := by
  have c1 : ∀ (d12 fn fnp : ℝ) (r12 f : Nat → ℝ) (k : Nat), k < 3 →
      accumulate_f12_with_5body n (n_max_angular + 1) d12 r12 fn fnp Fp sum_fxyz f12 k -
          accumulate_f12_with_4body n (n_max_angular + 1) d12 r12 fn fnp Fp sum_fxyz f12 k =
        get_f12_5body d12 (1.0 / d12) (fn * (1.0 / d12)) (fnp * (1.0 / d12) - fn * (1.0 / d12) *
            (1.0 / d12)) (Fp (5 * (n_max_angular + 1) + n)) (arrayOf [sum_fxyz (n * NUM_OF_ABC +
            0), sum_fxyz (n * NUM_OF_ABC + 1), sum_fxyz (n * NUM_OF_ABC + 2)]) r12 f k - f k := by
    intro d12 fn fnp r12 f k hk
    unfold accumulate_f12_with_5body accumulate_f12_with_4body
    rw [get_f12_4_sub _ _ _ _ _ _ _ _ _ _ _ k hk, get_f12_3_sub _ _ _ _ _ _ _ _ _ k hk,
      get_f12_2_sub _ _ _ _ _ _ _ _ _ k hk, get_f12_4body_sub _ _ _ _ _ _ _ _ _ k hk,
      get_f12_1_congr_s _ _ _ _ _ (arrayOf [sum_fxyz (n * NUM_OF_ABC + 0) * C3B 0, sum_fxyz (n *
          NUM_OF_ABC + 1) * C3B 1, sum_fxyz (n * NUM_OF_ABC + 2) * C3B 2]) _ _
        (by intro i hi; interval_cases i <;> simp [Function.update_apply, arrayOf]),
      get_f12_1_sub _ _ _ _ _ _ _ _ k hk]
    exact get_f12_5body_incr _ _ _ _ _ _ _ _ _ k hk
  refine ⟨c1, ?_⟩
  have l1 : (1.0 : ℝ) = 1 := by norm_num
  have h0 : 0 ≤ x * x + y * y + z * z :=
    add_nonneg (add_nonneg (mul_self_nonneg x) (mul_self_nonneg y)) (mul_self_nonneg z)
  have hdd : Real.sqrt (x * x + y * y + z * z) * Real.sqrt (x * x + y * y + z * z) = x * x + y * y
      + z * z := Real.mul_self_sqrt h0
  obtain ⟨d, hd⟩ : ∃ d : ℝ, d = Real.sqrt (x * x + y * y + z * z) := ⟨_, rfl⟩
  obtain ⟨di, hdi⟩ : ∃ di : ℝ, di = 1.0 / d := ⟨_, rfl⟩
  have hdi2 : 1.0 / d = di := hdi.symm
  rw [← hd] at hg hdd ⊢
  obtain ⟨_, _, hev, _, _⟩ := radial_weight_curve x y z vx vy vz d di g' g hr hd hdi hg
  obtain ⟨⟨hW1, hV1⟩, ⟨hW2, hV2⟩, ⟨hW3, hV3⟩, ⟨hW4, hV4⟩⟩ :=
    radial_weight_powers x y z vx vy vz d di g' g hr hd hdi hg
  have hX : HasDerivAt (fun t : ℝ => x + t * vx) vx 0 := by
    simpa using ((hasDerivAt_id (0 : ℝ)).mul_const vx).const_add x
  have hY : HasDerivAt (fun t : ℝ => y + t * vy) vy 0 := by
    simpa using ((hasDerivAt_id (0 : ℝ)).mul_const vy).const_add y
  have hZ : HasDerivAt (fun t : ℝ => z + t * vz) vz 0 := by
    simpa using ((hasDerivAt_id (0 : ℝ)).mul_const vz).const_add z
  have hX0 : (fun t : ℝ => x + t * vx) 0 = x := by simp
  have hY0 : (fun t : ℝ => y + t * vy) 0 = y := by simp
  have hZ0 : (fun t : ℝ => z + t * vz) 0 = z := by simp
  have r0 : arrayOf [x, y, z] 0 = x := rfl
  have r1 : arrayOf [x, y, z] 1 = y := rfl
  have r2 : arrayOf [x, y, z] 2 = z := rfl
  have hs0 : sum_fxyz (n * NUM_OF_ABC + 0) =
      S_rest 0 + moment_hom 0 x y z * (g d * di) := by
    rw [hsum 0 (by norm_num)]
    simp only [pair_moments]
    rw [accumulate_s_hom_1 x y z _ S_rest hr 0 (by norm_num) (by norm_num), ← hd,
      ← hdi]
  have hs1 : sum_fxyz (n * NUM_OF_ABC + 1) =
      S_rest 1 + moment_hom 1 x y z * (g d * di) := by
    rw [hsum 1 (by norm_num)]
    simp only [pair_moments]
    rw [accumulate_s_hom_1 x y z _ S_rest hr 1 (by norm_num) (by norm_num), ← hd,
      ← hdi]
  have hs2 : sum_fxyz (n * NUM_OF_ABC + 2) =
      S_rest 2 + moment_hom 2 x y z * (g d * di) := by
    rw [hsum 2 (by norm_num)]
    simp only [pair_moments]
    rw [accumulate_s_hom_1 x y z _ S_rest hr 2 (by norm_num) (by norm_num), ← hd,
      ← hdi]
  have h := get_f12_5body_gradient (fun t : ℝ => x + t * vx) (fun t : ℝ => y + t * vy) (fun t : ℝ
      => z + t * vz)
    (fun t : ℝ => g (Real.sqrt ((x + t * vx) * (x + t * vx) + (y + t * vy) * (y + t * vy) + (z + t
        * vz) * (z + t * vz))) * (1.0 / Real.sqrt ((x + t * vx) * (x + t * vx) + (y + t * vy) * (y
        + t * vy) + (z + t * vz) * (z + t * vz)))) x y z vx vy vz d di (g d * di) (g' * di - g d *
        di * di) (Fp (5 * (n_max_angular + 1) + n)) S_rest f12
    hX hY hZ hW1 hX0 hY0 hZ0 hV1
  refine (h.congr_of_eventuallyEq ?_).congr_deriv ?_
  · filter_upwards [hev] with t ht
    simp only [find_q_with_5body, Function.update_same, pair_moments]
    rw [accumulate_s_hom_1 _ _ _ _ S_rest ht 0 (by norm_num) (by norm_num), accumulate_s_hom_1 _ _
        _ _ S_rest ht 1 (by norm_num) (by norm_num), accumulate_s_hom_1 _ _ _ _ S_rest ht 2 (by
        norm_num) (by norm_num)]
  · rw [c1 d (g d) g' (arrayOf [x, y, z]) f12 0 (by norm_num),
      c1 d (g d) g' (arrayOf [x, y, z]) f12 1 (by norm_num),
      c1 d (g d) g' (arrayOf [x, y, z]) f12 2 (by norm_num)]
    simp only [hs0, hs1, hs2, hdi2]

end ManyBodyGradient

section GradientWitnesses

/-- Witness of C26: channel 0, the displacement `(1, 0, 0)`, the direction `(1, 0, 0)`,
the radial function `g(d) = d`, no other neighbours and `Fp = 1`. -/
theorem accumulate_f12_is_gradient_witness :
    ((1 : ℝ) * 1 + 0 * 0 + 0 * 0 ≠ 0) ∧
    HasDerivAt
      (fun t : ℝ => ∑ L in Finset.range 4, (fun _ => 1) (L * (0 + 1) + 0) *
        find_q (0 + 1) 0 (pair_moments Real.sqrt (fun d => d) (fun _ => 0) (1 + t * 1) (0 + t * 0)
            (0 + t * 0)) (fun _ => 0)
          (L * (0 + 1) + 0))
      ((accumulate_f12 0 (0 + 1) (Real.sqrt (1 * 1 + 0 * 0 + 0 * 0)) (arrayOf [1, 0, 0]) ((fun d =>
          d) (Real.sqrt (1 * 1 + 0 * 0 + 0 * 0))) 1 (fun _ => 1) (pair_moments Real.sqrt (fun d =>
          d) (fun _ => 0) 1 0 0) (fun _ => 0) 0 - (fun _ => 0) 0) * 1 +
        (accumulate_f12 0 (0 + 1) (Real.sqrt (1 * 1 + 0 * 0 + 0 * 0)) (arrayOf [1, 0, 0]) ((fun d
            => d) (Real.sqrt (1 * 1 + 0 * 0 + 0 * 0))) 1 (fun _ => 1) (pair_moments Real.sqrt (fun
            d => d) (fun _ => 0) 1 0 0) (fun _ => 0) 1 - (fun _ => 0) 1) * 0 +
        (accumulate_f12 0 (0 + 1) (Real.sqrt (1 * 1 + 0 * 0 + 0 * 0)) (arrayOf [1, 0, 0]) ((fun d
            => d) (Real.sqrt (1 * 1 + 0 * 0 + 0 * 0))) 1 (fun _ => 1) (pair_moments Real.sqrt (fun
            d => d) (fun _ => 0) 1 0 0) (fun _ => 0) 2 - (fun _ => 0) 2) * 0) 0 :=
  ⟨by norm_num,
    (accumulate_f12_is_gradient 0 0 1 0 0 1 0 0 1 (fun d => d) (fun _ => 1) (fun _ => 0)
        (pair_moments Real.sqrt (fun d => d) (fun _ => 0) 1 0 0) (fun _ => 0) (fun _ => 0)
      (by norm_num) (hasDerivAt_id _) (fun i _ => by simp))⟩

/-- Witness of C27: channel 0, the displacement `(1, 0, 0)`, the direction `(1, 0, 0)`,
the radial function `g(d) = d`, no other neighbours and `Fp = 1`. -/
theorem get_f12_4body_is_gradient_witness :
    ((1 : ℝ) * 1 + 0 * 0 + 0 * 0 ≠ 0) ∧
    HasDerivAt
      (fun t : ℝ => (fun _ => 1) (4 * (0 + 1) + 0) *
        find_q_with_4body (0 + 1) 0 (pair_moments Real.sqrt (fun d => d) (fun _ => 0) (1 + t * 1)
            (0 + t * 0) (0 + t * 0)) (fun _ => 0)
          (4 * (0 + 1) + 0))
      ((accumulate_f12_with_4body 0 (0 + 1) (Real.sqrt (1 * 1 + 0 * 0 + 0 * 0)) (arrayOf [1, 0, 0])
          ((fun d => d) (Real.sqrt (1 * 1 + 0 * 0 + 0 * 0))) 1 (fun _ => 1) (pair_moments Real.sqrt
          (fun d => d) (fun _ => 0) 1 0 0) (fun _ => 0) 0 - accumulate_f12 0 (0 + 1) (Real.sqrt (1
          * 1 + 0 * 0 + 0 * 0)) (arrayOf [1, 0, 0]) ((fun d => d) (Real.sqrt (1 * 1 + 0 * 0 + 0 *
          0))) 1 (fun _ => 1) (pair_moments Real.sqrt (fun d => d) (fun _ => 0) 1 0 0) (fun _ => 0)
          0) * 1 +
        (accumulate_f12_with_4body 0 (0 + 1) (Real.sqrt (1 * 1 + 0 * 0 + 0 * 0)) (arrayOf [1, 0,
            0]) ((fun d => d) (Real.sqrt (1 * 1 + 0 * 0 + 0 * 0))) 1 (fun _ => 1) (pair_moments
            Real.sqrt (fun d => d) (fun _ => 0) 1 0 0) (fun _ => 0) 1 - accumulate_f12 0 (0 + 1)
            (Real.sqrt (1 * 1 + 0 * 0 + 0 * 0)) (arrayOf [1, 0, 0]) ((fun d => d) (Real.sqrt (1 * 1
            + 0 * 0 + 0 * 0))) 1 (fun _ => 1) (pair_moments Real.sqrt (fun d => d) (fun _ => 0) 1 0
            0) (fun _ => 0) 1) * 0 +
        (accumulate_f12_with_4body 0 (0 + 1) (Real.sqrt (1 * 1 + 0 * 0 + 0 * 0)) (arrayOf [1, 0,
            0]) ((fun d => d) (Real.sqrt (1 * 1 + 0 * 0 + 0 * 0))) 1 (fun _ => 1) (pair_moments
            Real.sqrt (fun d => d) (fun _ => 0) 1 0 0) (fun _ => 0) 2 - accumulate_f12 0 (0 + 1)
            (Real.sqrt (1 * 1 + 0 * 0 + 0 * 0)) (arrayOf [1, 0, 0]) ((fun d => d) (Real.sqrt (1 * 1
            + 0 * 0 + 0 * 0))) 1 (fun _ => 1) (pair_moments Real.sqrt (fun d => d) (fun _ => 0) 1 0
            0) (fun _ => 0) 2) * 0) 0 :=
  ⟨by norm_num,
    (get_f12_4body_is_gradient 0 0 1 0 0 1 0 0 1 (fun d => d) (fun _ => 1) (fun _ => 0)
        (pair_moments Real.sqrt (fun d => d) (fun _ => 0) 1 0 0) (fun _ => 0) (fun _ => 0)
      (by norm_num) (hasDerivAt_id _) (fun i _ => by simp)).2⟩

/-- Witness of C28: channel 0, the displacement `(1, 0, 0)`, the direction `(1, 0, 0)`,
the radial function `g(d) = d`, no other neighbours and `Fp = 1`. -/
theorem get_f12_5body_is_gradient_witness :
    ((1 : ℝ) * 1 + 0 * 0 + 0 * 0 ≠ 0) ∧
    HasDerivAt
      (fun t : ℝ => (fun _ => 1) (5 * (0 + 1) + 0) *
        find_q_with_5body (0 + 1) 0 (pair_moments Real.sqrt (fun d => d) (fun _ => 0) (1 + t * 1)
            (0 + t * 0) (0 + t * 0)) (fun _ => 0)
          (5 * (0 + 1) + 0))
      ((accumulate_f12_with_5body 0 (0 + 1) (Real.sqrt (1 * 1 + 0 * 0 + 0 * 0)) (arrayOf [1, 0, 0])
          ((fun d => d) (Real.sqrt (1 * 1 + 0 * 0 + 0 * 0))) 1 (fun _ => 1) (pair_moments Real.sqrt
          (fun d => d) (fun _ => 0) 1 0 0) (fun _ => 0) 0 - accumulate_f12_with_4body 0 (0 + 1)
          (Real.sqrt (1 * 1 + 0 * 0 + 0 * 0)) (arrayOf [1, 0, 0]) ((fun d => d) (Real.sqrt (1 * 1 +
          0 * 0 + 0 * 0))) 1 (fun _ => 1) (pair_moments Real.sqrt (fun d => d) (fun _ => 0) 1 0 0)
          (fun _ => 0) 0) * 1 +
        (accumulate_f12_with_5body 0 (0 + 1) (Real.sqrt (1 * 1 + 0 * 0 + 0 * 0)) (arrayOf [1, 0,
            0]) ((fun d => d) (Real.sqrt (1 * 1 + 0 * 0 + 0 * 0))) 1 (fun _ => 1) (pair_moments
            Real.sqrt (fun d => d) (fun _ => 0) 1 0 0) (fun _ => 0) 1 - accumulate_f12_with_4body 0
            (0 + 1) (Real.sqrt (1 * 1 + 0 * 0 + 0 * 0)) (arrayOf [1, 0, 0]) ((fun d => d)
            (Real.sqrt (1 * 1 + 0 * 0 + 0 * 0))) 1 (fun _ => 1) (pair_moments Real.sqrt (fun d =>
            d) (fun _ => 0) 1 0 0) (fun _ => 0) 1) * 0 +
        (accumulate_f12_with_5body 0 (0 + 1) (Real.sqrt (1 * 1 + 0 * 0 + 0 * 0)) (arrayOf [1, 0,
            0]) ((fun d => d) (Real.sqrt (1 * 1 + 0 * 0 + 0 * 0))) 1 (fun _ => 1) (pair_moments
            Real.sqrt (fun d => d) (fun _ => 0) 1 0 0) (fun _ => 0) 2 - accumulate_f12_with_4body 0
            (0 + 1) (Real.sqrt (1 * 1 + 0 * 0 + 0 * 0)) (arrayOf [1, 0, 0]) ((fun d => d)
            (Real.sqrt (1 * 1 + 0 * 0 + 0 * 0))) 1 (fun _ => 1) (pair_moments Real.sqrt (fun d =>
            d) (fun _ => 0) 1 0 0) (fun _ => 0) 2) * 0) 0 :=
  ⟨by norm_num,
    (get_f12_5body_is_gradient 0 0 1 0 0 1 0 0 1 (fun d => d) (fun _ => 1) (fun _ => 0)
        (pair_moments Real.sqrt (fun d => d) (fun _ => 0) 1 0 0) (fun _ => 0) (fun _ => 0)
      (by norm_num) (hasDerivAt_id _) (fun i _ => by simp)).2⟩

end GradientWitnesses

/-! ## Fourth group of theorems: neighbour slots at or beyond the cutoff -/

section BeyondCutoff

variable {α : Type} [LinearOrderedField α]

/-- With a zero envelope the single-order `find_fn` returns zero. -/
theorem find_fn_zero_envelope (n : Nat) (rcinv d12 : α) : find_fn n rcinv d12 0 = 0 := by
  rw [find_fn_closed_form, mul_zero]

/-- With a zero envelope the all-orders `find_fn` fills `fn[0..n_max]` with zeros. -/
theorem find_fn_all_zero_envelope (n_max : Nat) (rcinv d12 : α) (fn : Nat → α) (k : Nat)
    (hk : k < n_max + 1) : find_fn_all n_max rcinv d12 0 fn k = 0 := by
  unfold find_fn_all
  rw [forLoop_zero_lo, iterate_update_map (fun _ v => (v + 1.0) * 0.5 * (0 : α))]
  simp only [hk, if_true, mul_zero]

/-- With a zero envelope and a zero envelope slope the single-order
`find_fn_and_fnp` returns `(0, 0)`. -/
theorem find_fn_and_fnp_zero_envelope (n : Nat) (rcinv d12 : α) :
    find_fn_and_fnp n rcinv d12 0 0 = (0, 0) := by
  rw [find_fn_and_fnp_closed_form]
  simp only [mul_zero, add_zero]

/-- With a zero envelope and a zero envelope slope the all-orders
`find_fn_and_fnp` fills `fn[0..n_max]` and `fnp[0..n_max]` with zeros. -/
theorem find_fn_and_fnp_all_zero_envelope (n_max : Nat) (rcinv d12 : α) (fn fnp : Nat → α)
    (k : Nat) (hk : k < n_max + 1) :
    (find_fn_and_fnp_all n_max rcinv d12 0 0 fn fnp).1 k = 0 ∧
      (find_fn_and_fnp_all n_max rcinv d12 0 0 fn fnp).2 k = 0 := by
  unfold find_fn_and_fnp_all
  rw [forLoop_zero_lo]
  simp only []
  rw [find_fn_and_fnp_all_scale]
  simp only [hk, if_true, mul_zero, add_zero, and_self]

/-- At or beyond the cutoff the envelope and its slope are zero. -/
theorem find_fc_outer (cos sin : α → α) (rc rcinv d12 : α) (h : rc ≤ d12) :
    find_fc cos rc rcinv d12 = 0 ∧ find_fc_and_fcp cos sin rc rcinv d12 = (0, 0) := by
  have l0 : (0.0 : α) = 0 := by norm_num
  unfold find_fc find_fc_and_fcp
  rw [if_neg (not_lt.mpr h), if_neg (not_lt.mpr h), l0]
  exact ⟨rfl, rfl⟩

/-- A coefficient sum over basis functions that are all zero is zero. -/
theorem zero_basis_sum (K : Nat) (f : Nat → α) (c : Nat → α) (hf : ∀ k, k < K → f k = 0) :
    forLoop 0 K (fun k (g : α) => g + f k * c k) (0.0 : α) = 0 := by
  have l0 : (0.0 : α) = 0 := by norm_num
  refine forLoop_invariant (fun _ g => g = 0) 0 K (Nat.zero_le _) _ _ l0 ?_
  intro k g _ hk hg
  rw [hg, hf k hk, zero_mul, add_zero]

/-- A pair of coefficient sums over basis functions that are all zero is zero. -/
theorem zero_basis_sum_pair (K : Nat) (f f' : Nat → α) (c : Nat → α)
    (hf : ∀ k, k < K → f k = 0) (hf' : ∀ k, k < K → f' k = 0) :
    forLoop 0 K (fun k (g : α × α) => (g.1 + f k * c k, g.2 + f' k * c k))
      ((0.0 : α), (0.0 : α)) = (0, 0) := by
  have l0 : (0.0 : α) = 0 := by norm_num
  refine forLoop_invariant (fun _ g => g = ((0 : α), (0 : α))) 0 K (Nat.zero_le _) _ _
    (by rw [l0]) ?_
  intro k g _ hk hg
  rw [hg, hf k hk, hf' k hk]
  simp only [zero_mul, add_zero]

/-- With weight zero `accumulate_s` adds zero to every moment. -/
theorem accumulate_s_zero (d12 x12 y12 z12 : α) (s : Nat → α) :
    accumulate_s d12 x12 y12 z12 0 s = s := by
  unfold accumulate_s
  simp only [mul_zero, addAt_zero]

/-- With `fn = 0` and `fnp = 0` the kernels of `accumulate_f12` add zero. -/
theorem accumulate_f12_zero (n P : Nat) (d12 : α) (r12 Fp sum_fxyz f12 : Nat → α) :
    accumulate_f12 n P d12 r12 0 0 Fp sum_fxyz f12 = f12 ∧
    accumulate_f12_with_4body n P d12 r12 0 0 Fp sum_fxyz f12 = f12 ∧
    accumulate_f12_with_5body n P d12 r12 0 0 Fp sum_fxyz f12 = f12 := by
  refine ⟨?_, ?_, ?_⟩
  · simp only [accumulate_f12, get_f12_1, get_f12_2, get_f12_3, get_f12_4, zero_mul, mul_zero,
      sub_zero, add_zero, zero_add, addAt_zero, forLoop_zero_three]
  · simp only [accumulate_f12_with_4body, get_f12_1, get_f12_2, get_f12_3, get_f12_4,
      get_f12_4body, zero_mul, mul_zero, sub_zero, add_zero, zero_add, addAt_zero,
          forLoop_zero_three]
  · simp only [accumulate_f12_with_5body, get_f12_1, get_f12_2, get_f12_3, get_f12_4,
      get_f12_4body, get_f12_5body, zero_mul, mul_zero, sub_zero, add_zero, zero_add,
      addAt_zero, forLoop_zero_three]

end BeyondCutoff

section BeyondCutoffSlots

variable {α : Type} [LinearOrderedField α]

/-- C33. A neighbour slot at or beyond the cutoff contributes nothing.  If the
distance `d12 = sqrt(x12^2 + y12^2 + z12^2)` of slot `i1` of atom `n1` is at
least `rc_radial`, the body of the radial neighbour loop of the descriptor
stage leaves `q` as it was and the radial pair force `f12` is the zero vector;
if it is at least `rc_angular`, the body of the angular neighbour loop (the
call of `accumulate_s`) leaves all moments as they were and the angular pair
force `f12` is the zero vector.  This holds for every model: `version = 2` or
not, one or several atom types, and each of the three variants of
`accumulate_f12`.  A zero `f12` changes neither the forces nor the virial. -/
theorem slot_beyond_cutoff_contributes_nothing (m : Libm α) (paramb : ParaMB α)
    (annmb : ANN α) (N : Nat) (g_NL g_type : Nat → Nat)
    (gx gy gz g_Fp Fp sum_fxyz : Nat → α) (n1 n i1 : Nat) (q s : Nat → α) :
    (paramb.rc_radial ≤ m.sqrt (gx (i1 * N + n1) * gx (i1 * N + n1) +
        gy (i1 * N + n1) * gy (i1 * N + n1) + gz (i1 * N + n1) * gz (i1 * N + n1)) →
      radial_slot_step m paramb annmb N g_NL g_type gx gy gz n1 i1 q = q ∧
      radial_pair_force m paramb annmb N g_NL g_type gx gy gz g_Fp n1 i1 = fun _ => 0) ∧
    (paramb.rc_angular ≤ m.sqrt (gx (i1 * N + n1) * gx (i1 * N + n1) +
        gy (i1 * N + n1) * gy (i1 * N + n1) + gz (i1 * N + n1) * gz (i1 * N + n1)) →
      angular_slot_step m paramb annmb N g_NL g_type gx gy gz n1 n i1 s = s ∧
      angular_pair_force m paramb annmb N g_NL g_type gx gy gz Fp sum_fxyz n1 i1 =
        fun _ => 0) ∧
    (∀ (n2 fx fy fz : Nat) (r12 g_f g_virial : Nat → α),
      accumulate_pair N n1 n2 fx fy fz r12 (fun _ => 0) g_f g_virial = (g_f, g_virial)) := by
  have l0 : (0.0 : α) = 0 := by norm_num
  refine ⟨?_, ?_, ?_⟩
  · intro h
    obtain ⟨hfc, hfcp⟩ := find_fc_outer m.cos m.sin paramb.rc_radial paramb.rcinv_radial _ h
    refine ⟨?_, ?_⟩
    · unfold radial_slot_step
      simp only [arrayOf, List.getD_cons_zero, List.getD_cons_succ, hfc]
      by_cases hv : paramb.version = 2
      · rw [if_pos hv]
        refine forLoop_invariant (fun _ st => st = q) 0 _ (Nat.zero_le _) _ _ rfl ?_
        intro k st _ hk hst
        rw [hst, find_fn_all_zero_envelope _ _ _ _ k hk, zero_mul, addAt_zero]
      · rw [if_neg hv]
        refine forLoop_invariant (fun _ st => st = q) 0 _ (Nat.zero_le _) _ _ rfl ?_
        intro k st _ _ hst
        rw [hst]
        have hz := zero_basis_sum (paramb.basis_size_radial + 1)
          (find_fn_all paramb.basis_size_radial paramb.rcinv_radial
            (m.sqrt (gx (i1 * N + n1) * gx (i1 * N + n1) +
              gy (i1 * N + n1) * gy (i1 * N + n1) + gz (i1 * N + n1) * gz (i1 * N + n1)))
            0 (fun _ => 0))
          (fun j => annmb.c ((k * (paramb.basis_size_radial + 1) + j) * paramb.num_types_sq +
            (g_type n1 * paramb.num_types + g_type (g_NL (i1 * N + n1)))))
          (fun j hj => find_fn_all_zero_envelope _ _ _ _ j hj)
        beta_reduce at hz
        rw [hz, addAt_zero]
    · unfold radial_pair_force
      simp only [arrayOf, List.getD_cons_zero, List.getD_cons_succ, hfcp, l0]
      by_cases hv : paramb.version = 2
      · rw [if_pos hv]
        refine forLoop_invariant (fun _ (st : Nat → α) => st = fun _ => 0) 0 _
          (Nat.zero_le _) _ _ rfl ?_
        intro k st _ hk hst
        rw [hst, (find_fn_and_fnp_all_zero_envelope _ _ _ _ _ k hk).2, forLoop_zero_three]
        simp only [mul_zero, zero_mul, addAt_zero]
      · rw [if_neg hv]
        refine forLoop_invariant (fun _ (st : Nat → α) => st = fun _ => 0) 0 _
          (Nat.zero_le _) _ _ rfl ?_
        intro k st _ _ hst
        rw [hst]
        have hz := zero_basis_sum (paramb.basis_size_radial + 1)
          (find_fn_and_fnp_all paramb.basis_size_radial paramb.rcinv_radial
            (m.sqrt (gx (i1 * N + n1) * gx (i1 * N + n1) +
              gy (i1 * N + n1) * gy (i1 * N + n1) + gz (i1 * N + n1) * gz (i1 * N + n1)))
            0 0 (fun _ => 0) (fun _ => 0)).2
          (fun j => annmb.c ((k * (paramb.basis_size_radial + 1) + j) * paramb.num_types_sq +
            (g_type n1 * paramb.num_types + g_type (g_NL (i1 * N + n1)))))
          (fun j hj => (find_fn_and_fnp_all_zero_envelope _ _ _ _ _ j hj).2)
        beta_reduce at hz
        rw [l0] at hz
        rw [hz, forLoop_zero_three]
        simp only [mul_zero, zero_mul, addAt_zero]
  · intro h
    obtain ⟨hfc, hfcp⟩ := find_fc_outer m.cos m.sin paramb.rc_angular paramb.rcinv_angular _ h
    refine ⟨?_, ?_⟩
    · unfold angular_slot_step
      simp only [arrayOf, List.getD_cons_zero, List.getD_cons_succ, hfc]
      by_cases hv : paramb.version = 2
      · rw [if_pos hv, find_fn_zero_envelope, zero_mul, accumulate_s_zero]
      · rw [if_neg hv]
        have hz := zero_basis_sum (paramb.basis_size_angular + 1)
          (find_fn_all paramb.basis_size_angular paramb.rcinv_angular
            (m.sqrt (gx (i1 * N + n1) * gx (i1 * N + n1) +
              gy (i1 * N + n1) * gy (i1 * N + n1) + gz (i1 * N + n1) * gz (i1 * N + n1)))
            0 (fun _ => 0))
          (fun j => annmb.c ((n * (paramb.basis_size_angular + 1) + j) * paramb.num_types_sq +
            (g_type n1 * paramb.num_types + g_type (g_NL (i1 * N + n1)) +
              paramb.num_c_radial)))
          (fun j hj => find_fn_all_zero_envelope _ _ _ _ j hj)
        beta_reduce at hz
        rw [hz, accumulate_s_zero]
    · have e0 : (arrayOf [gx (i1 * N + n1), gy (i1 * N + n1), gz (i1 * N + n1)] : Nat → α) 0 =
          gx (i1 * N + n1) := rfl
      have e1 : (arrayOf [gx (i1 * N + n1), gy (i1 * N + n1), gz (i1 * N + n1)] : Nat → α) 1 =
          gy (i1 * N + n1) := rfl
      have e2 : (arrayOf [gx (i1 * N + n1), gy (i1 * N + n1), gz (i1 * N + n1)] : Nat → α) 2 =
          gz (i1 * N + n1) := rfl
      unfold angular_pair_force
      simp only [e0, e1, e2, hfcp, l0]
      by_cases hv : paramb.version = 2
      · rw [if_pos hv]
        refine forLoop_invariant (fun _ (st : Nat → α) => st = fun _ => 0) 0 _
          (Nat.zero_le _) _ _ rfl ?_
        intro k st _ _ hst
        rw [hst, find_fn_and_fnp_zero_envelope]
        simp only [zero_mul]
        exact (accumulate_f12_zero _ _ _ _ _ _ _).1
      · rw [if_neg hv]
        refine forLoop_invariant (fun _ (st : Nat → α) => st = fun _ => 0) 0 _
          (Nat.zero_le _) _ _ rfl ?_
        intro k st _ _ hst
        rw [hst]
        have hz := zero_basis_sum_pair (paramb.basis_size_angular + 1)
          (find_fn_and_fnp_all paramb.basis_size_angular paramb.rcinv_angular
            (m.sqrt (gx (i1 * N + n1) * gx (i1 * N + n1) +
              gy (i1 * N + n1) * gy (i1 * N + n1) + gz (i1 * N + n1) * gz (i1 * N + n1)))
            0 0 (fun _ => 0) (fun _ => 0)).1
          (find_fn_and_fnp_all paramb.basis_size_angular paramb.rcinv_angular
            (m.sqrt (gx (i1 * N + n1) * gx (i1 * N + n1) +
              gy (i1 * N + n1) * gy (i1 * N + n1) + gz (i1 * N + n1) * gz (i1 * N + n1)))
            0 0 (fun _ => 0) (fun _ => 0)).2
          (fun j => annmb.c ((k * (paramb.basis_size_angular + 1) + j) * paramb.num_types_sq +
            (g_type n1 * paramb.num_types + g_type (g_NL (n1 + N * i1)) +
              paramb.num_c_radial)))
          (fun j hj => (find_fn_and_fnp_all_zero_envelope _ _ _ _ _ j hj).1)
          (fun j hj => (find_fn_and_fnp_all_zero_envelope _ _ _ _ _ j hj).2)
        beta_reduce at hz
        rw [l0] at hz
        rw [hz]
        simp only []
        split_ifs
        · exact (accumulate_f12_zero _ _ _ _ _ _ _).1
        · exact (accumulate_f12_zero _ _ _ _ _ _ _).2.1
        · exact (accumulate_f12_zero _ _ _ _ _ _ _).2.2
  · intro n2 fx fy fz r12 g_f g_virial
    exact accumulate_pair_zero _ _ _ _ _ _ _ _ _ _ rfl rfl rfl

end BeyondCutoffSlots

/-- Witness of C33: the model of `demoFile 4` (`rc_radial = rc_angular = 1`) over the
rationals with the identity for `sqrt`, one neighbour at displacement `(2, 0, 0)`:
the distance value is `4`, at least both cutoffs, and the radial and angular
steps leave the zero arrays as they were. -/
theorem slot_beyond_cutoff_contributes_nothing_witness :
    radial_slot_step (Libm.mk id id id id id (fun x _ => x))
        (NEP3.ctor (blankEngine : NEP3 ℚ) (demoFile 4) 1).paramb
        (NEP3.ctor (blankEngine : NEP3 ℚ) (demoFile 4) 1).annmb 1 (fun _ => 0) (fun _ => 0)
        (fun _ => 2) (fun _ => 0) (fun _ => 0) 0 0 (fun _ => 0) = (fun _ => 0) ∧
    angular_slot_step (Libm.mk id id id id id (fun x _ => x))
        (NEP3.ctor (blankEngine : NEP3 ℚ) (demoFile 4) 1).paramb
        (NEP3.ctor (blankEngine : NEP3 ℚ) (demoFile 4) 1).annmb 1 (fun _ => 0) (fun _ => 0)
        (fun _ => 2) (fun _ => 0) (fun _ => 0) 0 0 0 (fun _ => 0) = (fun _ => 0) :=
  ⟨((slot_beyond_cutoff_contributes_nothing (Libm.mk id id id id id (fun x _ => x))
      (NEP3.ctor (blankEngine : NEP3 ℚ) (demoFile 4) 1).paramb
      (NEP3.ctor (blankEngine : NEP3 ℚ) (demoFile 4) 1).annmb 1 (fun _ => 0) (fun _ => 0)
      (fun _ => 2) (fun _ => 0) (fun _ => 0) (fun _ => 0) (fun _ => 0) (fun _ => 0) 0 0 0
      (fun _ => 0) (fun _ => 0)).1
      (by show (1 : ℚ) ≤ 2 * 2 + 0 * 0 + 0 * 0; norm_num)).1,
    ((slot_beyond_cutoff_contributes_nothing (Libm.mk id id id id id (fun x _ => x))
      (NEP3.ctor (blankEngine : NEP3 ℚ) (demoFile 4) 1).paramb
      (NEP3.ctor (blankEngine : NEP3 ℚ) (demoFile 4) 1).annmb 1 (fun _ => 0) (fun _ => 0)
      (fun _ => 2) (fun _ => 0) (fun _ => 0) (fun _ => 0) (fun _ => 0) (fun _ => 0) 0 0 0
      (fun _ => 0) (fun _ => 0)).2.1
      (by show (1 : ℚ) ≤ 2 * 2 + 0 * 0 + 0 * 0; norm_num)).1⟩

/-! ## The displacement blocks the ZBL stage reads -/

section ZBLSlot

/-- The energy of the one-atom system of `zblSlotCompute`: the value the
descriptor stage leaves (it reads the angular displacement `r12[3..5]`) plus half
the ZBL pair energy at the distance `sqrt(r12[0]^2 + r12[1]^2 + r12[2]^2)` of the
radial block. -/
theorem zblSlotCompute_energy {α : Type} [LinearOrderedField α] (m : Libm α)
    (paramb : ParaMB α) (annmb : ANN α) (r12 : Nat → α) (mem : Memory α) :
    (zblSlotCompute m paramb annmb r12 mem).potential_per_atom 0 =
      (find_descriptor_small_box m paramb annmb 1 (fun _ => 0) (fun _ => 0) (fun _ => 1)
        (fun _ => 0) (fun _ => 0) (shift r12 0) (shift r12 1) (shift r12 (1 * 2))
        (shift r12 (1 * 3)) (shift r12 (1 * 4)) (shift r12 (1 * 5))
        (forLoop 0 1 (fun n (p : Nat → α) => Function.update p n 0.0) mem.potential_per_atom)
        mem.Fp mem.sum_fxyz).1 0 +
      (find_f_and_fp_zbl m (K_C_SP * 1 * 1) ((m.pow 1 0.23 + m.pow 1 0.23) * 2.134563) 1 2
        (m.sqrt (r12 0 * r12 0 + r12 1 * r12 1 + r12 2 * r12 2))
        (1.0 / m.sqrt (r12 0 * r12 0 + r12 1 * r12 1 + r12 2 * r12 2))).1 * 0.5 := by
  unfold zblSlotCompute compute
  dsimp only
  rw [if_pos rfl]
  unfold find_force_ZBL_small_box
  simp only [forLoop_zero_one]
  have e0 : shift r12 0 (0 * 1 + 0) = r12 0 := rfl
  have e1 : shift r12 1 (0 * 1 + 0) = r12 1 := rfl
  have e2 : shift r12 (1 * 2) (0 * 1 + 0) = r12 2 := rfl
  simp only [e0, e1, e2, arrayOf, List.getD_cons_zero, List.getD_cons_succ, addAt_same]

/-- The screening function is positive. -/
theorem zbl_phi_pos (x : ℝ) : 0 < zbl_phi Real.exp x := by
  unfold zbl_phi
  positivity

/-- C31 (failing input). One atom with ZBL enabled, no radial neighbour and one
angular neighbour in slot 0, any model and any memory.  The two buffers hold
the same displacement `(ax, ay, az)` for angular slot 0 (they agree at every
index from 3 on) and differ only in `r12[0]`, an entry of the radial blocks that
belongs to no listed radial neighbour.  By the claim the ZBL stage reads the
displacement of the angular slot from the angular blocks, so the two calls
would return the same energy; `compute` returns different energies, because
the ZBL stage takes the neighbour count and index from the angular list but
the displacement from the radial blocks `r12[0..2]`. -/
theorem zbl_stage_reads_radial_blocks (paramb : ParaMB ℝ) (annmb : ANN ℝ) (mem : Memory ℝ)
    (ax ay az : ℝ) :
    (∀ i, 3 ≤ i → (arrayOf [3, 0, 0, ax, ay, az] : Nat → ℝ) i =
      (arrayOf [1 / 2, 0, 0, ax, ay, az] : Nat → ℝ) i) ∧
    (zblSlotCompute (Libm.mk Real.tanh Real.cos Real.sin Real.sqrt Real.exp Real.rpow)
        paramb annmb (arrayOf [3, 0, 0, ax, ay, az]) mem).potential_per_atom 0 ≠
      (zblSlotCompute (Libm.mk Real.tanh Real.cos Real.sin Real.sqrt Real.exp Real.rpow)
        paramb annmb (arrayOf [1 / 2, 0, 0, ax, ay, az]) mem).potential_per_atom 0 := by
  have hagree : ∀ i, 3 ≤ i → (arrayOf [3, 0, 0, ax, ay, az] : Nat → ℝ) i =
      (arrayOf [1 / 2, 0, 0, ax, ay, az] : Nat → ℝ) i := by
    intro i hi
    match i, hi with
    | 0, h => omega
    | 1, h => omega
    | 2, h => omega
    | _ + 3, _ => rfl
  refine ⟨hagree, ?_⟩
  rw [zblSlotCompute_energy, zblSlotCompute_energy]
  have hd := find_descriptor_congr_r12
    (Libm.mk Real.tanh Real.cos Real.sin Real.sqrt Real.exp Real.rpow) paramb annmb 1
    (fun _ => 0) (fun _ => 0) (fun _ => 1) (fun _ => 0) (fun _ => 0)
    (shift (arrayOf [3, 0, 0, ax, ay, az]) 0) (shift (arrayOf [3, 0, 0, ax, ay, az]) 1)
    (shift (arrayOf [3, 0, 0, ax, ay, az]) (1 * 2))
    (shift (arrayOf [3, 0, 0, ax, ay, az]) (1 * 3))
    (shift (arrayOf [3, 0, 0, ax, ay, az]) (1 * 4))
    (shift (arrayOf [3, 0, 0, ax, ay, az]) (1 * 5))
    (shift (arrayOf [1 / 2, 0, 0, ax, ay, az]) 0) (shift (arrayOf [1 / 2, 0, 0, ax, ay, az]) 1)
    (shift (arrayOf [1 / 2, 0, 0, ax, ay, az]) (1 * 2))
    (shift (arrayOf [1 / 2, 0, 0, ax, ay, az]) (1 * 3))
    (shift (arrayOf [1 / 2, 0, 0, ax, ay, az]) (1 * 4))
    (shift (arrayOf [1 / 2, 0, 0, ax, ay, az]) (1 * 5))
    (forLoop 0 1 (fun n (p : Nat → ℝ) => Function.update p n 0.0) mem.potential_per_atom)
    mem.Fp mem.sum_fxyz
    (fun n1 _ i1 hi1 => absurd hi1 (Nat.not_lt_zero i1))
    (fun n1 hn1 i1 hi1 => by
      have h1 : n1 = 0 := by omega
      have h2 : i1 = 0 := Nat.lt_one_iff.mp hi1
      subst h1 h2
      exact ⟨rfl, rfl, rfl⟩)
  rw [hd]
  have s3 : Real.sqrt ((3 : ℝ) * 3 + 0 * 0 + 0 * 0) = 3 := by
    rw [show ((3 : ℝ) * 3 + 0 * 0 + 0 * 0) = 3 ^ 2 by norm_num]
    exact Real.sqrt_sq (by norm_num)
  have sh : Real.sqrt ((1 / 2 : ℝ) * (1 / 2) + 0 * 0 + 0 * 0) = 1 / 2 := by
    rw [show ((1 / 2 : ℝ) * (1 / 2) + 0 * 0 + 0 * 0) = (1 / 2) ^ 2 by norm_num]
    exact Real.sqrt_sq (by norm_num)
  simp only [arrayOf, List.getD_cons_zero, List.getD_cons_succ, s3, sh]
  rw [find_f_and_fp_zbl_outer _ _ _ 1 2 3 _ (by norm_num) (by norm_num),
    find_f_zbl_inner _ _ _ 1 2 (1 / 2) _ (by norm_num)]
  intro h
  dsimp only at h
  have hp := zbl_phi_pos (1 / 2 * ((Real.rpow 1 0.23 + Real.rpow 1 0.23) * 2.134563))
  generalize zbl_phi Real.exp (1 / 2 * ((Real.rpow 1 0.23 + Real.rpow 1 0.23) * 2.134563)) = φ
    at h hp
  unfold K_C_SP at h
  norm_num at h
  linarith

end ZBLSlot

/-! ## The indices of the descriptor coefficients -/

section Radix

end Radix

section IndexBounds

variable {α : Type}

end IndexBounds

section CoefficientReads

variable {α : Type} [LinearOrderedField α]

end CoefficientReads

section CoefficientRange

variable {α : Type} [LinearOrderedField α]

end CoefficientRange

section RotationZ

theorem rotationZ_mem (θ : ℝ) :
    rotationZ (Real.cos θ) (Real.sin θ) ∈ Matrix.specialOrthogonalGroup (Fin 3) ℝ := by
  rw [Matrix.mem_specialOrthogonalGroup_iff, Matrix.mem_orthogonalGroup_iff']
  constructor
  · ext i j
    fin_cases i <;> fin_cases j <;>
      simp [rotationZ, Matrix.mul_apply, Fin.sum_univ_three, Matrix.vecHead, Matrix.vecTail] <;>
      first
        | ring1
        | linear_combination Real.cos_sq_add_sin_sq θ
  · simp [rotationZ, Matrix.det_fin_three]
    linear_combination Real.cos_sq_add_sin_sq θ

theorem rotated_rotationZ (c s : ℝ) (x y z : Nat → ℝ) (k : Nat) :
    rotated (rotationZ c s) x y z 0 k = c * x k - s * y k ∧
    rotated (rotationZ c s) x y z 1 k = s * x k + c * y k ∧
    rotated (rotationZ c s) x y z 2 k = z k := by
  refine ⟨?_, ?_, ?_⟩
  · simp [rotated, rotationZ]
    ring
  · simp [rotated, rotationZ]
  · simp [rotated, rotationZ]

/-- The cosines and sines of the multiples `2θ`, `3θ`, `4θ` as polynomials in
`cos θ` and `sin θ`. -/
theorem cos_sin_multiples (θ : ℝ) :
    Real.cos (2 * θ) = Real.cos θ ^ 2 - Real.sin θ ^ 2 ∧
    Real.sin (2 * θ) = 2 * Real.sin θ * Real.cos θ ∧
    Real.cos (3 * θ) = Real.cos θ ^ 3 - 3 * Real.cos θ * Real.sin θ ^ 2 ∧
    Real.sin (3 * θ) = 3 * Real.cos θ ^ 2 * Real.sin θ - Real.sin θ ^ 3 ∧
    Real.cos (4 * θ) = Real.cos θ ^ 4 - 6 * Real.cos θ ^ 2 * Real.sin θ ^ 2 + Real.sin θ ^ 4 ∧
    Real.sin (4 * θ) = 4 * Real.cos θ ^ 3 * Real.sin θ - 4 * Real.cos θ * Real.sin θ ^ 3 := by
  have e2 : 2 * θ = θ + θ := by ring
  have e3 : 3 * θ = (θ + θ) + θ := by ring
  have e4 : 4 * θ = ((θ + θ) + θ) + θ := by ring
  rw [e2, e3, e4]
  simp only [Real.cos_add, Real.sin_add]
  refine ⟨?_, ?_, ?_, ?_, ?_, ?_⟩ <;> ring

/-- The polynomial of every moment pair at a displacement rotated about the z
axis: the pair of order `m` is rotated by `m θ`. -/
theorem moment_poly_rotationZ (θ u v w : ℝ) (re im m : Nat) (h : (re, im, m) ∈ momentPairs) :
    moment_poly re (Real.cos θ * u - Real.sin θ * v) (Real.sin θ * u + Real.cos θ * v) w =
      Real.cos (m * θ) * moment_poly re u v w - Real.sin (m * θ) * moment_poly im u v w ∧
    moment_poly im (Real.cos θ * u - Real.sin θ * v) (Real.sin θ * u + Real.cos θ * v) w =
      Real.sin (m * θ) * moment_poly re u v w + Real.cos (m * θ) * moment_poly im u v w := by
  obtain ⟨h2c, h2s, h3c, h3s, h4c, h4s⟩ := cos_sin_multiples θ
  simp only [momentPairs, List.mem_cons, Prod.mk.injEq, List.mem_singleton, List.not_mem_nil,
    or_false] at h
  rcases h with h | h | h | h | h | h | h | h | h | h <;>
    obtain ⟨rfl, rfl, rfl⟩ := h <;>
    simp only [moment_poly, Nat.cast_one, Nat.cast_ofNat, one_mul, h2c, h2s, h3c, h3s, h4c, h4s] <;>
    constructor <;>
    first
      | ring1
      | ring_nf

/-- The polynomials of the moments of order 0 depend on `z` only. -/
theorem moment_poly_axial (i : Nat) (hi : i = 0 ∨ i = 3 ∨ i = 8 ∨ i = 15) (u v w u' v' : ℝ) :
    moment_poly i u' v' w = moment_poly i u v w := by
  rcases hi with rfl | rfl | rfl | rfl <;> simp only [moment_poly]

/-- The arguments of the square root are the same before and after a rotation
about the z axis. -/
theorem rotationZ_norm (θ a b c : ℝ) :
    (Real.cos θ * a - Real.sin θ * b) * (Real.cos θ * a - Real.sin θ * b) +
        (Real.sin θ * a + Real.cos θ * b) * (Real.sin θ * a + Real.cos θ * b) + c * c =
      a * a + b * b + c * c := by
  linear_combination (a * a + b * b) * Real.cos_sq_add_sin_sq θ

/-- The moments of the neighbour list rotated about the z axis, as sums over
the neighbours of the moment polynomials at the rotated unit vectors. -/
theorem accumulate_s_all_rotationZ (θ : ℝ) (n : Nat) (x y z fn : Nat → ℝ) (i : Nat)
    (hi : i < 24) :
    accumulate_s_all Real.sqrt n (rotated (rotationZ (Real.cos θ) (Real.sin θ)) x y z 0)
        (rotated (rotationZ (Real.cos θ) (Real.sin θ)) x y z 1)
        (rotated (rotationZ (Real.cos θ) (Real.sin θ)) x y z 2) fn i =
      ∑ k in Finset.range n,
        moment_poly i
          (Real.cos θ * (x k * (1 / Real.sqrt (x k * x k + y k * y k + z k * z k))) -
            Real.sin θ * (y k * (1 / Real.sqrt (x k * x k + y k * y k + z k * z k))))
          (Real.sin θ * (x k * (1 / Real.sqrt (x k * x k + y k * y k + z k * z k))) +
            Real.cos θ * (y k * (1 / Real.sqrt (x k * x k + y k * y k + z k * z k))))
          (z k * (1 / Real.sqrt (x k * x k + y k * y k + z k * z k))) * fn k := by
  rw [accumulate_s_all_apply _ _ _ _ _ _ i hi]
  refine Finset.sum_congr rfl (fun k _ => ?_)
  obtain ⟨h0, h1, h2⟩ := rotated_rotationZ (Real.cos θ) (Real.sin θ) x y z k
  rw [h0, h1, h2, rotationZ_norm]
  congr 2 <;> ring

/-- Every moment pair of order `m` of the rotated neighbour list is the pair of
the original list rotated by `m θ`. -/
theorem moments_rotationZ_pair (θ : ℝ) (n : Nat) (x y z fn : Nat → ℝ) (re im m : Nat)
    (h : (re, im, m) ∈ momentPairs) :
    accumulate_s_all Real.sqrt n (rotated (rotationZ (Real.cos θ) (Real.sin θ)) x y z 0)
        (rotated (rotationZ (Real.cos θ) (Real.sin θ)) x y z 1)
        (rotated (rotationZ (Real.cos θ) (Real.sin θ)) x y z 2) fn re =
      Real.cos (m * θ) * accumulate_s_all Real.sqrt n x y z fn re -
        Real.sin (m * θ) * accumulate_s_all Real.sqrt n x y z fn im ∧
    accumulate_s_all Real.sqrt n (rotated (rotationZ (Real.cos θ) (Real.sin θ)) x y z 0)
        (rotated (rotationZ (Real.cos θ) (Real.sin θ)) x y z 1)
        (rotated (rotationZ (Real.cos θ) (Real.sin θ)) x y z 2) fn im =
      Real.sin (m * θ) * accumulate_s_all Real.sqrt n x y z fn re +
        Real.cos (m * θ) * accumulate_s_all Real.sqrt n x y z fn im := by
  have hre : re < 24 := by
    simp only [momentPairs, List.mem_cons, Prod.mk.injEq, List.mem_singleton,
      List.not_mem_nil, or_false] at h
    omega
  have him : im < 24 := by
    simp only [momentPairs, List.mem_cons, Prod.mk.injEq, List.mem_singleton,
      List.not_mem_nil, or_false] at h
    omega
  rw [accumulate_s_all_rotationZ θ n x y z fn re hre, accumulate_s_all_rotationZ θ n x y z fn im
      him,
    accumulate_s_all_apply _ _ _ _ _ _ re hre, accumulate_s_all_apply _ _ _ _ _ _ im him,
    Finset.mul_sum, Finset.mul_sum, Finset.mul_sum, Finset.mul_sum, ← Finset.sum_sub_distrib,
    ← Finset.sum_add_distrib]
  constructor
  · refine Finset.sum_congr rfl (fun k _ => ?_)
    rw [(moment_poly_rotationZ θ _ _ _ re im m h).1]
    ring
  · refine Finset.sum_congr rfl (fun k _ => ?_)
    rw [(moment_poly_rotationZ θ _ _ _ re im m h).2]
    ring

/-- The moments of order 0 of the rotated neighbour list are those of the
original list. -/
theorem moments_rotationZ_axial (θ : ℝ) (n : Nat) (x y z fn : Nat → ℝ) (i : Nat)
    (hi : i = 0 ∨ i = 3 ∨ i = 8 ∨ i = 15) :
    accumulate_s_all Real.sqrt n (rotated (rotationZ (Real.cos θ) (Real.sin θ)) x y z 0)
        (rotated (rotationZ (Real.cos θ) (Real.sin θ)) x y z 1)
        (rotated (rotationZ (Real.cos θ) (Real.sin θ)) x y z 2) fn i =
      accumulate_s_all Real.sqrt n x y z fn i := by
  have h24 : i < 24 := by omega
  rw [accumulate_s_all_rotationZ θ n x y z fn i h24, accumulate_s_all_apply _ _ _ _ _ _ i h24]
  refine Finset.sum_congr rfl (fun k _ => ?_)
  rw [moment_poly_axial i hi]

/-- The two moments of every pair carry the same weight of `C3B`. -/
theorem C3B_pair_weights (re im m : Nat) (h : (re, im, m) ∈ momentPairs) :
    (C3B re : ℝ) = C3B im := by
  simp only [momentPairs, List.mem_cons, Prod.mk.injEq, List.mem_singleton, List.not_mem_nil,
    or_false] at h
  rcases h with h | h | h | h | h | h | h | h | h | h <;>
    obtain ⟨rfl, rfl, rfl⟩ := h <;>
    simp only [C3B, arrayOf, List.getD_cons_zero, List.getD_cons_succ]

end RotationZ

section RotationZInvariants

/-- The degree-1 invariant of `find_q` has the same value on the moments of the
neighbour list rotated about the z axis. -/
theorem find_q_rotationZ_one (θ : ℝ) (n : Nat) (x y z fn : Nat → ℝ)
    (n_max_angular nn : Nat) (q q' : Nat → ℝ) :
    find_q (n_max_angular + 1) nn
        (accumulate_s_all Real.sqrt n (rotated (rotationZ (Real.cos θ) (Real.sin θ)) x y z 0)
          (rotated (rotationZ (Real.cos θ) (Real.sin θ)) x y z 1)
          (rotated (rotationZ (Real.cos θ) (Real.sin θ)) x y z 2) fn) q'
        nn =
      find_q (n_max_angular + 1) nn (accumulate_s_all Real.sqrt n x y z fn) q
        nn := by
  rw [find_q_value_one, find_q_value_one]
  have a0 := moments_rotationZ_axial θ n x y z fn 0 (by omega)
  have p1 := moments_rotationZ_pair θ n x y z fn 1 2 1 (by decide)
  have w1 : (C3B 2 : ℝ) = C3B 1 := (C3B_pair_weights 1 2 1 (by decide)).symm
  have c1 := Real.cos_sq_add_sin_sq (((1 : ℕ) : ℝ) * θ)
  have l2 : (2.0 : ℝ) = 2 := by norm_num
  rw [a0, p1.1, p1.2, w1, l2]
  generalize Real.cos (((1 : ℕ) : ℝ) * θ) = C1 at c1 ⊢
  generalize Real.sin (((1 : ℕ) : ℝ) * θ) = S1 at c1 ⊢
  generalize accumulate_s_all Real.sqrt n x y z fn = s
  linear_combination (2 * C3B 1 * (s 1 * s 1 + s 2 * s 2)) * c1

/-- The degree-2 invariant of `find_q` has the same value on the moments of the
neighbour list rotated about the z axis. -/
theorem find_q_rotationZ_two (θ : ℝ) (n : Nat) (x y z fn : Nat → ℝ)
    (n_max_angular nn : Nat) (q q' : Nat → ℝ) :
    find_q (n_max_angular + 1) nn
        (accumulate_s_all Real.sqrt n (rotated (rotationZ (Real.cos θ) (Real.sin θ)) x y z 0)
          (rotated (rotationZ (Real.cos θ) (Real.sin θ)) x y z 1)
          (rotated (rotationZ (Real.cos θ) (Real.sin θ)) x y z 2) fn) q'
        (n_max_angular + 1 + nn) =
      find_q (n_max_angular + 1) nn (accumulate_s_all Real.sqrt n x y z fn) q
        (n_max_angular + 1 + nn) := by
  rw [find_q_value_two, find_q_value_two]
  have a0 := moments_rotationZ_axial θ n x y z fn 3 (by omega)
  have p4 := moments_rotationZ_pair θ n x y z fn 4 5 1 (by decide)
  have w4 : (C3B 5 : ℝ) = C3B 4 := (C3B_pair_weights 4 5 1 (by decide)).symm
  have p6 := moments_rotationZ_pair θ n x y z fn 6 7 2 (by decide)
  have w6 : (C3B 7 : ℝ) = C3B 6 := (C3B_pair_weights 6 7 2 (by decide)).symm
  have c1 := Real.cos_sq_add_sin_sq (((1 : ℕ) : ℝ) * θ)
  have c2 := Real.cos_sq_add_sin_sq (((2 : ℕ) : ℝ) * θ)
  have l2 : (2.0 : ℝ) = 2 := by norm_num
  rw [a0, p4.1, p4.2, w4, p6.1, p6.2, w6, l2]
  generalize Real.cos (((1 : ℕ) : ℝ) * θ) = C1 at c1 ⊢
  generalize Real.sin (((1 : ℕ) : ℝ) * θ) = S1 at c1 ⊢
  generalize Real.cos (((2 : ℕ) : ℝ) * θ) = C2 at c2 ⊢
  generalize Real.sin (((2 : ℕ) : ℝ) * θ) = S2 at c2 ⊢
  generalize accumulate_s_all Real.sqrt n x y z fn = s
  linear_combination (2 * C3B 4 * (s 4 * s 4 + s 5 * s 5)) * c1 +
    (2 * C3B 6 * (s 6 * s 6 + s 7 * s 7)) * c2

/-- The degree-3 invariant of `find_q` has the same value on the moments of the
neighbour list rotated about the z axis. -/
theorem find_q_rotationZ_three (θ : ℝ) (n : Nat) (x y z fn : Nat → ℝ)
    (n_max_angular nn : Nat) (q q' : Nat → ℝ) :
    find_q (n_max_angular + 1) nn
        (accumulate_s_all Real.sqrt n (rotated (rotationZ (Real.cos θ) (Real.sin θ)) x y z 0)
          (rotated (rotationZ (Real.cos θ) (Real.sin θ)) x y z 1)
          (rotated (rotationZ (Real.cos θ) (Real.sin θ)) x y z 2) fn) q'
        (2 * (n_max_angular + 1) + nn) =
      find_q (n_max_angular + 1) nn (accumulate_s_all Real.sqrt n x y z fn) q
        (2 * (n_max_angular + 1) + nn) := by
  rw [find_q_value_three, find_q_value_three]
  have a0 := moments_rotationZ_axial θ n x y z fn 8 (by omega)
  have p9 := moments_rotationZ_pair θ n x y z fn 9 10 1 (by decide)
  have w9 : (C3B 10 : ℝ) = C3B 9 := (C3B_pair_weights 9 10 1 (by decide)).symm
  have p11 := moments_rotationZ_pair θ n x y z fn 11 12 2 (by decide)
  have w11 : (C3B 12 : ℝ) = C3B 11 := (C3B_pair_weights 11 12 2 (by decide)).symm
  have p13 := moments_rotationZ_pair θ n x y z fn 13 14 3 (by decide)
  have w13 : (C3B 14 : ℝ) = C3B 13 := (C3B_pair_weights 13 14 3 (by decide)).symm
  have c1 := Real.cos_sq_add_sin_sq (((1 : ℕ) : ℝ) * θ)
  have c2 := Real.cos_sq_add_sin_sq (((2 : ℕ) : ℝ) * θ)
  have c3 := Real.cos_sq_add_sin_sq (((3 : ℕ) : ℝ) * θ)
  have l2 : (2.0 : ℝ) = 2 := by norm_num
  rw [a0, p9.1, p9.2, w9, p11.1, p11.2, w11, p13.1, p13.2, w13, l2]
  generalize Real.cos (((1 : ℕ) : ℝ) * θ) = C1 at c1 ⊢
  generalize Real.sin (((1 : ℕ) : ℝ) * θ) = S1 at c1 ⊢
  generalize Real.cos (((2 : ℕ) : ℝ) * θ) = C2 at c2 ⊢
  generalize Real.sin (((2 : ℕ) : ℝ) * θ) = S2 at c2 ⊢
  generalize Real.cos (((3 : ℕ) : ℝ) * θ) = C3 at c3 ⊢
  generalize Real.sin (((3 : ℕ) : ℝ) * θ) = S3 at c3 ⊢
  generalize accumulate_s_all Real.sqrt n x y z fn = s
  linear_combination (2 * C3B 9 * (s 9 * s 9 + s 10 * s 10)) * c1 +
    (2 * C3B 11 * (s 11 * s 11 + s 12 * s 12)) * c2 +
    (2 * C3B 13 * (s 13 * s 13 + s 14 * s 14)) * c3

/-- The degree-4 invariant of `find_q` has the same value on the moments of the
neighbour list rotated about the z axis. -/
theorem find_q_rotationZ_four (θ : ℝ) (n : Nat) (x y z fn : Nat → ℝ)
    (n_max_angular nn : Nat) (q q' : Nat → ℝ) :
    find_q (n_max_angular + 1) nn
        (accumulate_s_all Real.sqrt n (rotated (rotationZ (Real.cos θ) (Real.sin θ)) x y z 0)
          (rotated (rotationZ (Real.cos θ) (Real.sin θ)) x y z 1)
          (rotated (rotationZ (Real.cos θ) (Real.sin θ)) x y z 2) fn) q'
        (3 * (n_max_angular + 1) + nn) =
      find_q (n_max_angular + 1) nn (accumulate_s_all Real.sqrt n x y z fn) q
        (3 * (n_max_angular + 1) + nn) := by
  rw [find_q_value_four, find_q_value_four]
  have a0 := moments_rotationZ_axial θ n x y z fn 15 (by omega)
  have p16 := moments_rotationZ_pair θ n x y z fn 16 17 1 (by decide)
  have w16 : (C3B 17 : ℝ) = C3B 16 := (C3B_pair_weights 16 17 1 (by decide)).symm
  have p18 := moments_rotationZ_pair θ n x y z fn 18 19 2 (by decide)
  have w18 : (C3B 19 : ℝ) = C3B 18 := (C3B_pair_weights 18 19 2 (by decide)).symm
  have p20 := moments_rotationZ_pair θ n x y z fn 20 21 3 (by decide)
  have w20 : (C3B 21 : ℝ) = C3B 20 := (C3B_pair_weights 20 21 3 (by decide)).symm
  have p22 := moments_rotationZ_pair θ n x y z fn 22 23 4 (by decide)
  have w22 : (C3B 23 : ℝ) = C3B 22 := (C3B_pair_weights 22 23 4 (by decide)).symm
  have c1 := Real.cos_sq_add_sin_sq (((1 : ℕ) : ℝ) * θ)
  have c2 := Real.cos_sq_add_sin_sq (((2 : ℕ) : ℝ) * θ)
  have c3 := Real.cos_sq_add_sin_sq (((3 : ℕ) : ℝ) * θ)
  have c4 := Real.cos_sq_add_sin_sq (((4 : ℕ) : ℝ) * θ)
  have l2 : (2.0 : ℝ) = 2 := by norm_num
  rw [a0, p16.1, p16.2, w16, p18.1, p18.2, w18, p20.1, p20.2, w20, p22.1, p22.2, w22, l2]
  generalize Real.cos (((1 : ℕ) : ℝ) * θ) = C1 at c1 ⊢
  generalize Real.sin (((1 : ℕ) : ℝ) * θ) = S1 at c1 ⊢
  generalize Real.cos (((2 : ℕ) : ℝ) * θ) = C2 at c2 ⊢
  generalize Real.sin (((2 : ℕ) : ℝ) * θ) = S2 at c2 ⊢
  generalize Real.cos (((3 : ℕ) : ℝ) * θ) = C3 at c3 ⊢
  generalize Real.sin (((3 : ℕ) : ℝ) * θ) = S3 at c3 ⊢
  generalize Real.cos (((4 : ℕ) : ℝ) * θ) = C4 at c4 ⊢
  generalize Real.sin (((4 : ℕ) : ℝ) * θ) = S4 at c4 ⊢
  generalize accumulate_s_all Real.sqrt n x y z fn = s
  linear_combination (2 * C3B 16 * (s 16 * s 16 + s 17 * s 17)) * c1 +
    (2 * C3B 18 * (s 18 * s 18 + s 19 * s 19)) * c2 +
    (2 * C3B 20 * (s 20 * s 20 + s 21 * s 21)) * c3 +
    (2 * C3B 22 * (s 22 * s 22 + s 23 * s 23)) * c4

end RotationZInvariants

/-- C32. For every list of `n` neighbours with displacements `(x k, y k, z k)` and
weights `fn k`, and every angle `θ`: the matrix `rotationZ (cos θ) (sin θ)` is a
rotation, it maps each displacement to `(cos θ x - sin θ y, sin θ x + cos θ y, z)`
and keeps the argument of the square root (so the distance, and with it the
weight, of each neighbour); in the moments `accumulate_s` sums, every pair
`(re, im, m)` of `momentPairs` is rotated by `m θ` and its two weights in `C3B`
are equal, the four moments of order 0 are unchanged; and the four invariants
that `find_q` writes have exactly the same value over the reals.  No displacement
has to be non-zero: the model's `1 / 0 = 0` gives a zero unit vector before and
after the rotation. -/
theorem find_q_rotation_about_z (θ : ℝ) (n : Nat) (x y z fn : Nat → ℝ)
    (n_max_angular nn : Nat) (q q' : Nat → ℝ) :
    rotationZ (Real.cos θ) (Real.sin θ) ∈ Matrix.specialOrthogonalGroup (Fin 3) ℝ ∧
    (∀ k, rotated (rotationZ (Real.cos θ) (Real.sin θ)) x y z 0 k =
        Real.cos θ * x k - Real.sin θ * y k ∧
      rotated (rotationZ (Real.cos θ) (Real.sin θ)) x y z 1 k =
        Real.sin θ * x k + Real.cos θ * y k ∧
      rotated (rotationZ (Real.cos θ) (Real.sin θ)) x y z 2 k = z k ∧
      rotated (rotationZ (Real.cos θ) (Real.sin θ)) x y z 0 k *
            rotated (rotationZ (Real.cos θ) (Real.sin θ)) x y z 0 k +
          rotated (rotationZ (Real.cos θ) (Real.sin θ)) x y z 1 k *
            rotated (rotationZ (Real.cos θ) (Real.sin θ)) x y z 1 k +
          rotated (rotationZ (Real.cos θ) (Real.sin θ)) x y z 2 k *
            rotated (rotationZ (Real.cos θ) (Real.sin θ)) x y z 2 k =
        x k * x k + y k * y k + z k * z k) ∧
    (∀ re im m, (re, im, m) ∈ momentPairs →
      (accumulate_s_all Real.sqrt n (rotated (rotationZ (Real.cos θ) (Real.sin θ)) x y z 0)
        (rotated (rotationZ (Real.cos θ) (Real.sin θ)) x y z 1)
        (rotated (rotationZ (Real.cos θ) (Real.sin θ)) x y z 2) fn) re =
        Real.cos (m * θ) * accumulate_s_all Real.sqrt n x y z fn re -
          Real.sin (m * θ) * accumulate_s_all Real.sqrt n x y z fn im ∧
      (accumulate_s_all Real.sqrt n (rotated (rotationZ (Real.cos θ) (Real.sin θ)) x y z 0)
        (rotated (rotationZ (Real.cos θ) (Real.sin θ)) x y z 1)
        (rotated (rotationZ (Real.cos θ) (Real.sin θ)) x y z 2) fn) im =
        Real.sin (m * θ) * accumulate_s_all Real.sqrt n x y z fn re +
          Real.cos (m * θ) * accumulate_s_all Real.sqrt n x y z fn im ∧
      (C3B re : ℝ) = C3B im) ∧
    ((accumulate_s_all Real.sqrt n (rotated (rotationZ (Real.cos θ) (Real.sin θ)) x y z 0)
        (rotated (rotationZ (Real.cos θ) (Real.sin θ)) x y z 1)
        (rotated (rotationZ (Real.cos θ) (Real.sin θ)) x y z 2) fn) 0 =
        accumulate_s_all Real.sqrt n x y z fn 0 ∧
      (accumulate_s_all Real.sqrt n (rotated (rotationZ (Real.cos θ) (Real.sin θ)) x y z 0)
        (rotated (rotationZ (Real.cos θ) (Real.sin θ)) x y z 1)
        (rotated (rotationZ (Real.cos θ) (Real.sin θ)) x y z 2) fn) 3 =
        accumulate_s_all Real.sqrt n x y z fn 3 ∧
      (accumulate_s_all Real.sqrt n (rotated (rotationZ (Real.cos θ) (Real.sin θ)) x y z 0)
        (rotated (rotationZ (Real.cos θ) (Real.sin θ)) x y z 1)
        (rotated (rotationZ (Real.cos θ) (Real.sin θ)) x y z 2) fn) 8 =
        accumulate_s_all Real.sqrt n x y z fn 8 ∧
      (accumulate_s_all Real.sqrt n (rotated (rotationZ (Real.cos θ) (Real.sin θ)) x y z 0)
        (rotated (rotationZ (Real.cos θ) (Real.sin θ)) x y z 1)
        (rotated (rotationZ (Real.cos θ) (Real.sin θ)) x y z 2) fn) 15 =
        accumulate_s_all Real.sqrt n x y z fn 15) ∧
    find_q (n_max_angular + 1) nn
        (accumulate_s_all Real.sqrt n (rotated (rotationZ (Real.cos θ) (Real.sin θ)) x y z 0)
          (rotated (rotationZ (Real.cos θ) (Real.sin θ)) x y z 1)
          (rotated (rotationZ (Real.cos θ) (Real.sin θ)) x y z 2) fn) q'
        nn =
      find_q (n_max_angular + 1) nn (accumulate_s_all Real.sqrt n x y z fn) q
        nn ∧
    find_q (n_max_angular + 1) nn
        (accumulate_s_all Real.sqrt n (rotated (rotationZ (Real.cos θ) (Real.sin θ)) x y z 0)
          (rotated (rotationZ (Real.cos θ) (Real.sin θ)) x y z 1)
          (rotated (rotationZ (Real.cos θ) (Real.sin θ)) x y z 2) fn) q'
        (n_max_angular + 1 + nn) =
      find_q (n_max_angular + 1) nn (accumulate_s_all Real.sqrt n x y z fn) q
        (n_max_angular + 1 + nn) ∧
    find_q (n_max_angular + 1) nn
        (accumulate_s_all Real.sqrt n (rotated (rotationZ (Real.cos θ) (Real.sin θ)) x y z 0)
          (rotated (rotationZ (Real.cos θ) (Real.sin θ)) x y z 1)
          (rotated (rotationZ (Real.cos θ) (Real.sin θ)) x y z 2) fn) q'
        (2 * (n_max_angular + 1) + nn) =
      find_q (n_max_angular + 1) nn (accumulate_s_all Real.sqrt n x y z fn) q
        (2 * (n_max_angular + 1) + nn) ∧
    find_q (n_max_angular + 1) nn
        (accumulate_s_all Real.sqrt n (rotated (rotationZ (Real.cos θ) (Real.sin θ)) x y z 0)
          (rotated (rotationZ (Real.cos θ) (Real.sin θ)) x y z 1)
          (rotated (rotationZ (Real.cos θ) (Real.sin θ)) x y z 2) fn) q'
        (3 * (n_max_angular + 1) + nn) =
      find_q (n_max_angular + 1) nn (accumulate_s_all Real.sqrt n x y z fn) q
        (3 * (n_max_angular + 1) + nn) := by
  refine ⟨rotationZ_mem θ, fun k => ?_, fun re im m h => ?_, ⟨?_, ?_, ?_, ?_⟩,
    find_q_rotationZ_one θ n x y z fn n_max_angular nn q q',
    find_q_rotationZ_two θ n x y z fn n_max_angular nn q q',
    find_q_rotationZ_three θ n x y z fn n_max_angular nn q q',
    find_q_rotationZ_four θ n x y z fn n_max_angular nn q q'⟩
  · obtain ⟨h0, h1, h2⟩ := rotated_rotationZ (Real.cos θ) (Real.sin θ) x y z k
    refine ⟨h0, h1, h2, ?_⟩
    rw [h0, h1, h2]
    exact rotationZ_norm θ (x k) (y k) (z k)
  · exact ⟨(moments_rotationZ_pair θ n x y z fn re im m h).1,
      (moments_rotationZ_pair θ n x y z fn re im m h).2, C3B_pair_weights re im m h⟩
  · exact moments_rotationZ_axial θ n x y z fn 0 (by omega)
  · exact moments_rotationZ_axial θ n x y z fn 3 (by omega)
  · exact moments_rotationZ_axial θ n x y z fn 8 (by omega)
  · exact moments_rotationZ_axial θ n x y z fn 15 (by omega)

/-! ## The two forms of `find_fn_and_fnp` in double arithmetic -/

section Rounding

theorem bitLength_zero (fuel : Nat) : bitLength fuel 0 = 0 := by
  cases fuel <;> simp [bitLength]

theorem bitLength_succ (fuel n : Nat) (hn : n ≠ 0) :
    bitLength (fuel + 1) n = bitLength fuel (n / 2) + 1 := by
  simp [bitLength, hn]

/-- The number of binary digits `L` of `n > 0` satisfies `2 ^ (L - 1) <= n < 2 ^ L`. -/
theorem bitLength_bounds (fuel : Nat) : ∀ n, n ≤ fuel → n ≠ 0 →
    2 ^ (bitLength fuel n - 1) ≤ n ∧ n < 2 ^ bitLength fuel n := by
  induction fuel with
  | zero =>
    intro n h hn
    omega
  | succ f ih =>
    intro n h hn
    rw [bitLength_succ f n hn]
    by_cases h2 : n / 2 = 0
    · rw [h2, bitLength_zero]
      have : n = 1 := by omega
      subst this
      norm_num
    · obtain ⟨ih1, ih2⟩ := ih (n / 2) (by omega) h2
      cases hb : bitLength f (n / 2) with
      | zero =>
        rw [hb] at ih2
        simp at ih2
        omega
      | succ c =>
        rw [hb] at ih1 ih2
        simp only [Nat.add_sub_cancel] at ih1 ⊢
        rw [pow_succ] at ih2 ⊢
        rw [pow_succ (2 : Nat) (c + 1)]
        rw [pow_succ]
        constructor <;> omega

theorem bitLength_eq (fuel n k : Nat) (h : n ≤ fuel) (h1 : 2 ^ k ≤ n) (h2 : n < 2 ^ (k + 1)) :
    bitLength fuel n = k + 1 := by
  have hn : n ≠ 0 := by
    have : 0 < 2 ^ k := Nat.pow_pos (by norm_num)
    omega
  obtain ⟨b1, b2⟩ := bitLength_bounds fuel n h hn
  have c1 : k < bitLength fuel n :=
    (Nat.pow_lt_pow_iff_right (by norm_num : 1 < 2)).mp (lt_of_le_of_lt h1 b2)
  have c2 : bitLength fuel n - 1 < k + 1 :=
    (Nat.pow_lt_pow_iff_right (by norm_num : 1 < 2)).mp (lt_of_le_of_lt b1 h2)
  omega

theorem binary64_round_zero (e : Int) : Binary64.round 0 e = ⟨0, 0⟩ := by
  simp [Binary64.round, bitLength_zero]

/-- Rounding returns a normalised double. -/
theorem binary64_round_normal (m e : Int) : (Binary64.round m e).normal := by
  unfold Binary64.round
  simp only []
  by_cases hn : m.natAbs = 0
  · rw [hn, bitLength_zero]
    simp [Binary64.normal]
  · obtain ⟨b1, b2⟩ := bitLength_bounds m.natAbs m.natAbs (Nat.le_refl _) hn
    have hL : 1 ≤ bitLength m.natAbs m.natAbs := by
      by_contra hc
      have h0 : bitLength m.natAbs m.natAbs = 0 := by omega
      rw [h0] at b2
      simp at b2
      omega
    generalize bitLength m.natAbs m.natAbs = L at b1 b2 hL ⊢
    by_cases h53 : L ≤ 53
    · rw [if_pos h53, if_neg hn]
      right
      show 2 ^ 52 ≤ (m * 2 ^ (53 - L)).natAbs ∧ (m * 2 ^ (53 - L)).natAbs < 2 ^ 53
      rw [Int.natAbs_mul, Int.natAbs_pow]
      have e2 : (2 : Int).natAbs = 2 := rfl
      rw [e2]
      have p1 : 2 ^ 52 = 2 ^ (L - 1) * 2 ^ (53 - L) := by
        rw [← pow_add]
        congr 1
        omega
      have p2 : 2 ^ 53 = 2 ^ L * 2 ^ (53 - L) := by
        rw [← pow_add]
        congr 1
        omega
      have hp : 0 < 2 ^ (53 - L) := Nat.pow_pos (by norm_num)
      rw [p1, p2]
      exact ⟨Nat.mul_le_mul_right _ b1, Nat.mul_lt_mul_of_pos_right b2 hp⟩
    · rw [if_neg h53]
      have hk : 0 < 2 ^ (L - 53) := Nat.pow_pos (by norm_num)
      have q1 : 2 ^ 52 ≤ m.natAbs / 2 ^ (L - 53) := by
        rw [Nat.le_div_iff_mul_le hk, ← pow_add]
        have : 52 + (L - 53) = L - 1 := by omega
        rw [this]
        exact b1
      have q2 : m.natAbs / 2 ^ (L - 53) < 2 ^ 53 := by
        rw [Nat.div_lt_iff_lt_mul hk, ← pow_add]
        have : 53 + (L - 53) = L := by omega
        rw [this]
        exact b2
      have hm : m ≠ 0 := fun h => hn (by rw [h]; rfl)
      have hs : m.sign.natAbs = 1 := Int.natAbs_sign_of_nonzero hm
      generalize m.natAbs / 2 ^ (L - 53) = q at q1 q2 ⊢
      generalize m.natAbs % 2 ^ (L - 53) = r
      right
      by_cases hc : 2 * r < 2 ^ (L - 53) ∨ 2 * r = 2 ^ (L - 53) ∧ q % 2 = 0
      · rw [if_pos hc, if_neg (by omega)]
        show 2 ^ 52 ≤ (m.sign * (q : Int)).natAbs ∧ (m.sign * (q : Int)).natAbs < 2 ^ 53
        rw [Int.natAbs_mul, hs, Int.natAbs_ofNat, Nat.one_mul]
        exact ⟨q1, q2⟩
      · rw [if_neg hc]
        by_cases h2 : q + 1 = 2 ^ 53
        · rw [if_pos h2]
          show 2 ^ 52 ≤ (m.sign * 2 ^ 52).natAbs ∧ (m.sign * 2 ^ 52).natAbs < 2 ^ 53
          rw [Int.natAbs_mul, hs, Int.natAbs_pow]
          norm_num
        · rw [if_neg h2]
          show 2 ^ 52 ≤ (m.sign * ((q + 1 : Nat) : Int)).natAbs ∧
            (m.sign * ((q + 1 : Nat) : Int)).natAbs < 2 ^ 53
          rw [Int.natAbs_mul, hs, Int.natAbs_ofNat, Nat.one_mul]
          omega

/-- Rounding keeps a 53-digit significand that is followed by zero digits only. -/
theorem binary64_round_shift (a : Binary64) (k : Nat) (e : Int) (h1 : 2 ^ 52 ≤ a.m.natAbs)
    (h2 : a.m.natAbs < 2 ^ 53) : Binary64.round (a.m * 2 ^ k) e = ⟨a.m, e + k⟩ := by
  have habs : (a.m * 2 ^ k).natAbs = a.m.natAbs * 2 ^ k := by
    rw [Int.natAbs_mul, Int.natAbs_pow]
    rfl
  have hpk : 0 < 2 ^ k := Nat.pow_pos (by norm_num)
  have hL : bitLength (a.m * 2 ^ k).natAbs (a.m * 2 ^ k).natAbs = 52 + k + 1 := by
    apply bitLength_eq _ _ _ (Nat.le_refl _)
    · rw [habs, pow_add]
      exact Nat.mul_le_mul_right _ h1
    · rw [habs]
      have : 52 + k + 1 = 53 + k := by omega
      rw [this, pow_add]
      exact Nat.mul_lt_mul_of_pos_right h2 hpk
  have hm : a.m ≠ 0 := by
    intro h
    rw [h] at h1
    simp at h1
  unfold Binary64.round
  simp only []
  rw [hL]
  by_cases hk : k = 0
  · subst hk
    have hn : (a.m * 2 ^ 0).natAbs ≠ 0 := by
      rw [habs]
      omega
    rw [if_pos (by omega), if_neg hn]
    simp
  · rw [if_neg (by omega)]
    have ek : 52 + k + 1 - 53 = k := by omega
    rw [ek, habs, Nat.mul_div_cancel _ hpk, Nat.mul_mod_left]
    rw [if_pos (Or.inl (by omega)), if_neg (by omega)]
    have hsgn : (a.m * 2 ^ k).sign = a.m.sign := by
      rw [Int.sign_mul]
      have : ((2 : Int) ^ k).sign = 1 := Int.sign_eq_one_of_pos (by positivity)
      rw [this, mul_one]
    rw [hsgn, Int.sign_mul_natAbs]

theorem binary64_mul_def (a b : Binary64) : a * b = Binary64.round (a.m * b.m) (a.e + b.e) := rfl

theorem binary64_add_def (a b : Binary64) :
    a + b = Binary64.round (a.m * 2 ^ (a.e - min a.e b.e).toNat +
      b.m * 2 ^ (b.e - min a.e b.e).toNat) (min a.e b.e) := rfl

set_option maxRecDepth 100000 in
theorem binary64_literals : (0.0 : Binary64) = ⟨0, 0⟩ ∧ (1.0 : Binary64) = ⟨2 ^ 52, -52⟩ ∧
    (2.0 : Binary64) = ⟨2 ^ 52, -51⟩ ∧ (0.5 : Binary64) = ⟨2 ^ 52, -53⟩ ∧
    ((1.0 : Binary64) + 1.0) * 0.5 = 1.0 := by
  decide

/-- Multiplying by `1.0` returns the other factor. -/
theorem binary64_one_mul (a : Binary64) (h : a.normal) : (1.0 : Binary64) * a = a := by
  rw [binary64_literals.2.1, binary64_mul_def]
  rcases h with ⟨h1, h2⟩ | ⟨h1, h2⟩
  · obtain ⟨m, e⟩ := a
    simp only at h1 h2
    subst h1 h2
    decide
  · show Binary64.round (2 ^ 52 * a.m) (-52 + a.e) = a
    rw [mul_comm, binary64_round_shift a 52 _ h1 h2]
    obtain ⟨m, e⟩ := a
    simp

/-- Multiplying `0.0` by any double returns `0.0`. -/
theorem binary64_zero_mul (a : Binary64) : (0.0 : Binary64) * a = 0.0 := by
  rw [binary64_literals.1, binary64_mul_def]
  show Binary64.round (0 * a.m) (0 + a.e) = ⟨0, 0⟩
  rw [Int.zero_mul, binary64_round_zero]

/-- Adding a double to `0.0` returns it. -/
theorem binary64_zero_add (a : Binary64) (h : a.normal) : (0.0 : Binary64) + a = a := by
  rw [binary64_literals.1, binary64_add_def]
  rcases h with ⟨h1, h2⟩ | ⟨h1, h2⟩
  · obtain ⟨m, e⟩ := a
    simp only at h1 h2
    subst h1 h2
    decide
  · show Binary64.round (0 * 2 ^ (0 - min 0 a.e).toNat + a.m * 2 ^ (a.e - min 0 a.e).toNat)
      (min 0 a.e) = a
    rw [Int.zero_mul, Int.zero_add, binary64_round_shift a _ _ h1 h2]
    obtain ⟨m, e⟩ := a
    simp only [Binary64.mk.injEq, true_and]
    rcases le_total 0 e with he | he
    · rw [min_eq_left he, sub_zero, Int.toNat_of_nonneg he, Int.zero_add]
    · rw [min_eq_right he, sub_self]
      simp

end Rounding

section AnyArithmeticLoops

variable {δ : Type}

/-- In any arithmetic the recursion loop of the single-order `find_fn_and_fnp`
leaves `chebT_arith x n` in `t2` and `chebU_arith x (n - 1)` in `u0`. -/
theorem find_fn_and_fnp_arith_loop [Sub δ] [Mul δ] [Zero δ] [OfScientific δ] (x : δ) (n : Nat)
    (hn : 2 ≤ n) :
    (forLoop 2 (n + 1)
      (fun _ (st : δ × δ × δ × δ × δ × δ) =>
        let t1 := st.2.1
        let u1 := st.2.2.2.2.1
        let t2 := 2.0 * x * t1 - st.1
        let u2 := 2.0 * x * u1 - st.2.2.2.1
        (t1, t2, t2, u1, u2, u2))
      ((1.0 : δ), x, (0 : δ), (1.0 : δ), 2.0 * x, (0 : δ))).2.2.1 = chebT_arith x n ∧
    (forLoop 2 (n + 1)
      (fun _ (st : δ × δ × δ × δ × δ × δ) =>
        let t1 := st.2.1
        let u1 := st.2.2.2.2.1
        let t2 := 2.0 * x * t1 - st.1
        let u2 := 2.0 * x * u1 - st.2.2.2.1
        (t1, t2, t2, u1, u2, u2))
      ((1.0 : δ), x, (0 : δ), (1.0 : δ), 2.0 * x, (0 : δ))).2.2.2.1 =
        chebU_arith x (n - 1) := by
  have h := forLoop_invariant
    (fun i (st : δ × δ × δ × δ × δ × δ) =>
      st.1 = chebT_arith x (i - 2) ∧ st.2.1 = chebT_arith x (i - 1) ∧
        (2 < i → st.2.2.1 = chebT_arith x (i - 1)) ∧
        st.2.2.2.1 = chebU_arith x (i - 2) ∧ st.2.2.2.2.1 = chebU_arith x (i - 1))
    2 (n + 1) (by omega)
    (fun _ (st : δ × δ × δ × δ × δ × δ) =>
        let t1 := st.2.1
        let u1 := st.2.2.2.2.1
        let t2 := 2.0 * x * t1 - st.1
        let u2 := 2.0 * x * u1 - st.2.2.2.1
        (t1, t2, t2, u1, u2, u2))
    ((1.0 : δ), x, (0 : δ), (1.0 : δ), 2.0 * x, (0 : δ))
    ⟨rfl, rfl, fun h => absurd h (by omega), rfl, rfl⟩
    (by
      intro i st h1 _ hp
      obtain ⟨ha, hb, _, hc, hd⟩ := hp
      obtain ⟨j, rfl⟩ : ∃ j, i = j + 2 := ⟨i - 2, by omega⟩
      have e1 : j + 2 + 1 - 2 = j + 1 := by omega
      have e2 : j + 2 + 1 - 1 = j + 2 := by omega
      have e3 : j + 2 - 2 = j := by omega
      have e4 : j + 2 - 1 = j + 1 := by omega
      rw [e3] at ha hc
      rw [e4] at hb hd
      simp only [e1, e2]
      refine ⟨hb, ?_, fun _ => ?_, hd, ?_⟩
      · rw [ha, hb]; rfl
      · rw [ha, hb]; rfl
      · rw [hc, hd]; rfl)
  obtain ⟨_, _, h3, h4, _⟩ := h
  have e : n + 1 - 2 = n - 1 := by omega
  have e' : n + 1 - 1 = n := by omega
  rw [e] at h4
  rw [e'] at h3
  exact ⟨h3 (by omega), h4⟩

/-- In any arithmetic, for `n >= 2` the single-order `find_fn_and_fnp` returns these
two expressions: the product in `fnp` is associated from the left. -/
theorem find_fn_and_fnp_arith_closed_form [Add δ] [Sub δ] [Mul δ] [Zero δ] [NatCast δ]
    [OfScientific δ] (n : Nat) (hn : 2 ≤ n) (rcinv d12 fc12 fcp12 : δ) :
    find_fn_and_fnp_arith n rcinv d12 fc12 fcp12 =
      ((chebT_arith (2.0 * (d12 * rcinv - 1.0) * (d12 * rcinv - 1.0) - 1.0) n + 1.0) * 0.5 *
          fc12,
        (n : δ) * chebU_arith (2.0 * (d12 * rcinv - 1.0) * (d12 * rcinv - 1.0) - 1.0) (n - 1) *
            2.0 * (d12 * rcinv - 1.0) * rcinv * fc12 +
          (chebT_arith (2.0 * (d12 * rcinv - 1.0) * (d12 * rcinv - 1.0) - 1.0) n + 1.0) * 0.5 *
            fcp12) := by
  unfold find_fn_and_fnp_arith
  rw [if_neg (by omega), if_neg (by omega)]
  obtain ⟨hT, hU⟩ := find_fn_and_fnp_arith_loop
    (2.0 * (d12 * rcinv - 1.0) * (d12 * rcinv - 1.0) - 1.0 : δ) n hn
  simp only [hT, hU]

/-- In any arithmetic the recursion loop of the all-orders `find_fn_and_fnp` fills
`fn[m]` with `chebT_arith x m` and `fnp[m]` with `0.0`, `1.0` or
`m * chebU_arith x (m - 1)`. -/
theorem find_fn_and_fnp_all_arith_loop [Sub δ] [Mul δ] [NatCast δ] [OfScientific δ] (x : δ)
    (n_max : Nat) (fn fnp : Nat → δ) (m : Nat) (hm : m ≤ max n_max 1) :
    (forLoop 2 (n_max + 1)
      (fun m (st : (Nat → δ) × (Nat → δ) × δ × δ) =>
        let fn := Function.update st.1 m (2.0 * x * st.1 (m - 1) - st.1 (m - 2))
        let u1 := st.2.2.2
        let fnp := Function.update st.2.1 m ((m : δ) * u1)
        let u2 := 2.0 * x * u1 - st.2.2.1
        (fn, fnp, u1, u2))
      (Function.update (Function.update fn 0 1.0) 1 x,
        Function.update (Function.update fnp 0 0.0) 1 1.0, (1.0 : δ), 2.0 * x)).1 m =
        chebT_arith x m ∧
    (forLoop 2 (n_max + 1)
      (fun m (st : (Nat → δ) × (Nat → δ) × δ × δ) =>
        let fn := Function.update st.1 m (2.0 * x * st.1 (m - 1) - st.1 (m - 2))
        let u1 := st.2.2.2
        let fnp := Function.update st.2.1 m ((m : δ) * u1)
        let u2 := 2.0 * x * u1 - st.2.2.1
        (fn, fnp, u1, u2))
      (Function.update (Function.update fn 0 1.0) 1 x,
        Function.update (Function.update fnp 0 0.0) 1 1.0, (1.0 : δ), 2.0 * x)).2.1 m =
        (if m = 0 then 0.0 else if m = 1 then 1.0 else (m : δ) * chebU_arith x (m - 1)) := by
  have hbase : ∀ k < 2,
      Function.update (Function.update fn 0 (1.0 : δ)) 1 x k = chebT_arith x k ∧
      Function.update (Function.update fnp 0 (0.0 : δ)) 1 1.0 k =
        (if k = 0 then 0.0 else if k = 1 then 1.0 else (k : δ) * chebU_arith x (k - 1)) := by
    intro k hk
    interval_cases k
    · exact ⟨rfl, rfl⟩
    · exact ⟨rfl, rfl⟩
  rcases Nat.lt_or_ge n_max 1 with hlt | hge
  · rw [forLoop_empty _ _ (by omega)]
    exact hbase m (by omega)
  · have h := forLoop_invariant
      (fun i (st : (Nat → δ) × (Nat → δ) × δ × δ) =>
        (∀ k < i, st.1 k = chebT_arith x k ∧ st.2.1 k =
          (if k = 0 then 0.0 else if k = 1 then 1.0 else (k : δ) * chebU_arith x (k - 1))) ∧
          st.2.2.1 = chebU_arith x (i - 2) ∧ st.2.2.2 = chebU_arith x (i - 1))
      2 (n_max + 1) (by omega)
      (fun m (st : (Nat → δ) × (Nat → δ) × δ × δ) =>
        let fn := Function.update st.1 m (2.0 * x * st.1 (m - 1) - st.1 (m - 2))
        let u1 := st.2.2.2
        let fnp := Function.update st.2.1 m ((m : δ) * u1)
        let u2 := 2.0 * x * u1 - st.2.2.1
        (fn, fnp, u1, u2))
      (Function.update (Function.update fn 0 1.0) 1 x,
        Function.update (Function.update fnp 0 0.0) 1 1.0, (1.0 : δ), 2.0 * x)
      ⟨hbase, rfl, rfl⟩
      (by
        intro i st h1 _ hp
        obtain ⟨hp, hc, hd⟩ := hp
        obtain ⟨j, rfl⟩ : ∃ j, i = j + 2 := ⟨i - 2, by omega⟩
        have e1 : j + 2 + 1 - 2 = j + 1 := by omega
        have e2 : j + 2 + 1 - 1 = j + 2 := by omega
        have e3 : j + 2 - 2 = j := by omega
        have e4 : j + 2 - 1 = j + 1 := by omega
        rw [e3] at hc
        rw [e4] at hd
        simp only [e1, e2, e3, e4]
        refine ⟨?_, hd, ?_⟩
        · intro k hk
          by_cases hki : k = j + 2
          · subst hki
            rw [Function.update_same, Function.update_same, (hp j (by omega)).1,
              (hp (j + 1) (by omega)).1, hd, if_neg (by omega), if_neg (by omega), e4]
            exact ⟨rfl, rfl⟩
          · rw [Function.update_noteq hki, Function.update_noteq hki]
            exact hp k (by omega)
        · rw [hc, hd]; rfl)
    exact h.1 m (by omega)

/-- The scaling loop of the all-orders `find_fn_and_fnp` in any arithmetic. -/
theorem find_fn_and_fnp_all_arith_scale [Add δ] [Mul δ] [OfScientific δ] (c fc12 fcp12 : δ)
    (k : Nat) (fn fnp : Nat → δ) :
    iterate
      (fun m (st : (Nat → δ) × (Nat → δ)) =>
        let fn := Function.update st.1 m ((st.1 m + 1.0) * 0.5)
        let fnp := Function.update st.2 m (st.2 m * c)
        let fnp := Function.update fnp m (fnp m * fc12 + fn m * fcp12)
        let fn := Function.update fn m (fn m * fc12)
        (fn, fnp)) k (fn, fnp) =
      (fun m => if m < k then (fn m + 1.0) * 0.5 * fc12 else fn m,
       fun m => if m < k then fnp m * c * fc12 + (fn m + 1.0) * 0.5 * fcp12 else fnp m) := by
  induction k with
  | zero => simp [iterate]
  | succ k ih =>
    rw [iterate_succ, ih]
    refine Prod.ext ?_ ?_
    · funext m
      by_cases hm : m = k
      · subst hm
        simp only [Function.update_same, Nat.lt_irrefl, if_false, Nat.lt_succ_self, if_true]
      · have h1 : (m < k + 1) = (m < k) := by
          apply propext; constructor <;> intro h <;> omega
        simp only [Function.update_noteq hm, h1]
    · funext m
      by_cases hm : m = k
      · subst hm
        simp only [Function.update_same, Nat.lt_irrefl, if_false, Nat.lt_succ_self, if_true]
      · have h1 : (m < k + 1) = (m < k) := by
          apply propext; constructor <;> intro h <;> omega
        simp only [Function.update_noteq hm, h1]

/-- In any arithmetic the all-orders `find_fn_and_fnp` stores these two expressions
for every `n <= n_max`: the product in `fnp[n]` is associated from the right. -/
theorem find_fn_and_fnp_all_arith_closed_form [Add δ] [Sub δ] [Mul δ] [NatCast δ]
    [OfScientific δ] (n_max n : Nat) (hn : n ≤ n_max) (rcinv d12 fc12 fcp12 : δ)
    (fn fnp : Nat → δ) :
    (find_fn_and_fnp_all_arith n_max rcinv d12 fc12 fcp12 fn fnp).1 n =
      (chebT_arith (2.0 * (d12 * rcinv - 1.0) * (d12 * rcinv - 1.0) - 1.0) n + 1.0) * 0.5 *
        fc12 ∧
    (find_fn_and_fnp_all_arith n_max rcinv d12 fc12 fcp12 fn fnp).2 n =
      (if n = 0 then 0.0 else if n = 1 then 1.0 else
          (n : δ) * chebU_arith (2.0 * (d12 * rcinv - 1.0) * (d12 * rcinv - 1.0) - 1.0) (n - 1)) *
          (2.0 * (d12 * rcinv - 1.0) * rcinv) * fc12 +
        (chebT_arith (2.0 * (d12 * rcinv - 1.0) * (d12 * rcinv - 1.0) - 1.0) n + 1.0) * 0.5 *
          fcp12 := by
  unfold find_fn_and_fnp_all_arith
  rw [forLoop_zero_lo]
  have hle : n ≤ max n_max 1 := le_trans hn (le_max_left _ _)
  obtain ⟨hT, hU⟩ := find_fn_and_fnp_all_arith_loop
    (2.0 * (d12 * rcinv - 1.0) * (d12 * rcinv - 1.0) - 1.0 : δ) n_max fn fnp n hle
  simp only []
  rw [find_fn_and_fnp_all_arith_scale]
  simp only [Nat.lt_succ_of_le hn, if_true, hT, hU]
  exact ⟨trivial, trivial⟩

/-- In any arithmetic: the single-order form for `n = 0` and `n = 1`. -/
theorem find_fn_and_fnp_arith_low [Add δ] [Sub δ] [Mul δ] [Zero δ] [NatCast δ]
    [OfScientific δ] (rcinv d12 fc12 fcp12 : δ) :
    find_fn_and_fnp_arith 0 rcinv d12 fc12 fcp12 = (fc12, fcp12) ∧
    find_fn_and_fnp_arith 1 rcinv d12 fc12 fcp12 =
      ((2.0 * (d12 * rcinv - 1.0) * (d12 * rcinv - 1.0) - 1.0 + 1.0) * 0.5 * fc12,
        2.0 * (d12 * rcinv - 1.0) * rcinv * fc12 +
          (2.0 * (d12 * rcinv - 1.0) * (d12 * rcinv - 1.0) - 1.0 + 1.0) * 0.5 * fcp12) :=
  ⟨rfl, rfl⟩

/-- In any arithmetic: the entries `0` and `1` of the all-orders form. -/
theorem find_fn_and_fnp_all_arith_low [Add δ] [Sub δ] [Mul δ] [NatCast δ]
    [OfScientific δ] (n_max : Nat) (rcinv d12 fc12 fcp12 : δ) (fn fnp : Nat → δ) :
    (find_fn_and_fnp_all_arith n_max rcinv d12 fc12 fcp12 fn fnp).1 0 =
      ((1.0 : δ) + 1.0) * 0.5 * fc12 ∧
    (find_fn_and_fnp_all_arith n_max rcinv d12 fc12 fcp12 fn fnp).2 0 =
      (0.0 : δ) * (2.0 * (d12 * rcinv - 1.0) * rcinv) * fc12 + ((1.0 : δ) + 1.0) * 0.5 * fcp12 ∧
    (1 ≤ n_max →
      (find_fn_and_fnp_all_arith n_max rcinv d12 fc12 fcp12 fn fnp).1 1 =
        (2.0 * (d12 * rcinv - 1.0) * (d12 * rcinv - 1.0) - 1.0 + 1.0) * 0.5 * fc12 ∧
      (find_fn_and_fnp_all_arith n_max rcinv d12 fc12 fcp12 fn fnp).2 1 =
        (1.0 : δ) * (2.0 * (d12 * rcinv - 1.0) * rcinv) * fc12 +
          (2.0 * (d12 * rcinv - 1.0) * (d12 * rcinv - 1.0) - 1.0 + 1.0) * 0.5 * fcp12) := by
  obtain ⟨h1, h2⟩ := find_fn_and_fnp_all_arith_closed_form n_max 0 (Nat.zero_le _) rcinv d12
    fc12 fcp12 fn fnp
  refine ⟨h1, ?_, fun h => ?_⟩
  · rw [h2, if_pos rfl]
    rfl
  · obtain ⟨h3, h4⟩ := find_fn_and_fnp_all_arith_closed_form n_max 1 h rcinv d12
      fc12 fcp12 fn fnp
    refine ⟨h3, ?_⟩
    rw [h4, if_neg (by omega), if_pos rfl]
    rfl

end AnyArithmeticLoops

section TwoForms

/-- Over a field the forms "in any arithmetic" are the forms of the embedding. -/
theorem find_fn_and_fnp_arith_eq {α : Type} [LinearOrderedField α] (n_max n : Nat)
    (rcinv d12 fc12 fcp12 : α) (fn fnp : Nat → α) :
    find_fn_and_fnp_arith n rcinv d12 fc12 fcp12 = find_fn_and_fnp n rcinv d12 fc12 fcp12 ∧
    find_fn_and_fnp_all_arith n_max rcinv d12 fc12 fcp12 fn fnp =
      find_fn_and_fnp_all n_max rcinv d12 fc12 fcp12 fn fnp :=
  ⟨rfl, rfl⟩

set_option maxRecDepth 100000 in
/-- C10 (counterexample). In double arithmetic, with `rcinv = 0.2`, `d12 = 1.0`,
`fc12 = 0.5`, `fcp12 = 0.25` and `n = n_max = 2`: the single-order form returns
`fnp = -5750196004226654 * 2^-55` (`-0.15960000000000013`), the all-orders form
stores `fnp[2] = -5750196004226655 * 2^-55` (`-0.15960000000000016`); the two
values of `fn` are the same double `5649315372573560 * 2^-57`. -/
theorem find_fn_and_fnp_all_ne_in_doubles :
    ((0.2 : Binary64) = ⟨7205759403792794, -55⟩ ∧ (1.0 : Binary64) = ⟨4503599627370496, -52⟩ ∧
      (0.5 : Binary64) = ⟨4503599627370496, -53⟩ ∧
      (0.25 : Binary64) = ⟨4503599627370496, -54⟩) ∧
    find_fn_and_fnp_arith 2 (0.2 : Binary64) 1.0 0.5 0.25 =
      (⟨5649315372573560, -57⟩, ⟨-5750196004226654, -55⟩) ∧
    ((find_fn_and_fnp_all_arith 2 (0.2 : Binary64) 1.0 0.5 0.25 (fun _ => 0) (fun _ => 0)).1 2,
      (find_fn_and_fnp_all_arith 2 (0.2 : Binary64) 1.0 0.5 0.25 (fun _ => 0) (fun _ => 0)).2 2) =
      (⟨5649315372573560, -57⟩, ⟨-5750196004226655, -55⟩) ∧
    ((find_fn_and_fnp_all_arith 2 (0.2 : Binary64) 1.0 0.5 0.25 (fun _ => 0) (fun _ => 0)).1 2,
      (find_fn_and_fnp_all_arith 2 (0.2 : Binary64) 1.0 0.5 0.25 (fun _ => 0) (fun _ => 0)).2 2) ≠
      find_fn_and_fnp_arith 2 (0.2 : Binary64) 1.0 0.5 0.25 := by
  decide

/-- C10 (amended). For every `n_max` and every order `n <= n_max`.  In exact
arithmetic (any ordered field) the all-orders `find_fn_and_fnp` stores in
`(fn[n], fnp[n])` exactly the pair that the single-order form returns, and the
forms "in any arithmetic" are then the forms of the embedding.  In double
arithmetic (`Binary64`, normalised `fc12` and `fcp12`) `fn[n]` is exactly the
`fn` of the single-order form for every `n`, and `fnp[n]` is exactly its `fnp`
for `n <= 1`; for `n >= 2` the two values of `fnp` are the same operations on the
same operands except for the product `n * u * 2.0 * (d12 * rcinv - 1.0) * rcinv`,
which the single-order form takes from the left and the all-orders form as
`(n * u) * (2.0 * (d12 * rcinv - 1.0) * rcinv)`. -/
theorem find_fn_and_fnp_all_vs_single {α : Type} [LinearOrderedField α] (n_max n : Nat)
    (hn : n ≤ n_max) (rcinv d12 fc12 fcp12 : α) (fn fnp : Nat → α)
    (r d c cp : Binary64) (gn gnp : Nat → Binary64) (hc : c.normal) (hcp : cp.normal) :
    ((find_fn_and_fnp_all n_max rcinv d12 fc12 fcp12 fn fnp).1 n,
      (find_fn_and_fnp_all n_max rcinv d12 fc12 fcp12 fn fnp).2 n) =
      find_fn_and_fnp n rcinv d12 fc12 fcp12 ∧
    (find_fn_and_fnp_arith n rcinv d12 fc12 fcp12 = find_fn_and_fnp n rcinv d12 fc12 fcp12 ∧
      find_fn_and_fnp_all_arith n_max rcinv d12 fc12 fcp12 fn fnp =
        find_fn_and_fnp_all n_max rcinv d12 fc12 fcp12 fn fnp) ∧
    (find_fn_and_fnp_all_arith n_max r d c cp gn gnp).1 n = (find_fn_and_fnp_arith n r d c cp).1 ∧
    (n ≤ 1 →
      (find_fn_and_fnp_all_arith n_max r d c cp gn gnp).2 n =
        (find_fn_and_fnp_arith n r d c cp).2) ∧
    (2 ≤ n →
      (find_fn_and_fnp_arith n r d c cp).2 =
        (n : Binary64) * chebU_arith (2.0 * (d * r - 1.0) * (d * r - 1.0) - 1.0) (n - 1) *
            2.0 * (d * r - 1.0) * r * c +
          (chebT_arith (2.0 * (d * r - 1.0) * (d * r - 1.0) - 1.0) n + 1.0) * 0.5 * cp ∧
      (find_fn_and_fnp_all_arith n_max r d c cp gn gnp).2 n =
        (n : Binary64) * chebU_arith (2.0 * (d * r - 1.0) * (d * r - 1.0) - 1.0) (n - 1) *
            (2.0 * (d * r - 1.0) * r) * c +
          (chebT_arith (2.0 * (d * r - 1.0) * (d * r - 1.0) - 1.0) n + 1.0) * 0.5 * cp) := by
  obtain ⟨hA1, hA2⟩ := find_fn_and_fnp_all_arith_closed_form n_max n hn r d c cp gn gnp
  obtain ⟨hS0, hS1⟩ := find_fn_and_fnp_arith_low r d c cp
  obtain ⟨hL1, hL2, hL3⟩ := find_fn_and_fnp_all_arith_low n_max r d c cp gn gnp
  have hhalf : ((1.0 : Binary64) + 1.0) * 0.5 = 1.0 := binary64_literals.2.2.2.2
  have hz : (2.0 * (d * r - 1.0) * r : Binary64).normal := binary64_round_normal _ _
  refine ⟨find_fn_and_fnp_all_eq_find_fn_and_fnp n_max n hn rcinv d12 fc12 fcp12 fn fnp,
    find_fn_and_fnp_arith_eq n_max n rcinv d12 fc12 fcp12 fn fnp, ?_, ?_, ?_⟩
  · rcases Nat.lt_or_ge n 2 with h2 | h2
    · interval_cases n
      · rw [hL1, hS0, hhalf, binary64_one_mul c hc]
      · rw [(hL3 hn).1, hS1]
    · rw [hA1, find_fn_and_fnp_arith_closed_form n h2]
  · intro h1
    interval_cases n
    · rw [hL2, hS0, hhalf, binary64_zero_mul, binary64_zero_mul, binary64_one_mul cp hcp,
        binary64_zero_add cp hcp]
    · rw [(hL3 hn).2, hS1, binary64_one_mul _ hz]
  · intro h2
    rw [hA2, find_fn_and_fnp_arith_closed_form n h2, if_neg (by omega), if_neg (by omega)]
    exact ⟨rfl, rfl⟩

set_option maxRecDepth 100000 in
/-- Witness of C10 (amended): order 2 of an all-orders call with `n_max = 3`, over
the rationals and over the doubles `0.2`, `1.0`, `0.5`, `0.25`. -/
theorem find_fn_and_fnp_all_vs_single_witness :
    ((find_fn_and_fnp_all 3 (1 / 2 : ℚ) 1 (1 / 3) (1 / 7) (fun _ => 0) (fun _ => 0)).1 2,
      (find_fn_and_fnp_all 3 (1 / 2 : ℚ) 1 (1 / 3) (1 / 7) (fun _ => 0) (fun _ => 0)).2 2) =
      find_fn_and_fnp 2 (1 / 2 : ℚ) 1 (1 / 3) (1 / 7) ∧
    (find_fn_and_fnp_all_arith 3 (0.2 : Binary64) 1.0 0.5 0.25 (fun _ => 0) (fun _ => 0)).1 2 =
      (find_fn_and_fnp_arith 2 (0.2 : Binary64) 1.0 0.5 0.25).1 :=
  ⟨(find_fn_and_fnp_all_vs_single 3 2 (by decide) (1 / 2 : ℚ) 1 (1 / 3) (1 / 7) (fun _ => 0)
      (fun _ => 0) 0.2 1.0 0.5 0.25 (fun _ => 0) (fun _ => 0) (by decide) (by decide)).1,
    (find_fn_and_fnp_all_vs_single 3 2 (by decide) (1 / 2 : ℚ) 1 (1 / 3) (1 / 7) (fun _ => 0)
      (fun _ => 0) 0.2 1.0 0.5 0.25 (fun _ => 0) (fun _ => 0) (by decide) (by decide)).2.2.1⟩

end TwoForms

end NEP
